import Mathlib

/-!
# libesedb page tree: a shallow embedding of `libesedb_page_tree.c`

The definitions below follow `src/libesedb/libesedb_page_tree.c` function by
function.  Conventions of the embedding:

* The file is read as it is built with `HAVE_DEBUG_OUTPUT` defined.  This is the
  only configuration in which it is complete C: `extent_space` (used in
  `libesedb_page_tree_read_father_data_page_values`) and the key fields of
  `libesedb_page_tree_read_child_pages` are declared and assigned only inside
  `#if defined( HAVE_DEBUG_OUTPUT )` blocks.  The text written by
  `libnotify_verbose_printf` is not modelled, with the exception of the two
  sibling-linkage messages of `libesedb_page_tree_read_child_pages`.
* Machine integers are `Nat`; `uint16_t` arithmetic that can wrap is written with
  an explicit `% 65536`, `uint32_t` arithmetic with `% 4294967296`.
* Pointers that the C code checks against `NULL` for its arguments (`page_tree`,
  `page`, the handle of the input file, `error`) are taken to be valid, and memory
  allocation is taken to succeed.
* A call returns a `Step`: the result (`1` is `Result.ok`, `-1` is
  `Result.error` with the kind of the first `liberror_error_set` executed in this
  file), the page tree after the call, and the events of the call in order.
* The recursion parent page -> child pages -> parent page is bounded by a fuel
  argument that counts nested parent pages; `Result.out_of_fuel` is the outcome
  of a run that needs more.
-/

namespace Esedb

/-! ## Constants of headers that are not part of the sources -/

/-- The constants of `libesedb_definitions.h` and `esedb_page_values.h` used by the
page tree functions.  The headers are not available, so the values are parameters
of the embedding.  `catalog_types_nodup` records that the four labels of the
`switch` on the catalog definition type are pairwise distinct, which C requires of
the case labels of one `switch`. -/
structure Definitions where
  LIBESEDB_PAGE_FLAG_IS_ROOT : Nat
  LIBESEDB_PAGE_FLAG_IS_LEAF : Nat
  LIBESEDB_PAGE_FLAG_IS_PARENT : Nat
  LIBESEDB_PAGE_FLAG_IS_SPACE_TREE : Nat
  LIBESEDB_PAGE_FLAG_IS_INDEX : Nat
  LIBESEDB_PAGE_FLAG_IS_LONG_VALUE : Nat
  LIBESEDB_PAGE_FLAG_IS_PRIMARY : Nat
  LIBESEDB_PAGE_FLAG_IS_NEW_RECORD_FORMAT : Nat
  LIBESEDB_PAGE_TREE_FLAG_READ_CATALOG_DEFINITION : Nat
  LIBESEDB_CATALOG_DEFINITION_TYPE_TABLE : Nat
  LIBESEDB_CATALOG_DEFINITION_TYPE_COLUMN : Nat
  LIBESEDB_CATALOG_DEFINITION_TYPE_INDEX : Nat
  LIBESEDB_CATALOG_DEFINITION_TYPE_LONG_VALUE : Nat
  sizeof_esedb_space_tree_page_entry_t : Nat
  catalog_types_nodup :
    [LIBESEDB_CATALOG_DEFINITION_TYPE_TABLE, LIBESEDB_CATALOG_DEFINITION_TYPE_COLUMN,
      LIBESEDB_CATALOG_DEFINITION_TYPE_INDEX,
      LIBESEDB_CATALOG_DEFINITION_TYPE_LONG_VALUE].Nodup

/-- One assignment of the constants, used to evaluate the functions on concrete
pages: page flags are distinct single bits, the catalog definition types are
1 to 4, a space tree entry takes 12 bytes. -/
def esedb_definitions : Definitions where
  LIBESEDB_PAGE_FLAG_IS_ROOT := 0x0001
  LIBESEDB_PAGE_FLAG_IS_LEAF := 0x0002
  LIBESEDB_PAGE_FLAG_IS_PARENT := 0x0004
  LIBESEDB_PAGE_FLAG_IS_SPACE_TREE := 0x0020
  LIBESEDB_PAGE_FLAG_IS_INDEX := 0x0040
  LIBESEDB_PAGE_FLAG_IS_LONG_VALUE := 0x0080
  LIBESEDB_PAGE_FLAG_IS_PRIMARY := 0x0800
  LIBESEDB_PAGE_FLAG_IS_NEW_RECORD_FORMAT := 0x2000
  LIBESEDB_PAGE_TREE_FLAG_READ_CATALOG_DEFINITION := 0x01
  LIBESEDB_CATALOG_DEFINITION_TYPE_TABLE := 1
  LIBESEDB_CATALOG_DEFINITION_TYPE_COLUMN := 2
  LIBESEDB_CATALOG_DEFINITION_TYPE_INDEX := 3
  LIBESEDB_CATALOG_DEFINITION_TYPE_LONG_VALUE := 4
  sizeof_esedb_space_tree_page_entry_t := 12
  catalog_types_nodup := by decide

/-! ## Data model -/

/-- A tagged value of a page (`libesedb_page_value_t`): `data` is the memory at
`page_value->data` (the page buffer from the start of the value on, so it can hold
more than `size` bytes), `size` is `page_value->size`, `flags` the tag flags. -/
structure PageValue where
  data : List Nat
  size : Nat
  flags : Nat
deriving DecidableEq, Repr

/-- A page as `libesedb_page_read` delivers it (`libesedb_page_t`). -/
structure Page where
  page_number : Nat
  previous_page_number : Nat
  next_page_number : Nat
  father_data_page_object_identifier : Nat
  flags : Nat
  values : List PageValue
deriving DecidableEq, Repr

/-- The fields of `libesedb_catalog_definition_t` that the page tree functions
read, and the rest of the record as uninterpreted bytes. -/
structure CatalogDefinition where
  type : Nat
  father_data_page_object_identifier : Nat
  identifier : Nat
  payload : List Nat
deriving DecidableEq, Repr

/-- The record `libesedb_table_definition_t`. -/
structure TableDefinition where
  table_catalog_definition : Option CatalogDefinition
  column_catalog_definition_list : List CatalogDefinition
  index_catalog_definition_list : List CatalogDefinition
  long_value_catalog_definition : Option CatalogDefinition
deriving DecidableEq, Repr

/-- A decoded row (`libesedb_data_definition_t`), uninterpreted. -/
structure DataDefinition where
  payload : List Nat
deriving DecidableEq, Repr

/-- The record `libesedb_page_tree_t`: the bound table definition (NULL is `none`)
and the two lists.  The elements of `table_definition_list` are the table
definitions themselves: a list element without a value, and a list whose element
count disagrees with its links, are states of the list container that the
embedding does not represent. -/
structure PageTree where
  table_definition : Option TableDefinition
  table_definition_list : List TableDefinition
  value_definition_list : List DataDefinition
deriving DecidableEq, Repr

/-- The collaborators the page tree functions call: reading a page by number
(`libesedb_page_read`, `none` when it does not return 1), and the two decoders
`libesedb_catalog_definition_read` and `libesedb_data_definition_read`, which get
a pointer (here the bytes from the pointer on) and a size. -/
structure Collaborators where
  page_read : Nat → Option Page
  catalog_definition_read : List Nat → Nat → Option CatalogDefinition
  data_definition_read : List CatalogDefinition → List Nat → Nat → Option DataDefinition

/-- The error kinds: domain and code of a `liberror_error_set` call. -/
inductive ErrorKind where
  | argument_invalid_value
  | runtime_value_missing
  | runtime_unsupported_value
  | runtime_value_out_of_range
  | runtime_get_failed
  | runtime_append_failed
  | runtime_set_failed
  | io_read_failed
deriving DecidableEq, Repr

/-- The result of a call: `ok` is the return value 1, `error` the return value -1,
`out_of_fuel` a run that nests parent pages deeper than the fuel allows. -/
inductive Result where
  | ok
  | error (kind : ErrorKind)
  | out_of_fuel
deriving DecidableEq, Repr

/-- What a call does besides changing the page tree. -/
inductive Event where
  /-- The calls `libesedb_page_initialize` and `libesedb_page_read` for a page number. -/
  | page_read (page_number : Nat)
  /-- The call `libesedb_page_free` on the page that was requested with this number. -/
  | page_free (page_number : Nat)
  /-- The call `libesedb_catalog_definition_read` with its data and size. -/
  | catalog_definition_read (data : List Nat) (size : Nat)
  /-- The call `libesedb_data_definition_read` with its column list, data and size. -/
  | data_definition_read (columns : List CatalogDefinition) (data : List Nat) (size : Nat)
  /-- The message "mismatch in child page number". -/
  | mismatch_in_child_page_number (expected actual : Nat)
  /-- The message "mismatch in previous child page number". -/
  | mismatch_in_previous_child_page_number (expected actual : Nat)
deriving DecidableEq, Repr

/-- A call's result, the page tree it leaves, and its events in order. -/
structure Step where
  result : Result
  page_tree : PageTree
  events : List Event
deriving DecidableEq, Repr

/-- The step `s` with the events `events` in front of its own. -/
def Step.after (events : List Event) (s : Step) : Step :=
  { s with events := events ++ s.events }

/-! ## Reading bytes -/

/-- The byte at offset `k` of a buffer; memory past the modelled buffer reads 0. -/
def byte_at (data : List Nat) (k : Nat) : Nat :=
  data.getD k 0 % 256

/-- The macro `endian_little_convert_16bit` applied at the start of `data`. -/
def endian_little_convert_16bit (data : List Nat) : Nat :=
  byte_at data 0 + 256 * byte_at data 1

/-- The macro `endian_little_convert_32bit` applied at the start of `data`. -/
def endian_little_convert_32bit (data : List Nat) : Nat :=
  byte_at data 0 + 256 * byte_at data 1 + 65536 * byte_at data 2 + 16777216 * byte_at data 3

/-- The statement `page_value_size -= 2` on a `uint16_t`. -/
def uint16_sub (a b : Nat) : Nat :=
  (a % 65536 + 65536 - b % 65536) % 65536

/-- The test `( page_flags & flag ) == flag`. -/
def has_flag (page_flags flag : Nat) : Bool :=
  page_flags &&& flag == flag

/-- The test `( page->flags & ~supported_flags ) != 0` on `uint32_t` values. -/
def has_unsupported_flags (page_flags supported_flags : Nat) : Bool :=
  page_flags &&& (4294967295 ^^^ supported_flags) != 0

/-- Modelled from the spec: `libesedb_page_get_value` of `libesedb_page.c`, which is
not available; the tagged values of a page are indexed from 0 and a value that
does not exist is not retrieved. -/
def libesedb_page_get_value (page : Page) (page_value_index : Nat) : Option PageValue :=
  page.values[page_value_index]?

/-- Modelled from the spec: `libesedb_page_get_amount_of_values` of
`libesedb_page.c`, the number of tagged values as a `uint16_t`. -/
def libesedb_page_get_amount_of_values (page : Page) : Nat :=
  page.values.length

/-! ## Table definitions (`libesedb_table_definition.c`, not part of the sources) -/

/-- Modelled from the spec: `libesedb_table_definition_initialize`, "wrap the
catalog definition in a new TableDefinition": no columns, no indexes, no long
value. -/
def libesedb_table_definition_new (table_catalog_definition : CatalogDefinition) :
    TableDefinition :=
  { table_catalog_definition := some table_catalog_definition
    column_catalog_definition_list := []
    index_catalog_definition_list := []
    long_value_catalog_definition := none }

/-- Modelled from the spec: `libesedb_table_definition_append_column_catalog_definition`,
"append the catalog definition into the columns". -/
def libesedb_table_definition_append_column_catalog_definition
    (table_definition : TableDefinition) (catalog_definition : CatalogDefinition) :
    TableDefinition :=
  { table_definition with
    column_catalog_definition_list :=
      table_definition.column_catalog_definition_list ++ [catalog_definition] }

/-- Modelled from the spec: `libesedb_table_definition_append_index_catalog_definition`,
"append the catalog definition into the indexes". -/
def libesedb_table_definition_append_index_catalog_definition
    (table_definition : TableDefinition) (catalog_definition : CatalogDefinition) :
    TableDefinition :=
  { table_definition with
    index_catalog_definition_list :=
      table_definition.index_catalog_definition_list ++ [catalog_definition] }

/-- Modelled from the spec: `libesedb_table_definition_set_long_value_catalog_definition`,
"set the long value (at most one)": a table definition that has its long value is
not given a second one, the call fails then. -/
def libesedb_table_definition_set_long_value_catalog_definition
    (table_definition : TableDefinition) (catalog_definition : CatalogDefinition) :
    Option TableDefinition :=
  match table_definition.long_value_catalog_definition with
  | some _ => none
  | none => some { table_definition with long_value_catalog_definition := some catalog_definition }

/-- The element at `table_definition_index` of the list replaced by `f` of it: the
effect of a write through a pointer to a list element. -/
def update_table_definition (f : TableDefinition → TableDefinition) :
    List TableDefinition → Nat → List TableDefinition
  | [], _ => []
  | t :: rest, 0 => f t :: rest
  | t :: rest, n + 1 => t :: update_table_definition f rest n

/-! ## `libesedb_page_tree_get_table_definition_by_identifier` -/

/-- The `for` loop of `libesedb_page_tree_get_table_definition_by_identifier`
(lines 252-302) from list element `list_element_iterator` on.  The value is the
return code and the content of `*table_definition` on return; a table definition
is named by its position in the list. -/
def get_table_definition_by_identifier_loop (identifier : Nat) :
    List TableDefinition → Nat → Int × Option Nat
  | [], _ => (0, none)
  | table_definition :: rest, list_element_iterator =>
    match table_definition.table_catalog_definition with
    | none => (-1, some list_element_iterator)
    | some table_catalog_definition =>
      if table_catalog_definition.identifier = identifier then
        (1, some list_element_iterator)
      else
        get_table_definition_by_identifier_loop identifier rest (list_element_iterator + 1)

/-- The function `libesedb_page_tree_get_table_definition_by_identifier`
(lines 207-303): 1 and the table definition found, 0 and NULL, or -1. -/
def libesedb_page_tree_get_table_definition_by_identifier (page_tree : PageTree)
    (identifier : Nat) : Int × Option Nat :=
  get_table_definition_by_identifier_loop identifier page_tree.table_definition_list 0

/-! ## The key fields of a parent or leaf page value -/

/-- What is left of a page value once its key fields are read: the key type (0 when
the value has none), the key size, and `page_value_data` and `page_value_size`
after the key bytes. -/
structure PageKey where
  page_key_type : Nat
  page_key_size : Nat
  page_value_data : List Nat
  page_value_size : Nat
deriving DecidableEq, Repr

/-- The key fields of a page value, as `libesedb_page_tree_read_leaf_page_values`
(lines 1923-2007) and `libesedb_page_tree_read_child_pages` (lines 1090-1160) read
them: the 16-bit key type when tag flag 0x04 is set, the 16-bit key size, the test
`page_key_size > page_value_size` (then `none`, the caller fails with "page key
size exceeds page value size"), and the key bytes skipped.  `page_value_size` is a
`uint16_t`, each `-= 2` wraps. -/
def read_page_key (page_value : PageValue) : Option PageKey :=
  let page_value_data := page_value.data
  let page_value_size := page_value.size % 65536
  let has_key_type := page_value.flags &&& 0x04 == 0x04
  let page_key_type := if has_key_type then endian_little_convert_16bit page_value_data else 0
  let page_value_data := if has_key_type then page_value_data.drop 2 else page_value_data
  let page_value_size := if has_key_type then uint16_sub page_value_size 2 else page_value_size
  let page_key_size := endian_little_convert_16bit page_value_data
  let page_value_data := page_value_data.drop 2
  let page_value_size := uint16_sub page_value_size 2
  if page_key_size > page_value_size then
    none
  else
    some { page_key_type := page_key_type
           page_key_size := page_key_size
           page_value_data := page_value_data.drop page_key_size
           page_value_size := page_value_size - page_key_size }

/-! ## `libesedb_page_tree_read_leaf_page_values` -/

/-- The test of lines 2086-2088 on the local `table_definition` (a position in the
table definition list, `none` for NULL): it is NULL, or has no table catalog
definition, or its table record has another father data page object identifier
than the catalog definition. -/
def table_definition_differs (page_tree : PageTree) (table_definition : Option Nat)
    (catalog_definition : CatalogDefinition) : Bool :=
  match table_definition with
  | none => true
  | some table_definition_index =>
    match page_tree.table_definition_list[table_definition_index]? with
    | none => true
    | some current =>
      match current.table_catalog_definition with
      | none => true
      | some table_catalog_definition =>
        table_catalog_definition.father_data_page_object_identifier
          != catalog_definition.father_data_page_object_identifier

/-- The `switch` on the catalog definition type (lines 2127-2271) for a local
`table_definition` and a page tree; the value is the local and the page tree after
it.  A column, index or long value for a NULL `table_definition` is refused by the
table definition functions.  A local that is not NULL is the position of a list
element: it is set from the length of the list in front of an append, or by the
lookup. -/
def add_catalog_definition (K : Definitions) (catalog_definition : CatalogDefinition)
    (table_definition : Option Nat) (page_tree : PageTree) :
    Except ErrorKind (Option Nat × PageTree) :=
  if catalog_definition.type = K.LIBESEDB_CATALOG_DEFINITION_TYPE_TABLE then
    .ok (some page_tree.table_definition_list.length,
      { page_tree with
        table_definition_list :=
          page_tree.table_definition_list ++ [libesedb_table_definition_new catalog_definition] })
  else if catalog_definition.type = K.LIBESEDB_CATALOG_DEFINITION_TYPE_COLUMN then
    match table_definition with
    | none => .error .runtime_append_failed
    | some table_definition_index =>
      .ok (table_definition,
        { page_tree with
          table_definition_list :=
            update_table_definition
              (fun t => libesedb_table_definition_append_column_catalog_definition t
                catalog_definition)
              page_tree.table_definition_list table_definition_index })
  else if catalog_definition.type = K.LIBESEDB_CATALOG_DEFINITION_TYPE_INDEX then
    match table_definition with
    | none => .error .runtime_append_failed
    | some table_definition_index =>
      .ok (table_definition,
        { page_tree with
          table_definition_list :=
            update_table_definition
              (fun t => libesedb_table_definition_append_index_catalog_definition t
                catalog_definition)
              page_tree.table_definition_list table_definition_index })
  else if catalog_definition.type = K.LIBESEDB_CATALOG_DEFINITION_TYPE_LONG_VALUE then
    match table_definition with
    | none => .error .runtime_set_failed
    | some table_definition_index =>
      match page_tree.table_definition_list[table_definition_index]? with
      | none => .error .runtime_set_failed
      | some current =>
        match libesedb_table_definition_set_long_value_catalog_definition current
            catalog_definition with
        | none => .error .runtime_set_failed
        | some updated =>
          .ok (table_definition,
            { page_tree with
              table_definition_list :=
                update_table_definition (fun _ => updated)
                  page_tree.table_definition_list table_definition_index })
  else
    .error .runtime_unsupported_value

/-- The treatment of one decoded catalog definition (lines 2085-2271): when it is
not a table and the local `table_definition` differs, the table definition is
looked up by the father data page object identifier of the catalog definition and
a result other than 1 is fatal; then the `switch`. -/
def read_catalog_definition (K : Definitions) (catalog_definition : CatalogDefinition)
    (table_definition : Option Nat) (page_tree : PageTree) :
    Except ErrorKind (Option Nat × PageTree) :=
  if catalog_definition.type ≠ K.LIBESEDB_CATALOG_DEFINITION_TYPE_TABLE
      ∧ table_definition_differs page_tree table_definition catalog_definition = true then
    match libesedb_page_tree_get_table_definition_by_identifier page_tree
        catalog_definition.father_data_page_object_identifier with
    | (1, found) => add_catalog_definition K catalog_definition found page_tree
    | _ => .error .runtime_value_missing
  else
    add_catalog_definition K catalog_definition table_definition page_tree

/-- The `for` loop of `libesedb_page_tree_read_leaf_page_values` (lines 1901-2346)
over the page values that remain, with the local `table_definition` and the page
tree.  `flags` is the `uint8_t` argument of the function. -/
def read_leaf_page_values_loop (K : Definitions) (env : Collaborators) (flags : Nat)
    (page : Page) : List PageValue → Option Nat → PageTree → Step
  | [], _, page_tree => { result := .ok, page_tree := page_tree, events := [] }
  | page_value :: rest, table_definition, page_tree =>
    match read_page_key page_value with
    | none =>
      { result := .error .runtime_value_out_of_range, page_tree := page_tree, events := [] }
    | some key =>
      if has_flag page.flags K.LIBESEDB_PAGE_FLAG_IS_INDEX then
        read_leaf_page_values_loop K env flags page rest table_definition page_tree
      else if has_flag page.flags K.LIBESEDB_PAGE_FLAG_IS_LONG_VALUE then
        read_leaf_page_values_loop K env flags page rest table_definition page_tree
      else if has_flag flags K.LIBESEDB_PAGE_TREE_FLAG_READ_CATALOG_DEFINITION then
        match env.catalog_definition_read key.page_value_data key.page_value_size with
        | none =>
          { result := .error .io_read_failed, page_tree := page_tree,
            events := [.catalog_definition_read key.page_value_data key.page_value_size] }
        | some catalog_definition =>
          match read_catalog_definition K catalog_definition table_definition page_tree with
          | .error kind =>
            { result := .error kind, page_tree := page_tree,
              events := [.catalog_definition_read key.page_value_data key.page_value_size] }
          | .ok (table_definition, page_tree) =>
            (read_leaf_page_values_loop K env flags page rest table_definition page_tree).after
              [.catalog_definition_read key.page_value_data key.page_value_size]
      else
        match page_tree.table_definition with
        | none =>
          { result := .error .runtime_value_missing, page_tree := page_tree, events := [] }
        | some bound =>
          match env.data_definition_read bound.column_catalog_definition_list
              key.page_value_data key.page_value_size with
          | none =>
            { result := .error .io_read_failed, page_tree := page_tree,
              events := [.data_definition_read bound.column_catalog_definition_list
                key.page_value_data key.page_value_size] }
          | some data_definition =>
            (read_leaf_page_values_loop K env flags page rest table_definition
              { page_tree with
                value_definition_list :=
                  page_tree.value_definition_list ++ [data_definition] }).after
              [.data_definition_read bound.column_catalog_definition_list
                key.page_value_data key.page_value_size]

/-- The flags a leaf page may carry (lines 1807-1812). -/
def leaf_supported_flags (K : Definitions) : Nat :=
  K.LIBESEDB_PAGE_FLAG_IS_LEAF ||| K.LIBESEDB_PAGE_FLAG_IS_ROOT
    ||| K.LIBESEDB_PAGE_FLAG_IS_INDEX ||| K.LIBESEDB_PAGE_FLAG_IS_LONG_VALUE
    ||| K.LIBESEDB_PAGE_FLAG_IS_PRIMARY ||| K.LIBESEDB_PAGE_FLAG_IS_NEW_RECORD_FORMAT

/-- The function `libesedb_page_tree_read_leaf_page_values` (lines 1749-2348): the
flag checks, page value 0, then the loop over the page values 1 to
`amount_of_page_values - 1`, which are the values of the page after the first. -/
def libesedb_page_tree_read_leaf_page_values (K : Definitions) (env : Collaborators)
    (flags : Nat) (page : Page) (page_tree : PageTree) : Step :=
  if has_flag page.flags K.LIBESEDB_PAGE_FLAG_IS_LEAF = false then
    { result := .error .runtime_value_missing, page_tree := page_tree, events := [] }
  else if has_unsupported_flags page.flags (leaf_supported_flags K) then
    { result := .error .runtime_unsupported_value, page_tree := page_tree, events := [] }
  else
    match libesedb_page_get_value page 0 with
    | none => { result := .error .runtime_get_failed, page_tree := page_tree, events := [] }
    | some _ =>
      read_leaf_page_values_loop K env flags page
        (page.values.drop 1) none page_tree

/-! ## `libesedb_page_tree_read_space_tree_page_values` -/

/-- The flags a space tree page may carry (lines 1401-1407). -/
def space_tree_supported_flags (K : Definitions) : Nat :=
  K.LIBESEDB_PAGE_FLAG_IS_ROOT ||| K.LIBESEDB_PAGE_FLAG_IS_SPACE_TREE
    ||| K.LIBESEDB_PAGE_FLAG_IS_LEAF ||| K.LIBESEDB_PAGE_FLAG_IS_PARENT
    ||| K.LIBESEDB_PAGE_FLAG_IS_INDEX ||| K.LIBESEDB_PAGE_FLAG_IS_LONG_VALUE
    ||| K.LIBESEDB_PAGE_FLAG_IS_PRIMARY ||| K.LIBESEDB_PAGE_FLAG_IS_NEW_RECORD_FORMAT

/-- The `for` loop of `libesedb_page_tree_read_space_tree_page_values`
(lines 1540-1731) over the page values that remain.  On a leaf page an entry is
checked for its tag flags, its size and its key size (the first field of
`esedb_space_tree_page_entry_t`); on another page nothing is checked, the branch
for a parent page only prints. -/
def read_space_tree_page_values_loop (K : Definitions) (page : Page) :
    List PageValue → Result
  | [] => .ok
  | page_value :: rest =>
    if has_flag page.flags K.LIBESEDB_PAGE_FLAG_IS_LEAF then
      if page_value.flags &&& 0x05 != 0 then
        .error .runtime_unsupported_value
      else if page_value.size != K.sizeof_esedb_space_tree_page_entry_t then
        .error .runtime_unsupported_value
      else if endian_little_convert_16bit page_value.data != 4 then
        .error .runtime_unsupported_value
      else
        read_space_tree_page_values_loop K page rest
    else
      read_space_tree_page_values_loop K page rest

/-- The header check of a leaf space tree page (lines 1497-1536): `none` when the
header passes, the error otherwise. -/
def space_tree_header_error (page_value : PageValue) : Option ErrorKind :=
  if page_value.size = 16 then
    if (List.range 16).any (fun k => byte_at page_value.data k != 0) then
      some .runtime_unsupported_value
    else
      none
  else if page_value.size ≠ 0 then
    some .runtime_unsupported_value
  else
    none

/-- The function `libesedb_page_tree_read_space_tree_page_values`
(lines 1356-1744).  It reads no page and does not touch the page tree. -/
def libesedb_page_tree_read_space_tree_page_values (K : Definitions) (page : Page) :
    Result :=
  let required_flags := K.LIBESEDB_PAGE_FLAG_IS_ROOT ||| K.LIBESEDB_PAGE_FLAG_IS_SPACE_TREE
  if has_flag page.flags required_flags = false then
    .error .runtime_value_missing
  else if has_unsupported_flags page.flags (space_tree_supported_flags K) then
    .error .runtime_unsupported_value
  else if page.previous_page_number ≠ 0 then
    .error .runtime_unsupported_value
  else if page.next_page_number ≠ 0 then
    .error .runtime_unsupported_value
  else
    match libesedb_page_get_value page 0 with
    | none => .error .runtime_get_failed
    | some header =>
      match (if has_flag page.flags K.LIBESEDB_PAGE_FLAG_IS_LEAF then
          space_tree_header_error header else none) with
      | some kind => .error kind
      | none => read_space_tree_page_values_loop K page (page.values.drop 1)

/-! ## `libesedb_page_tree_read_child_pages` and `libesedb_page_tree_read_parent_page_values` -/

/-- The two sibling-linkage messages for a leaf child (lines 1241-1259). -/
def child_page_messages (page_value_iterator previous_child_page_number
    previous_next_child_page_number : Nat) (child_page : Page) : List Event :=
  if page_value_iterator > 1 then
    (if child_page.page_number ≠ previous_next_child_page_number then
      [Event.mismatch_in_child_page_number previous_next_child_page_number
        child_page.page_number]
    else []) ++
    (if child_page.previous_page_number ≠ previous_child_page_number then
      [Event.mismatch_in_previous_child_page_number previous_child_page_number
        child_page.previous_page_number]
    else [])
  else []

/-- The part of the loop body of `libesedb_page_tree_read_child_pages` for a child
page number that is not ignored (lines 1189-1343): the child page is read, its
father data page object identifier compared with that of `page`, the page handed
to the leaf page function or to `parent_walk` (the call of
`libesedb_page_tree_read_parent_page_values`), and freed. -/
def read_child_page (K : Definitions) (env : Collaborators)
    (parent_walk : Page → PageTree → Step) (flags : Nat) (page : Page)
    (page_value_iterator previous_child_page_number previous_next_child_page_number : Nat)
    (child_page_number : Nat) (page_tree : PageTree) : Step :=
  match env.page_read child_page_number with
  | none =>
    { result := .error .io_read_failed, page_tree := page_tree,
      events := [.page_read child_page_number, .page_free child_page_number] }
  | some child_page =>
    if page.father_data_page_object_identifier
        ≠ child_page.father_data_page_object_identifier then
      { result := .error .runtime_unsupported_value, page_tree := page_tree,
        events := [.page_read child_page_number, .page_free child_page_number] }
    else if has_flag child_page.flags K.LIBESEDB_PAGE_FLAG_IS_LEAF then
      let walk := libesedb_page_tree_read_leaf_page_values K env flags child_page page_tree
      { result := walk.result, page_tree := walk.page_tree,
        events := [.page_read child_page_number]
          ++ child_page_messages page_value_iterator previous_child_page_number
            previous_next_child_page_number child_page
          ++ walk.events ++ [.page_free child_page_number] }
    else if has_flag child_page.flags K.LIBESEDB_PAGE_FLAG_IS_PARENT then
      let walk := parent_walk child_page page_tree
      { result := walk.result, page_tree := walk.page_tree,
        events := [.page_read child_page_number] ++ walk.events
          ++ [.page_free child_page_number] }
    else
      { result := .ok, page_tree := page_tree,
        events := [.page_read child_page_number, .page_free child_page_number] }

/-- The locals `previous_child_page_number` and `previous_next_child_page_number`
after the loop body for a child page number (lines 1284-1285): they are set from a
child page that has the leaf flag. -/
def next_child_locals (K : Definitions) (env : Collaborators)
    (previous_child_page_number previous_next_child_page_number : Nat)
    (child_page_number : Nat) : Nat × Nat :=
  match env.page_read child_page_number with
  | none => (previous_child_page_number, previous_next_child_page_number)
  | some child_page =>
    if has_flag child_page.flags K.LIBESEDB_PAGE_FLAG_IS_LEAF then
      (child_page.page_number, child_page.next_page_number)
    else
      (previous_child_page_number, previous_next_child_page_number)

/-- The `for` loop of `libesedb_page_tree_read_child_pages` (lines 1068-1344) over
the page values that remain, with the locals `page_value_iterator`,
`previous_child_page_number` and `previous_next_child_page_number`. -/
def read_child_pages_loop (K : Definitions) (env : Collaborators)
    (parent_walk : Page → PageTree → Step) (flags : Nat) (page : Page) :
    List PageValue → Nat → Nat → Nat → PageTree → Step
  | [], _, _, _, page_tree => { result := .ok, page_tree := page_tree, events := [] }
  | page_value :: rest, page_value_iterator, previous_child_page_number,
      previous_next_child_page_number, page_tree =>
    match read_page_key page_value with
    | none =>
      { result := .error .runtime_value_out_of_range, page_tree := page_tree, events := [] }
    | some key =>
      let child_page_number := endian_little_convert_32bit key.page_value_data
      if child_page_number ≥ 0x117f02 then
        read_child_pages_loop K env parent_walk flags page rest (page_value_iterator + 1)
          previous_child_page_number previous_next_child_page_number page_tree
      else
        let child := read_child_page K env parent_walk flags page page_value_iterator
          previous_child_page_number previous_next_child_page_number child_page_number
          page_tree
        let locals := next_child_locals K env previous_child_page_number
          previous_next_child_page_number child_page_number
        match child.result with
        | .ok =>
          (read_child_pages_loop K env parent_walk flags page rest (page_value_iterator + 1)
            locals.1 locals.2 child.page_tree).after child.events
        | _ => child

/-- The function `libesedb_page_tree_read_child_pages` (lines 996-1351), with the
function it calls for a child that is a parent page as an argument. -/
def libesedb_page_tree_read_child_pages (K : Definitions) (env : Collaborators)
    (parent_walk : Page → PageTree → Step) (flags : Nat) (page : Page)
    (page_tree : PageTree) : Step :=
  read_child_pages_loop K env parent_walk flags page (page.values.drop 1) 1 0 0 page_tree

/-- The flags a parent page may carry (lines 894-899). -/
def parent_supported_flags (K : Definitions) : Nat :=
  K.LIBESEDB_PAGE_FLAG_IS_PARENT ||| K.LIBESEDB_PAGE_FLAG_IS_ROOT
    ||| K.LIBESEDB_PAGE_FLAG_IS_INDEX ||| K.LIBESEDB_PAGE_FLAG_IS_LONG_VALUE
    ||| K.LIBESEDB_PAGE_FLAG_IS_PRIMARY ||| K.LIBESEDB_PAGE_FLAG_IS_NEW_RECORD_FORMAT

/-- The function `libesedb_page_tree_read_parent_page_values` (lines 835-991).  The
first argument bounds the number of nested parent pages. -/
def libesedb_page_tree_read_parent_page_values (K : Definitions) (env : Collaborators) :
    Nat → Nat → Page → PageTree → Step
  | 0, _, _, page_tree => { result := .out_of_fuel, page_tree := page_tree, events := [] }
  | fuel + 1, flags, page, page_tree =>
    if has_flag page.flags K.LIBESEDB_PAGE_FLAG_IS_PARENT = false then
      { result := .error .runtime_value_missing, page_tree := page_tree, events := [] }
    else if has_unsupported_flags page.flags (parent_supported_flags K) then
      { result := .error .runtime_unsupported_value, page_tree := page_tree, events := [] }
    else if page.previous_page_number ≠ 0 then
      { result := .error .runtime_unsupported_value, page_tree := page_tree, events := [] }
    else if page.next_page_number ≠ 0 then
      { result := .error .runtime_unsupported_value, page_tree := page_tree, events := [] }
    else
      match libesedb_page_get_value page 0 with
      | none => { result := .error .runtime_get_failed, page_tree := page_tree, events := [] }
      | some _ =>
        libesedb_page_tree_read_child_pages K env
          (libesedb_page_tree_read_parent_page_values K env fuel flags) flags page page_tree

/-! ## `libesedb_page_tree_read_father_data_page_values` -/

/-- The flags a father data page may carry (lines 504-509). -/
def father_data_page_supported_flags (K : Definitions) : Nat :=
  K.LIBESEDB_PAGE_FLAG_IS_ROOT ||| K.LIBESEDB_PAGE_FLAG_IS_PARENT
    ||| K.LIBESEDB_PAGE_FLAG_IS_INDEX ||| K.LIBESEDB_PAGE_FLAG_IS_LONG_VALUE
    ||| K.LIBESEDB_PAGE_FLAG_IS_PRIMARY ||| K.LIBESEDB_PAGE_FLAG_IS_NEW_RECORD_FORMAT

/-- The field `extent_space` of `esedb_father_data_page_header_t`, the third
32-bit field of the header (the layout is that of section 6 of the spec). -/
def header_extent_space (page_value : PageValue) : Nat :=
  endian_little_convert_32bit (page_value.data.drop 8)

/-- The field `space_tree_page_number` of `esedb_father_data_page_header_t`, the
fourth 32-bit field of the header. -/
def header_space_tree_page_number (page_value : PageValue) : Nat :=
  endian_little_convert_32bit (page_value.data.drop 12)

/-- The reading of one space tree page (lines 643-723, and again lines 729-809): the
page is read, its father data page object identifier compared with that of `page`,
its values read, and the page freed on each path. -/
def read_space_tree_page (K : Definitions) (env : Collaborators) (page : Page)
    (space_tree_page_number : Nat) (page_tree : PageTree) : Step :=
  match env.page_read space_tree_page_number with
  | none =>
    { result := .error .io_read_failed, page_tree := page_tree,
      events := [.page_read space_tree_page_number, .page_free space_tree_page_number] }
  | some space_tree_page =>
    if page.father_data_page_object_identifier
        ≠ space_tree_page.father_data_page_object_identifier then
      { result := .error .runtime_unsupported_value, page_tree := page_tree,
        events := [.page_read space_tree_page_number, .page_free space_tree_page_number] }
    else
      { result := libesedb_page_tree_read_space_tree_page_values K space_tree_page,
        page_tree := page_tree,
        events := [.page_read space_tree_page_number, .page_free space_tree_page_number] }

/-- The function `libesedb_page_tree_read_father_data_page_values`
(lines 437-830).  The condition of line 624 is the conjunction the source has. -/
def libesedb_page_tree_read_father_data_page_values (K : Definitions)
    (env : Collaborators) (fuel : Nat) (flags : Nat) (page : Page)
    (page_tree : PageTree) : Step :=
  if has_flag page.flags K.LIBESEDB_PAGE_FLAG_IS_ROOT = false then
    { result := .error .runtime_value_missing, page_tree := page_tree, events := [] }
  else if has_unsupported_flags page.flags (father_data_page_supported_flags K) then
    { result := .error .runtime_unsupported_value, page_tree := page_tree, events := [] }
  else if page.previous_page_number ≠ 0 then
    { result := .error .runtime_unsupported_value, page_tree := page_tree, events := [] }
  else if page.next_page_number ≠ 0 then
    { result := .error .runtime_unsupported_value, page_tree := page_tree, events := [] }
  else
    match libesedb_page_get_value page 0 with
    | none => { result := .error .runtime_get_failed, page_tree := page_tree, events := [] }
    | some header =>
      let space_tree_page_number := header_space_tree_page_number header
      let child_pages := libesedb_page_tree_read_child_pages K env
        (libesedb_page_tree_read_parent_page_values K env fuel flags) flags page
      if header_extent_space header > 0 then
        if space_tree_page_number = 0 ∧ space_tree_page_number ≥ 0xff000000 then
          { result := .error .runtime_unsupported_value, page_tree := page_tree, events := [] }
        else
          let owned := read_space_tree_page K env page space_tree_page_number page_tree
          match owned.result with
          | .ok =>
            let available := read_space_tree_page K env page
              ((space_tree_page_number + 1) % 4294967296) page_tree
            match available.result with
            | .ok => (child_pages page_tree).after (owned.events ++ available.events)
            | _ => available.after owned.events
          | _ => owned
      else
        child_pages page_tree

/-! ## `libesedb_page_tree_read` -/

/-- The function `libesedb_page_tree_read` (lines 308-432).  The page is freed on
the paths on which the source frees it: when reading it fails and at the end of
the function; the two `return( -1 )` after a failed leaf page or father data page
function come before `libesedb_page_free`. -/
def libesedb_page_tree_read (K : Definitions) (env : Collaborators) (fuel : Nat)
    (page_tree : PageTree) (father_data_page_number : Nat) (flags : Nat) : Step :=
  match env.page_read father_data_page_number with
  | none =>
    { result := .error .io_read_failed, page_tree := page_tree,
      events := [.page_read father_data_page_number, .page_free father_data_page_number] }
  | some page =>
    if has_flag page.flags K.LIBESEDB_PAGE_FLAG_IS_LEAF then
      let walk := libesedb_page_tree_read_leaf_page_values K env flags page page_tree
      match walk.result with
      | .ok => { walk with events := [.page_read father_data_page_number] ++ walk.events
                  ++ [.page_free father_data_page_number] }
      | _ => walk.after [.page_read father_data_page_number]
    else if has_flag page.flags K.LIBESEDB_PAGE_FLAG_IS_ROOT then
      let walk := libesedb_page_tree_read_father_data_page_values K env fuel flags page page_tree
      match walk.result with
      | .ok => { walk with events := [.page_read father_data_page_number] ++ walk.events
                  ++ [.page_free father_data_page_number] }
      | _ => walk.after [.page_read father_data_page_number]
    else
      { result := .ok, page_tree := page_tree,
        events := [.page_read father_data_page_number, .page_free father_data_page_number] }

/-- The number of page handles that are acquired and not freed at the end of a
sequence of events. -/
def outstanding_pages (events : List Event) : Int :=
  (events.filter (fun e => match e with | .page_read _ => true | _ => false)).length
    - (events.filter (fun e => match e with | .page_free _ => true | _ => false)).length

/-! ## Notions used to state the properties of the catalog branch -/

/-- The page value decodes to the catalog definition: its key fits, and the catalog
decoder returns the catalog definition for the data and size behind the key. -/
def decodes_to (env : Collaborators) (page_value : PageValue)
    (catalog_definition : CatalogDefinition) : Prop :=
  ∃ key, read_page_key page_value = some key
    ∧ env.catalog_definition_read key.page_value_data key.page_value_size
      = some catalog_definition

/-- The table records of the table definition list, in list order. -/
def table_records (page_tree : PageTree) : List CatalogDefinition :=
  page_tree.table_definition_list.filterMap (fun t => t.table_catalog_definition)

/-- The catalog definitions that the catalog decoder returned in the decoder calls
among the events, in order. -/
def decoded_catalog_definitions (env : Collaborators) (events : List Event) :
    List CatalogDefinition :=
  events.filterMap (fun e =>
    match e with
    | .catalog_definition_read data size => env.catalog_definition_read data size
    | _ => none)

/-- The treatment of a sequence of decoded catalog definitions one after the other,
as the loop of the leaf page function does it for the values of a primary data
page in catalog mode. -/
def read_catalog_definitions (K : Definitions) :
    List CatalogDefinition → Option Nat → PageTree → Except ErrorKind (Option Nat × PageTree)
  | [], table_definition, page_tree => .ok (table_definition, page_tree)
  | catalog_definition :: rest, table_definition, page_tree =>
    match read_catalog_definition K catalog_definition table_definition page_tree with
    | .error kind => .error kind
    | .ok (table_definition, page_tree) =>
      read_catalog_definitions K rest table_definition page_tree

/-- The catalog definition is a table record. -/
def is_table_record (K : Definitions) (r : CatalogDefinition) : Bool :=
  r.type == K.LIBESEDB_CATALOG_DEFINITION_TYPE_TABLE

/-- The catalog definition is a column record whose father data page object
identifier is `identifier`. -/
def is_column_record_of (K : Definitions) (identifier : Nat) (r : CatalogDefinition) : Bool :=
  r.type == K.LIBESEDB_CATALOG_DEFINITION_TYPE_COLUMN
    && r.father_data_page_object_identifier == identifier

/-- Every column record of `records` comes after a table record whose identifier is
the father data page object identifier of the column; `front` holds the records in
front of `records`. -/
def columns_follow_tables (K : Definitions) :
    List CatalogDefinition → List CatalogDefinition → Bool
  | _, [] => true
  | front, r :: rest =>
    (r.type != K.LIBESEDB_CATALOG_DEFINITION_TYPE_COLUMN
      || front.any (fun T =>
        is_table_record K T && T.identifier == r.father_data_page_object_identifier))
    && columns_follow_tables K (front ++ [r]) rest

/-- A well-formed sequence of catalog records: the table records have pairwise
distinct identifiers, the identifier of a table record is its father data page
object identifier, and every column record comes after the table record it
names. -/
structure well_formed_catalog (K : Definitions) (records : List CatalogDefinition) :
    Prop where
  distinct_identifiers :
    ((records.filter (is_table_record K)).map (fun T => T.identifier)).Nodup
  identifier_eq : ∀ T ∈ records, T.type = K.LIBESEDB_CATALOG_DEFINITION_TYPE_TABLE →
    T.identifier = T.father_data_page_object_identifier
  columns_follow : columns_follow_tables K [] records = true

/-- The table records of a sequence of catalog records, each with the column records
of the sequence that name it, in the order of the sequence. -/
def tables_with_columns (K : Definitions) (records : List CatalogDefinition) :
    List (Option CatalogDefinition × List CatalogDefinition) :=
  (records.filter (is_table_record K)).map
    (fun T => (some T, records.filter (is_column_record_of K T.identifier)))

/-- The table record and the columns of a table definition. -/
def table_and_columns (t : TableDefinition) :
    Option CatalogDefinition × List CatalogDefinition :=
  (t.table_catalog_definition, t.column_catalog_definition_list)

/-! ## Notions used to state the properties of the pages read -/

/-- Every page that the events read is a page of the page source whose father data
page object identifier is `identifier`. -/
def fetches_match (env : Collaborators) (identifier : Nat) (events : List Event) : Prop :=
  ∀ page_number, Event.page_read page_number ∈ events →
    ∃ page, env.page_read page_number = some page
      ∧ page.father_data_page_object_identifier = identifier

/-! ## The rows of a tree, after the words of the spec -/

/-- The offset of the key size field in a page value (spec, section 6): 2 when tag
flag 0x04 is set (a key type comes first), else 0. -/
def spec_key_size_offset (page_value : PageValue) : Nat :=
  if page_value.flags &&& 0x04 = 0x04 then 2 else 0

/-- The key size of a page value (spec, section 6): the 16-bit little-endian number
at the offset of the key size field. -/
def spec_key_size (page_value : PageValue) : Nat :=
  byte_at page_value.data (spec_key_size_offset page_value)
    + 256 * byte_at page_value.data (spec_key_size_offset page_value + 1)

/-- The offset of what follows the key in a page value (spec, section 6): behind the
optional key type, the key size field and the key bytes. -/
def spec_payload_offset (page_value : PageValue) : Nat :=
  spec_key_size_offset page_value + 2 + spec_key_size page_value

/-- The child page number of a parent page value (spec, section 6): the 32-bit
little-endian number behind the key. -/
def spec_child_page_number (page_value : PageValue) : Nat :=
  byte_at page_value.data (spec_payload_offset page_value)
    + 256 * byte_at page_value.data (spec_payload_offset page_value + 1)
    + 65536 * byte_at page_value.data (spec_payload_offset page_value + 2)
    + 16777216 * byte_at page_value.data (spec_payload_offset page_value + 3)

/-- The pages that a run of parent page values points to, in order, without the
entries whose child page number is 0x117F02 or more. -/
def spec_child_pages_of_values (env : Collaborators) (values : List PageValue) : List Page :=
  ((values.map spec_child_page_number).filter (fun n => n < 0x117f02)).filterMap env.page_read

/-- The child pages of a parent page in tagged-value order (spec, section 4.5):
the pages that the values 1 to count-1 point to, without the entries whose child
page number is 0x117F02 or more. -/
def spec_child_pages (env : Collaborators) (page : Page) : List Page :=
  spec_child_pages_of_values env (page.values.drop 1)

/-- The leaf pages that a child page stands for: itself when it has the leaf flag,
the leaf pages below it (`below`) when it has the parent flag, none otherwise. -/
def spec_leaf_pages_of_child (K : Definitions) (below : Page → List Page) (child : Page) :
    List Page :=
  if has_flag child.flags K.LIBESEDB_PAGE_FLAG_IS_LEAF then [child]
  else if has_flag child.flags K.LIBESEDB_PAGE_FLAG_IS_PARENT then below child
  else []

/-- The leaf pages below a parent page in depth-first order, following the child
pages in tagged-value order, for a tree of at most `fuel` levels of parent pages. -/
def spec_leaf_pages_below (K : Definitions) (env : Collaborators) : Nat → Page → List Page
  | 0, _ => []
  | fuel + 1, page =>
    (spec_child_pages env page).flatMap
      (spec_leaf_pages_of_child K (spec_leaf_pages_below K env fuel))

/-- The leaf pages of the tree with root page `father_data_page_number` in
depth-first order: the root itself when it has the leaf flag, the leaf pages below
it when it has the root flag. -/
def spec_leaf_pages (K : Definitions) (env : Collaborators) (fuel : Nat)
    (father_data_page_number : Nat) : List Page :=
  match env.page_read father_data_page_number with
  | none => []
  | some root =>
    if has_flag root.flags K.LIBESEDB_PAGE_FLAG_IS_LEAF then [root]
    else if has_flag root.flags K.LIBESEDB_PAGE_FLAG_IS_ROOT then
      spec_leaf_pages_below K env (fuel + 1) root
    else []

/-- The decoded row of a leaf page value (spec, section 4.9): the data decoder
applied to the columns of the bound table definition and to what follows the key
of the value. -/
def spec_row (env : Collaborators) (bound : TableDefinition) (page_value : PageValue) :
    Option DataDefinition :=
  env.data_definition_read bound.column_catalog_definition_list
    (page_value.data.drop (spec_payload_offset page_value))
    (page_value.size - spec_payload_offset page_value)

/-- The decoded rows of a leaf page: those of its values 1 to count-1 in index
order when it is a primary data page, none when it has the index or the long value
flag. -/
def spec_rows_of_leaf_page (K : Definitions) (env : Collaborators) (bound : TableDefinition)
    (leaf : Page) : List DataDefinition :=
  if has_flag leaf.flags K.LIBESEDB_PAGE_FLAG_IS_INDEX then []
  else if has_flag leaf.flags K.LIBESEDB_PAGE_FLAG_IS_LONG_VALUE then []
  else (leaf.values.drop 1).filterMap (spec_row env bound)

/-- The decoded rows of the tree with root page `father_data_page_number`: those of
its leaf pages in depth-first order. -/
def spec_rows (K : Definitions) (env : Collaborators) (bound : TableDefinition) (fuel : Nat)
    (father_data_page_number : Nat) : List DataDefinition :=
  (spec_leaf_pages K env fuel father_data_page_number).flatMap
    (spec_rows_of_leaf_page K env bound)

/-- The page value holds its key type and key size fields, and its size is a 16-bit
number. -/
def value_holds_key_fields (page_value : PageValue) : Prop :=
  page_value.size < 65536 ∧ spec_key_size_offset page_value + 2 ≤ page_value.size

instance (page_value : PageValue) : Decidable (value_holds_key_fields page_value) := by
  unfold value_holds_key_fields
  infer_instance

/-! ## Concrete collaborators and pages, used to evaluate the functions -/

/-- A catalog decoder for the examples: the first three bytes of the data are the
type, the father data page object identifier and the identifier, the other bytes
the payload; fewer than three bytes do not decode. -/
def example_catalog_definition_read (data : List Nat) (size : Nat) :
    Option CatalogDefinition :=
  match data.take size with
  | type :: father_data_page_object_identifier :: identifier :: payload =>
    some { type := type
           father_data_page_object_identifier := father_data_page_object_identifier
           identifier := identifier
           payload := payload }
  | _ => none

/-- A row decoder for the examples: the row is the bytes it is given. -/
def example_data_definition_read (_ : List CatalogDefinition) (data : List Nat)
    (size : Nat) : Option DataDefinition :=
  some { payload := data.take size }

/-- A page value without key type whose key is empty: two zero bytes for the key
size, then the bytes given. -/
def example_page_value (bytes : List Nat) : PageValue :=
  { data := [0, 0] ++ bytes, size := 2 + bytes.length, flags := 0 }

/-- A page tree as `libesedb_page_tree_initialize` leaves it without a bound table
definition: both lists empty. -/
def empty_page_tree : PageTree :=
  { table_definition := none, table_definition_list := [], value_definition_list := [] }

/-- A table definition for the examples: the table record has the identifier and
the father data page object identifier given, and the columns given. -/
def example_table_definition (identifier father_data_page_object_identifier : Nat)
    (columns : List CatalogDefinition) : TableDefinition :=
  { table_catalog_definition :=
      some { type := 1, father_data_page_object_identifier := father_data_page_object_identifier,
             identifier := identifier, payload := [] }
    column_catalog_definition_list := columns
    index_catalog_definition_list := []
    long_value_catalog_definition := none }

/-- A table definition that lacks its table catalog definition. -/
def table_definition_without_record : TableDefinition :=
  { table_catalog_definition := none
    column_catalog_definition_list := []
    index_catalog_definition_list := []
    long_value_catalog_definition := none }

/-- A page source for the examples: the pages listed, by number. -/
def example_page_read (pages : List (Nat × Page)) (page_number : Nat) : Option Page :=
  (pages.find? (fun entry => entry.1 == page_number)).map (fun entry => entry.2)

/-- The collaborators of the examples over the pages listed. -/
def example_collaborators (pages : List (Nat × Page)) : Collaborators :=
  { page_read := example_page_read pages
    catalog_definition_read := example_catalog_definition_read
    data_definition_read := example_data_definition_read }

/-- A page with father data page object identifier 1 and no siblings. -/
def example_page (page_number flags : Nat) (values : List PageValue) : Page :=
  { page_number := page_number
    previous_page_number := 0
    next_page_number := 0
    father_data_page_object_identifier := 1
    flags := flags
    values := values }

/-- A page value whose key size field (5) exceeds what is left of its 2 bytes. -/
def example_overlong_key_value : PageValue :=
  { data := [5, 0], size := 2, flags := 0 }

/-- The records of scenario S2: table 2, a column of table 2, table 3, a column of
table 2, a column of table 3. -/
def example_catalog_records : List CatalogDefinition :=
  [{ type := 1, father_data_page_object_identifier := 2, identifier := 2, payload := [] },
   { type := 2, father_data_page_object_identifier := 2, identifier := 5, payload := [] },
   { type := 1, father_data_page_object_identifier := 3, identifier := 3, payload := [] },
   { type := 2, father_data_page_object_identifier := 2, identifier := 6, payload := [] },
   { type := 2, father_data_page_object_identifier := 3, identifier := 7, payload := [] }]

/-- The page values that the example decoder decodes to the records of scenario S2. -/
def example_catalog_values : List PageValue :=
  [example_page_value [1, 2, 2], example_page_value [2, 2, 5], example_page_value [1, 3, 3],
   example_page_value [2, 2, 6], example_page_value [2, 3, 7]]

/-- A parent page value without key type and with an empty key that points to the
child page `child_page_number` (below 256). -/
def example_child_value (child_page_number : Nat) : PageValue :=
  { data := [0, 0, child_page_number, 0, 0, 0], size := 6, flags := 0 }

/-- A father data page header: 1 initial page, parent 0, and the extent space and
space tree page number given (below 256). -/
def example_header (extent_space space_tree_page_number : Nat) : PageValue :=
  { data := [1, 0, 0, 0, 0, 0, 0, 0, extent_space, 0, 0, 0, space_tree_page_number, 0, 0, 0]
    size := 16, flags := 0 }

/-- A leaf space tree page with an empty header and one entry of 12 bytes with key
size 4. -/
def example_space_tree_page (page_number : Nat) : Page :=
  example_page page_number 0x0023
    [{ data := [], size := 0, flags := 0 },
     { data := [4, 0, 7, 0, 0, 0, 1, 0, 0, 0, 0, 0], size := 12, flags := 0 }]

/-- The pages of a small tree (scenario S5): the root page 1 with extent space 1 and
space tree pages 0x40 and 0x41, whose children are the leaf page 2 and the parent
page 3, whose child is the leaf page 4. -/
def example_tree_pages : List (Nat × Page) :=
  [(1, example_page 1 0x0005
      [example_header 1 0x40, example_child_value 2, example_child_value 3]),
   (0x40, example_space_tree_page 0x40),
   (0x41, example_space_tree_page 0x41),
   (2, example_page 2 0x0002
      [example_page_value [], example_page_value [7, 7], example_page_value [8]]),
   (3, example_page 3 0x0004 [example_page_value [], example_child_value 4]),
   (4, example_page 4 0x0002 [example_page_value [], example_page_value [9]])]

/-- A page tree with a bound table definition and empty lists. -/
def example_bound_page_tree : PageTree :=
  { table_definition := some (example_table_definition 2 2 [])
    table_definition_list := []
    value_definition_list := [] }

/-! ## The loop bodies, one value at a time -/

/-- What the loop body of the leaf page function does with one page value: it ends
the function with a step (`stop`), or the loop goes on with the events of the
value, the local `table_definition` and the page tree (`next`). -/
inductive LeafValueStep where
  | stop (step : Step)
  | next (events : List Event) (table_definition : Option Nat) (page_tree : PageTree)

/-- The loop body of `libesedb_page_tree_read_leaf_page_values` (lines 1905-2345) for
one page value, as `read_leaf_page_values_loop` has it. -/
def read_leaf_page_value (K : Definitions) (env : Collaborators) (flags : Nat) (page : Page)
    (page_value : PageValue) (table_definition : Option Nat) (page_tree : PageTree) :
    LeafValueStep :=
  match read_page_key page_value with
  | none =>
    .stop { result := .error .runtime_value_out_of_range, page_tree := page_tree, events := [] }
  | some key =>
    if has_flag page.flags K.LIBESEDB_PAGE_FLAG_IS_INDEX then
      .next [] table_definition page_tree
    else if has_flag page.flags K.LIBESEDB_PAGE_FLAG_IS_LONG_VALUE then
      .next [] table_definition page_tree
    else if has_flag flags K.LIBESEDB_PAGE_TREE_FLAG_READ_CATALOG_DEFINITION then
      match env.catalog_definition_read key.page_value_data key.page_value_size with
      | none =>
        .stop { result := .error .io_read_failed, page_tree := page_tree,
                events := [.catalog_definition_read key.page_value_data key.page_value_size] }
      | some catalog_definition =>
        match read_catalog_definition K catalog_definition table_definition page_tree with
        | .error kind =>
          .stop { result := .error kind, page_tree := page_tree,
                  events := [.catalog_definition_read key.page_value_data
                    key.page_value_size] }
        | .ok (table_definition, page_tree) =>
          .next [.catalog_definition_read key.page_value_data key.page_value_size]
            table_definition page_tree
    else
      match page_tree.table_definition with
      | none =>
        .stop { result := .error .runtime_value_missing, page_tree := page_tree, events := [] }
      | some bound =>
        match env.data_definition_read bound.column_catalog_definition_list
            key.page_value_data key.page_value_size with
        | none =>
          .stop { result := .error .io_read_failed, page_tree := page_tree,
                  events := [.data_definition_read bound.column_catalog_definition_list
                    key.page_value_data key.page_value_size] }
        | some data_definition =>
          .next [.data_definition_read bound.column_catalog_definition_list
              key.page_value_data key.page_value_size] table_definition
            { page_tree with
              value_definition_list := page_tree.value_definition_list ++ [data_definition] }

/-- A page value of 3 bytes with a key type (tag flag 0x04): it is too short for its
key size field, whose second byte and the bytes 9 lie behind the value in the page
buffer. -/
def example_short_value : PageValue :=
  { data := [1, 0, 0, 0, 9, 9, 9], size := 3, flags := 0x04 }

/-- A leaf page with father data page object identifier 9 (the other example pages
have 1). -/
def example_foreign_page (page_number : Nat) : Page :=
  { example_page page_number 0x0002 [example_page_value []] with
    father_data_page_object_identifier := 9 }

/-- The pages of scenario S3 and of a variation of it: page 2 is a leaf page of the
tree whose value 1 has a key size that exceeds the value, page 3 is a leaf page of
another tree. -/
def example_foreign_pages : List (Nat × Page) :=
  [(2, example_page 2 0x0002 [example_page_value [], example_overlong_key_value]),
   (3, example_foreign_page 3)]

/-! ## Notions used to compare two runs -/

/-- The event is one of the two sibling-linkage messages. -/
def is_message : Event → Bool
  | .mismatch_in_child_page_number _ _ => true
  | .mismatch_in_previous_child_page_number _ _ => true
  | _ => false

/-- The events without the sibling-linkage messages: the page reads, the page frees
and the decoder calls, in order. -/
def without_messages (events : List Event) : List Event :=
  events.filter (fun e => !is_message e)

/-- The numbers of the pages read among the events, in order. -/
def page_fetches (events : List Event) : List Nat :=
  events.filterMap (fun e =>
    match e with
    | .page_read page_number => some page_number
    | _ => none)

/-- Two steps with the same result, the same page tree and, the sibling-linkage
messages apart, the same events. -/
def same_effect (s1 s2 : Step) : Prop :=
  s1.result = s2.result ∧ s1.page_tree = s2.page_tree
    ∧ without_messages s1.events = without_messages s2.events

/-- A parent page value without key type and with an empty key whose child page
number is 0x117F02. -/
def example_ignored_child_value : PageValue :=
  { data := [0, 0, 0x02, 0x7f, 0x11, 0], size := 6, flags := 0 }

/-- A parent page of the small tree with an entry between its two entries whose
child page number is 0x117F02. -/
def example_page_with_ignored_entry : Page :=
  example_page 1 0x0004
    [example_page_value [], example_child_value 2, example_ignored_child_value,
     example_child_value 3]

/-- A father data page header with extent space 1 whose space tree page number is
0xFF000000. -/
def example_reserved_header : PageValue :=
  { data := [1, 0, 0, 0, 0, 0, 0, 0, 1, 0, 0, 0, 0, 0, 0, 0xff], size := 16, flags := 0 }

/-- The pages of a tree whose root page 5 has extent space 1 and space tree page
number 0: the root page and the space tree pages 0 and 1. -/
def example_zero_space_tree_pages : List (Nat × Page) :=
  [(5, example_page 5 0x0005 [example_header 1 0]),
   (0, example_space_tree_page 0),
   (1, example_space_tree_page 1)]

/-- A page source with one page, which has the number 1, the flags given and a
header value. -/
def example_single_page (flags : Nat) : List (Nat × Page) :=
  [(1, example_page 1 flags [example_page_value []])]

/-- A space tree page that is a parent page (flags root, space tree and parent) whose
first value has 5 bytes. -/
def example_space_tree_parent_page : Page :=
  example_page 0x40 0x0025 [{ data := [1, 2, 3, 4, 5], size := 5, flags := 0 }]

/-- A page source with one leaf page, which has the number 1, the flag leaf and the
next page number 7. -/
def example_leaf_root_with_sibling : List (Nat × Page) :=
  [(1, { example_page 1 0x0002 [example_page_value []] with next_page_number := 7 })]

/-! ## The pages that the traversal treats as parent pages and as space tree pages -/

/-- The pages that a child page hands to the parent page function: none when it has
the leaf flag, itself and those below it (`below`) when it has the parent flag,
none otherwise. -/
def spec_parent_pages_of_child (K : Definitions) (below : Page → List Page) (child : Page) :
    List Page :=
  if has_flag child.flags K.LIBESEDB_PAGE_FLAG_IS_LEAF then []
  else if has_flag child.flags K.LIBESEDB_PAGE_FLAG_IS_PARENT then child :: below child
  else []

/-- The pages below a page that the traversal treats as parent pages, down to
`depth` levels: the child pages without the leaf flag and with the parent flag, and
the like pages below them. -/
def spec_parent_pages_below (K : Definitions) (env : Collaborators) : Nat → Page → List Page
  | 0, _ => []
  | depth + 1, page =>
    (spec_child_pages env page).flatMap
      (spec_parent_pages_of_child K (spec_parent_pages_below K env depth))

/-- The space tree pages of a root page: the pages with the space tree page number
of its header and the next number, when the header has an extent space above 0. -/
def spec_space_tree_pages (env : Collaborators) (page : Page) : List Page :=
  match libesedb_page_get_value page 0 with
  | none => []
  | some header =>
    if header_extent_space header > 0 then
      [header_space_tree_page_number header,
       (header_space_tree_page_number header + 1) % 4294967296].filterMap env.page_read
    else []

/-! ## Growth of the two lists of a page tree -/

/-- A table definition after writes through a pointer to it that the page tree
functions make: the table record is the same, the column list and the index list
have the lists before as a prefix, and the long value record is the one before when
there was one. -/
def table_definition_grows (before after : TableDefinition) : Prop :=
  after.table_catalog_definition = before.table_catalog_definition
  ∧ before.column_catalog_definition_list <+: after.column_catalog_definition_list
  ∧ before.index_catalog_definition_list <+: after.index_catalog_definition_list
  ∧ (before.long_value_catalog_definition = none
    ∨ after.long_value_catalog_definition = before.long_value_catalog_definition)

/-- A table definition list with its elements in place, each grown, and elements
appended behind them: none removed, none moved. -/
def table_definition_list_grows : List TableDefinition → List TableDefinition → Prop
  | [], _ => True
  | _ :: _, [] => False
  | b :: before, a :: after =>
    table_definition_grows b a ∧ table_definition_list_grows before after

/-- A page tree after a call: the bound table definition is the same, the table
definition list has grown, and the value definition list has the list before as a
prefix. -/
def page_tree_grows (before after : PageTree) : Prop :=
  after.table_definition = before.table_definition
  ∧ table_definition_list_grows before.table_definition_list after.table_definition_list
  ∧ before.value_definition_list <+: after.value_definition_list

/-! ## `libesedb_page_tree_initialize` and `libesedb_page_tree_free` -/

/-- What the allocations of `libesedb_page_tree_initialize` return, `true` for a
call that succeeds: `memory_allocate`, `memory_set` and the two calls of
`libesedb_list_initialize`. -/
structure Allocation where
  memory_allocate : Bool
  memory_set : Bool
  table_definition_list : Bool
  value_definition_list : Bool
deriving DecidableEq, Repr

/-- The function `libesedb_page_tree_initialize` (lines 47-143).  The argument
`page_tree` is a pointer to a pointer: `none` is NULL, `some none` points to NULL,
`some (some t)` points to the page tree `t`.  The value is the return code and what
the argument points to on return.  Modelled from the spec for
`libesedb_list_initialize` of `libesedb_list.c`, which is not available: it
"creates empty registries". -/
def libesedb_page_tree_initialize (memory : Allocation)
    (page_tree : Option (Option PageTree)) (table_definition : Option TableDefinition) :
    Int × Option (Option PageTree) :=
  match page_tree with
  | none => (-1, none)
  | some (some existing) => (1, some (some existing))
  | some none =>
    if memory.memory_allocate = false then (-1, some none)
    else if memory.memory_set = false then (-1, some none)
    else if memory.table_definition_list = false then (-1, some none)
    else if memory.value_definition_list = false then (-1, some none)
    else
      (1, some (some { table_definition := table_definition
                       table_definition_list := []
                       value_definition_list := [] }))

/-- What a call of `libesedb_page_tree_free` leaves: the return code, what the
argument points to on return, and the table definitions and data definitions that
were handed to their free functions, in order. -/
structure FreeStep where
  result : Int
  page_tree : Option (Option PageTree)
  freed_table_definitions : List TableDefinition
  freed_data_definitions : List DataDefinition
deriving DecidableEq, Repr

/-- The function `libesedb_page_tree_free` (lines 148-202), with the argument as
for `libesedb_page_tree_initialize`.  Modelled from the spec for
`libesedb_list_free` of `libesedb_list.c`, which is not available: it "walks each
registry freeing entries with the appropriate destructor"; whether each of the two
calls returns 1 is an argument.  The bound table definition is not freed. -/
def libesedb_page_tree_free (table_definition_list_freed value_definition_list_freed : Bool)
    (page_tree : Option (Option PageTree)) : FreeStep :=
  match page_tree with
  | none =>
    { result := -1, page_tree := none, freed_table_definitions := [],
      freed_data_definitions := [] }
  | some none =>
    { result := 1, page_tree := some none, freed_table_definitions := [],
      freed_data_definitions := [] }
  | some (some current) =>
    let result : Int := 1
    let result := if table_definition_list_freed = false then -1 else result
    let result := if value_definition_list_freed = false then -1 else result
    { result := result
      page_tree := some none
      freed_table_definitions := current.table_definition_list
      freed_data_definitions := current.value_definition_list }

/-- A page source whose page 1 is a root and parent page, with extent space 0,
whose one entry points to page 1. -/
def example_cyclic_page : Page :=
  example_page 1 0x0005 [example_header 0 0, example_child_value 1]

/-- The page source of the page that points to itself. -/
def example_cyclic_pages : List (Nat × Page) :=
  [(1, example_cyclic_page)]

/-- A page tree with two table definitions and one data definition. -/
def example_filled_page_tree : PageTree :=
  { table_definition := some (example_table_definition 2 2 [])
    table_definition_list := [example_table_definition 2 2 [], example_table_definition 3 3 []]
    value_definition_list := [{ payload := [7] }] }

/-! ## The tree below a root page -/

/-- The page numbers that a run of parent page values names, in order, without the
entries whose child page number is 0x117F02 or more. -/
def spec_child_page_numbers (values : List PageValue) : List Nat :=
  (values.map spec_child_page_number).filter (fun n => n < 0x117f02)

/-- The page numbers reachable through one child entry: the child page number, and
the page numbers reachable below the child page (`below`) when the child page can be
read, has no leaf flag and has the parent flag. -/
def spec_reachable_of_child (K : Definitions) (env : Collaborators)
    (below : Page → List Nat) (child_page_number : Nat) : List Nat :=
  child_page_number ::
    match env.page_read child_page_number with
    | none => []
    | some child =>
      if has_flag child.flags K.LIBESEDB_PAGE_FLAG_IS_LEAF then []
      else if has_flag child.flags K.LIBESEDB_PAGE_FLAG_IS_PARENT then below child
      else []

/-- The page numbers reachable below a page through child entries, in depth-first
order, down to `depth` levels; a page number is listed once for each way that leads
to it. -/
def spec_reachable_below (K : Definitions) (env : Collaborators) : Nat → Page → List Nat
  | 0, _ => []
  | depth + 1, page =>
    (spec_child_page_numbers (page.values.drop 1)).flatMap
      (spec_reachable_of_child K env (spec_reachable_below K env depth))

/-- The pages below a page form a tree with at most `height` levels of parent pages:
with height 0 no child page is a parent page (it has the leaf flag or lacks the
parent flag), with height h + 1 the child pages that are parent pages have at most
h levels of parent pages below them. -/
def spec_height_le (K : Definitions) (env : Collaborators) : Nat → Page → Prop
  | 0, page =>
    ∀ child ∈ spec_child_pages env page,
      has_flag child.flags K.LIBESEDB_PAGE_FLAG_IS_LEAF = false →
      has_flag child.flags K.LIBESEDB_PAGE_FLAG_IS_PARENT = true → False
  | height + 1, page =>
    ∀ child ∈ spec_child_pages env page,
      has_flag child.flags K.LIBESEDB_PAGE_FLAG_IS_LEAF = false →
      has_flag child.flags K.LIBESEDB_PAGE_FLAG_IS_PARENT = true →
      spec_height_le K env height child

instance spec_height_le_decidable (K : Definitions) (env : Collaborators) :
    ∀ (height : Nat) (page : Page), Decidable (spec_height_le K env height page)
  | 0, page => by
    unfold spec_height_le
    infer_instance
  | height + 1, page => by
    unfold spec_height_le
    have := spec_height_le_decidable K env height
    infer_instance

/-- The numbers of the space tree pages of a root page: the space tree page number
of its header and the next number (a 32-bit sum), when the header has an extent
space above 0. -/
def spec_space_tree_page_numbers (page : Page) : List Nat :=
  match libesedb_page_get_value page 0 with
  | none => []
  | some header =>
    if header_extent_space header > 0 then
      [header_space_tree_page_number header,
       (header_space_tree_page_number header + 1) % 4294967296]
    else []

/-- A space tree page that is no leaf page and no parent page (flags root and space
tree), with a header only. -/
def example_plain_space_tree_page (page_number : Nat) : Page :=
  example_page page_number 0x0021 [{ data := [], size := 0, flags := 0 }]

/-- The pages of a tree whose root page 1 has the space tree pages 0x40 and 0x41 and
one child entry, which points to page 0x40. -/
def example_shared_space_tree_pages : List (Nat × Page) :=
  [(1, example_page 1 0x0005 [example_header 1 0x40, example_child_value 0x40]),
   (0x40, example_plain_space_tree_page 0x40),
   (0x41, example_plain_space_tree_page 0x41)]

/-- A leaf page value of 1 byte without key type: its key size field lies half
behind the value, and the bytes 1, 2, 2 behind it in the page buffer. -/
def example_one_byte_value : PageValue :=
  { data := [0, 0, 1, 2, 2], size := 1, flags := 0 }

/-- A parent page value of 2 bytes without key type and with an empty key: it has no
room for a child page number; the bytes 7, 0, 0, 0 lie behind it in the page
buffer. -/
def example_value_without_child_page_number : PageValue :=
  { data := [0, 0, 7, 0, 0, 0], size := 2, flags := 0 }

/-! ## Page handles -/

/-- The page handles that are open after a sequence of events, the last one read
first, given those that were open before it; `none` when a page is freed that is
not the last one read and still open. -/
def open_pages : List Event → List Nat → Option (List Nat)
  | [], stack => some stack
  | .page_read page_number :: rest, stack => open_pages rest (page_number :: stack)
  | .page_free page_number :: rest, stack =>
    match stack with
    | [] => none
    | last :: below => if last = page_number then open_pages rest below else none
  | .catalog_definition_read _ _ :: rest, stack => open_pages rest stack
  | .data_definition_read _ _ _ :: rest, stack => open_pages rest stack
  | .mismatch_in_child_page_number _ _ :: rest, stack => open_pages rest stack
  | .mismatch_in_previous_child_page_number _ _ :: rest, stack => open_pages rest stack

/-- The event is the reading or the freeing of a page. -/
def is_page_event : Event → Bool
  | .page_read _ => true
  | .page_free _ => true
  | _ => false

/-- The pages of a parent page with three entries: to the leaf page 2, to page 5,
which is no leaf page and no parent page, and to the parent page 3. -/
def example_pages_with_plain_child : List (Nat × Page) :=
  (5, example_page 5 0x0008 [example_page_value []]) :: example_tree_pages

/-! ## Page sources that differ in the sibling pointers of leaf pages -/

/-- Two pages that are the same but for the previous and the next page number, which
may differ when the page has the leaf flag. -/
def same_up_to_leaf_siblings (K : Definitions) (p1 p2 : Page) : Prop :=
  p1.page_number = p2.page_number
  ∧ p1.father_data_page_object_identifier = p2.father_data_page_object_identifier
  ∧ p1.flags = p2.flags
  ∧ p1.values = p2.values
  ∧ (has_flag p1.flags K.LIBESEDB_PAGE_FLAG_IS_LEAF = false →
    p1.previous_page_number = p2.previous_page_number
    ∧ p1.next_page_number = p2.next_page_number)

/-- Two sets of collaborators with the same decoders whose page sources have the same
pages but for the previous and the next page number of pages with the leaf flag. -/
def sources_differ_in_leaf_siblings (K : Definitions) (env1 env2 : Collaborators) : Prop :=
  env1.catalog_definition_read = env2.catalog_definition_read
  ∧ env1.data_definition_read = env2.data_definition_read
  ∧ ∀ n, (env1.page_read n = none ∧ env2.page_read n = none)
    ∨ ∃ p1 p2, env1.page_read n = some p1 ∧ env2.page_read n = some p2
      ∧ same_up_to_leaf_siblings K p1 p2

/-- The page with the previous and the next page number given, when it has the leaf
flag; the page itself otherwise. -/
def with_leaf_siblings (K : Definitions) (previous_page_number next_page_number : Nat)
    (page : Page) : Page :=
  if has_flag page.flags K.LIBESEDB_PAGE_FLAG_IS_LEAF then
    { page with previous_page_number := previous_page_number
                next_page_number := next_page_number }
  else page

/-- The pages listed with the previous page number 8 and the next page number 9 in
the pages that have the leaf flag. -/
def example_pages_with_leaf_siblings (pages : List (Nat × Page)) : List (Nat × Page) :=
  pages.map (fun entry => (entry.1, with_leaf_siblings esedb_definitions 8 9 entry.2))

/-- The pages of a parent page 1 with two leaf pages 2 and 4. -/
def example_two_leaf_pages : List (Nat × Page) :=
  [(2, example_page 2 0x0002 [example_page_value [], example_page_value [7]]),
   (4, example_page 4 0x0002 [example_page_value [], example_page_value [9]])]

/-! ## The records of a table definition and its table record -/

/-- The state while the records of a call are processed one after the other: the
local `table_definition` of the leaf page function (a position in the table
definition list), the page tree, and whether a record has failed. -/
structure RecordState where
  table_definition : Option Nat
  page_tree : PageTree
  failed : Bool
deriving DecidableEq, Repr

/-- The state after the record of one event.  Nothing is processed behind a record
that has failed.  A page that is read starts with the local `table_definition` NULL
(line 1759: every call of the leaf page function is for the page read last).  A
catalog decoder call whose record is decoded is treated by `read_catalog_definition`,
a row decoder call whose row is decoded appends the row to the value definition
list; a decoder call that fails, and a record that is refused, is the failing step.
The other events process no record. -/
def spec_process_event (K : Definitions) (env : Collaborators) (s : RecordState)
    (e : Event) : RecordState :=
  if s.failed then s
  else
    match e with
    | .page_read _ => { s with table_definition := none }
    | .catalog_definition_read data size =>
      match env.catalog_definition_read data size with
      | none => { s with failed := true }
      | some catalog_definition =>
        match read_catalog_definition K catalog_definition s.table_definition s.page_tree with
        | .error _ => { s with failed := true }
        | .ok (table_definition, page_tree) =>
          { table_definition := table_definition, page_tree := page_tree, failed := false }
    | .data_definition_read columns data size =>
      match env.data_definition_read columns data size with
      | none => { s with failed := true }
      | some data_definition =>
        { s with
          page_tree :=
            { s.page_tree with
              value_definition_list :=
                s.page_tree.value_definition_list ++ [data_definition] } }
    | _ => s

/-- The state after the records of a sequence of events, in order. -/
def spec_process_events (K : Definitions) (env : Collaborators) (events : List Event)
    (s : RecordState) : RecordState :=
  events.foldl (spec_process_event K env) s

/-- The registry produced by the records that the events of a call name, processed
in order into the page tree `page_tree` up to the first record that fails. -/
def spec_registry (K : Definitions) (env : Collaborators) (events : List Event)
    (page_tree : PageTree) : PageTree :=
  (spec_process_events K env events
    { table_definition := none, page_tree := page_tree, failed := false }).page_tree

/-- The page tree of a step is the one that the records of its events produce from
`page_tree` with the local `table_definition`, and no record has failed when the
step has the result 1. -/
def registry_replayed (K : Definitions) (env : Collaborators) (table_definition : Option Nat)
    (page_tree : PageTree) (step : Step) : Prop :=
  ∃ table_definition' failed,
    spec_process_events K env step.events
        { table_definition := table_definition, page_tree := page_tree, failed := false }
      = { table_definition := table_definition', page_tree := step.page_tree,
          failed := failed }
    ∧ (step.result = .ok → failed = false)

/-- The pages of a tree whose root page 1 has one child, the leaf page 2, which
holds the table record [1, 2, 2] and behind it a value whose key does not fit. -/
def example_failing_leaf_child_pages : List (Nat × Page) :=
  [(1, example_page 1 0x0005 [example_header 0 0, example_child_value 2]),
   (2, example_page 2 0x0002
      [example_page_value [], example_page_value [1, 2, 2], example_overlong_key_value])]

/-! ## The nesting of the calls -/

/-- The deepest nesting of calls of the three functions
`libesedb_page_tree_read_child_pages`, `libesedb_page_tree_read_parent_page_values`
and `libesedb_page_tree_read_leaf_page_values` that the step for one child page makes
(lines 1189-1343): 1 for the call of the leaf page function on a child page with the
leaf flag, which calls none of the three; the nesting of the call of the parent page
function (`parent_nesting`) on a child page with the parent flag; 0 when none of
them is called. -/
def read_child_page_nesting (K : Definitions) (env : Collaborators)
    (parent_nesting : Page → PageTree → Nat) (page : Page) (child_page_number : Nat)
    (page_tree : PageTree) : Nat :=
  match env.page_read child_page_number with
  | none => 0
  | some child_page =>
    if page.father_data_page_object_identifier
        ≠ child_page.father_data_page_object_identifier then
      0
    else if has_flag child_page.flags K.LIBESEDB_PAGE_FLAG_IS_LEAF then
      1
    else if has_flag child_page.flags K.LIBESEDB_PAGE_FLAG_IS_PARENT then
      parent_nesting child_page page_tree
    else
      0

/-- The deepest nesting of calls of the three functions in the `for` loop of
`libesedb_page_tree_read_child_pages` (lines 1068-1344) over the page values that
remain: the largest nesting among the child page steps that the loop makes, which
are those of `read_child_pages_loop`. -/
def read_child_pages_loop_nesting (K : Definitions) (env : Collaborators)
    (parent_walk : Page → PageTree → Step) (parent_nesting : Page → PageTree → Nat)
    (flags : Nat) (page : Page) : List PageValue → Nat → Nat → Nat → PageTree → Nat
  | [], _, _, _, _ => 0
  | page_value :: rest, page_value_iterator, previous_child_page_number,
      previous_next_child_page_number, page_tree =>
    match read_page_key page_value with
    | none => 0
    | some key =>
      let child_page_number := endian_little_convert_32bit key.page_value_data
      if child_page_number ≥ 0x117f02 then
        read_child_pages_loop_nesting K env parent_walk parent_nesting flags page rest
          (page_value_iterator + 1) previous_child_page_number
          previous_next_child_page_number page_tree
      else
        let child := read_child_page K env parent_walk flags page page_value_iterator
          previous_child_page_number previous_next_child_page_number child_page_number
          page_tree
        let locals := next_child_locals K env previous_child_page_number
          previous_next_child_page_number child_page_number
        let nesting := read_child_page_nesting K env parent_nesting page child_page_number
          page_tree
        match child.result with
        | .ok =>
          max nesting
            (read_child_pages_loop_nesting K env parent_walk parent_nesting flags page rest
              (page_value_iterator + 1) locals.1 locals.2 child.page_tree)
        | _ => nesting

/-- The deepest nesting of calls of the three functions in a call of
`libesedb_page_tree_read_child_pages` (lines 996-1351): the call itself and what its
loop nests. -/
def libesedb_page_tree_read_child_pages_nesting (K : Definitions) (env : Collaborators)
    (parent_walk : Page → PageTree → Step) (parent_nesting : Page → PageTree → Nat)
    (flags : Nat) (page : Page) (page_tree : PageTree) : Nat :=
  1 + read_child_pages_loop_nesting K env parent_walk parent_nesting flags page
    (page.values.drop 1) 1 0 0 page_tree

/-- The deepest nesting of calls of the three functions in a call of
`libesedb_page_tree_read_parent_page_values` (lines 835-991): the call itself, and
what the call of `libesedb_page_tree_read_child_pages` nests when the checks in
front of it pass.  The first argument bounds the number of nested parent pages as in
`libesedb_page_tree_read_parent_page_values`; of a call that exhausts the bound the
call itself is counted. -/
def libesedb_page_tree_read_parent_page_values_nesting (K : Definitions)
    (env : Collaborators) : Nat → Nat → Page → PageTree → Nat
  | 0, _, _, _ => 1
  | fuel + 1, flags, page, page_tree =>
    if has_flag page.flags K.LIBESEDB_PAGE_FLAG_IS_PARENT = false then 1
    else if has_unsupported_flags page.flags (parent_supported_flags K) then 1
    else if page.previous_page_number ≠ 0 then 1
    else if page.next_page_number ≠ 0 then 1
    else
      match libesedb_page_get_value page 0 with
      | none => 1
      | some _ =>
        1 + libesedb_page_tree_read_child_pages_nesting K env
          (libesedb_page_tree_read_parent_page_values K env fuel flags)
          (libesedb_page_tree_read_parent_page_values_nesting K env fuel flags) flags page
          page_tree

/-- The deepest nesting of calls of the three functions in a call of
`libesedb_page_tree_read_father_data_page_values` (lines 437-830), which is none of
the three: what its call of `libesedb_page_tree_read_child_pages` nests, when it
gets there. -/
def libesedb_page_tree_read_father_data_page_values_nesting (K : Definitions)
    (env : Collaborators) (fuel : Nat) (flags : Nat) (page : Page)
    (page_tree : PageTree) : Nat :=
  if has_flag page.flags K.LIBESEDB_PAGE_FLAG_IS_ROOT = false then 0
  else if has_unsupported_flags page.flags (father_data_page_supported_flags K) then 0
  else if page.previous_page_number ≠ 0 then 0
  else if page.next_page_number ≠ 0 then 0
  else
    match libesedb_page_get_value page 0 with
    | none => 0
    | some header =>
      let space_tree_page_number := header_space_tree_page_number header
      let child_pages := libesedb_page_tree_read_child_pages_nesting K env
        (libesedb_page_tree_read_parent_page_values K env fuel flags)
        (libesedb_page_tree_read_parent_page_values_nesting K env fuel flags) flags page
        page_tree
      if header_extent_space header > 0 then
        if space_tree_page_number = 0 ∧ space_tree_page_number ≥ 0xff000000 then 0
        else
          match (read_space_tree_page K env page space_tree_page_number page_tree).result with
          | .ok =>
            match (read_space_tree_page K env page
                ((space_tree_page_number + 1) % 4294967296) page_tree).result with
            | .ok => child_pages
            | _ => 0
          | _ => 0
      else
        child_pages

/-- The deepest nesting of calls of the three functions in a call of
`libesedb_page_tree_read` (lines 308-432): 1 for the call of the leaf page function
on a root page with the leaf flag, what the father data page function nests on a
root page with the root flag, 0 otherwise. -/
def libesedb_page_tree_read_nesting (K : Definitions) (env : Collaborators) (fuel : Nat)
    (page_tree : PageTree) (father_data_page_number : Nat) (flags : Nat) : Nat :=
  match env.page_read father_data_page_number with
  | none => 0
  | some page =>
    if has_flag page.flags K.LIBESEDB_PAGE_FLAG_IS_LEAF then 1
    else if has_flag page.flags K.LIBESEDB_PAGE_FLAG_IS_ROOT then
      libesedb_page_tree_read_father_data_page_values_nesting K env fuel flags page page_tree
    else 0

/-- The number of pages on the longest path from a page down through child entries,
followed at most `depth` levels down: the page itself, and below it the child pages,
of which those that are parent pages (no leaf flag, parent flag) have their own
child pages below them. -/
def spec_tree_levels (K : Definitions) (env : Collaborators) : Nat → Page → Nat
  | 0, _ => 1
  | depth + 1, page =>
    1 + ((spec_child_pages env page).map (fun child =>
      if has_flag child.flags K.LIBESEDB_PAGE_FLAG_IS_LEAF then 1
      else if has_flag child.flags K.LIBESEDB_PAGE_FLAG_IS_PARENT then
        spec_tree_levels K env depth child
      else 1)).foldr max 0

/-! # Theorems -/

/-! ## The lookup by identifier -/

/-- The loop does not find an identifier that no element carries, when every
element has its table catalog definition. -/
theorem lookup_loop_not_found (identifier : Nat) (l : List TableDefinition)
    (h : ∀ t ∈ l, ∃ d, t.table_catalog_definition = some d ∧ d.identifier ≠ identifier)
    (i : Nat) :
    get_table_definition_by_identifier_loop identifier l i = (0, none) := by
  induction l generalizing i with
  | nil => rfl
  | cons t rest ih =>
    obtain ⟨d, hd, hne⟩ := h t (List.mem_cons_self _ _)
    simp only [get_table_definition_by_identifier_loop, hd, hne, if_false]
    exact ih (fun u hu => h u (List.mem_cons_of_mem _ hu)) (i + 1)

/-- The loop finds the element behind a run of elements that have their table
catalog definition and another identifier. -/
theorem lookup_loop_found (identifier : Nat) (l rest : List TableDefinition)
    (t : TableDefinition) (c : CatalogDefinition)
    (ht : t.table_catalog_definition = some c) (hc : c.identifier = identifier)
    (h : ∀ u ∈ l, ∃ d, u.table_catalog_definition = some d ∧ d.identifier ≠ identifier)
    (i : Nat) :
    get_table_definition_by_identifier_loop identifier (l ++ t :: rest) i
      = (1, some (i + l.length)) := by
  induction l generalizing i with
  | nil => simp [get_table_definition_by_identifier_loop, ht, hc]
  | cons u us ih =>
    obtain ⟨d, hd, hne⟩ := h u (List.mem_cons_self _ _)
    have hrest := ih (fun v hv => h v (List.mem_cons_of_mem _ hv)) (i + 1)
    simp only [List.cons_append, get_table_definition_by_identifier_loop, hd, hne, if_false,
      List.append_eq, hrest, List.length_cons]
    congr 2
    omega

/-- The loop fails at an element without table catalog definition when no element in
front of it carries the identifier. -/
theorem lookup_loop_error (identifier : Nat) (l rest : List TableDefinition)
    (t : TableDefinition) (ht : t.table_catalog_definition = none)
    (h : ∀ u ∈ l, ∀ d, u.table_catalog_definition = some d → d.identifier ≠ identifier)
    (i : Nat) :
    (get_table_definition_by_identifier_loop identifier (l ++ t :: rest) i).1 = -1 := by
  induction l generalizing i with
  | nil => simp [get_table_definition_by_identifier_loop, ht]
  | cons u us ih =>
    have hrest := ih (fun v hv => h v (List.mem_cons_of_mem _ hv)) (i + 1)
    cases hu : u.table_catalog_definition with
    | none => simp [get_table_definition_by_identifier_loop, hu]
    | some d =>
      have hne := h u (List.mem_cons_self _ _) d hu
      simp only [List.cons_append, get_table_definition_by_identifier_loop, hu, hne, if_false,
        List.append_eq, hrest]

/-- C7, as the source has it: on a table definition list whose elements all have a
table catalog definition with an identifier other than that of `T`, the lookup of
the identifier of `T` returns 0 and NULL, and once `T` is appended it returns 1 and
`T`, the element at the end of the list. -/
theorem C7_lookup_after_append (page_tree : PageTree) (T : TableDefinition)
    (c : CatalogDefinition) (hT : T.table_catalog_definition = some c)
    (h : ∀ u ∈ page_tree.table_definition_list,
      ∃ d, u.table_catalog_definition = some d ∧ d.identifier ≠ c.identifier) :
    libesedb_page_tree_get_table_definition_by_identifier page_tree c.identifier = (0, none)
    ∧ libesedb_page_tree_get_table_definition_by_identifier
        { page_tree with table_definition_list := page_tree.table_definition_list ++ [T] }
        c.identifier = (1, some page_tree.table_definition_list.length)
    ∧ (page_tree.table_definition_list ++ [T])[page_tree.table_definition_list.length]?
        = some T := by
  refine ⟨lookup_loop_not_found _ _ h 0, ?_, ?_⟩
  · have := lookup_loop_found c.identifier page_tree.table_definition_list [] T c hT rfl h 0
    simpa [libesedb_page_tree_get_table_definition_by_identifier] using this
  · simp

/-- C7 at a concrete list: one table with identifier 7 is registered, a table with
identifier 5 is appended and found. -/
theorem C7_lookup_after_append_witness :
    libesedb_page_tree_get_table_definition_by_identifier
        { empty_page_tree with table_definition_list := [example_table_definition 7 7 []] } 5
      = (0, none)
    ∧ libesedb_page_tree_get_table_definition_by_identifier
        { empty_page_tree with
          table_definition_list :=
            [example_table_definition 7 7 []] ++ [example_table_definition 5 5 []] } 5
      = (1, some 1)
    ∧ ([example_table_definition 7 7 []] ++ [example_table_definition 5 5 []])[1]?
      = some (example_table_definition 5 5 []) :=
  C7_lookup_after_append
    { empty_page_tree with table_definition_list := [example_table_definition 7 7 []] }
    (example_table_definition 5 5 [])
    { type := 1, father_data_page_object_identifier := 5, identifier := 5, payload := [] }
    rfl (by simp [empty_page_tree, example_table_definition])

/-- C7 fails as stated: after a second table definition with identifier 5 is
appended, the lookup of 5 returns the first one (position 0), which is another
table definition than the one appended; and on a list that never got a table
definition with identifier 5 but holds an element without table catalog definition
the lookup returns -1, not 0. -/
theorem C7_counterexample :
    libesedb_page_tree_get_table_definition_by_identifier
        { empty_page_tree with
          table_definition_list :=
            [example_table_definition 5 5 []] ++ [example_table_definition 5 9 []] } 5
      = (1, some 0)
    ∧ ([example_table_definition 5 5 []] ++ [example_table_definition 5 9 []])[0]?
      ≠ some (example_table_definition 5 9 [])
    ∧ libesedb_page_tree_get_table_definition_by_identifier
        { empty_page_tree with table_definition_list := [table_definition_without_record] } 5
      = (-1, some 0) := by
  decide

/-- C8, as the source has it: when the table definition list holds an element
without table catalog definition and no element in front of it carries the
identifier asked for, the lookup returns -1. -/
theorem C8_lookup_error (page_tree : PageTree) (identifier : Nat)
    (front back : List TableDefinition) (t : TableDefinition)
    (hlist : page_tree.table_definition_list = front ++ t :: back)
    (ht : t.table_catalog_definition = none)
    (hfront : ∀ u ∈ front, ∀ d, u.table_catalog_definition = some d →
      d.identifier ≠ identifier) :
    (libesedb_page_tree_get_table_definition_by_identifier page_tree identifier).1 = -1 := by
  unfold libesedb_page_tree_get_table_definition_by_identifier
  rw [hlist]
  exact lookup_loop_error identifier front back t ht hfront 0

/-- C8 at a concrete list: a table with identifier 7, then an element without table
catalog definition; the lookup of 5 fails. -/
theorem C8_lookup_error_witness :
    (libesedb_page_tree_get_table_definition_by_identifier
      { empty_page_tree with
        table_definition_list :=
          [example_table_definition 7 7 []] ++ table_definition_without_record :: [] } 5).1
      = -1 :=
  C8_lookup_error
    { empty_page_tree with
      table_definition_list :=
        [example_table_definition 7 7 []] ++ table_definition_without_record :: [] }
    5 [example_table_definition 7 7 []] [] table_definition_without_record rfl rfl
    (by simp [example_table_definition])

/-- C8 fails as stated: the list holds an element without table catalog definition,
and the lookup of 5 returns 1 with the table definition in front of it. -/
theorem C8_counterexample :
    table_definition_without_record ∈
        [example_table_definition 5 5 [], table_definition_without_record]
    ∧ libesedb_page_tree_get_table_definition_by_identifier
        { empty_page_tree with
          table_definition_list :=
            [example_table_definition 5 5 [], table_definition_without_record] } 5
      = (1, some 0) := by
  decide

/-! ## The root page of `libesedb_page_tree_read` -/

/-- C2, evaluated: page 1 is a leaf page whose value 1 has a key size that exceeds
the value.  The leaf page function fails, and `libesedb_page_tree_read` returns -1
with the root page read and not freed: one page handle is outstanding. -/
theorem C2_root_page_outstanding_after_failure :
    (libesedb_page_tree_read esedb_definitions
        (example_collaborators
          [(1, example_page 1 0x0002 [example_page_value [], example_overlong_key_value])])
        0 empty_page_tree 1 0).result = .error .runtime_value_out_of_range
    ∧ (libesedb_page_tree_read esedb_definitions
        (example_collaborators
          [(1, example_page 1 0x0002 [example_page_value [], example_overlong_key_value])])
        0 empty_page_tree 1 0).events = [.page_read 1]
    ∧ outstanding_pages
        (libesedb_page_tree_read esedb_definitions
          (example_collaborators
            [(1, example_page 1 0x0002 [example_page_value [], example_overlong_key_value])])
          0 empty_page_tree 1 0).events = 1 := by
  decide

/-! ## The leaf page function -/

/-- C5: in the loop of the leaf page function on a primary data page in catalog
mode, a decoded catalog definition of type column, index or long value for which
the local table definition differs (or is NULL) and whose lookup by father data
page object identifier does not return 1 ends the function with an error; the page
tree is the one before the record, and the only event is the decoder call. -/
theorem C5_failed_lookup_is_fatal (K : Definitions) (env : Collaborators) (flags : Nat)
    (page : Page) (page_value : PageValue) (rest : List PageValue)
    (table_definition : Option Nat) (page_tree : PageTree) (key : PageKey)
    (catalog_definition : CatalogDefinition)
    (hindex : has_flag page.flags K.LIBESEDB_PAGE_FLAG_IS_INDEX = false)
    (hlong : has_flag page.flags K.LIBESEDB_PAGE_FLAG_IS_LONG_VALUE = false)
    (hmode : has_flag flags K.LIBESEDB_PAGE_TREE_FLAG_READ_CATALOG_DEFINITION = true)
    (hkey : read_page_key page_value = some key)
    (hread : env.catalog_definition_read key.page_value_data key.page_value_size
      = some catalog_definition)
    (htype : catalog_definition.type = K.LIBESEDB_CATALOG_DEFINITION_TYPE_COLUMN
      ∨ catalog_definition.type = K.LIBESEDB_CATALOG_DEFINITION_TYPE_INDEX
      ∨ catalog_definition.type = K.LIBESEDB_CATALOG_DEFINITION_TYPE_LONG_VALUE)
    (hdiffers : table_definition_differs page_tree table_definition catalog_definition = true)
    (hlookup : (libesedb_page_tree_get_table_definition_by_identifier page_tree
      catalog_definition.father_data_page_object_identifier).1 ≠ 1) :
    read_leaf_page_values_loop K env flags page (page_value :: rest) table_definition page_tree
      = { result := .error .runtime_value_missing
          page_tree := page_tree
          events := [.catalog_definition_read key.page_value_data key.page_value_size] } := by
  have hnodup := K.catalog_types_nodup
  have htable : catalog_definition.type ≠ K.LIBESEDB_CATALOG_DEFINITION_TYPE_TABLE := by
    simp only [List.nodup_cons, List.mem_cons, List.mem_singleton, not_or] at hnodup
    rcases htype with h | h | h <;> rw [h] <;> intro heq <;> simp_all
  have hcat : read_catalog_definition K catalog_definition table_definition page_tree
      = .error .runtime_value_missing := by
    unfold read_catalog_definition
    rw [if_pos ⟨htable, hdiffers⟩]
    split
    · rename_i found heq
      rw [heq] at hlookup
      exact absurd rfl hlookup
    · rfl
  simp [read_leaf_page_values_loop, hkey, hindex, hlong, hmode, hread, hcat]

/-- C5 at a concrete page: the only record is a column for father data page object
identifier 9 and no table is registered. -/
theorem C5_failed_lookup_is_fatal_witness :
    read_leaf_page_values_loop esedb_definitions (example_collaborators []) 1
        (example_page 1 0x0002 []) (example_page_value [2, 9, 1] :: []) none empty_page_tree
      = { result := .error .runtime_value_missing
          page_tree := empty_page_tree
          events := [.catalog_definition_read [2, 9, 1] 3] } :=
  C5_failed_lookup_is_fatal esedb_definitions (example_collaborators []) 1
    (example_page 1 0x0002 []) (example_page_value [2, 9, 1]) [] none empty_page_tree
    { page_key_type := 0, page_key_size := 0, page_value_data := [2, 9, 1],
      page_value_size := 3 }
    { type := 2, father_data_page_object_identifier := 9, identifier := 1, payload := [] }
    (by decide) (by decide) (by decide) (by decide) (by decide) (Or.inl rfl) (by decide)
    (by decide)

/-- C10, as the source has it: on a leaf page that passes the flag checks and has
neither the index nor the long value flag, in row mode and without a bound table
definition, when value 1 has a key that fits, the leaf page function fails at
value 1 with "missing table definition"; no decoder is called and the page tree is
unchanged. -/
theorem C10_row_mode_without_table_definition (K : Definitions) (env : Collaborators)
    (flags : Nat) (page : Page) (page_tree : PageTree) (header page_value : PageValue)
    (rest : List PageValue) (key : PageKey)
    (hleaf : has_flag page.flags K.LIBESEDB_PAGE_FLAG_IS_LEAF = true)
    (hsupported : has_unsupported_flags page.flags (leaf_supported_flags K) = false)
    (hindex : has_flag page.flags K.LIBESEDB_PAGE_FLAG_IS_INDEX = false)
    (hlong : has_flag page.flags K.LIBESEDB_PAGE_FLAG_IS_LONG_VALUE = false)
    (hmode : has_flag flags K.LIBESEDB_PAGE_TREE_FLAG_READ_CATALOG_DEFINITION = false)
    (hbound : page_tree.table_definition = none)
    (hvalues : page.values = header :: page_value :: rest)
    (hkey : read_page_key page_value = some key) :
    libesedb_page_tree_read_leaf_page_values K env flags page page_tree
      = { result := .error .runtime_value_missing, page_tree := page_tree, events := [] } := by
  simp [libesedb_page_tree_read_leaf_page_values, libesedb_page_get_value, hleaf, hsupported,
    hvalues, read_leaf_page_values_loop, hkey, hindex, hlong, hmode, hbound]

/-- C10 at a concrete page: a primary data leaf page with one record, read in row
mode by a page tree without bound table definition. -/
theorem C10_row_mode_without_table_definition_witness :
    libesedb_page_tree_read_leaf_page_values esedb_definitions (example_collaborators []) 0
        (example_page 1 0x0002 [example_page_value [], example_page_value [7, 7]])
        empty_page_tree
      = { result := .error .runtime_value_missing, page_tree := empty_page_tree,
          events := [] } :=
  C10_row_mode_without_table_definition esedb_definitions (example_collaborators []) 0
    (example_page 1 0x0002 [example_page_value [], example_page_value [7, 7]])
    empty_page_tree (example_page_value []) (example_page_value [7, 7]) []
    { page_key_type := 0, page_key_size := 0, page_value_data := [7, 7], page_value_size := 2 }
    (by decide) (by decide) (by decide) (by decide) (by decide) rfl rfl (by decide)

/-- C10 fails as stated: value 2 of this primary data leaf page has a key that fits,
the page tree has no bound table definition and the mode is row mode, and the leaf
page function fails with "page key size exceeds page value size" (at value 1), not
with "missing table definition". -/
theorem C10_counterexample :
    read_page_key (example_page_value [7, 7]) ≠ none
    ∧ (libesedb_page_tree_read_leaf_page_values esedb_definitions (example_collaborators []) 0
        (example_page 1 0x0002
          [example_page_value [], example_overlong_key_value, example_page_value [7, 7]])
        empty_page_tree).result = .error .runtime_value_out_of_range := by
  decide


/-! ## The catalog branch of the leaf page function -/

@[simp] theorem Step.after_result (events : List Event) (s : Step) :
    (s.after events).result = s.result := rfl

@[simp] theorem Step.after_page_tree (events : List Event) (s : Step) :
    (s.after events).page_tree = s.page_tree := rfl

@[simp] theorem Step.after_events (events : List Event) (s : Step) :
    (s.after events).events = events ++ s.events := rfl

/-- A write through a pointer to a list element leaves every projection of the list
elements that the write preserves. -/
theorem update_table_definition_map {β : Type} (g : TableDefinition → β)
    (f : TableDefinition → TableDefinition) (l : List TableDefinition) (i : Nat)
    (h : ∀ t, l[i]? = some t → g (f t) = g t) :
    (update_table_definition f l i).map g = l.map g := by
  induction l generalizing i with
  | nil => rfl
  | cons t rest ih =>
    cases i with
    | zero =>
      simp only [update_table_definition, List.map_cons]
      rw [h t (by simp)]
    | succ n =>
      simp only [update_table_definition, List.map_cons]
      rw [ih n (fun u hu => h u (by simpa using hu))]

/-- The elements of the list after a write through a pointer to a list element. -/
theorem update_table_definition_getElem? (f : TableDefinition → TableDefinition)
    (l : List TableDefinition) (i k : Nat) :
    (update_table_definition f l i)[k]? = if k = i then l[k]?.map f else l[k]? := by
  induction l generalizing i k with
  | nil => simp [update_table_definition]
  | cons t rest ih =>
    cases i with
    | zero =>
      cases k with
      | zero => simp [update_table_definition]
      | succ m => simp [update_table_definition]
    | succ n =>
      cases k with
      | zero => simp [update_table_definition]
      | succ m => simp [update_table_definition, ih n m]

/-- The table records after a write that keeps the table catalog definition. -/
theorem table_records_update (f : TableDefinition → TableDefinition)
    (page_tree : PageTree) (i : Nat)
    (h : ∀ t, page_tree.table_definition_list[i]? = some t →
      (f t).table_catalog_definition = t.table_catalog_definition) :
    table_records
        { page_tree with
          table_definition_list := update_table_definition f page_tree.table_definition_list i }
      = table_records page_tree := by
  have hmap := update_table_definition_map (fun t => t.table_catalog_definition) f
    page_tree.table_definition_list i h
  have hid : ∀ l : List TableDefinition,
      l.filterMap (fun t => t.table_catalog_definition)
        = (l.map (fun t => t.table_catalog_definition)).filterMap id := by
    intro l
    rw [List.filterMap_map]
    rfl
  show List.filterMap _ (update_table_definition f page_tree.table_definition_list i) = _
  rw [hid, hmap, ← hid]
  rfl

/-- The `switch` on the catalog definition type: a table record is appended to the
table records, the other types leave them, and the other fields of the page tree
are not written. -/
theorem add_catalog_definition_ok (K : Definitions) (r : CatalogDefinition)
    (td td' : Option Nat) (page_tree page_tree' : PageTree)
    (h : add_catalog_definition K r td page_tree = .ok (td', page_tree')) :
    table_records page_tree'
        = table_records page_tree
          ++ (if r.type = K.LIBESEDB_CATALOG_DEFINITION_TYPE_TABLE then [r] else [])
    ∧ page_tree'.value_definition_list = page_tree.value_definition_list
    ∧ page_tree'.table_definition = page_tree.table_definition := by
  unfold add_catalog_definition at h
  split_ifs at h with h1 h2 h3 h4
  · injection h with h
    injection h with _ h
    subst h
    simp [table_records, libesedb_table_definition_new, h1]
  · cases td with
    | none => simp at h
    | some i =>
      simp only [Except.ok.injEq, Prod.mk.injEq] at h
      obtain ⟨_, h⟩ := h
      subst h
      refine ⟨?_, rfl, rfl⟩
      rw [table_records_update
        (fun t => libesedb_table_definition_append_column_catalog_definition t r) page_tree i
        (fun _ _ => rfl)]
      simp [h1]
  · cases td with
    | none => simp at h
    | some i =>
      simp only [Except.ok.injEq, Prod.mk.injEq] at h
      obtain ⟨_, h⟩ := h
      subst h
      refine ⟨?_, rfl, rfl⟩
      rw [table_records_update
        (fun t => libesedb_table_definition_append_index_catalog_definition t r) page_tree i
        (fun _ _ => rfl)]
      simp [h1]
  · cases td with
    | none => simp at h
    | some i =>
      simp only at h
      cases hcur : page_tree.table_definition_list[i]? with
      | none => simp [hcur] at h
      | some current =>
        rw [hcur] at h
        simp only [libesedb_table_definition_set_long_value_catalog_definition] at h
        cases hlv : current.long_value_catalog_definition with
        | some _ => simp [hlv] at h
        | none =>
          simp only [hlv, Except.ok.injEq, Prod.mk.injEq] at h
          obtain ⟨_, h⟩ := h
          subst h
          refine ⟨?_, rfl, rfl⟩
          rw [table_records_update
            (fun _ => { current with long_value_catalog_definition := some r }) page_tree i
            (fun t ht => by
              rw [hcur] at ht
              injection ht with ht
              subst ht
              rfl)]
          simp [h1]

/-- The `switch` on the catalog definition type does not fail on a table record. -/
theorem add_catalog_definition_error (K : Definitions) (r : CatalogDefinition)
    (td : Option Nat) (page_tree : PageTree) (kind : ErrorKind)
    (h : add_catalog_definition K r td page_tree = .error kind) :
    r.type ≠ K.LIBESEDB_CATALOG_DEFINITION_TYPE_TABLE := by
  intro htype
  simp [add_catalog_definition, htype] at h

/-- The treatment of a decoded catalog definition is the `switch` for some local
table definition, when it succeeds. -/
theorem read_catalog_definition_ok (K : Definitions) (r : CatalogDefinition)
    (td : Option Nat) (page_tree : PageTree) (out : Option Nat × PageTree)
    (h : read_catalog_definition K r td page_tree = .ok out) :
    ∃ td0, add_catalog_definition K r td0 page_tree = .ok out := by
  unfold read_catalog_definition at h
  split_ifs at h with hc
  · split at h
    · exact ⟨_, h⟩
    · simp at h
  · exact ⟨_, h⟩

/-- The treatment of a decoded catalog definition does not fail on a table record. -/
theorem read_catalog_definition_error (K : Definitions) (r : CatalogDefinition)
    (td : Option Nat) (page_tree : PageTree) (kind : ErrorKind)
    (h : read_catalog_definition K r td page_tree = .error kind) :
    r.type ≠ K.LIBESEDB_CATALOG_DEFINITION_TYPE_TABLE := by
  intro htype
  unfold read_catalog_definition at h
  rw [if_neg (fun hc => hc.1 htype)] at h
  exact add_catalog_definition_error K r td page_tree kind h htype

/-- The loop of the leaf page function: the table records it leaves are those it
found followed by the table records among the catalog definitions it decoded. -/
theorem read_leaf_page_values_loop_table_records (K : Definitions) (env : Collaborators)
    (flags : Nat) (page : Page) (values : List PageValue) (td : Option Nat)
    (page_tree : PageTree) :
    table_records (read_leaf_page_values_loop K env flags page values td page_tree).page_tree
      = table_records page_tree
        ++ (decoded_catalog_definitions env
            (read_leaf_page_values_loop K env flags page values td page_tree).events).filter
          (fun r => r.type == K.LIBESEDB_CATALOG_DEFINITION_TYPE_TABLE) := by
  induction values generalizing td page_tree with
  | nil => simp [read_leaf_page_values_loop, decoded_catalog_definitions]
  | cons v rest ih =>
    unfold read_leaf_page_values_loop
    split
    · simp [decoded_catalog_definitions]
    · rename_i key hkey
      split_ifs with hindex hlong hmode
      · exact ih td page_tree
      · exact ih td page_tree
      · split
        · rename_i hread
          simp [decoded_catalog_definitions, hread]
        · rename_i r hread
          split
          · rename_i kind hcat
            have hne := read_catalog_definition_error K r td page_tree kind hcat
            simp [decoded_catalog_definitions, hread, hne]
          · rename_i td' page_tree' hcat
            obtain ⟨td0, hadd⟩ := read_catalog_definition_ok K r td page_tree _ hcat
            obtain ⟨hrec, _, _⟩ := add_catalog_definition_ok K r td0 td' page_tree page_tree' hadd
            simp only [Step.after_page_tree, Step.after_events, ih td' page_tree', hrec]
            by_cases htype : r.type = K.LIBESEDB_CATALOG_DEFINITION_TYPE_TABLE
            · simp [decoded_catalog_definitions, hread, htype]
            · simp [decoded_catalog_definitions, hread, htype]
      · split
        · simp [decoded_catalog_definitions]
        · split
          · simp [decoded_catalog_definitions]
          · simp only [Step.after_page_tree, Step.after_events, ih]
            simp [decoded_catalog_definitions, table_records]


/-- C6, as the source has it: every table record that the leaf page function decodes
is registered, whether or not its father data page object identifier is registered
already.  The table records of the list after the function are those before it
followed by the decoded table records, in order; so the list has no two table
records with the same father data page object identifier exactly when those before
it and the decoded table records have none. -/
theorem C6_every_table_record_is_registered (K : Definitions) (env : Collaborators)
    (flags : Nat) (page : Page) (page_tree : PageTree) :
    table_records (libesedb_page_tree_read_leaf_page_values K env flags page page_tree).page_tree
      = table_records page_tree
        ++ (decoded_catalog_definitions env
            (libesedb_page_tree_read_leaf_page_values K env flags page page_tree).events).filter
          (fun r => r.type == K.LIBESEDB_CATALOG_DEFINITION_TYPE_TABLE)
    ∧ (((table_records
          (libesedb_page_tree_read_leaf_page_values K env flags page page_tree).page_tree).map
          (fun r => r.father_data_page_object_identifier)).Nodup
      ↔ ((table_records page_tree
          ++ (decoded_catalog_definitions env
              (libesedb_page_tree_read_leaf_page_values K env flags page page_tree).events).filter
            (fun r => r.type == K.LIBESEDB_CATALOG_DEFINITION_TYPE_TABLE)).map
          (fun r => r.father_data_page_object_identifier)).Nodup) := by
  have hmain : table_records
      (libesedb_page_tree_read_leaf_page_values K env flags page page_tree).page_tree
      = table_records page_tree
        ++ (decoded_catalog_definitions env
            (libesedb_page_tree_read_leaf_page_values K env flags page page_tree).events).filter
          (fun r => r.type == K.LIBESEDB_CATALOG_DEFINITION_TYPE_TABLE) := by
    unfold libesedb_page_tree_read_leaf_page_values
    split_ifs
    · simp [decoded_catalog_definitions]
    · simp [decoded_catalog_definitions]
    · split
      · simp [decoded_catalog_definitions]
      · exact read_leaf_page_values_loop_table_records K env flags page _ none page_tree
  exact ⟨hmain, by rw [hmain]⟩

/-- C6 fails as stated: a primary data leaf page with two table records that both
have father data page object identifier 2, read in catalog mode into an empty page
tree, leaves two table definitions with that identifier. -/
theorem C6_counterexample :
    (libesedb_page_tree_read_leaf_page_values esedb_definitions (example_collaborators []) 1
        (example_page 1 0x0002
          [example_page_value [], example_page_value [1, 2, 2], example_page_value [1, 2, 2]])
        empty_page_tree).result = .ok
    ∧ (libesedb_page_tree_read_leaf_page_values esedb_definitions (example_collaborators []) 1
        (example_page 1 0x0002
          [example_page_value [], example_page_value [1, 2, 2], example_page_value [1, 2, 2]])
        empty_page_tree).page_tree.table_definition_list
      = [example_table_definition 2 2 [], example_table_definition 2 2 []] := by
  decide

/-- The types column, index and long value are not the type table. -/
theorem Definitions.types_ne_table (K : Definitions) :
    K.LIBESEDB_CATALOG_DEFINITION_TYPE_COLUMN ≠ K.LIBESEDB_CATALOG_DEFINITION_TYPE_TABLE
    ∧ K.LIBESEDB_CATALOG_DEFINITION_TYPE_INDEX ≠ K.LIBESEDB_CATALOG_DEFINITION_TYPE_TABLE
    ∧ K.LIBESEDB_CATALOG_DEFINITION_TYPE_LONG_VALUE
      ≠ K.LIBESEDB_CATALOG_DEFINITION_TYPE_TABLE := by
  have h := K.catalog_types_nodup
  simp only [List.nodup_cons, List.mem_cons, not_or] at h
  exact ⟨fun e => h.1.1 e.symm, fun e => h.1.2.1 e.symm, fun e => h.1.2.2.1 e.symm⟩

/-- The step of the loop of the leaf page function for a value of a primary data
page that decodes to a catalog definition, in catalog mode. -/
theorem read_leaf_page_values_loop_catalog (K : Definitions) (env : Collaborators)
    (flags : Nat) (page : Page) (page_value : PageValue) (rest : List PageValue)
    (td : Option Nat) (page_tree : PageTree) (r : CatalogDefinition)
    (hindex : has_flag page.flags K.LIBESEDB_PAGE_FLAG_IS_INDEX = false)
    (hlong : has_flag page.flags K.LIBESEDB_PAGE_FLAG_IS_LONG_VALUE = false)
    (hmode : has_flag flags K.LIBESEDB_PAGE_TREE_FLAG_READ_CATALOG_DEFINITION = true)
    (hdecode : decodes_to env page_value r) :
    ∃ events,
      read_leaf_page_values_loop K env flags page (page_value :: rest) td page_tree
        = match read_catalog_definition K r td page_tree with
          | .error kind => { result := .error kind, page_tree := page_tree, events := events }
          | .ok (td', page_tree') =>
            (read_leaf_page_values_loop K env flags page rest td' page_tree').after events := by
  obtain ⟨key, hkey, hread⟩ := hdecode
  refine ⟨[.catalog_definition_read key.page_value_data key.page_value_size], ?_⟩
  simp only [read_leaf_page_values_loop, hkey, hindex, hlong, hmode, hread, if_true]
  simp only [Bool.false_eq_true, if_false]

/-- The loop of the leaf page function over column records of the table that the
local table definition points to. -/
theorem read_leaf_page_values_loop_columns (K : Definitions) (env : Collaborators)
    (flags : Nat) (page : Page) (T : CatalogDefinition)
    (hindex : has_flag page.flags K.LIBESEDB_PAGE_FLAG_IS_INDEX = false)
    (hlong : has_flag page.flags K.LIBESEDB_PAGE_FLAG_IS_LONG_VALUE = false)
    (hmode : has_flag flags K.LIBESEDB_PAGE_TREE_FLAG_READ_CATALOG_DEFINITION = true)
    (values : List PageValue) (columns : List CatalogDefinition)
    (hdecode : List.Forall₂ (decodes_to env) values columns)
    (hcolumns : ∀ c ∈ columns, c.type = K.LIBESEDB_CATALOG_DEFINITION_TYPE_COLUMN
      ∧ c.father_data_page_object_identifier = T.father_data_page_object_identifier)
    (front : List CatalogDefinition) (page_tree : PageTree)
    (hlist : page_tree.table_definition_list
      = [{ table_catalog_definition := some T, column_catalog_definition_list := front,
           index_catalog_definition_list := [], long_value_catalog_definition := none }]) :
    (read_leaf_page_values_loop K env flags page values (some 0) page_tree).result = .ok
    ∧ (read_leaf_page_values_loop K env flags page values (some 0) page_tree).page_tree
      = { page_tree with
          table_definition_list :=
            [{ table_catalog_definition := some T
               column_catalog_definition_list := front ++ columns
               index_catalog_definition_list := []
               long_value_catalog_definition := none }] } := by
  induction hdecode generalizing front page_tree with
  | nil =>
    simp only [read_leaf_page_values_loop, List.append_nil, true_and]
    rw [← hlist]
  | @cons v c vs cs hvc _ ih =>
    obtain ⟨hctype, hcfdp⟩ := hcolumns c (List.mem_cons_self _ _)
    obtain ⟨events, hstep⟩ := read_leaf_page_values_loop_catalog K env flags page v vs (some 0)
      page_tree c hindex hlong hmode hvc
    have hne := (Definitions.types_ne_table K).1
    have hcat : read_catalog_definition K c (some 0) page_tree
        = .ok (some 0,
          { page_tree with
            table_definition_list :=
              [{ table_catalog_definition := some T
                 column_catalog_definition_list := front ++ [c]
                 index_catalog_definition_list := []
                 long_value_catalog_definition := none }] }) := by
      simp [read_catalog_definition, table_definition_differs, hlist, hcfdp,
        add_catalog_definition, hctype, hne, update_table_definition,
        libesedb_table_definition_append_column_catalog_definition]
    rw [hstep, hcat]
    have := ih (fun d hd => hcolumns d (List.mem_cons_of_mem _ hd)) (front ++ [c])
      { page_tree with
        table_definition_list :=
          [{ table_catalog_definition := some T
             column_catalog_definition_list := front ++ [c]
             index_catalog_definition_list := []
             long_value_catalog_definition := none }] } rfl
    simpa using this

/-- C4: on a primary data leaf page that passes the flag checks, in catalog mode and
with an empty table definition list, when the values behind the header decode to a
table record `T` followed by column records that carry the father data page object
identifier of `T`, the leaf page function succeeds and leaves exactly one table
definition: its table record is `T`, its columns are those records in page order,
it has no index and no long value. -/
theorem C4_one_table_with_its_columns (K : Definitions) (env : Collaborators) (flags : Nat)
    (page : Page) (page_tree : PageTree) (header : PageValue) (values : List PageValue)
    (T : CatalogDefinition) (columns : List CatalogDefinition)
    (hleaf : has_flag page.flags K.LIBESEDB_PAGE_FLAG_IS_LEAF = true)
    (hsupported : has_unsupported_flags page.flags (leaf_supported_flags K) = false)
    (hindex : has_flag page.flags K.LIBESEDB_PAGE_FLAG_IS_INDEX = false)
    (hlong : has_flag page.flags K.LIBESEDB_PAGE_FLAG_IS_LONG_VALUE = false)
    (hmode : has_flag flags K.LIBESEDB_PAGE_TREE_FLAG_READ_CATALOG_DEFINITION = true)
    (hempty : page_tree.table_definition_list = [])
    (hvalues : page.values = header :: values)
    (hdecode : List.Forall₂ (decodes_to env) values (T :: columns))
    (hT : T.type = K.LIBESEDB_CATALOG_DEFINITION_TYPE_TABLE)
    (hcolumns : ∀ c ∈ columns, c.type = K.LIBESEDB_CATALOG_DEFINITION_TYPE_COLUMN
      ∧ c.father_data_page_object_identifier = T.father_data_page_object_identifier) :
    (libesedb_page_tree_read_leaf_page_values K env flags page page_tree).result = .ok
    ∧ (libesedb_page_tree_read_leaf_page_values K env flags page page_tree).page_tree
      = { page_tree with
          table_definition_list :=
            [{ table_catalog_definition := some T
               column_catalog_definition_list := columns
               index_catalog_definition_list := []
               long_value_catalog_definition := none }] } := by
  cases hdecode with
  | @cons v _ vs _ hvT hrest =>
    obtain ⟨events, hstep⟩ := read_leaf_page_values_loop_catalog K env flags page v vs none
      page_tree T hindex hlong hmode hvT
    have hcat : read_catalog_definition K T none page_tree
        = .ok (some 0,
          { page_tree with
            table_definition_list := [libesedb_table_definition_new T] }) := by
      simp [read_catalog_definition, add_catalog_definition, hT, hempty]
    have hloop := read_leaf_page_values_loop_columns K env flags page T hindex hlong hmode vs
      columns hrest hcolumns []
      { page_tree with table_definition_list := [libesedb_table_definition_new T] } rfl
    simp only [libesedb_page_tree_read_leaf_page_values, hleaf, hsupported, hvalues,
      libesedb_page_get_value]
    simp only [Bool.true_eq_false, if_false, Bool.false_eq_true, List.getElem?_cons_zero,
      List.drop_succ_cons, List.drop_zero, hstep, hcat, Step.after_result,
      Step.after_page_tree]
    simpa using hloop

/-- C4 at a concrete page (scenario S1): the table record with identifier 2 and the
two column records with identifiers 5 and 6 of father data page object
identifier 2. -/
theorem C4_one_table_with_its_columns_witness :
    (libesedb_page_tree_read_leaf_page_values esedb_definitions (example_collaborators []) 1
        (example_page 1 0x0002
          [example_page_value [], example_page_value [1, 2, 2], example_page_value [2, 2, 5],
            example_page_value [2, 2, 6]])
        empty_page_tree).result = .ok
    ∧ (libesedb_page_tree_read_leaf_page_values esedb_definitions (example_collaborators []) 1
        (example_page 1 0x0002
          [example_page_value [], example_page_value [1, 2, 2], example_page_value [2, 2, 5],
            example_page_value [2, 2, 6]])
        empty_page_tree).page_tree
      = { empty_page_tree with
          table_definition_list :=
            [{ table_catalog_definition :=
                 some { type := 1, father_data_page_object_identifier := 2, identifier := 2,
                        payload := [] }
               column_catalog_definition_list :=
                 [{ type := 2, father_data_page_object_identifier := 2, identifier := 5,
                    payload := [] },
                  { type := 2, father_data_page_object_identifier := 2, identifier := 6,
                    payload := [] }]
               index_catalog_definition_list := []
               long_value_catalog_definition := none }] } :=
  C4_one_table_with_its_columns esedb_definitions (example_collaborators []) 1
    (example_page 1 0x0002
      [example_page_value [], example_page_value [1, 2, 2], example_page_value [2, 2, 5],
        example_page_value [2, 2, 6]])
    empty_page_tree (example_page_value [])
    [example_page_value [1, 2, 2], example_page_value [2, 2, 5], example_page_value [2, 2, 6]]
    { type := 1, father_data_page_object_identifier := 2, identifier := 2, payload := [] }
    [{ type := 2, father_data_page_object_identifier := 2, identifier := 5, payload := [] },
      { type := 2, father_data_page_object_identifier := 2, identifier := 6, payload := [] }]
    (by decide) (by decide) (by decide) (by decide) (by decide) rfl rfl
    (List.Forall₂.cons
      ⟨{ page_key_type := 0, page_key_size := 0, page_value_data := [1, 2, 2],
         page_value_size := 3 }, by decide, by decide⟩
      (List.Forall₂.cons
        ⟨{ page_key_type := 0, page_key_size := 0, page_value_data := [2, 2, 5],
           page_value_size := 3 }, by decide, by decide⟩
        (List.Forall₂.cons
          ⟨{ page_key_type := 0, page_key_size := 0, page_value_data := [2, 2, 6],
             page_value_size := 3 }, by decide, by decide⟩
          List.Forall₂.nil)))
    rfl (by decide)


/-! ## Tables and their columns -/

/-- Two positions of a list whose elements have pairwise distinct keys are equal
when their elements have the same key. -/
theorem index_eq_of_nodup_map {α β : Type} (g : α → β) (l : List α)
    (h : (l.map g).Nodup) (k j : Nat) (a b : α) (hk : l[k]? = some a) (hj : l[j]? = some b)
    (hg : g a = g b) : k = j := by
  rw [List.nodup_iff_getElem?_ne_getElem?] at h
  have hklt : k < l.length := by
    rcases Nat.lt_or_ge k l.length with h1 | h1
    · exact h1
    · rw [List.getElem?_eq_none h1] at hk
      cases hk
  have hjlt : j < l.length := by
    rcases Nat.lt_or_ge j l.length with h1 | h1
    · exact h1
    · rw [List.getElem?_eq_none h1] at hj
      cases hj
  rcases Nat.lt_trichotomy k j with hlt | heq | hgt
  · exact absurd (by simp [List.getElem?_map, hk, hj, hg])
      (h k j hlt (by simpa using hjlt))
  · exact heq
  · exact absurd (by simp [List.getElem?_map, hk, hj, hg])
      (h j k hgt (by simpa using hklt))

/-- The lookup loop returns 1 only with a list element whose table record has the
identifier asked for. -/
theorem lookup_loop_one (identifier : Nat) (l : List TableDefinition) (i : Nat)
    (found : Option Nat)
    (h : get_table_definition_by_identifier_loop identifier l i = (1, found)) :
    ∃ j t T, found = some (i + j) ∧ l[j]? = some t ∧ t.table_catalog_definition = some T
      ∧ T.identifier = identifier := by
  induction l generalizing i with
  | nil => simp [get_table_definition_by_identifier_loop] at h
  | cons u us ih =>
    unfold get_table_definition_by_identifier_loop at h
    cases hu : u.table_catalog_definition with
    | none => simp [hu] at h
    | some d =>
      simp only [hu] at h
      split_ifs at h with hd
      · simp only [Prod.mk.injEq, true_and] at h
        exact ⟨0, u, d, by simp [← h], by simp, hu, hd⟩
      · obtain ⟨j, t, T, hf, hj, ht, hT⟩ := ih (i + 1) h
        exact ⟨j + 1, t, T, by rw [hf]; congr 1; omega, by simpa using hj, ht, hT⟩

/-- The lookup loop returns 1 when every element has its table record and one of
them has the identifier asked for. -/
theorem lookup_loop_total (identifier : Nat) (l : List TableDefinition) (i : Nat)
    (hall : ∀ t ∈ l, ∃ d, t.table_catalog_definition = some d)
    (hex : ∃ t ∈ l, ∃ d, t.table_catalog_definition = some d ∧ d.identifier = identifier) :
    ∃ found, get_table_definition_by_identifier_loop identifier l i = (1, found) := by
  induction l generalizing i with
  | nil =>
    obtain ⟨t, ht, _⟩ := hex
    cases ht
  | cons u us ih =>
    obtain ⟨d, hd⟩ := hall u (List.mem_cons_self _ _)
    unfold get_table_definition_by_identifier_loop
    simp only [hd]
    split_ifs with hid
    · exact ⟨_, rfl⟩
    · apply ih (i + 1) (fun t ht => hall t (List.mem_cons_of_mem _ ht))
      obtain ⟨t, ht, e, he, hie⟩ := hex
      rcases List.mem_cons.mp ht with rfl | hmem
      · rw [hd] at he
        injection he with he
        subst he
        exact absurd hie hid
      · exact ⟨t, hmem, e, he, hie⟩

/-- The tables with their columns after a table record that no column record in
front of it names. -/
theorem tables_with_columns_table (K : Definitions) (front : List CatalogDefinition)
    (r : CatalogDefinition) (hr : r.type = K.LIBESEDB_CATALOG_DEFINITION_TYPE_TABLE)
    (hnone : ∀ c ∈ front, c.type = K.LIBESEDB_CATALOG_DEFINITION_TYPE_COLUMN →
      c.father_data_page_object_identifier ≠ r.identifier) :
    tables_with_columns K (front ++ [r]) = tables_with_columns K front ++ [(some r, [])] := by
  have hne := (Definitions.types_ne_table K).1
  have hcol : ∀ identifier, is_column_record_of K identifier r = false := by
    intro identifier
    simp [is_column_record_of, hr, hne.symm]
  have hfront : front.filter (is_column_record_of K r.identifier) = [] := by
    rw [List.filter_eq_nil_iff]
    intro c hc hcol
    simp only [is_column_record_of, Bool.and_eq_true, beq_iff_eq] at hcol
    exact hnone c hc hcol.1 hcol.2
  simp [tables_with_columns, List.filter_append, is_table_record, hr, hcol, hfront]

/-- The tables with their columns after a record that is neither a table nor a
column record. -/
theorem tables_with_columns_other (K : Definitions) (front : List CatalogDefinition)
    (r : CatalogDefinition) (hr : r.type ≠ K.LIBESEDB_CATALOG_DEFINITION_TYPE_TABLE)
    (hc : r.type ≠ K.LIBESEDB_CATALOG_DEFINITION_TYPE_COLUMN) :
    tables_with_columns K (front ++ [r]) = tables_with_columns K front := by
  simp [tables_with_columns, List.filter_append, is_table_record, is_column_record_of, hr, hc]

/-- The tables with their columns after a column record: the record is added to the
columns of the tables whose identifier it names. -/
theorem tables_with_columns_column (K : Definitions) (front : List CatalogDefinition)
    (r : CatalogDefinition) (hc : r.type = K.LIBESEDB_CATALOG_DEFINITION_TYPE_COLUMN) :
    tables_with_columns K (front ++ [r])
      = (front.filter (is_table_record K)).map
          (fun T => (some T, front.filter (is_column_record_of K T.identifier)
            ++ (if T.identifier = r.father_data_page_object_identifier then [r] else []))) := by
  have hne := (Definitions.types_ne_table K).1
  have hr : is_table_record K r = false := by simp [is_table_record, hc, hne]
  simp only [tables_with_columns, List.filter_append, List.filter_cons, hr, List.filter_nil,
    List.append_nil, Bool.false_eq_true, if_false]
  apply List.map_congr_left
  intro T _
  by_cases hT : T.identifier = r.father_data_page_object_identifier
  · simp [is_column_record_of, hc, hT]
  · simp [is_column_record_of, hc, hT, Ne.symm hT]


/-- A catalog definition that is not a table record and is treated with success goes
to a list element that has a table record, and either the table record has the
father data page object identifier of the catalog definition (the local table
definition was kept) or its identifier is that number (it was looked up). -/
theorem read_catalog_definition_target (K : Definitions) (r : CatalogDefinition)
    (td : Option Nat) (page_tree : PageTree) (out : Option Nat × PageTree)
    (h : read_catalog_definition K r td page_tree = .ok out)
    (hr : r.type ≠ K.LIBESEDB_CATALOG_DEFINITION_TYPE_TABLE) :
    ∃ j t T, add_catalog_definition K r (some j) page_tree = .ok out
      ∧ page_tree.table_definition_list[j]? = some t
      ∧ t.table_catalog_definition = some T
      ∧ (T.father_data_page_object_identifier = r.father_data_page_object_identifier
        ∨ T.identifier = r.father_data_page_object_identifier) := by
  unfold read_catalog_definition at h
  by_cases hdiff : table_definition_differs page_tree td r = true
  · rw [if_pos ⟨hr, hdiff⟩] at h
    split at h
    · rename_i found hlookup
      obtain ⟨j, t, T, hf, hj, ht, hT⟩ := lookup_loop_one _ _ _ _ hlookup
      rw [hf, Nat.zero_add] at h
      exact ⟨j, t, T, h, hj, ht, Or.inr hT⟩
    · simp at h
  · rw [if_neg (fun hc => hdiff hc.2)] at h
    unfold table_definition_differs at hdiff
    cases td with
    | none => simp at hdiff
    | some j =>
      simp only at hdiff
      cases hj : page_tree.table_definition_list[j]? with
      | none => simp [hj] at hdiff
      | some t =>
        simp only [hj] at hdiff
        cases ht : t.table_catalog_definition with
        | none => simp [ht] at hdiff
        | some T =>
          simp only [ht, bne_iff_ne, ne_eq, not_not] at hdiff
          exact ⟨j, t, T, h, hj, ht, Or.inl hdiff⟩

/-- One record of a well-formed sequence: when the table definitions are the tables
of the records in front with their columns, they are so again with the record. -/
theorem read_catalog_definition_step (K : Definitions) (front : List CatalogDefinition)
    (r : CatalogDefinition) (td td' : Option Nat) (page_tree page_tree' : PageTree)
    (hnodup : (((front ++ [r]).filter (is_table_record K)).map (fun T => T.identifier)).Nodup)
    (hid : ∀ T ∈ front, T.type = K.LIBESEDB_CATALOG_DEFINITION_TYPE_TABLE →
      T.identifier = T.father_data_page_object_identifier)
    (hfront : ∀ c ∈ front, c.type = K.LIBESEDB_CATALOG_DEFINITION_TYPE_COLUMN →
      ∃ T ∈ front, T.type = K.LIBESEDB_CATALOG_DEFINITION_TYPE_TABLE
        ∧ T.identifier = c.father_data_page_object_identifier)
    (hinv : page_tree.table_definition_list.map table_and_columns = tables_with_columns K front)
    (h : read_catalog_definition K r td page_tree = .ok (td', page_tree')) :
    page_tree'.table_definition_list.map table_and_columns
      = tables_with_columns K (front ++ [r]) := by
  obtain ⟨hct, hit, hlt⟩ := Definitions.types_ne_table K
  by_cases hr : r.type = K.LIBESEDB_CATALOG_DEFINITION_TYPE_TABLE
  · -- a table record
    have hnone : ∀ c ∈ front, c.type = K.LIBESEDB_CATALOG_DEFINITION_TYPE_COLUMN →
        c.father_data_page_object_identifier ≠ r.identifier := by
      intro c hc hctype heq
      obtain ⟨T, hT, hTt, hTi⟩ := hfront c hc hctype
      have hrt : is_table_record K r = true := by simp [is_table_record, hr]
      simp only [List.filter_append, List.filter_cons, hrt, if_true, List.filter_nil,
        List.map_append, List.map_cons, List.map_nil] at hnodup
      have hdisj := (List.nodup_append.mp hnodup).2.2
      have hmem : T.identifier ∈ (front.filter (is_table_record K)).map
          (fun T => T.identifier) :=
        List.mem_map.mpr ⟨T, List.mem_filter.mpr ⟨hT, by simp [is_table_record, hTt]⟩, rfl⟩
      exact hdisj hmem (by simp [hTi, heq])
    rw [tables_with_columns_table K front r hr hnone, ← hinv]
    simp only [read_catalog_definition, hr, ne_eq, not_true_eq_false, false_and, if_false,
      add_catalog_definition, if_true, Except.ok.injEq, Prod.mk.injEq] at h
    rw [← h.2]
    simp [table_and_columns, libesedb_table_definition_new]
  · -- another record: it goes to the list element `j`
    obtain ⟨j, t, T, hadd, hj, ht, hT⟩ := read_catalog_definition_target K r td page_tree _ h hr
    have hrf : is_table_record K r = false := by simp [is_table_record, hr]
    have hk : ∀ k : Nat, (page_tree.table_definition_list[k]?).map table_and_columns
        = ((front.filter (is_table_record K))[k]?).map
          (fun T => (some T, front.filter (is_column_record_of K T.identifier))) := by
      intro k
      have := congrArg
        (fun l : List (Option CatalogDefinition × List CatalogDefinition) => l[k]?) hinv
      simpa [tables_with_columns, List.getElem?_map] using this
    have hTj : (front.filter (is_table_record K))[j]? = some T := by
      have := hk j
      rw [hj] at this
      cases hfj : (front.filter (is_table_record K))[j]? with
      | none => simp [hfj] at this
      | some T' =>
        simp only [hfj, Option.map_some', Option.some.injEq, table_and_columns, ht,
          Prod.mk.injEq] at this
        rw [this.1]
    have hTmem := List.mem_filter.mp (List.getElem?_mem hTj)
    have hTtype : T.type = K.LIBESEDB_CATALOG_DEFINITION_TYPE_TABLE := by
      simpa [is_table_record] using hTmem.2
    have hTid : T.identifier = r.father_data_page_object_identifier := by
      rcases hT with hT | hT
      · rw [hid T hTmem.1 hTtype, hT]
      · exact hT
    have hnodup' : ((front.filter (is_table_record K)).map (fun T => T.identifier)).Nodup := by
      simpa [List.filter_append, hrf] using hnodup
    unfold add_catalog_definition at hadd
    rw [if_neg hr] at hadd
    split_ifs at hadd with hc hi hl
    · -- a column record
      simp only [Except.ok.injEq, Prod.mk.injEq] at hadd
      rw [← hadd.2, tables_with_columns_column K front r hc]
      apply List.ext_getElem?
      intro k
      rw [List.getElem?_map, List.getElem?_map, update_table_definition_getElem?]
      have hkk := hk k
      by_cases hkj : k = j
      · subst hkj
        rw [if_pos rfl, hj, hTj]
        simp only [Option.map_some', Option.some.injEq, if_pos hTid]
        rw [hj, hTj] at hkk
        simp only [Option.map_some', Option.some.injEq, table_and_columns,
          Prod.mk.injEq] at hkk
        simp [table_and_columns, libesedb_table_definition_append_column_catalog_definition,
          hkk.1, hkk.2]
      · rw [if_neg hkj]
        cases hfk : (front.filter (is_table_record K))[k]? with
        | none => simpa [hfk] using hkk
        | some T' =>
          rw [hfk] at hkk
          rw [hkk]
          have hne : T'.identifier ≠ r.father_data_page_object_identifier := by
            intro heq
            exact hkj (index_eq_of_nodup_map (fun T => T.identifier) _ hnodup' k j T' T hfk hTj
              (heq.trans hTid.symm))
          simp [hne]
    · -- an index record
      simp only [Except.ok.injEq, Prod.mk.injEq] at hadd
      rw [← hadd.2, tables_with_columns_other K front r hr hc, ← hinv]
      exact update_table_definition_map table_and_columns _ _ j (fun _ _ => rfl)
    · -- a long value record
      simp only [hj] at hadd
      unfold libesedb_table_definition_set_long_value_catalog_definition at hadd
      cases hlv : t.long_value_catalog_definition with
      | some _ => simp [hlv] at hadd
      | none =>
        simp only [hlv, Except.ok.injEq, Prod.mk.injEq] at hadd
        rw [← hadd.2, tables_with_columns_other K front r hr hc, ← hinv]
        exact update_table_definition_map table_and_columns _ _ j (fun u hu => by
          rw [hj] at hu
          injection hu with hu
          subst hu
          rfl)


/-- A table record, and a column record that comes after the table record it names,
are treated with success when the table definitions are the tables of the records
in front. -/
theorem read_catalog_definition_total (K : Definitions) (front : List CatalogDefinition)
    (r : CatalogDefinition) (td : Option Nat) (page_tree : PageTree)
    (hinv : page_tree.table_definition_list.map table_and_columns = tables_with_columns K front)
    (hr : r.type = K.LIBESEDB_CATALOG_DEFINITION_TYPE_TABLE
      ∨ (r.type = K.LIBESEDB_CATALOG_DEFINITION_TYPE_COLUMN
        ∧ ∃ T ∈ front, T.type = K.LIBESEDB_CATALOG_DEFINITION_TYPE_TABLE
          ∧ T.identifier = r.father_data_page_object_identifier)) :
    ∃ out, read_catalog_definition K r td page_tree = .ok out := by
  obtain ⟨hct, _, _⟩ := Definitions.types_ne_table K
  rcases hr with hr | ⟨hc, T, hT, hTt, hTi⟩
  · simp [read_catalog_definition, add_catalog_definition, hr]
  · have hrt : r.type ≠ K.LIBESEDB_CATALOG_DEFINITION_TYPE_TABLE := by
      rw [hc]
      exact hct
    have hcolumn : ∀ j, ∃ out, add_catalog_definition K r (some j) page_tree = .ok out := by
      intro j
      unfold add_catalog_definition
      rw [if_neg hrt, if_pos hc]
      exact ⟨_, rfl⟩
    unfold read_catalog_definition
    by_cases hdiff : table_definition_differs page_tree td r = true
    · rw [if_pos ⟨hrt, hdiff⟩]
      have hall : ∀ t ∈ page_tree.table_definition_list,
          ∃ d, t.table_catalog_definition = some d := by
        intro t ht
        have hmem : table_and_columns t ∈ tables_with_columns K front := by
          rw [← hinv]
          exact List.mem_map_of_mem _ ht
        simp only [tables_with_columns, List.mem_map] at hmem
        obtain ⟨T', _, hT'⟩ := hmem
        exact ⟨T', by simpa [table_and_columns] using (congrArg Prod.fst hT').symm⟩
      have hex : ∃ t ∈ page_tree.table_definition_list,
          ∃ d, t.table_catalog_definition = some d
            ∧ d.identifier = r.father_data_page_object_identifier := by
        have hmem : (some T, front.filter (is_column_record_of K T.identifier))
            ∈ page_tree.table_definition_list.map table_and_columns := by
          rw [hinv]
          exact List.mem_map.mpr
            ⟨T, List.mem_filter.mpr ⟨hT, by simp [is_table_record, hTt]⟩, rfl⟩
        obtain ⟨t, ht, hte⟩ := List.mem_map.mp hmem
        exact ⟨t, ht, T, by simpa [table_and_columns] using congrArg Prod.fst hte, hTi⟩
      obtain ⟨found, hfound⟩ := lookup_loop_total r.father_data_page_object_identifier
        page_tree.table_definition_list 0 hall hex
      obtain ⟨j, _, _, hf, _⟩ := lookup_loop_one _ _ _ _ hfound
      simp only [libesedb_page_tree_get_table_definition_by_identifier, hfound, hf]
      exact hcolumn _
    · rw [if_neg (fun hcond => hdiff hcond.2)]
      cases td with
      | none => simp [table_definition_differs] at hdiff
      | some j => exact hcolumn j

/-- The records of a well-formed sequence one after the other: the table definitions
stay the tables of the records treated with their columns, and a sequence of table
and column records is treated with success. -/
theorem read_catalog_definitions_spec (K : Definitions) (records : List CatalogDefinition) :
    ∀ (front : List CatalogDefinition) (td : Option Nat) (page_tree : PageTree),
      (((front ++ records).filter (is_table_record K)).map (fun T => T.identifier)).Nodup →
      (∀ T ∈ front ++ records, T.type = K.LIBESEDB_CATALOG_DEFINITION_TYPE_TABLE →
        T.identifier = T.father_data_page_object_identifier) →
      columns_follow_tables K front records = true →
      (∀ c ∈ front, c.type = K.LIBESEDB_CATALOG_DEFINITION_TYPE_COLUMN →
        ∃ T ∈ front, T.type = K.LIBESEDB_CATALOG_DEFINITION_TYPE_TABLE
          ∧ T.identifier = c.father_data_page_object_identifier) →
      page_tree.table_definition_list.map table_and_columns = tables_with_columns K front →
      (∀ out, read_catalog_definitions K records td page_tree = .ok out →
        out.2.table_definition_list.map table_and_columns
          = tables_with_columns K (front ++ records))
      ∧ ((∀ r ∈ records, r.type = K.LIBESEDB_CATALOG_DEFINITION_TYPE_TABLE
            ∨ r.type = K.LIBESEDB_CATALOG_DEFINITION_TYPE_COLUMN) →
          ∃ out, read_catalog_definitions K records td page_tree = .ok out) := by
  induction records with
  | nil =>
    intro front td page_tree _ _ _ _ hinv
    refine ⟨fun out h => ?_, fun _ => ⟨_, rfl⟩⟩
    simp only [read_catalog_definitions, Except.ok.injEq] at h
    rw [← h, List.append_nil]
    exact hinv
  | cons r rest ih =>
    intro front td page_tree hnodup hid hfollow hfront hinv
    have happ : front ++ r :: rest = (front ++ [r]) ++ rest := by simp
    simp only [columns_follow_tables, Bool.and_eq_true, Bool.or_eq_true, bne_iff_ne, ne_eq,
      List.any_eq_true, beq_iff_eq] at hfollow
    obtain ⟨hhead, hfollow'⟩ := hfollow
    have hnodup1 : (((front ++ [r]).filter (is_table_record K)).map
        (fun T => T.identifier)).Nodup := by
      rw [happ, List.filter_append, List.map_append] at hnodup
      exact (List.nodup_append.mp hnodup).1
    have hfront' : ∀ c ∈ front ++ [r], c.type = K.LIBESEDB_CATALOG_DEFINITION_TYPE_COLUMN →
        ∃ T ∈ front ++ [r], T.type = K.LIBESEDB_CATALOG_DEFINITION_TYPE_TABLE
          ∧ T.identifier = c.father_data_page_object_identifier := by
      intro c hc hctype
      rcases List.mem_append.mp hc with hc | hc
      · obtain ⟨T, hT, h1, h2⟩ := hfront c hc hctype
        exact ⟨T, List.mem_append_left _ hT, h1, h2⟩
      · rw [List.mem_singleton] at hc
        subst hc
        rcases hhead with hne | ⟨T, hT, hTt, hTi⟩
        · exact absurd hctype hne
        · exact ⟨T, List.mem_append_left _ hT, by simpa [is_table_record] using hTt, hTi⟩
    have hstep : ∀ td' page_tree',
        read_catalog_definition K r td page_tree = .ok (td', page_tree') →
        page_tree'.table_definition_list.map table_and_columns
          = tables_with_columns K (front ++ [r]) :=
      fun td' page_tree' h =>
        read_catalog_definition_step K front r td td' page_tree page_tree' hnodup1
          (fun T hT => hid T (List.mem_append_left _ hT)) hfront hinv h
    constructor
    · intro out h
      unfold read_catalog_definitions at h
      cases hcat : read_catalog_definition K r td page_tree with
      | error kind => simp [hcat] at h
      | ok out1 =>
        obtain ⟨td', page_tree'⟩ := out1
        simp only [hcat] at h
        rw [happ]
        exact (ih (front ++ [r]) td' page_tree' (happ ▸ hnodup) (happ ▸ hid) hfollow' hfront'
          (hstep td' page_tree' hcat)).1 out h
    · intro hall
      have hr : r.type = K.LIBESEDB_CATALOG_DEFINITION_TYPE_TABLE
          ∨ (r.type = K.LIBESEDB_CATALOG_DEFINITION_TYPE_COLUMN
            ∧ ∃ T ∈ front, T.type = K.LIBESEDB_CATALOG_DEFINITION_TYPE_TABLE
              ∧ T.identifier = r.father_data_page_object_identifier) := by
        rcases hall r (List.mem_cons_self _ _) with h1 | h1
        · exact Or.inl h1
        · rcases hhead with hne | ⟨T, hT, hTt, hTi⟩
          · exact absurd h1 hne
          · exact Or.inr ⟨h1, T, hT, by simpa [is_table_record] using hTt, hTi⟩
      obtain ⟨out1, hcat⟩ := read_catalog_definition_total K front r td page_tree hinv hr
      obtain ⟨td', page_tree'⟩ := out1
      unfold read_catalog_definitions
      simp only [hcat]
      exact (ih (front ++ [r]) td' page_tree' (happ ▸ hnodup) (happ ▸ hid) hfollow' hfront'
        (hstep td' page_tree' hcat)).2 (fun s hs => hall s (List.mem_cons_of_mem _ hs))

/-- The loop of the leaf page function on a primary data page in catalog mode whose
values decode to a sequence of records treats the records one after the other. -/
theorem read_leaf_page_values_loop_records (K : Definitions) (env : Collaborators)
    (flags : Nat) (page : Page)
    (hindex : has_flag page.flags K.LIBESEDB_PAGE_FLAG_IS_INDEX = false)
    (hlong : has_flag page.flags K.LIBESEDB_PAGE_FLAG_IS_LONG_VALUE = false)
    (hmode : has_flag flags K.LIBESEDB_PAGE_TREE_FLAG_READ_CATALOG_DEFINITION = true)
    (values : List PageValue) (records : List CatalogDefinition)
    (hdecode : List.Forall₂ (decodes_to env) values records) (td : Option Nat)
    (page_tree : PageTree) :
    (∀ out, read_catalog_definitions K records td page_tree = .ok out →
      (read_leaf_page_values_loop K env flags page values td page_tree).result = .ok
      ∧ (read_leaf_page_values_loop K env flags page values td page_tree).page_tree = out.2)
    ∧ ((read_leaf_page_values_loop K env flags page values td page_tree).result = .ok →
      ∃ out, read_catalog_definitions K records td page_tree = .ok out) := by
  induction hdecode generalizing td page_tree with
  | nil => simp [read_leaf_page_values_loop, read_catalog_definitions]
  | @cons v r vs rs hvr _ ih =>
    obtain ⟨events, hstep⟩ := read_leaf_page_values_loop_catalog K env flags page v vs td
      page_tree r hindex hlong hmode hvr
    rw [hstep]
    unfold read_catalog_definitions
    cases hcat : read_catalog_definition K r td page_tree with
    | error kind => simp
    | ok out1 =>
      obtain ⟨td', page_tree'⟩ := out1
      simpa using ih td' page_tree'

/-- C3: on a primary data leaf page that passes the flag checks, in catalog mode and
with an empty table definition list, when the values behind the header decode to a
well-formed sequence of catalog records (the columns of the tables in any
interleaving): if the leaf page function succeeds, the table definitions are the
table records of the sequence in order, each with exactly the column records of
the sequence that carry its identifier as father data page object identifier, in
the order of the sequence (so no column is with another table); and it succeeds
when the sequence holds table and column records only. -/
theorem C3_columns_are_with_their_table (K : Definitions) (env : Collaborators) (flags : Nat)
    (page : Page) (page_tree : PageTree) (header : PageValue) (values : List PageValue)
    (records : List CatalogDefinition)
    (hleaf : has_flag page.flags K.LIBESEDB_PAGE_FLAG_IS_LEAF = true)
    (hsupported : has_unsupported_flags page.flags (leaf_supported_flags K) = false)
    (hindex : has_flag page.flags K.LIBESEDB_PAGE_FLAG_IS_INDEX = false)
    (hlong : has_flag page.flags K.LIBESEDB_PAGE_FLAG_IS_LONG_VALUE = false)
    (hmode : has_flag flags K.LIBESEDB_PAGE_TREE_FLAG_READ_CATALOG_DEFINITION = true)
    (hempty : page_tree.table_definition_list = [])
    (hvalues : page.values = header :: values)
    (hdecode : List.Forall₂ (decodes_to env) values records)
    (hwf : well_formed_catalog K records) :
    ((libesedb_page_tree_read_leaf_page_values K env flags page page_tree).result = .ok →
      (libesedb_page_tree_read_leaf_page_values K env flags page
          page_tree).page_tree.table_definition_list.map table_and_columns
        = tables_with_columns K records)
    ∧ ((∀ r ∈ records, r.type = K.LIBESEDB_CATALOG_DEFINITION_TYPE_TABLE
          ∨ r.type = K.LIBESEDB_CATALOG_DEFINITION_TYPE_COLUMN) →
        (libesedb_page_tree_read_leaf_page_values K env flags page page_tree).result = .ok) := by
  have hwalk : libesedb_page_tree_read_leaf_page_values K env flags page page_tree
      = read_leaf_page_values_loop K env flags page values none page_tree := by
    simp [libesedb_page_tree_read_leaf_page_values, hleaf, hsupported, hvalues,
      libesedb_page_get_value]
  have hspec := read_catalog_definitions_spec K records [] none page_tree
    (by simpa using hwf.distinct_identifiers) (by simpa using hwf.identifier_eq)
    hwf.columns_follow (by simp) (by simp [hempty, tables_with_columns])
  have hlink := read_leaf_page_values_loop_records K env flags page hindex hlong hmode values
    records hdecode none page_tree
  rw [hwalk]
  constructor
  · intro hok
    obtain ⟨out, hout⟩ := hlink.2 hok
    rw [(hlink.1 out hout).2]
    simpa using hspec.1 out hout
  · intro hall
    obtain ⟨out, hout⟩ := hspec.2 hall
    exact (hlink.1 out hout).1


/-- C3 at the records of scenario S2, on a primary data leaf page that holds them. -/
theorem C3_columns_are_with_their_table_witness :
    ((libesedb_page_tree_read_leaf_page_values esedb_definitions (example_collaborators []) 1
        (example_page 1 0x0002 (example_page_value [] :: example_catalog_values))
        empty_page_tree).result = .ok →
      (libesedb_page_tree_read_leaf_page_values esedb_definitions (example_collaborators []) 1
          (example_page 1 0x0002 (example_page_value [] :: example_catalog_values))
          empty_page_tree).page_tree.table_definition_list.map table_and_columns
        = tables_with_columns esedb_definitions example_catalog_records)
    ∧ ((∀ r ∈ example_catalog_records,
          r.type = esedb_definitions.LIBESEDB_CATALOG_DEFINITION_TYPE_TABLE
          ∨ r.type = esedb_definitions.LIBESEDB_CATALOG_DEFINITION_TYPE_COLUMN) →
        (libesedb_page_tree_read_leaf_page_values esedb_definitions (example_collaborators []) 1
          (example_page 1 0x0002 (example_page_value [] :: example_catalog_values))
          empty_page_tree).result = .ok) :=
  C3_columns_are_with_their_table esedb_definitions (example_collaborators []) 1
    (example_page 1 0x0002 (example_page_value [] :: example_catalog_values))
    empty_page_tree (example_page_value []) example_catalog_values example_catalog_records
    (by decide) (by decide) (by decide) (by decide) (by decide) rfl rfl
    (List.Forall₂.cons
      ⟨{ page_key_type := 0, page_key_size := 0, page_value_data := [1, 2, 2],
         page_value_size := 3 }, by decide, by decide⟩
      (List.Forall₂.cons
        ⟨{ page_key_type := 0, page_key_size := 0, page_value_data := [2, 2, 5],
           page_value_size := 3 }, by decide, by decide⟩
        (List.Forall₂.cons
          ⟨{ page_key_type := 0, page_key_size := 0, page_value_data := [1, 3, 3],
             page_value_size := 3 }, by decide, by decide⟩
          (List.Forall₂.cons
            ⟨{ page_key_type := 0, page_key_size := 0, page_value_data := [2, 2, 6],
               page_value_size := 3 }, by decide, by decide⟩
            (List.Forall₂.cons
              ⟨{ page_key_type := 0, page_key_size := 0, page_value_data := [2, 3, 7],
                 page_value_size := 3 }, by decide, by decide⟩
              List.Forall₂.nil)))))
    ⟨by decide, by decide, by decide⟩

/-- The evaluation of scenario S2: the leaf page function succeeds, table 2 gets the
columns 5 and 6 and table 3 the column 7. -/
theorem scenario_S2_evaluated :
    (libesedb_page_tree_read_leaf_page_values esedb_definitions (example_collaborators []) 1
        (example_page 1 0x0002 (example_page_value [] :: example_catalog_values))
        empty_page_tree).result = .ok
    ∧ (libesedb_page_tree_read_leaf_page_values esedb_definitions (example_collaborators []) 1
        (example_page 1 0x0002 (example_page_value [] :: example_catalog_values))
        empty_page_tree).page_tree.table_definition_list
      = [example_table_definition 2 2
          [{ type := 2, father_data_page_object_identifier := 2, identifier := 5, payload := [] },
           { type := 2, father_data_page_object_identifier := 2, identifier := 6, payload := [] }],
         example_table_definition 3 3
          [{ type := 2, father_data_page_object_identifier := 3, identifier := 7,
             payload := [] }]] := by
  decide


/-! ## The pages that a traversal reads -/

theorem fetches_match_nil (env : Collaborators) (identifier : Nat) :
    fetches_match env identifier [] := by
  intro m hm
  cases hm

theorem fetches_match_append (env : Collaborators) (identifier : Nat) (a b : List Event)
    (ha : fetches_match env identifier a) (hb : fetches_match env identifier b) :
    fetches_match env identifier (a ++ b) := by
  intro m hm
  rcases List.mem_append.mp hm with h | h
  · exact ha m h
  · exact hb m h

/-- Events among which no page is read. -/
theorem fetches_match_of_no_read (env : Collaborators) (identifier : Nat) (a : List Event)
    (ha : ∀ m, Event.page_read m ∉ a) : fetches_match env identifier a :=
  fun m hm => absurd hm (ha m)

/-- The loop of the leaf page function reads no page. -/
theorem read_leaf_page_values_loop_no_read (K : Definitions) (env : Collaborators)
    (flags : Nat) (page : Page) (values : List PageValue) (td : Option Nat)
    (page_tree : PageTree) (m : Nat) :
    Event.page_read m ∉ (read_leaf_page_values_loop K env flags page values td page_tree).events := by
  induction values generalizing td page_tree with
  | nil => simp [read_leaf_page_values_loop]
  | cons v rest ih =>
    unfold read_leaf_page_values_loop
    split
    · simp
    · split_ifs
      · exact ih td page_tree
      · exact ih td page_tree
      · split
        · simp
        · split
          · simp
          · simpa using ih _ _
      · split
        · simp
        · split
          · simp
          · simpa using ih _ _

/-- The leaf page function reads no page. -/
theorem read_leaf_page_values_no_read (K : Definitions) (env : Collaborators)
    (flags : Nat) (page : Page) (page_tree : PageTree) (m : Nat) :
    Event.page_read m
      ∉ (libesedb_page_tree_read_leaf_page_values K env flags page page_tree).events := by
  unfold libesedb_page_tree_read_leaf_page_values
  split_ifs
  · simp
  · simp
  · split
    · simp
    · exact read_leaf_page_values_loop_no_read K env flags page _ none page_tree m

/-- The sibling-linkage messages read no page. -/
theorem child_page_messages_no_read (i a b : Nat) (child_page : Page) (m : Nat) :
    Event.page_read m ∉ child_page_messages i a b child_page := by
  unfold child_page_messages
  split_ifs <;> simp

/-- The loop over the child pages at a value whose key does not fit. -/
theorem read_child_pages_loop_out_of_range (K : Definitions) (env : Collaborators)
    (parent_walk : Page → PageTree → Step) (flags : Nat) (page : Page) (v : PageValue)
    (rest : List PageValue) (i a b : Nat) (page_tree : PageTree)
    (hkey : read_page_key v = none) :
    read_child_pages_loop K env parent_walk flags page (v :: rest) i a b page_tree
      = { result := .error .runtime_value_out_of_range, page_tree := page_tree,
          events := [] } := by
  simp only [read_child_pages_loop, hkey]

/-- The loop over the child pages at a value whose child page number is ignored. -/
theorem read_child_pages_loop_ignored (K : Definitions) (env : Collaborators)
    (parent_walk : Page → PageTree → Step) (flags : Nat) (page : Page) (v : PageValue)
    (rest : List PageValue) (i a b : Nat) (page_tree : PageTree) (key : PageKey)
    (hkey : read_page_key v = some key)
    (hskip : endian_little_convert_32bit key.page_value_data ≥ 0x117f02) :
    read_child_pages_loop K env parent_walk flags page (v :: rest) i a b page_tree
      = read_child_pages_loop K env parent_walk flags page rest (i + 1) a b page_tree := by
  simp only [read_child_pages_loop, hkey]
  rw [if_pos hskip]

/-- The loop over the child pages at a value whose child page is read with
success: the loop goes on behind it. -/
theorem read_child_pages_loop_ok (K : Definitions) (env : Collaborators)
    (parent_walk : Page → PageTree → Step) (flags : Nat) (page : Page) (v : PageValue)
    (rest : List PageValue) (i a b : Nat) (page_tree : PageTree) (key : PageKey)
    (hkey : read_page_key v = some key)
    (hskip : ¬ endian_little_convert_32bit key.page_value_data ≥ 0x117f02)
    (hchild : (read_child_page K env parent_walk flags page i a b
      (endian_little_convert_32bit key.page_value_data) page_tree).result = .ok) :
    read_child_pages_loop K env parent_walk flags page (v :: rest) i a b page_tree
      = (read_child_pages_loop K env parent_walk flags page rest (i + 1)
          (next_child_locals K env a b (endian_little_convert_32bit key.page_value_data)).1
          (next_child_locals K env a b (endian_little_convert_32bit key.page_value_data)).2
          (read_child_page K env parent_walk flags page i a b
            (endian_little_convert_32bit key.page_value_data) page_tree).page_tree).after
        (read_child_page K env parent_walk flags page i a b
          (endian_little_convert_32bit key.page_value_data) page_tree).events := by
  simp only [read_child_pages_loop, hkey]
  rw [if_neg hskip]
  simp only [hchild]

/-- The loop over the child pages at a value whose child page is not read with
success: the loop ends with the step of that child page. -/
theorem read_child_pages_loop_stop (K : Definitions) (env : Collaborators)
    (parent_walk : Page → PageTree → Step) (flags : Nat) (page : Page) (v : PageValue)
    (rest : List PageValue) (i a b : Nat) (page_tree : PageTree) (key : PageKey)
    (hkey : read_page_key v = some key)
    (hskip : ¬ endian_little_convert_32bit key.page_value_data ≥ 0x117f02)
    (hchild : (read_child_page K env parent_walk flags page i a b
      (endian_little_convert_32bit key.page_value_data) page_tree).result ≠ .ok) :
    read_child_pages_loop K env parent_walk flags page (v :: rest) i a b page_tree
      = read_child_page K env parent_walk flags page i a b
          (endian_little_convert_32bit key.page_value_data) page_tree := by
  simp only [read_child_pages_loop, hkey]
  rw [if_neg hskip]

/-- The leaf page function that succeeds is the loop over the values behind the
header. -/
theorem read_leaf_page_values_of_ok (K : Definitions) (env : Collaborators) (flags : Nat)
    (page : Page) (page_tree : PageTree)
    (hok : (libesedb_page_tree_read_leaf_page_values K env flags page page_tree).result = .ok) :
    libesedb_page_tree_read_leaf_page_values K env flags page page_tree
      = read_leaf_page_values_loop K env flags page (page.values.drop 1) none page_tree := by
  unfold libesedb_page_tree_read_leaf_page_values at hok ⊢
  by_cases h1 : has_flag page.flags K.LIBESEDB_PAGE_FLAG_IS_LEAF = false
  · rw [if_pos h1] at hok
    cases hok
  · rw [if_neg h1] at hok ⊢
    by_cases h2 : has_unsupported_flags page.flags (leaf_supported_flags K) = true
    · rw [if_pos h2] at hok
      cases hok
    · rw [if_neg h2] at hok ⊢
      cases h3 : libesedb_page_get_value page 0 with
      | none =>
        simp only [h3] at hok
        cases hok
      | some _ => rfl

/-- The parent page function that succeeds is the function for the child pages, with
one nested parent page less allowed below. -/
theorem read_parent_page_values_of_ok (K : Definitions) (env : Collaborators) (fuel : Nat)
    (flags : Nat) (page : Page) (page_tree : PageTree)
    (hok : (libesedb_page_tree_read_parent_page_values K env (fuel + 1) flags page
      page_tree).result = .ok) :
    libesedb_page_tree_read_parent_page_values K env (fuel + 1) flags page page_tree
      = libesedb_page_tree_read_child_pages K env
          (libesedb_page_tree_read_parent_page_values K env fuel flags) flags page page_tree := by
  unfold libesedb_page_tree_read_parent_page_values at hok ⊢
  by_cases h1 : has_flag page.flags K.LIBESEDB_PAGE_FLAG_IS_PARENT = false
  · rw [if_pos h1] at hok
    cases hok
  · rw [if_neg h1] at hok ⊢
    by_cases h2 : has_unsupported_flags page.flags (parent_supported_flags K) = true
    · rw [if_pos h2] at hok
      cases hok
    · rw [if_neg h2] at hok ⊢
      by_cases h3 : page.previous_page_number ≠ 0
      · rw [if_pos h3] at hok
        cases hok
      · rw [if_neg h3] at hok ⊢
        by_cases h4 : page.next_page_number ≠ 0
        · rw [if_pos h4] at hok
          cases hok
        · rw [if_neg h4] at hok ⊢
          cases h5 : libesedb_page_get_value page 0 with
          | none =>
            simp only [h5] at hok
            cases hok
          | some _ => rfl

/-- One child page of a page with father data page object identifier `identifier`:
when the step succeeds, the pages read have that identifier, provided this holds
for the function called for a parent page. -/
theorem read_child_page_fetches (K : Definitions) (env : Collaborators)
    (parent_walk : Page → PageTree → Step) (flags : Nat) (page : Page) (identifier : Nat)
    (hpage : page.father_data_page_object_identifier = identifier)
    (hwalk : ∀ child page_tree, child.father_data_page_object_identifier = identifier →
      (parent_walk child page_tree).result = .ok →
      fetches_match env identifier (parent_walk child page_tree).events)
    (i a b child_page_number : Nat) (page_tree : PageTree)
    (hok : (read_child_page K env parent_walk flags page i a b child_page_number
      page_tree).result = .ok) :
    fetches_match env identifier
      (read_child_page K env parent_walk flags page i a b child_page_number page_tree).events := by
  unfold read_child_page at hok ⊢
  cases hread : env.page_read child_page_number with
  | none =>
    simp only [hread] at hok
    cases hok
  | some child_page =>
    simp only [hread] at hok ⊢
    by_cases hne : page.father_data_page_object_identifier
        ≠ child_page.father_data_page_object_identifier
    · rw [if_pos hne] at hok
      cases hok
    · rw [if_neg hne] at hok ⊢
      have hid : child_page.father_data_page_object_identifier = identifier := by
        rw [← hpage]
        exact (not_not.mp hne).symm
      have hchild : fetches_match env identifier [Event.page_read child_page_number] := by
        intro m hm
        simp only [List.mem_singleton, Event.page_read.injEq] at hm
        exact ⟨child_page, by rw [hm, hread], hid⟩
      have hfree : fetches_match env identifier [Event.page_free child_page_number] :=
        fetches_match_of_no_read env identifier _ (by simp)
      by_cases hleaf : has_flag child_page.flags K.LIBESEDB_PAGE_FLAG_IS_LEAF = true
      · rw [if_pos hleaf] at hok ⊢
        exact fetches_match_append _ _ _ _
          (fetches_match_append _ _ _ _
            (fetches_match_append _ _ _ _ hchild
              (fetches_match_of_no_read env identifier _
                (child_page_messages_no_read _ _ _ _)))
            (fetches_match_of_no_read env identifier _
              (read_leaf_page_values_no_read K env flags child_page page_tree)))
          hfree
      · rw [if_neg hleaf] at hok ⊢
        by_cases hparent : has_flag child_page.flags K.LIBESEDB_PAGE_FLAG_IS_PARENT = true
        · rw [if_pos hparent] at hok ⊢
          exact fetches_match_append _ _ _ _
            (fetches_match_append _ _ _ _ hchild (hwalk child_page page_tree hid hok)) hfree
        · rw [if_neg hparent]
          exact fetches_match_append _ _ [_] [_] hchild hfree

/-- The loop over the child pages: when it succeeds, the pages read have the father
data page object identifier of the page. -/
theorem read_child_pages_loop_fetches (K : Definitions) (env : Collaborators)
    (parent_walk : Page → PageTree → Step) (flags : Nat) (page : Page) (identifier : Nat)
    (hpage : page.father_data_page_object_identifier = identifier)
    (hwalk : ∀ child page_tree, child.father_data_page_object_identifier = identifier →
      (parent_walk child page_tree).result = .ok →
      fetches_match env identifier (parent_walk child page_tree).events)
    (values : List PageValue) (i a b : Nat) (page_tree : PageTree)
    (hok : (read_child_pages_loop K env parent_walk flags page values i a b
      page_tree).result = .ok) :
    fetches_match env identifier
      (read_child_pages_loop K env parent_walk flags page values i a b page_tree).events := by
  induction values generalizing i a b page_tree with
  | nil => exact fetches_match_nil env identifier
  | cons v rest ih =>
    cases hkey : read_page_key v with
    | none =>
      rw [read_child_pages_loop_out_of_range K env parent_walk flags page v rest i a b
        page_tree hkey] at hok
      cases hok
    | some key =>
      by_cases hskip : endian_little_convert_32bit key.page_value_data ≥ 0x117f02
      · rw [read_child_pages_loop_ignored K env parent_walk flags page v rest i a b page_tree
          key hkey hskip] at hok ⊢
        exact ih _ _ _ _ hok
      · by_cases hchild : (read_child_page K env parent_walk flags page i a b
            (endian_little_convert_32bit key.page_value_data) page_tree).result = .ok
        · rw [read_child_pages_loop_ok K env parent_walk flags page v rest i a b page_tree
            key hkey hskip hchild] at hok ⊢
          exact fetches_match_append env identifier _ _
            (read_child_page_fetches K env parent_walk flags page identifier hpage hwalk _ _ _ _
              _ hchild)
            (ih _ _ _ _ hok)
        · rw [read_child_pages_loop_stop K env parent_walk flags page v rest i a b page_tree
            key hkey hskip hchild] at hok
          exact absurd hok hchild

/-- The parent page function: when it succeeds, the pages read have the father data
page object identifier of the page. -/
theorem read_parent_page_values_fetches (K : Definitions) (env : Collaborators)
    (identifier : Nat) (fuel : Nat) (flags : Nat) :
    ∀ (page : Page) (page_tree : PageTree),
      page.father_data_page_object_identifier = identifier →
      (libesedb_page_tree_read_parent_page_values K env fuel flags page page_tree).result = .ok →
      fetches_match env identifier
        (libesedb_page_tree_read_parent_page_values K env fuel flags page page_tree).events := by
  induction fuel with
  | zero =>
    intro page page_tree _ hok
    simp [libesedb_page_tree_read_parent_page_values] at hok
  | succ fuel ih =>
    intro page page_tree hpage hok
    have heq := read_parent_page_values_of_ok K env fuel flags page page_tree hok
    rw [heq] at hok ⊢
    exact read_child_pages_loop_fetches K env _ flags page identifier hpage ih _ _ _ _ _ hok

/-- One space tree page of a page with father data page object identifier
`identifier`: when the step succeeds, the page read has that identifier. -/
theorem read_space_tree_page_fetches (K : Definitions) (env : Collaborators) (page : Page)
    (identifier : Nat) (hpage : page.father_data_page_object_identifier = identifier)
    (space_tree_page_number : Nat) (page_tree : PageTree)
    (hok : (read_space_tree_page K env page space_tree_page_number page_tree).result = .ok) :
    fetches_match env identifier
      (read_space_tree_page K env page space_tree_page_number page_tree).events := by
  unfold read_space_tree_page at hok ⊢
  cases hread : env.page_read space_tree_page_number with
  | none =>
    simp only [hread] at hok
    cases hok
  | some space_tree_page =>
    simp only [hread] at hok ⊢
    by_cases hne : page.father_data_page_object_identifier
        ≠ space_tree_page.father_data_page_object_identifier
    · rw [if_pos hne] at hok
      cases hok
    · rw [if_neg hne]
      intro m hm
      simp only [List.mem_cons, Event.page_read.injEq, reduceCtorEq, List.not_mem_nil,
        or_false, false_or] at hm
      exact ⟨space_tree_page, by rw [hm, hread], by rw [← hpage]; exact (not_not.mp hne).symm⟩

/-- The father data page function: when it succeeds, the pages read have the father
data page object identifier of the page. -/
theorem read_father_data_page_values_fetches (K : Definitions) (env : Collaborators)
    (fuel flags : Nat) (page : Page) (page_tree : PageTree)
    (hok : (libesedb_page_tree_read_father_data_page_values K env fuel flags page
      page_tree).result = .ok) :
    fetches_match env page.father_data_page_object_identifier
      (libesedb_page_tree_read_father_data_page_values K env fuel flags page
        page_tree).events := by
  have hchildren : ∀ t, (libesedb_page_tree_read_child_pages K env
        (libesedb_page_tree_read_parent_page_values K env fuel flags) flags page t).result = .ok →
      fetches_match env page.father_data_page_object_identifier
        (libesedb_page_tree_read_child_pages K env
          (libesedb_page_tree_read_parent_page_values K env fuel flags) flags page t).events :=
    fun t h => read_child_pages_loop_fetches K env _ flags page _ rfl
      (read_parent_page_values_fetches K env _ fuel flags) _ _ _ _ _ h
  unfold libesedb_page_tree_read_father_data_page_values at hok ⊢
  by_cases h1 : has_flag page.flags K.LIBESEDB_PAGE_FLAG_IS_ROOT = false
  · rw [if_pos h1] at hok
    cases hok
  · rw [if_neg h1] at hok ⊢
    by_cases h2 : has_unsupported_flags page.flags (father_data_page_supported_flags K) = true
    · rw [if_pos h2] at hok
      cases hok
    · rw [if_neg h2] at hok ⊢
      by_cases h3 : page.previous_page_number ≠ 0
      · rw [if_pos h3] at hok
        cases hok
      · rw [if_neg h3] at hok ⊢
        by_cases h4 : page.next_page_number ≠ 0
        · rw [if_pos h4] at hok
          cases hok
        · rw [if_neg h4] at hok ⊢
          cases h5 : libesedb_page_get_value page 0 with
          | none =>
            simp only [h5] at hok
            cases hok
          | some header =>
            simp only [h5] at hok ⊢
            by_cases h6 : header_extent_space header > 0
            · rw [if_pos h6] at hok ⊢
              by_cases h7 : header_space_tree_page_number header = 0
                  ∧ header_space_tree_page_number header ≥ 0xff000000
              · rw [if_pos h7] at hok
                cases hok
              · rw [if_neg h7] at hok ⊢
                cases h8 : (read_space_tree_page K env page
                    (header_space_tree_page_number header) page_tree).result with
                | ok =>
                  simp only [h8] at hok ⊢
                  cases h9 : (read_space_tree_page K env page
                      ((header_space_tree_page_number header + 1) % 4294967296)
                      page_tree).result with
                  | ok =>
                    simp only [h9, Step.after_result] at hok
                    simp only [h9, Step.after_events]
                    exact fetches_match_append _ _ _ _
                      (fetches_match_append _ _ _ _
                        (read_space_tree_page_fetches K env page _ rfl _ _ h8)
                        (read_space_tree_page_fetches K env page _ rfl _ _ h9))
                      (hchildren page_tree hok)
                  | error kind =>
                    exact absurd hok (by simp [h9])
                  | out_of_fuel =>
                    exact absurd hok (by simp [h9])
                | error kind =>
                  exact absurd hok (by simp [h8])
                | out_of_fuel =>
                  exact absurd hok (by simp [h8])
            · rw [if_neg h6] at hok ⊢
              exact hchildren page_tree hok

/-- C1: when `libesedb_page_tree_read` returns 1, its first event is the read of the
root page, and every page read after it (space tree pages and child pages at every
depth) is a page of the page source whose father data page object identifier is
that of the root page. -/
theorem C1_pages_read_have_the_root_identifier (K : Definitions) (env : Collaborators)
    (fuel : Nat) (page_tree : PageTree) (father_data_page_number flags : Nat) (root : Page)
    (hroot : env.page_read father_data_page_number = some root)
    (hok : (libesedb_page_tree_read K env fuel page_tree father_data_page_number
      flags).result = .ok) :
    ∃ events,
      (libesedb_page_tree_read K env fuel page_tree father_data_page_number flags).events
        = Event.page_read father_data_page_number :: events
      ∧ ∀ page_number, Event.page_read page_number ∈ events →
        ∃ page, env.page_read page_number = some page
          ∧ page.father_data_page_object_identifier
            = root.father_data_page_object_identifier := by
  unfold libesedb_page_tree_read at hok ⊢
  simp only [hroot] at hok ⊢
  have hfree : fetches_match env root.father_data_page_object_identifier
      [Event.page_free father_data_page_number] :=
    fetches_match_of_no_read env _ _ (by simp)
  by_cases hleaf : has_flag root.flags K.LIBESEDB_PAGE_FLAG_IS_LEAF = true
  · rw [if_pos hleaf] at hok ⊢
    cases hwalk : (libesedb_page_tree_read_leaf_page_values K env flags root
        page_tree).result with
    | ok =>
      simp only [hwalk]
      exact ⟨_, rfl, fetches_match_append _ _ _ _
        (fetches_match_of_no_read env _ _
          (read_leaf_page_values_no_read K env flags root page_tree)) hfree⟩
    | error kind =>
      exact absurd hok (by simp [hwalk])
    | out_of_fuel =>
      exact absurd hok (by simp [hwalk])
  · rw [if_neg hleaf] at hok ⊢
    by_cases hisroot : has_flag root.flags K.LIBESEDB_PAGE_FLAG_IS_ROOT = true
    · rw [if_pos hisroot] at hok ⊢
      cases hwalk : (libesedb_page_tree_read_father_data_page_values K env fuel flags root
          page_tree).result with
      | ok =>
        simp only [hwalk]
        exact ⟨_, rfl, fetches_match_append _ _ _ _
          (read_father_data_page_values_fetches K env fuel flags root page_tree hwalk) hfree⟩
      | error kind =>
        exact absurd hok (by simp [hwalk])
      | out_of_fuel =>
        exact absurd hok (by simp [hwalk])
    · rw [if_neg hisroot]
      exact ⟨_, rfl, hfree⟩


/-- The evaluation of scenario S5 in row mode: the pages are read in the order 1,
0x40, 0x41, 2, 3, 4, each child and space tree page is freed before the next is
read, and the rows of the leaf pages 2 and 4 are appended in that order. -/
theorem scenario_S5_evaluated :
    libesedb_page_tree_read esedb_definitions (example_collaborators example_tree_pages) 1
        example_bound_page_tree 1 0
      = { result := .ok
          page_tree :=
            { example_bound_page_tree with
              value_definition_list := [{ payload := [7, 7] }, { payload := [8] },
                { payload := [9] }] }
          events :=
            [.page_read 1, .page_read 0x40, .page_free 0x40, .page_read 0x41, .page_free 0x41,
              .page_read 2, .data_definition_read [] [7, 7] 2, .data_definition_read [] [8] 1,
              .page_free 2, .page_read 3, .page_read 4, .data_definition_read [] [9] 1,
              .page_free 4, .page_free 3, .page_free 1] } := by
  decide

/-- C1 at the tree of scenario S5. -/
theorem C1_pages_read_have_the_root_identifier_witness :
    ∃ events,
      (libesedb_page_tree_read esedb_definitions (example_collaborators example_tree_pages) 1
          example_bound_page_tree 1 0).events
        = Event.page_read 1 :: events
      ∧ ∀ page_number, Event.page_read page_number ∈ events →
        ∃ page, (example_collaborators example_tree_pages).page_read page_number = some page
          ∧ page.father_data_page_object_identifier
            = (example_page 1 0x0005
                [example_header 1 0x40, example_child_value 2,
                  example_child_value 3]).father_data_page_object_identifier :=
  C1_pages_read_have_the_root_identifier esedb_definitions
    (example_collaborators example_tree_pages) 1 example_bound_page_tree 1 0
    (example_page 1 0x0005 [example_header 1 0x40, example_child_value 2, example_child_value 3])
    (by decide) (by decide)


/-! ## Row mode: the rows of a tree -/

theorem byte_at_drop (data : List Nat) (k j : Nat) :
    byte_at (data.drop k) j = byte_at data (k + j) := by
  simp [byte_at, List.getD_eq_getElem?_getD, List.getElem?_drop]

/-- The key fields of a page value with a key type, written out. -/
theorem read_page_key_with_key_type (page_value : PageValue)
    (hflag : page_value.flags &&& 0x04 = 0x04) :
    read_page_key page_value
      = if endian_little_convert_16bit (page_value.data.drop 2)
            > uint16_sub (uint16_sub (page_value.size % 65536) 2) 2 then none
        else some
          { page_key_type := endian_little_convert_16bit page_value.data
            page_key_size := endian_little_convert_16bit (page_value.data.drop 2)
            page_value_data :=
              ((page_value.data.drop 2).drop 2).drop
                (endian_little_convert_16bit (page_value.data.drop 2))
            page_value_size :=
              uint16_sub (uint16_sub (page_value.size % 65536) 2) 2
                - endian_little_convert_16bit (page_value.data.drop 2) } := by
  simp [read_page_key, hflag]

/-- The key fields of a page value without key type, written out. -/
theorem read_page_key_without_key_type (page_value : PageValue)
    (hflag : ¬ page_value.flags &&& 0x04 = 0x04) :
    read_page_key page_value
      = if endian_little_convert_16bit page_value.data
            > uint16_sub (page_value.size % 65536) 2 then none
        else some
          { page_key_type := 0
            page_key_size := endian_little_convert_16bit page_value.data
            page_value_data :=
              (page_value.data.drop 2).drop (endian_little_convert_16bit page_value.data)
            page_value_size :=
              uint16_sub (page_value.size % 65536) 2
                - endian_little_convert_16bit page_value.data } := by
  simp [read_page_key, hflag]

/-- The key that the functions read from a page value is the key of the spec: the
key size and the data behind the key are those at the offsets of the layout. -/
theorem read_page_key_data (page_value : PageValue) (key : PageKey)
    (hkey : read_page_key page_value = some key) :
    key.page_key_size = spec_key_size page_value
    ∧ key.page_value_data = page_value.data.drop (spec_payload_offset page_value) := by
  by_cases hflag : page_value.flags &&& 0x04 = 0x04
  · rw [read_page_key_with_key_type page_value hflag] at hkey
    split_ifs at hkey with hsize
    simp only [Option.some.injEq] at hkey
    subst hkey
    simp [spec_key_size, spec_payload_offset, spec_key_size_offset, hflag,
      endian_little_convert_16bit, byte_at_drop, List.drop_drop, Nat.add_comm,
      Nat.add_left_comm]
  · rw [read_page_key_without_key_type page_value hflag] at hkey
    split_ifs at hkey with hsize
    simp only [Option.some.injEq] at hkey
    subst hkey
    simp [spec_key_size, spec_payload_offset, spec_key_size_offset, hflag,
      endian_little_convert_16bit, byte_at, List.drop_drop, Nat.add_comm]

/-- The size behind the key of a page value that holds its key fields. -/
theorem read_page_key_size (page_value : PageValue) (key : PageKey)
    (hkey : read_page_key page_value = some key) (hholds : value_holds_key_fields page_value) :
    key.page_value_size = page_value.size - spec_payload_offset page_value := by
  obtain ⟨hlt, hle⟩ := hholds
  have hks := (read_page_key_data page_value key hkey).1
  by_cases hflag : page_value.flags &&& 0x04 = 0x04
  · rw [read_page_key_with_key_type page_value hflag] at hkey
    split_ifs at hkey with hsize
    simp only [Option.some.injEq] at hkey
    subst hkey
    simp only [spec_key_size_offset, hflag, if_true] at hle
    simp only [spec_payload_offset, spec_key_size_offset, hflag, if_true, ← hks, uint16_sub]
    omega
  · rw [read_page_key_without_key_type page_value hflag] at hkey
    split_ifs at hkey with hsize
    simp only [Option.some.injEq] at hkey
    subst hkey
    simp only [spec_key_size_offset, hflag, if_false] at hle
    simp only [spec_payload_offset, spec_key_size_offset, hflag, if_false, ← hks, uint16_sub]
    omega

/-- The child page number that the functions read behind the key of a page value is
the child page number of the spec. -/
theorem read_page_key_child_page_number (page_value : PageValue) (key : PageKey)
    (hkey : read_page_key page_value = some key) :
    endian_little_convert_32bit key.page_value_data = spec_child_page_number page_value := by
  rw [(read_page_key_data page_value key hkey).2]
  simp [endian_little_convert_32bit, spec_child_page_number, byte_at_drop]


/-- The loop of the leaf page function in row mode with a bound table definition,
over values that hold their key fields: when it succeeds, it has appended the
decoded rows of the values in order (none on an index or long value page) and
nothing else of the page tree has changed. -/
theorem read_leaf_page_values_loop_rows (K : Definitions) (env : Collaborators) (flags : Nat)
    (page : Page) (bound : TableDefinition)
    (hmode : has_flag flags K.LIBESEDB_PAGE_TREE_FLAG_READ_CATALOG_DEFINITION = false)
    (values : List PageValue) (td : Option Nat) (page_tree : PageTree)
    (hbound : page_tree.table_definition = some bound)
    (hholds : ∀ v ∈ values, value_holds_key_fields v)
    (hok : (read_leaf_page_values_loop K env flags page values td page_tree).result = .ok) :
    (read_leaf_page_values_loop K env flags page values td page_tree).page_tree
      = { page_tree with
          value_definition_list :=
            page_tree.value_definition_list
              ++ (if has_flag page.flags K.LIBESEDB_PAGE_FLAG_IS_INDEX then []
                  else if has_flag page.flags K.LIBESEDB_PAGE_FLAG_IS_LONG_VALUE then []
                  else values.filterMap (spec_row env bound)) } := by
  induction values generalizing td page_tree with
  | nil => simp [read_leaf_page_values_loop]
  | cons v rest ih =>
    have hrest : ∀ u ∈ rest, value_holds_key_fields u :=
      fun u hu => hholds u (List.mem_cons_of_mem _ hu)
    unfold read_leaf_page_values_loop at hok ⊢
    cases hkey : read_page_key v with
    | none =>
      simp only [hkey] at hok
      cases hok
    | some key =>
      simp only [hkey] at hok ⊢
      by_cases hindex : has_flag page.flags K.LIBESEDB_PAGE_FLAG_IS_INDEX = true
      · rw [if_pos hindex] at hok ⊢
        rw [ih td page_tree hbound hrest hok]
        simp [hindex]
      · rw [if_neg hindex] at hok ⊢
        by_cases hlong : has_flag page.flags K.LIBESEDB_PAGE_FLAG_IS_LONG_VALUE = true
        · rw [if_pos hlong] at hok ⊢
          rw [ih td page_tree hbound hrest hok]
          simp [hindex, hlong]
        · rw [if_neg hlong] at hok ⊢
          rw [if_neg (by simp [hmode])] at hok ⊢
          simp only [hbound] at hok ⊢
          cases hdec : env.data_definition_read bound.column_catalog_definition_list
              key.page_value_data key.page_value_size with
          | none =>
            simp only [hdec] at hok
            cases hok
          | some row =>
            simp only [hdec, Step.after_result] at hok
            simp only [hdec, Step.after_page_tree]
            rw [ih td _ rfl hrest hok]
            have hrow : spec_row env bound v = some row := by
              unfold spec_row
              rw [← (read_page_key_data v key hkey).2,
                ← read_page_key_size v key hkey (hholds v (List.mem_cons_self _ _))]
              exact hdec
            simp [hindex, hlong, List.filterMap_cons, hrow]

/-- The leaf page function in row mode with a bound table definition, on a page
whose values hold their key fields: when it succeeds, it has appended the decoded
rows of the page. -/
theorem read_leaf_page_values_rows (K : Definitions) (env : Collaborators) (flags : Nat)
    (page : Page) (bound : TableDefinition)
    (hmode : has_flag flags K.LIBESEDB_PAGE_TREE_FLAG_READ_CATALOG_DEFINITION = false)
    (page_tree : PageTree) (hbound : page_tree.table_definition = some bound)
    (hholds : ∀ v ∈ page.values.drop 1, value_holds_key_fields v)
    (hok : (libesedb_page_tree_read_leaf_page_values K env flags page page_tree).result = .ok) :
    (libesedb_page_tree_read_leaf_page_values K env flags page page_tree).page_tree
      = { page_tree with
          value_definition_list :=
            page_tree.value_definition_list ++ spec_rows_of_leaf_page K env bound page } := by
  have heq := read_leaf_page_values_of_ok K env flags page page_tree hok
  rw [heq] at hok ⊢
  rw [read_leaf_page_values_loop_rows K env flags page bound hmode _ none page_tree hbound
    hholds hok]
  rfl


/-- One child page in row mode: when the step succeeds, the child page exists and the
rows of the leaf pages it stands for are appended, provided this holds for the
function called for a parent page. -/
theorem read_child_page_rows (K : Definitions) (env : Collaborators)
    (parent_walk : Page → PageTree → Step) (flags : Nat) (page : Page)
    (bound : TableDefinition) (below : Page → List Page)
    (hmode : has_flag flags K.LIBESEDB_PAGE_TREE_FLAG_READ_CATALOG_DEFINITION = false)
    (hwalk : ∀ child t, t.table_definition = some bound →
      (∀ leaf ∈ below child, ∀ v ∈ leaf.values.drop 1, value_holds_key_fields v) →
      (parent_walk child t).result = .ok →
      (parent_walk child t).page_tree
        = { t with
            value_definition_list :=
              t.value_definition_list
                ++ (below child).flatMap (spec_rows_of_leaf_page K env bound) })
    (i a b child_page_number : Nat) (page_tree : PageTree) (child : Page)
    (hread : env.page_read child_page_number = some child)
    (hbound : page_tree.table_definition = some bound)
    (hholds : ∀ leaf ∈ spec_leaf_pages_of_child K below child,
      ∀ v ∈ leaf.values.drop 1, value_holds_key_fields v)
    (hok : (read_child_page K env parent_walk flags page i a b child_page_number
      page_tree).result = .ok) :
    (read_child_page K env parent_walk flags page i a b child_page_number page_tree).page_tree
      = { page_tree with
          value_definition_list :=
            page_tree.value_definition_list
              ++ (spec_leaf_pages_of_child K below child).flatMap
                (spec_rows_of_leaf_page K env bound) } := by
  unfold read_child_page at hok ⊢
  simp only [hread] at hok ⊢
  by_cases hne : page.father_data_page_object_identifier
      ≠ child.father_data_page_object_identifier
  · rw [if_pos hne] at hok
    cases hok
  · rw [if_neg hne] at hok ⊢
    by_cases hleaf : has_flag child.flags K.LIBESEDB_PAGE_FLAG_IS_LEAF = true
    · have hspec : spec_leaf_pages_of_child K below child = [child] := by
        simp [spec_leaf_pages_of_child, hleaf]
      rw [hspec] at hholds ⊢
      rw [if_pos hleaf] at hok ⊢
      simp only [List.flatMap_cons, List.flatMap_nil, List.append_nil]
      exact read_leaf_page_values_rows K env flags child bound hmode page_tree hbound
        (hholds child (List.mem_singleton.mpr rfl)) hok
    · rw [if_neg hleaf] at hok ⊢
      by_cases hparent : has_flag child.flags K.LIBESEDB_PAGE_FLAG_IS_PARENT = true
      · have hspec : spec_leaf_pages_of_child K below child = below child := by
          simp [spec_leaf_pages_of_child, hleaf, hparent]
        rw [hspec] at hholds ⊢
        rw [if_pos hparent] at hok ⊢
        exact hwalk child page_tree hbound hholds hok
      · have hspec : spec_leaf_pages_of_child K below child = [] := by
          simp [spec_leaf_pages_of_child, hleaf, hparent]
        rw [hspec, if_neg hparent]
        simp

/-- One child page that is read with success exists in the page source. -/
theorem read_child_page_exists (K : Definitions) (env : Collaborators)
    (parent_walk : Page → PageTree → Step) (flags : Nat) (page : Page)
    (i a b child_page_number : Nat) (page_tree : PageTree)
    (hok : (read_child_page K env parent_walk flags page i a b child_page_number
      page_tree).result = .ok) :
    ∃ child, env.page_read child_page_number = some child := by
  unfold read_child_page at hok
  cases hread : env.page_read child_page_number with
  | none =>
    simp only [hread] at hok
    cases hok
  | some child => exact ⟨child, rfl⟩

/-- The loop over the child pages in row mode: when it succeeds, the rows of the leaf
pages that the child pages stand for are appended, in the order of the values. -/
theorem read_child_pages_loop_rows (K : Definitions) (env : Collaborators)
    (parent_walk : Page → PageTree → Step) (flags : Nat) (page : Page)
    (bound : TableDefinition) (below : Page → List Page)
    (hmode : has_flag flags K.LIBESEDB_PAGE_TREE_FLAG_READ_CATALOG_DEFINITION = false)
    (hwalk : ∀ child t, t.table_definition = some bound →
      (∀ leaf ∈ below child, ∀ v ∈ leaf.values.drop 1, value_holds_key_fields v) →
      (parent_walk child t).result = .ok →
      (parent_walk child t).page_tree
        = { t with
            value_definition_list :=
              t.value_definition_list
                ++ (below child).flatMap (spec_rows_of_leaf_page K env bound) })
    (values : List PageValue) (i a b : Nat) (page_tree : PageTree)
    (hbound : page_tree.table_definition = some bound)
    (hholds : ∀ leaf ∈ (spec_child_pages_of_values env values).flatMap
        (spec_leaf_pages_of_child K below),
      ∀ v ∈ leaf.values.drop 1, value_holds_key_fields v)
    (hok : (read_child_pages_loop K env parent_walk flags page values i a b
      page_tree).result = .ok) :
    (read_child_pages_loop K env parent_walk flags page values i a b page_tree).page_tree
      = { page_tree with
          value_definition_list :=
            page_tree.value_definition_list
              ++ ((spec_child_pages_of_values env values).flatMap
                  (spec_leaf_pages_of_child K below)).flatMap
                (spec_rows_of_leaf_page K env bound) } := by
  induction values generalizing i a b page_tree with
  | nil => simp [read_child_pages_loop, spec_child_pages_of_values]
  | cons v rest ih =>
    cases hkey : read_page_key v with
    | none =>
      rw [read_child_pages_loop_out_of_range K env parent_walk flags page v rest i a b
        page_tree hkey] at hok
      cases hok
    | some key =>
      have hnumber := read_page_key_child_page_number v key hkey
      by_cases hskip : endian_little_convert_32bit key.page_value_data ≥ 0x117f02
      · rw [read_child_pages_loop_ignored K env parent_walk flags page v rest i a b page_tree
          key hkey hskip] at hok ⊢
        have hspec : spec_child_pages_of_values env (v :: rest)
            = spec_child_pages_of_values env rest := by
          rw [hnumber] at hskip
          simp [spec_child_pages_of_values, List.filter_cons, Nat.not_lt.mpr hskip]
        rw [hspec] at hholds ⊢
        exact ih _ _ _ _ hbound hholds hok
      · by_cases hchild : (read_child_page K env parent_walk flags page i a b
            (endian_little_convert_32bit key.page_value_data) page_tree).result = .ok
        · obtain ⟨child, hread⟩ := read_child_page_exists K env parent_walk flags page i a b _
            page_tree hchild
          have hspec : spec_child_pages_of_values env (v :: rest)
              = child :: spec_child_pages_of_values env rest := by
            rw [hnumber] at hskip hread
            simp [spec_child_pages_of_values, List.filter_cons, Nat.lt_of_not_ge hskip, hread]
          rw [hspec] at hholds ⊢
          rw [read_child_pages_loop_ok K env parent_walk flags page v rest i a b page_tree
            key hkey hskip hchild] at hok ⊢
          simp only [Step.after_result] at hok
          simp only [Step.after_page_tree]
          have hstep := read_child_page_rows K env parent_walk flags page bound below hmode hwalk
            i a b _ page_tree child hread hbound
            (fun leaf hleaf => hholds leaf (by
              rw [List.flatMap_cons]
              exact List.mem_append_left _ hleaf))
            hchild
          rw [hstep] at hok ⊢
          refine Eq.trans (ih _ _ _ _ ?_ ?_ hok) ?_
          · exact hbound
          · intro leaf hleaf
            exact hholds leaf (by
              rw [List.flatMap_cons]
              exact List.mem_append_right _ hleaf)
          · simp only [List.flatMap_cons, List.flatMap_append, List.append_assoc]
        · rw [read_child_pages_loop_stop K env parent_walk flags page v rest i a b page_tree
            key hkey hskip hchild] at hok
          exact absurd hok hchild

/-- The parent page function in row mode: when it succeeds, the rows of the leaf
pages below the page are appended in depth-first order. -/
theorem read_parent_page_values_rows (K : Definitions) (env : Collaborators)
    (bound : TableDefinition) (flags : Nat)
    (hmode : has_flag flags K.LIBESEDB_PAGE_TREE_FLAG_READ_CATALOG_DEFINITION = false)
    (fuel : Nat) :
    ∀ (page : Page) (t : PageTree), t.table_definition = some bound →
      (∀ leaf ∈ spec_leaf_pages_below K env fuel page,
        ∀ v ∈ leaf.values.drop 1, value_holds_key_fields v) →
      (libesedb_page_tree_read_parent_page_values K env fuel flags page t).result = .ok →
      (libesedb_page_tree_read_parent_page_values K env fuel flags page t).page_tree
        = { t with
            value_definition_list :=
              t.value_definition_list
                ++ (spec_leaf_pages_below K env fuel page).flatMap
                  (spec_rows_of_leaf_page K env bound) } := by
  induction fuel with
  | zero =>
    intro page t _ _ hok
    simp [libesedb_page_tree_read_parent_page_values] at hok
  | succ fuel ih =>
    intro page t hbound hholds hok
    have heq := read_parent_page_values_of_ok K env fuel flags page t hok
    rw [heq] at hok ⊢
    exact read_child_pages_loop_rows K env _ flags page bound
      (spec_leaf_pages_below K env fuel) hmode ih _ _ _ _ t hbound hholds hok


/-- The father data page function that succeeds leaves the page tree of the function
for its child pages, which succeeds: the space tree pages do not touch it. -/
theorem read_father_data_page_values_of_ok (K : Definitions) (env : Collaborators)
    (fuel flags : Nat) (page : Page) (page_tree : PageTree)
    (hok : (libesedb_page_tree_read_father_data_page_values K env fuel flags page
      page_tree).result = .ok) :
    (libesedb_page_tree_read_child_pages K env
        (libesedb_page_tree_read_parent_page_values K env fuel flags) flags page
        page_tree).result = .ok
    ∧ (libesedb_page_tree_read_father_data_page_values K env fuel flags page
        page_tree).page_tree
      = (libesedb_page_tree_read_child_pages K env
          (libesedb_page_tree_read_parent_page_values K env fuel flags) flags page
          page_tree).page_tree := by
  unfold libesedb_page_tree_read_father_data_page_values at hok ⊢
  by_cases h1 : has_flag page.flags K.LIBESEDB_PAGE_FLAG_IS_ROOT = false
  · rw [if_pos h1] at hok
    cases hok
  · rw [if_neg h1] at hok ⊢
    by_cases h2 : has_unsupported_flags page.flags (father_data_page_supported_flags K) = true
    · rw [if_pos h2] at hok
      cases hok
    · rw [if_neg h2] at hok ⊢
      by_cases h3 : page.previous_page_number ≠ 0
      · rw [if_pos h3] at hok
        cases hok
      · rw [if_neg h3] at hok ⊢
        by_cases h4 : page.next_page_number ≠ 0
        · rw [if_pos h4] at hok
          cases hok
        · rw [if_neg h4] at hok ⊢
          cases h5 : libesedb_page_get_value page 0 with
          | none =>
            simp only [h5] at hok
            cases hok
          | some header =>
            simp only [h5] at hok ⊢
            by_cases h6 : header_extent_space header > 0
            · rw [if_pos h6] at hok ⊢
              by_cases h7 : header_space_tree_page_number header = 0
                  ∧ header_space_tree_page_number header ≥ 0xff000000
              · rw [if_pos h7] at hok
                cases hok
              · rw [if_neg h7] at hok ⊢
                cases h8 : (read_space_tree_page K env page
                    (header_space_tree_page_number header) page_tree).result with
                | ok =>
                  simp only [h8] at hok ⊢
                  cases h9 : (read_space_tree_page K env page
                      ((header_space_tree_page_number header + 1) % 4294967296)
                      page_tree).result with
                  | ok =>
                    simp only [h9, Step.after_result] at hok
                    simp only [h9, Step.after_page_tree]
                    exact ⟨hok, trivial⟩
                  | error kind => exact absurd hok (by simp [h9])
                  | out_of_fuel => exact absurd hok (by simp [h9])
                | error kind => exact absurd hok (by simp [h8])
                | out_of_fuel => exact absurd hok (by simp [h8])
            · rw [if_neg h6] at hok ⊢
              exact ⟨hok, rfl⟩

/-- C9: in row mode with a bound table definition, when `libesedb_page_tree_read`
returns 1 and the values of the leaf pages of the tree hold their key fields, the
value definition list is its content before the call followed by the decoded rows
of the values 1 to count-1 of the primary data leaf pages, the leaf pages in
depth-first order following the values of each parent page, the values in index
order; the rest of the page tree is unchanged. -/
theorem C9_rows_in_depth_first_order (K : Definitions) (env : Collaborators) (fuel : Nat)
    (page_tree : PageTree) (father_data_page_number flags : Nat) (bound : TableDefinition)
    (hmode : has_flag flags K.LIBESEDB_PAGE_TREE_FLAG_READ_CATALOG_DEFINITION = false)
    (hbound : page_tree.table_definition = some bound)
    (hholds : ∀ leaf ∈ spec_leaf_pages K env fuel father_data_page_number,
      ∀ v ∈ leaf.values.drop 1, value_holds_key_fields v)
    (hok : (libesedb_page_tree_read K env fuel page_tree father_data_page_number
      flags).result = .ok) :
    (libesedb_page_tree_read K env fuel page_tree father_data_page_number flags).page_tree
      = { page_tree with
          value_definition_list :=
            page_tree.value_definition_list
              ++ spec_rows K env bound fuel father_data_page_number } := by
  unfold spec_rows
  unfold libesedb_page_tree_read at hok ⊢
  unfold spec_leaf_pages at hholds ⊢
  cases hroot : env.page_read father_data_page_number with
  | none =>
    simp only [hroot] at hok
    cases hok
  | some root =>
    simp only [hroot] at hok hholds ⊢
    by_cases hleaf : has_flag root.flags K.LIBESEDB_PAGE_FLAG_IS_LEAF = true
    · simp only [hleaf, if_true] at hok hholds ⊢
      cases hwalk : (libesedb_page_tree_read_leaf_page_values K env flags root
          page_tree).result with
      | ok =>
        simp only [hwalk]
        rw [read_leaf_page_values_rows K env flags root bound hmode page_tree hbound
          (hholds root (List.mem_singleton.mpr rfl)) hwalk]
        simp
      | error kind => exact absurd hok (by simp [hwalk])
      | out_of_fuel => exact absurd hok (by simp [hwalk])
    · simp only [hleaf, Bool.false_eq_true, if_false] at hok hholds ⊢
      by_cases hisroot : has_flag root.flags K.LIBESEDB_PAGE_FLAG_IS_ROOT = true
      · simp only [hisroot, if_true] at hok hholds ⊢
        cases hwalk : (libesedb_page_tree_read_father_data_page_values K env fuel flags root
            page_tree).result with
        | ok =>
          simp only [hwalk]
          obtain ⟨hchildren, htree⟩ := read_father_data_page_values_of_ok K env fuel flags
            root page_tree hwalk
          rw [htree]
          exact read_child_pages_loop_rows K env _ flags root bound
            (spec_leaf_pages_below K env fuel) hmode
            (read_parent_page_values_rows K env bound flags hmode fuel) _ _ _ _ page_tree
            hbound hholds hchildren
        | error kind => exact absurd hok (by simp [hwalk])
        | out_of_fuel => exact absurd hok (by simp [hwalk])
      · simp [hisroot]

/-- C9 at the tree of scenario S5: the rows of the leaf pages 2 and 4. -/
theorem C9_rows_in_depth_first_order_witness :
    (libesedb_page_tree_read esedb_definitions (example_collaborators example_tree_pages) 1
        example_bound_page_tree 1 0).page_tree
      = { example_bound_page_tree with
          value_definition_list :=
            example_bound_page_tree.value_definition_list
              ++ spec_rows esedb_definitions (example_collaborators example_tree_pages)
                (example_table_definition 2 2 []) 1 1 } :=
  C9_rows_in_depth_first_order esedb_definitions (example_collaborators example_tree_pages) 1
    example_bound_page_tree 1 0 (example_table_definition 2 2 []) (by decide) rfl (by decide)
    (by decide)

/-! ## The loops, one value at a time -/

@[simp] theorem Step.after_nil (s : Step) : s.after [] = s := rfl

@[simp] theorem Step.after_after (a b : List Event) (s : Step) :
    (s.after b).after a = s.after (a ++ b) := by
  simp [Step.after, List.append_assoc]

/-- The loop of the leaf page function at a value is the loop body for the value,
then the loop over the values behind it. -/
theorem read_leaf_page_values_loop_cons (K : Definitions) (env : Collaborators) (flags : Nat)
    (page : Page) (v : PageValue) (rest : List PageValue) (td : Option Nat)
    (page_tree : PageTree) :
    read_leaf_page_values_loop K env flags page (v :: rest) td page_tree
      = match read_leaf_page_value K env flags page v td page_tree with
        | .stop step => step
        | .next events td' page_tree' =>
          (read_leaf_page_values_loop K env flags page rest td' page_tree').after events := by
  rw [read_leaf_page_values_loop]
  unfold read_leaf_page_value
  cases hkey : read_page_key v with
  | none => rfl
  | some key =>
    simp only []
    by_cases hindex : has_flag page.flags K.LIBESEDB_PAGE_FLAG_IS_INDEX = true
    · simp only [hindex, if_true, Step.after_nil]
    · by_cases hlong : has_flag page.flags K.LIBESEDB_PAGE_FLAG_IS_LONG_VALUE = true
      · simp only [hindex, hlong, if_true, if_false, Bool.false_eq_true, Step.after_nil]
      · by_cases hmode : has_flag flags K.LIBESEDB_PAGE_TREE_FLAG_READ_CATALOG_DEFINITION = true
        · simp only [hindex, hlong, hmode, if_true, if_false, Bool.false_eq_true]
          cases hread : env.catalog_definition_read key.page_value_data key.page_value_size with
          | none => rfl
          | some r =>
            simp only []
            cases hcat : read_catalog_definition K r td page_tree with
            | error kind => rfl
            | ok out => rfl
        · simp only [hindex, hlong, hmode, if_false, Bool.false_eq_true]
          cases hbound : page_tree.table_definition with
          | none => rfl
          | some bound =>
            simp only []
            cases hread : env.data_definition_read bound.column_catalog_definition_list
                key.page_value_data key.page_value_size with
            | none => rfl
            | some row => rfl

/-- The loop body of the leaf page function does not end the function with a step
that has the result 1. -/
theorem read_leaf_page_value_stop (K : Definitions) (env : Collaborators) (flags : Nat)
    (page : Page) (v : PageValue) (td : Option Nat) (page_tree : PageTree) (step : Step)
    (h : read_leaf_page_value K env flags page v td page_tree = .stop step) :
    step.result ≠ .ok := by
  unfold read_leaf_page_value at h
  intro hok
  cases hkey : read_page_key v with
  | none =>
    simp only [hkey, LeafValueStep.stop.injEq] at h
    subst h
    cases hok
  | some key =>
    simp only [hkey] at h
    by_cases hindex : has_flag page.flags K.LIBESEDB_PAGE_FLAG_IS_INDEX = true
    · simp [hindex] at h
    · by_cases hlong : has_flag page.flags K.LIBESEDB_PAGE_FLAG_IS_LONG_VALUE = true
      · simp [hindex, hlong] at h
      · by_cases hmode : has_flag flags K.LIBESEDB_PAGE_TREE_FLAG_READ_CATALOG_DEFINITION = true
        · simp only [hindex, hlong, hmode, if_true, if_false, Bool.false_eq_true] at h
          cases hread : env.catalog_definition_read key.page_value_data key.page_value_size with
          | none =>
            simp only [hread, LeafValueStep.stop.injEq] at h
            subst h
            cases hok
          | some r =>
            simp only [hread] at h
            cases hcat : read_catalog_definition K r td page_tree with
            | error kind =>
              simp only [hcat, LeafValueStep.stop.injEq] at h
              subst h
              cases hok
            | ok out => simp [hcat] at h
        · simp only [hindex, hlong, hmode, if_false, Bool.false_eq_true] at h
          cases hbound : page_tree.table_definition with
          | none =>
            simp only [hbound, LeafValueStep.stop.injEq] at h
            subst h
            cases hok
          | some bound =>
            simp only [hbound] at h
            cases hread : env.data_definition_read bound.column_catalog_definition_list
                key.page_value_data key.page_value_size with
            | none =>
              simp only [hread, LeafValueStep.stop.injEq] at h
              subst h
              cases hok
            | some row => simp [hread] at h

/-- The loop of the leaf page function over a run of values that it passes with
success, followed by more values: it goes on with the values behind the run, from
the page tree that the run leaves, after the events of the run. -/
theorem read_leaf_page_values_loop_append (K : Definitions) (env : Collaborators)
    (flags : Nat) (page : Page) (front tail : List PageValue) (td : Option Nat)
    (page_tree : PageTree)
    (hok : (read_leaf_page_values_loop K env flags page front td page_tree).result = .ok) :
    ∃ td', read_leaf_page_values_loop K env flags page (front ++ tail) td page_tree
      = (read_leaf_page_values_loop K env flags page tail td'
          (read_leaf_page_values_loop K env flags page front td page_tree).page_tree).after
        (read_leaf_page_values_loop K env flags page front td page_tree).events := by
  induction front generalizing td page_tree with
  | nil => exact ⟨td, by simp [read_leaf_page_values_loop]⟩
  | cons u front ih =>
    rw [List.cons_append, read_leaf_page_values_loop_cons]
    rw [read_leaf_page_values_loop_cons] at hok
    cases hstep : read_leaf_page_value K env flags page u td page_tree with
    | stop step =>
      rw [hstep] at hok
      exact absurd hok (read_leaf_page_value_stop K env flags page u td page_tree step hstep)
    | next events td1 page_tree1 =>
      rw [hstep] at hok
      simp only [Step.after_result] at hok
      obtain ⟨td', h⟩ := ih td1 page_tree1 hok
      refine ⟨td', ?_⟩
      rw [read_leaf_page_values_loop_cons K env flags page u front, hstep]
      simp only [h, Step.after_page_tree, Step.after_events, Step.after_after]

/-- A page value that holds its key fields and whose key size exceeds what is left
behind the key size field has no key that fits. -/
theorem read_page_key_overlong (v : PageValue) (hholds : value_holds_key_fields v)
    (hlong : spec_key_size v > v.size - (spec_key_size_offset v + 2)) :
    read_page_key v = none := by
  obtain ⟨hlt, hle⟩ := hholds
  by_cases hflag : v.flags &&& 0x04 = 0x04
  · rw [read_page_key_with_key_type v hflag]
    simp only [spec_key_size_offset, hflag, if_true] at hle hlong
    have hks : endian_little_convert_16bit (v.data.drop 2) = spec_key_size v := by
      simp [endian_little_convert_16bit, spec_key_size, spec_key_size_offset, hflag,
        byte_at_drop]
    rw [hks, if_pos]
    simp only [uint16_sub]
    omega
  · rw [read_page_key_without_key_type v hflag]
    simp only [spec_key_size_offset, hflag, if_false] at hle hlong
    have hks : endian_little_convert_16bit v.data = spec_key_size v := by
      simp [endian_little_convert_16bit, spec_key_size, spec_key_size_offset, hflag]
    rw [hks, if_pos]
    simp only [uint16_sub]
    omega

/-- C11, as the source has it: on a leaf page that passes the flag checks, at a value
that holds its key size field and whose key size exceeds what is left behind that
field, when the loop passes the values in front of it with success, the leaf page
function fails with "page key size exceeds page value size"; the page tree and the
events are those of the values in front, no decoder is called for the value. -/
theorem C11_overlong_key_is_out_of_range (K : Definitions) (env : Collaborators) (flags : Nat)
    (page : Page) (page_tree : PageTree) (header : PageValue) (front : List PageValue)
    (v : PageValue) (rest : List PageValue)
    (hleaf : has_flag page.flags K.LIBESEDB_PAGE_FLAG_IS_LEAF = true)
    (hsupported : has_unsupported_flags page.flags (leaf_supported_flags K) = false)
    (hvalues : page.values = header :: (front ++ v :: rest))
    (hholds : value_holds_key_fields v)
    (hlong : spec_key_size v > v.size - (spec_key_size_offset v + 2))
    (hfront : (read_leaf_page_values_loop K env flags page front none page_tree).result = .ok) :
    libesedb_page_tree_read_leaf_page_values K env flags page page_tree
      = { result := .error .runtime_value_out_of_range
          page_tree := (read_leaf_page_values_loop K env flags page front none page_tree).page_tree
          events := (read_leaf_page_values_loop K env flags page front none page_tree).events } := by
  have hkey := read_page_key_overlong v hholds hlong
  have hwalk : libesedb_page_tree_read_leaf_page_values K env flags page page_tree
      = read_leaf_page_values_loop K env flags page (front ++ v :: rest) none page_tree := by
    simp [libesedb_page_tree_read_leaf_page_values, hleaf, hsupported, hvalues,
      libesedb_page_get_value]
  obtain ⟨td', happ⟩ := read_leaf_page_values_loop_append K env flags page front (v :: rest) none
    page_tree hfront
  rw [hwalk, happ, read_leaf_page_values_loop_cons]
  simp [read_leaf_page_value, hkey, Step.after]

/-- C11 at a concrete page: an index leaf page whose value 1 has a key that fits and
whose value 2 has the key size 5 with nothing left behind the key size field. -/
theorem C11_overlong_key_is_out_of_range_witness :
    libesedb_page_tree_read_leaf_page_values esedb_definitions (example_collaborators []) 0
        (example_page 1 0x0042
          [example_page_value [], example_page_value [7, 7], example_overlong_key_value])
        empty_page_tree
      = { result := .error .runtime_value_out_of_range
          page_tree := (read_leaf_page_values_loop esedb_definitions (example_collaborators []) 0
            (example_page 1 0x0042
              [example_page_value [], example_page_value [7, 7], example_overlong_key_value])
            [example_page_value [7, 7]] none empty_page_tree).page_tree
          events := (read_leaf_page_values_loop esedb_definitions (example_collaborators []) 0
            (example_page 1 0x0042
              [example_page_value [], example_page_value [7, 7], example_overlong_key_value])
            [example_page_value [7, 7]] none empty_page_tree).events } :=
  C11_overlong_key_is_out_of_range esedb_definitions (example_collaborators []) 0
    (example_page 1 0x0042
      [example_page_value [], example_page_value [7, 7], example_overlong_key_value])
    empty_page_tree (example_page_value []) [example_page_value [7, 7]]
    example_overlong_key_value [] (by decide) (by decide) rfl (by decide) (by decide)
    (by decide)

/-- C11 fails as stated: value 2 of this primary data leaf page holds its key size
field and has the key size 5 with 0 bytes left, the page passes the flag checks,
and the leaf page function (row mode, no bound table definition) fails at value 1
with "missing table definition", not with "page key size exceeds page value
size". -/
theorem C11_counterexample :
    value_holds_key_fields example_overlong_key_value
    ∧ spec_key_size example_overlong_key_value
      > example_overlong_key_value.size - (spec_key_size_offset example_overlong_key_value + 2)
    ∧ libesedb_page_tree_read_leaf_page_values esedb_definitions (example_collaborators []) 0
        (example_page 1 0x0002
          [example_page_value [], example_page_value [7, 7], example_overlong_key_value])
        empty_page_tree
      = { result := .error .runtime_value_missing, page_tree := empty_page_tree,
          events := [] } := by
  decide

/-- C12, evaluated: a leaf page value of 3 bytes with tag flag 0x04 is accepted.  The
two subtractions of 2 from the 16-bit size wrap to 65535, the key size (0, read
from byte 2 and the byte behind the value) is not greater, and on a primary data
leaf page in row mode the data decoder gets the bytes behind the value with the
size 65535. -/
theorem C12_short_value_is_accepted :
    read_page_key example_short_value
      = some { page_key_type := 1, page_key_size := 0, page_value_data := [9, 9, 9],
               page_value_size := 65535 }
    ∧ (libesedb_page_tree_read_leaf_page_values esedb_definitions (example_collaborators []) 0
        (example_page 1 0x0002 [example_page_value [], example_short_value])
        example_bound_page_tree).result = .ok
    ∧ (libesedb_page_tree_read_leaf_page_values esedb_definitions (example_collaborators []) 0
        (example_page 1 0x0002 [example_page_value [], example_short_value])
        example_bound_page_tree).events = [.data_definition_read [] [9, 9, 9] 65535] := by
  decide


/-- The loop over the child pages over a run of values that it passes with success,
followed by more values: it goes on with the values behind the run, from the page
tree that the run leaves, after the events of the run. -/
theorem read_child_pages_loop_append (K : Definitions) (env : Collaborators)
    (parent_walk : Page → PageTree → Step) (flags : Nat) (page : Page)
    (front tail : List PageValue) (i a b : Nat) (page_tree : PageTree)
    (hok : (read_child_pages_loop K env parent_walk flags page front i a b
      page_tree).result = .ok) :
    ∃ a' b', read_child_pages_loop K env parent_walk flags page (front ++ tail) i a b page_tree
      = (read_child_pages_loop K env parent_walk flags page tail (i + front.length) a' b'
          (read_child_pages_loop K env parent_walk flags page front i a b
            page_tree).page_tree).after
        (read_child_pages_loop K env parent_walk flags page front i a b page_tree).events := by
  induction front generalizing i a b page_tree with
  | nil => exact ⟨a, b, by simp [read_child_pages_loop]⟩
  | cons u front ih =>
    have hlen : i + (u :: front).length = i + 1 + front.length := by
      simp only [List.length_cons]
      omega
    rw [hlen, List.cons_append]
    cases hkey : read_page_key u with
    | none =>
      rw [read_child_pages_loop_out_of_range K env parent_walk flags page u front i a b
        page_tree hkey] at hok
      cases hok
    | some key =>
      by_cases hskip : endian_little_convert_32bit key.page_value_data ≥ 0x117f02
      · rw [read_child_pages_loop_ignored K env parent_walk flags page u front i a b page_tree
          key hkey hskip] at hok ⊢
        rw [read_child_pages_loop_ignored K env parent_walk flags page u (front ++ tail) i a b
          page_tree key hkey hskip]
        exact ih (i + 1) a b page_tree hok
      · by_cases hchild : (read_child_page K env parent_walk flags page i a b
            (endian_little_convert_32bit key.page_value_data) page_tree).result = .ok
        · rw [read_child_pages_loop_ok K env parent_walk flags page u front i a b page_tree
            key hkey hskip hchild] at hok ⊢
          rw [read_child_pages_loop_ok K env parent_walk flags page u (front ++ tail) i a b
            page_tree key hkey hskip hchild]
          simp only [Step.after_result] at hok
          obtain ⟨a', b', h⟩ := ih (i + 1) _ _ _ hok
          refine ⟨a', b', ?_⟩
          simp only [h, Step.after_page_tree, Step.after_events, Step.after_after]
        · rw [read_child_pages_loop_stop K env parent_walk flags page u front i a b page_tree
            key hkey hskip hchild] at hok
          exact absurd hok hchild

/-- The child page of another tree: the step reads it, frees it and fails with
"mismatch in father data page object identifier"; the page goes to neither the leaf
page function nor the parent page function, and the page tree is not touched. -/
theorem read_child_page_foreign (K : Definitions) (env : Collaborators)
    (parent_walk : Page → PageTree → Step) (flags : Nat) (page : Page)
    (i a b child_page_number : Nat) (page_tree : PageTree) (child : Page)
    (hread : env.page_read child_page_number = some child)
    (hforeign : child.father_data_page_object_identifier
      ≠ page.father_data_page_object_identifier) :
    read_child_page K env parent_walk flags page i a b child_page_number page_tree
      = { result := .error .runtime_unsupported_value, page_tree := page_tree,
          events := [.page_read child_page_number, .page_free child_page_number] } := by
  unfold read_child_page
  simp only [hread]
  rw [if_pos (fun h => hforeign h.symm)]

/-- C13, as the source has it: at an entry of a parent page whose key fits, whose
child page number is below 0x117F02 and whose child page has another father data
page object identifier than the parent page, when the loop passes the entries in
front of it with success, the function for the child pages fails with "mismatch in
father data page object identifier".  The child page is read and freed and nothing
else happens for the entry (no leaf or parent page function, no later entry); the
page tree is the one that the entries in front leave. -/
theorem C13_foreign_child_is_unsupported (K : Definitions) (env : Collaborators)
    (parent_walk : Page → PageTree → Step) (flags : Nat) (page : Page)
    (page_tree : PageTree) (header : PageValue) (front : List PageValue) (v : PageValue)
    (rest : List PageValue) (key : PageKey) (child : Page)
    (hvalues : page.values = header :: (front ++ v :: rest))
    (hkey : read_page_key v = some key)
    (hnumber : endian_little_convert_32bit key.page_value_data < 0x117f02)
    (hread : env.page_read (endian_little_convert_32bit key.page_value_data) = some child)
    (hforeign : child.father_data_page_object_identifier
      ≠ page.father_data_page_object_identifier)
    (hfront : (read_child_pages_loop K env parent_walk flags page front 1 0 0
      page_tree).result = .ok) :
    libesedb_page_tree_read_child_pages K env parent_walk flags page page_tree
      = { result := .error .runtime_unsupported_value
          page_tree := (read_child_pages_loop K env parent_walk flags page front 1 0 0
            page_tree).page_tree
          events := (read_child_pages_loop K env parent_walk flags page front 1 0 0
              page_tree).events
            ++ [.page_read (endian_little_convert_32bit key.page_value_data),
                .page_free (endian_little_convert_32bit key.page_value_data)] } := by
  obtain ⟨a', b', happ⟩ := read_child_pages_loop_append K env parent_walk flags page front
    (v :: rest) 1 0 0 page_tree hfront
  have hstep := read_child_page_foreign K env parent_walk flags page (1 + front.length) a' b'
    _ (read_child_pages_loop K env parent_walk flags page front 1 0 0 page_tree).page_tree
    child hread hforeign
  unfold libesedb_page_tree_read_child_pages
  rw [hvalues, List.drop_succ_cons, List.drop_zero, happ,
    read_child_pages_loop_stop K env parent_walk flags page v rest _ _ _ _ key hkey
      (Nat.not_le.mpr hnumber) (by rw [hstep]; simp), hstep]
  rfl

/-- C13 at scenario S3: a parent page with one entry, which points to page 3 of
another tree, and an empty page tree. -/
theorem C13_foreign_child_is_unsupported_witness :
    libesedb_page_tree_read_child_pages esedb_definitions
        (example_collaborators example_foreign_pages)
        (libesedb_page_tree_read_parent_page_values esedb_definitions
          (example_collaborators example_foreign_pages) 1 0)
        0 (example_page 1 0x0004 [example_page_value [], example_child_value 3])
        empty_page_tree
      = { result := .error .runtime_unsupported_value
          page_tree := (read_child_pages_loop esedb_definitions
            (example_collaborators example_foreign_pages)
            (libesedb_page_tree_read_parent_page_values esedb_definitions
              (example_collaborators example_foreign_pages) 1 0)
            0 (example_page 1 0x0004 [example_page_value [], example_child_value 3])
            [] 1 0 0 empty_page_tree).page_tree
          events := (read_child_pages_loop esedb_definitions
              (example_collaborators example_foreign_pages)
              (libesedb_page_tree_read_parent_page_values esedb_definitions
                (example_collaborators example_foreign_pages) 1 0)
              0 (example_page 1 0x0004 [example_page_value [], example_child_value 3])
              [] 1 0 0 empty_page_tree).events
            ++ [.page_read (endian_little_convert_32bit [3, 0, 0, 0]),
                .page_free (endian_little_convert_32bit [3, 0, 0, 0])] } :=
  C13_foreign_child_is_unsupported esedb_definitions
    (example_collaborators example_foreign_pages)
    (libesedb_page_tree_read_parent_page_values esedb_definitions
      (example_collaborators example_foreign_pages) 1 0)
    0 (example_page 1 0x0004 [example_page_value [], example_child_value 3])
    empty_page_tree (example_page_value []) [] (example_child_value 3) []
    { page_key_type := 0, page_key_size := 0, page_value_data := [3, 0, 0, 0],
      page_value_size := 4 }
    (example_foreign_page 3) rfl (by decide) (by decide) (by decide) (by decide) (by decide)

/-- The evaluation of scenario S3: the function fails with "mismatch in father data
page object identifier", page 3 is read and freed, the page tree stays empty. -/
theorem scenario_S3_evaluated :
    libesedb_page_tree_read_child_pages esedb_definitions
        (example_collaborators example_foreign_pages)
        (libesedb_page_tree_read_parent_page_values esedb_definitions
          (example_collaborators example_foreign_pages) 1 0)
        0 (example_page 1 0x0004 [example_page_value [], example_child_value 3])
        empty_page_tree
      = { result := .error .runtime_unsupported_value, page_tree := empty_page_tree,
          events := [.page_read 3, .page_free 3] } := by
  decide

/-- C13 fails as stated: the second entry of this parent page points to page 3, whose
father data page object identifier (9) is not that of the parent page (1), and the
function for the child pages fails at the first entry with "page key size exceeds
page value size" from the leaf page 2; page 3 is not read. -/
theorem C13_counterexample :
    (example_collaborators example_foreign_pages).page_read 3 = some (example_foreign_page 3)
    ∧ (example_foreign_page 3).father_data_page_object_identifier
      ≠ (example_page 1 0x0004 [example_page_value [], example_child_value 2,
          example_child_value 3]).father_data_page_object_identifier
    ∧ libesedb_page_tree_read_child_pages esedb_definitions
        (example_collaborators example_foreign_pages)
        (libesedb_page_tree_read_parent_page_values esedb_definitions
          (example_collaborators example_foreign_pages) 1 0)
        0 (example_page 1 0x0004 [example_page_value [], example_child_value 2,
          example_child_value 3])
        empty_page_tree
      = { result := .error .runtime_value_out_of_range, page_tree := empty_page_tree,
          events := [.page_read 2, .page_free 2] } := by
  decide


/-! ## Runs that differ in the sibling-linkage messages only -/

theorem without_messages_append (a b : List Event) :
    without_messages (a ++ b) = without_messages a ++ without_messages b := by
  simp [without_messages]

theorem page_fetches_without_messages (events : List Event) :
    page_fetches (without_messages events) = page_fetches events := by
  induction events with
  | nil => rfl
  | cons e rest ih =>
    cases e <;> simp_all [page_fetches, without_messages, is_message, List.filter_cons]

theorem without_messages_child_page_messages (i a b : Nat) (child_page : Page) :
    without_messages (child_page_messages i a b child_page) = [] := by
  unfold child_page_messages
  split_ifs <;> simp [without_messages, is_message]

theorem same_effect_refl (s : Step) : same_effect s s := ⟨rfl, rfl, rfl⟩

theorem same_effect_trans (s1 s2 s3 : Step) (h12 : same_effect s1 s2)
    (h23 : same_effect s2 s3) : same_effect s1 s3 :=
  ⟨h12.1.trans h23.1, h12.2.1.trans h23.2.1, h12.2.2.trans h23.2.2⟩

theorem same_effect_after (s1 s2 : Step) (e1 e2 : List Event)
    (he : without_messages e1 = without_messages e2) (h : same_effect s1 s2) :
    same_effect (s1.after e1) (s2.after e2) := by
  refine ⟨h.1, h.2.1, ?_⟩
  simp only [Step.after_events, without_messages_append, he, h.2.2]

/-- The step for one child page does not depend on the locals `page_value_iterator`,
`previous_child_page_number` and `previous_next_child_page_number`, the
sibling-linkage messages apart. -/
theorem read_child_page_same_effect (K : Definitions) (env : Collaborators)
    (parent_walk : Page → PageTree → Step) (flags : Nat) (page : Page)
    (i a b i' a' b' child_page_number : Nat) (page_tree : PageTree) :
    same_effect
      (read_child_page K env parent_walk flags page i a b child_page_number page_tree)
      (read_child_page K env parent_walk flags page i' a' b' child_page_number page_tree) := by
  unfold read_child_page
  cases hread : env.page_read child_page_number with
  | none => exact same_effect_refl _
  | some child =>
    simp only []
    by_cases hne : page.father_data_page_object_identifier
        ≠ child.father_data_page_object_identifier
    · rw [if_pos hne, if_pos hne]
      exact same_effect_refl _
    · rw [if_neg hne, if_neg hne]
      by_cases hleaf : has_flag child.flags K.LIBESEDB_PAGE_FLAG_IS_LEAF = true
      · rw [if_pos hleaf, if_pos hleaf]
        refine ⟨rfl, rfl, ?_⟩
        simp only [without_messages_append, without_messages_child_page_messages]
      · rw [if_neg hleaf, if_neg hleaf]
        exact same_effect_refl _

/-- The loop over the child pages does not depend on the locals
`page_value_iterator`, `previous_child_page_number` and
`previous_next_child_page_number`, the sibling-linkage messages apart. -/
theorem read_child_pages_loop_same_effect (K : Definitions) (env : Collaborators)
    (parent_walk : Page → PageTree → Step) (flags : Nat) (page : Page)
    (values : List PageValue) (i a b i' a' b' : Nat) (page_tree : PageTree) :
    same_effect
      (read_child_pages_loop K env parent_walk flags page values i a b page_tree)
      (read_child_pages_loop K env parent_walk flags page values i' a' b' page_tree) := by
  induction values generalizing i a b i' a' b' page_tree with
  | nil => exact same_effect_refl _
  | cons u rest ih =>
    cases hkey : read_page_key u with
    | none =>
      rw [read_child_pages_loop_out_of_range K env parent_walk flags page u rest i a b
          page_tree hkey,
        read_child_pages_loop_out_of_range K env parent_walk flags page u rest i' a' b'
          page_tree hkey]
      exact same_effect_refl _
    | some key =>
      by_cases hskip : endian_little_convert_32bit key.page_value_data ≥ 0x117f02
      · rw [read_child_pages_loop_ignored K env parent_walk flags page u rest i a b page_tree
            key hkey hskip,
          read_child_pages_loop_ignored K env parent_walk flags page u rest i' a' b' page_tree
            key hkey hskip]
        exact ih _ _ _ _ _ _ _
      · have hsame := read_child_page_same_effect K env parent_walk flags page i a b i' a' b'
          (endian_little_convert_32bit key.page_value_data) page_tree
        by_cases hchild : (read_child_page K env parent_walk flags page i a b
            (endian_little_convert_32bit key.page_value_data) page_tree).result = .ok
        · have hchild' : (read_child_page K env parent_walk flags page i' a' b'
              (endian_little_convert_32bit key.page_value_data) page_tree).result = .ok := by
            rw [← hsame.1]
            exact hchild
          rw [read_child_pages_loop_ok K env parent_walk flags page u rest i a b page_tree
              key hkey hskip hchild,
            read_child_pages_loop_ok K env parent_walk flags page u rest i' a' b' page_tree
              key hkey hskip hchild', ← hsame.2.1]
          exact same_effect_after _ _ _ _ hsame.2.2 (ih _ _ _ _ _ _ _)
        · have hchild' : (read_child_page K env parent_walk flags page i' a' b'
              (endian_little_convert_32bit key.page_value_data) page_tree).result ≠ .ok := by
            rw [← hsame.1]
            exact hchild
          rw [read_child_pages_loop_stop K env parent_walk flags page u rest i a b page_tree
              key hkey hskip hchild,
            read_child_pages_loop_stop K env parent_walk flags page u rest i' a' b' page_tree
              key hkey hskip hchild']
          exact hsame

/-- The loop over the child pages with an ignored entry and without it: the same
result, page tree and events, the sibling-linkage messages apart. -/
theorem read_child_pages_loop_remove_ignored (K : Definitions) (env : Collaborators)
    (parent_walk : Page → PageTree → Step) (flags : Nat) (page : Page)
    (front : List PageValue) (v : PageValue) (rest : List PageValue) (key : PageKey)
    (hkey : read_page_key v = some key)
    (hskip : endian_little_convert_32bit key.page_value_data ≥ 0x117f02)
    (i a b : Nat) (page_tree : PageTree) :
    same_effect
      (read_child_pages_loop K env parent_walk flags page (front ++ v :: rest) i a b page_tree)
      (read_child_pages_loop K env parent_walk flags page (front ++ rest) i a b page_tree) := by
  induction front generalizing i a b page_tree with
  | nil =>
    rw [List.nil_append, List.nil_append,
      read_child_pages_loop_ignored K env parent_walk flags page v rest i a b page_tree key
        hkey hskip]
    exact read_child_pages_loop_same_effect K env parent_walk flags page rest _ _ _ _ _ _ _
  | cons u front ih =>
    rw [List.cons_append, List.cons_append]
    cases hukey : read_page_key u with
    | none =>
      rw [read_child_pages_loop_out_of_range K env parent_walk flags page u _ i a b
          page_tree hukey,
        read_child_pages_loop_out_of_range K env parent_walk flags page u _ i a b
          page_tree hukey]
      exact same_effect_refl _
    | some ukey =>
      by_cases huskip : endian_little_convert_32bit ukey.page_value_data ≥ 0x117f02
      · rw [read_child_pages_loop_ignored K env parent_walk flags page u _ i a b page_tree
            ukey hukey huskip,
          read_child_pages_loop_ignored K env parent_walk flags page u _ i a b page_tree
            ukey hukey huskip]
        exact ih _ _ _ _
      · by_cases hchild : (read_child_page K env parent_walk flags page i a b
            (endian_little_convert_32bit ukey.page_value_data) page_tree).result = .ok
        · rw [read_child_pages_loop_ok K env parent_walk flags page u _ i a b page_tree
              ukey hukey huskip hchild,
            read_child_pages_loop_ok K env parent_walk flags page u _ i a b page_tree
              ukey hukey huskip hchild]
          exact same_effect_after _ _ _ _ rfl (ih _ _ _ _)
        · rw [read_child_pages_loop_stop K env parent_walk flags page u _ i a b page_tree
              ukey hukey huskip hchild,
            read_child_pages_loop_stop K env parent_walk flags page u _ i a b page_tree
              ukey hukey huskip hchild]
          exact same_effect_refl _

/-- The step for one child page reads the page first. -/
theorem read_child_page_events (K : Definitions) (env : Collaborators)
    (parent_walk : Page → PageTree → Step) (flags : Nat) (page : Page)
    (i a b child_page_number : Nat) (page_tree : PageTree) :
    ∃ tail, (read_child_page K env parent_walk flags page i a b child_page_number
      page_tree).events = Event.page_read child_page_number :: tail := by
  unfold read_child_page
  cases hread : env.page_read child_page_number with
  | none => exact ⟨_, rfl⟩
  | some child =>
    simp only []
    split_ifs <;> exact ⟨_, rfl⟩

/-- The step for one child page uses the page only for its father data page object
identifier. -/
theorem read_child_page_congr (K : Definitions) (env : Collaborators)
    (parent_walk : Page → PageTree → Step) (flags : Nat) (page page' : Page)
    (hpage : page'.father_data_page_object_identifier
      = page.father_data_page_object_identifier)
    (i a b child_page_number : Nat) (page_tree : PageTree) :
    read_child_page K env parent_walk flags page' i a b child_page_number page_tree
      = read_child_page K env parent_walk flags page i a b child_page_number page_tree := by
  unfold read_child_page
  rw [hpage]

/-- The loop over the child pages uses the page only for its father data page
object identifier. -/
theorem read_child_pages_loop_congr (K : Definitions) (env : Collaborators)
    (parent_walk : Page → PageTree → Step) (flags : Nat) (page page' : Page)
    (hpage : page'.father_data_page_object_identifier
      = page.father_data_page_object_identifier)
    (values : List PageValue) (i a b : Nat) (page_tree : PageTree) :
    read_child_pages_loop K env parent_walk flags page' values i a b page_tree
      = read_child_pages_loop K env parent_walk flags page values i a b page_tree := by
  induction values generalizing i a b page_tree with
  | nil => rfl
  | cons u rest ih =>
    cases hkey : read_page_key u with
    | none =>
      rw [read_child_pages_loop_out_of_range K env parent_walk flags page u rest i a b
          page_tree hkey,
        read_child_pages_loop_out_of_range K env parent_walk flags page' u rest i a b
          page_tree hkey]
    | some key =>
      by_cases hskip : endian_little_convert_32bit key.page_value_data ≥ 0x117f02
      · rw [read_child_pages_loop_ignored K env parent_walk flags page u rest i a b page_tree
            key hkey hskip,
          read_child_pages_loop_ignored K env parent_walk flags page' u rest i a b page_tree
            key hkey hskip]
        exact ih _ _ _ _
      · have hsame := read_child_page_congr K env parent_walk flags page page' hpage i a b
          (endian_little_convert_32bit key.page_value_data) page_tree
        by_cases hchild : (read_child_page K env parent_walk flags page i a b
            (endian_little_convert_32bit key.page_value_data) page_tree).result = .ok
        · rw [read_child_pages_loop_ok K env parent_walk flags page u rest i a b page_tree
              key hkey hskip hchild,
            read_child_pages_loop_ok K env parent_walk flags page' u rest i a b page_tree
              key hkey hskip (by rw [hsame]; exact hchild), hsame, ih]
        · rw [read_child_pages_loop_stop K env parent_walk flags page u rest i a b page_tree
              key hkey hskip hchild,
            read_child_pages_loop_stop K env parent_walk flags page' u rest i a b page_tree
              key hkey hskip (by rw [hsame]; exact hchild), hsame]


/-- C14: at an entry of a parent page whose key fits and whose child page number is
0x117F02 or more, the loop of the function for the child pages goes on with the
next entry and does nothing else, so no page is read for the entry; the function
has the same result, the same page tree (both lists), the same page reads in the
same order and, the sibling-linkage messages apart, the same events as on the page
without that entry.  An entry whose key fits and whose child page number is
0x117F01 is read. -/
theorem C14_ignored_child_page_number (K : Definitions) (env : Collaborators)
    (parent_walk : Page → PageTree → Step) (flags : Nat) (page : Page)
    (page_tree : PageTree) (header : PageValue) (front : List PageValue) (v : PageValue)
    (rest : List PageValue) (key : PageKey)
    (hvalues : page.values = header :: (front ++ v :: rest))
    (hkey : read_page_key v = some key)
    (hskip : endian_little_convert_32bit key.page_value_data ≥ 0x117f02) :
    (∀ i a b t, read_child_pages_loop K env parent_walk flags page (v :: rest) i a b t
        = read_child_pages_loop K env parent_walk flags page rest (i + 1) a b t)
    ∧ ((libesedb_page_tree_read_child_pages K env parent_walk flags page page_tree).result
          = (libesedb_page_tree_read_child_pages K env parent_walk flags
              { page with values := header :: (front ++ rest) } page_tree).result
        ∧ (libesedb_page_tree_read_child_pages K env parent_walk flags page
              page_tree).page_tree
          = (libesedb_page_tree_read_child_pages K env parent_walk flags
              { page with values := header :: (front ++ rest) } page_tree).page_tree
        ∧ page_fetches
            (libesedb_page_tree_read_child_pages K env parent_walk flags page page_tree).events
          = page_fetches
            (libesedb_page_tree_read_child_pages K env parent_walk flags
              { page with values := header :: (front ++ rest) } page_tree).events
        ∧ without_messages
            (libesedb_page_tree_read_child_pages K env parent_walk flags page page_tree).events
          = without_messages
            (libesedb_page_tree_read_child_pages K env parent_walk flags
              { page with values := header :: (front ++ rest) } page_tree).events)
    ∧ (∀ w rest' key' i a b t, read_page_key w = some key' →
        endian_little_convert_32bit key'.page_value_data = 0x117f01 →
        ∃ tail, (read_child_pages_loop K env parent_walk flags page (w :: rest') i a b
          t).events = Event.page_read 0x117f01 :: tail) := by
  refine ⟨?_, ?_, ?_⟩
  · intro i a b t
    exact read_child_pages_loop_ignored K env parent_walk flags page v rest i a b t key hkey
      hskip
  · have hsame := read_child_pages_loop_remove_ignored K env parent_walk flags page front v
      rest key hkey hskip 1 0 0 page_tree
    have hremoved : libesedb_page_tree_read_child_pages K env parent_walk flags
          { page with values := header :: (front ++ rest) } page_tree
        = read_child_pages_loop K env parent_walk flags page (front ++ rest) 1 0 0
          page_tree := by
      unfold libesedb_page_tree_read_child_pages
      rw [List.drop_succ_cons, List.drop_zero]
      exact read_child_pages_loop_congr K env parent_walk flags page
        { page with values := header :: (front ++ rest) } rfl _ _ _ _ _
    have hpage : libesedb_page_tree_read_child_pages K env parent_walk flags page page_tree
        = read_child_pages_loop K env parent_walk flags page (front ++ v :: rest) 1 0 0
          page_tree := by
      unfold libesedb_page_tree_read_child_pages
      rw [hvalues, List.drop_succ_cons, List.drop_zero]
    rw [hremoved, hpage]
    refine ⟨hsame.1, hsame.2.1, ?_, hsame.2.2⟩
    rw [← page_fetches_without_messages, hsame.2.2, page_fetches_without_messages]
  · intro w rest' key' i a b t hwkey hwnumber
    have hnot : ¬ endian_little_convert_32bit key'.page_value_data ≥ 0x117f02 := by
      rw [hwnumber]
      decide
    obtain ⟨tail, htail⟩ := read_child_page_events K env parent_walk flags page i a b
      (endian_little_convert_32bit key'.page_value_data) t
    rw [hwnumber] at htail
    by_cases hchild : (read_child_page K env parent_walk flags page i a b
        (endian_little_convert_32bit key'.page_value_data) t).result = .ok
    · rw [read_child_pages_loop_ok K env parent_walk flags page w rest' i a b t key' hwkey
        hnot hchild, Step.after_events, hwnumber, htail]
      exact ⟨_, rfl⟩
    · rw [read_child_pages_loop_stop K env parent_walk flags page w rest' i a b t key' hwkey
        hnot hchild, hwnumber, htail]
      exact ⟨_, rfl⟩

/-- C14 on a parent page of the small tree whose entries point to page 2, to
0x117F02 and to page 3: the function for the child pages does on it what it does
on the page with the entries for page 2 and page 3. -/
theorem C14_ignored_child_page_number_witness :
    (libesedb_page_tree_read_child_pages esedb_definitions
        (example_collaborators example_tree_pages)
        (libesedb_page_tree_read_parent_page_values esedb_definitions
          (example_collaborators example_tree_pages) 1 0)
        0 example_page_with_ignored_entry example_bound_page_tree).result
      = (libesedb_page_tree_read_child_pages esedb_definitions
        (example_collaborators example_tree_pages)
        (libesedb_page_tree_read_parent_page_values esedb_definitions
          (example_collaborators example_tree_pages) 1 0)
        0 { example_page_with_ignored_entry with
            values := example_page_value [] :: ([example_child_value 2]
              ++ [example_child_value 3]) }
        example_bound_page_tree).result
    ∧ (libesedb_page_tree_read_child_pages esedb_definitions
        (example_collaborators example_tree_pages)
        (libesedb_page_tree_read_parent_page_values esedb_definitions
          (example_collaborators example_tree_pages) 1 0)
        0 example_page_with_ignored_entry example_bound_page_tree).page_tree
      = (libesedb_page_tree_read_child_pages esedb_definitions
        (example_collaborators example_tree_pages)
        (libesedb_page_tree_read_parent_page_values esedb_definitions
          (example_collaborators example_tree_pages) 1 0)
        0 { example_page_with_ignored_entry with
            values := example_page_value [] :: ([example_child_value 2]
              ++ [example_child_value 3]) }
        example_bound_page_tree).page_tree
    ∧ page_fetches (libesedb_page_tree_read_child_pages esedb_definitions
        (example_collaborators example_tree_pages)
        (libesedb_page_tree_read_parent_page_values esedb_definitions
          (example_collaborators example_tree_pages) 1 0)
        0 example_page_with_ignored_entry example_bound_page_tree).events
      = page_fetches (libesedb_page_tree_read_child_pages esedb_definitions
        (example_collaborators example_tree_pages)
        (libesedb_page_tree_read_parent_page_values esedb_definitions
          (example_collaborators example_tree_pages) 1 0)
        0 { example_page_with_ignored_entry with
            values := example_page_value [] :: ([example_child_value 2]
              ++ [example_child_value 3]) }
        example_bound_page_tree).events
    ∧ without_messages (libesedb_page_tree_read_child_pages esedb_definitions
        (example_collaborators example_tree_pages)
        (libesedb_page_tree_read_parent_page_values esedb_definitions
          (example_collaborators example_tree_pages) 1 0)
        0 example_page_with_ignored_entry example_bound_page_tree).events
      = without_messages (libesedb_page_tree_read_child_pages esedb_definitions
        (example_collaborators example_tree_pages)
        (libesedb_page_tree_read_parent_page_values esedb_definitions
          (example_collaborators example_tree_pages) 1 0)
        0 { example_page_with_ignored_entry with
            values := example_page_value [] :: ([example_child_value 2]
              ++ [example_child_value 3]) }
        example_bound_page_tree).events :=
  (C14_ignored_child_page_number esedb_definitions
    (example_collaborators example_tree_pages)
    (libesedb_page_tree_read_parent_page_values esedb_definitions
      (example_collaborators example_tree_pages) 1 0)
    0 example_page_with_ignored_entry example_bound_page_tree (example_page_value [])
    [example_child_value 2] example_ignored_child_value [example_child_value 3]
    { page_key_type := 0, page_key_size := 0, page_value_data := [0x02, 0x7f, 0x11, 0],
      page_value_size := 4 }
    rfl (by decide) (by decide)).2.1

/-- The page of the witness of C14, evaluated: pages 2, 3 and 4 are read, nothing is
read for the entry 0x117F02, and the sibling-linkage messages are those for the
entry counted. -/
theorem ignored_entry_evaluated :
    page_fetches (libesedb_page_tree_read_child_pages esedb_definitions
        (example_collaborators example_tree_pages)
        (libesedb_page_tree_read_parent_page_values esedb_definitions
          (example_collaborators example_tree_pages) 1 0)
        0 example_page_with_ignored_entry example_bound_page_tree).events = [2, 3, 4]
    ∧ (libesedb_page_tree_read_child_pages esedb_definitions
        (example_collaborators example_tree_pages)
        (libesedb_page_tree_read_parent_page_values esedb_definitions
          (example_collaborators example_tree_pages) 1 0)
        0 example_page_with_ignored_entry example_bound_page_tree).result = .ok := by
  decide

/-- A page value that holds the key fields and the key bytes of the layout has a key
that the functions accept. -/
theorem read_page_key_accepts (v : PageValue) (hsize : v.size < 65536)
    (hlayout : spec_payload_offset v ≤ v.size) :
    ∃ key, read_page_key v = some key := by
  by_cases hflag : v.flags &&& 0x04 = 0x04
  · rw [read_page_key_with_key_type v hflag]
    have hfits : ¬ endian_little_convert_16bit (v.data.drop 2)
        > uint16_sub (uint16_sub (v.size % 65536) 2) 2 := by
      simp only [spec_payload_offset, spec_key_size, spec_key_size_offset, hflag,
        if_true, Nat.reduceAdd] at hlayout
      simp only [endian_little_convert_16bit, byte_at_drop, uint16_sub, Nat.reduceAdd,
        Nat.add_zero]
      omega
    rw [if_neg hfits]
    exact ⟨_, rfl⟩
  · rw [read_page_key_without_key_type v hflag]
    have hfits : ¬ endian_little_convert_16bit v.data
        > uint16_sub (v.size % 65536) 2 := by
      simp only [spec_payload_offset, spec_key_size, spec_key_size_offset, hflag,
        if_false, Nat.reduceAdd, Nat.zero_add] at hlayout
      simp only [endian_little_convert_16bit, uint16_sub]
      omega
    rw [if_neg hfits]
    exact ⟨_, rfl⟩

/-- C15: for a parent page value laid out as optional key type, key size, key bytes
and child page number, with a child page number below 0x117F02, the loop body of
the function for the child pages is the step for the child page whose number is
the 32-bit little-endian number behind the key (offset 2 if tag flag 0x04 else 0,
plus 2, plus the key size): the loop ends with that step or goes on behind it, and
the first thing the step does is to read that page.  On the page, behind entries
that pass with success, that page is the next one read. -/
theorem C15_child_page_number_is_behind_the_key (K : Definitions) (env : Collaborators)
    (parent_walk : Page → PageTree → Step) (flags : Nat) (page : Page)
    (v : PageValue) (rest : List PageValue)
    (hsize : v.size < 65536)
    (hlayout : spec_payload_offset v + 4 ≤ v.size)
    (hnumber : spec_child_page_number v < 0x117f02) :
    (∀ i a b t,
      (read_child_pages_loop K env parent_walk flags page (v :: rest) i a b t
          = read_child_page K env parent_walk flags page i a b (spec_child_page_number v) t
        ∨ ∃ a' b', read_child_pages_loop K env parent_walk flags page (v :: rest) i a b t
          = (read_child_pages_loop K env parent_walk flags page rest (i + 1) a' b'
              (read_child_page K env parent_walk flags page i a b
                (spec_child_page_number v) t).page_tree).after
            (read_child_page K env parent_walk flags page i a b
              (spec_child_page_number v) t).events)
      ∧ ∃ tail, (read_child_pages_loop K env parent_walk flags page (v :: rest) i a b
          t).events = Event.page_read (spec_child_page_number v) :: tail)
    ∧ (∀ header front page_tree, page.values = header :: (front ++ v :: rest) →
        (read_child_pages_loop K env parent_walk flags page front 1 0 0
          page_tree).result = .ok →
        ∃ tail, (libesedb_page_tree_read_child_pages K env parent_walk flags page
            page_tree).events
          = (read_child_pages_loop K env parent_walk flags page front 1 0 0
              page_tree).events ++ Event.page_read (spec_child_page_number v) :: tail) := by
  obtain ⟨key, hkey⟩ := read_page_key_accepts v hsize (by omega)
  have hchild_number := read_page_key_child_page_number v key hkey
  have hnot : ¬ endian_little_convert_32bit key.page_value_data ≥ 0x117f02 := by
    rw [hchild_number]
    omega
  have hloop : ∀ i a b t,
      (read_child_pages_loop K env parent_walk flags page (v :: rest) i a b t
          = read_child_page K env parent_walk flags page i a b (spec_child_page_number v) t
        ∨ ∃ a' b', read_child_pages_loop K env parent_walk flags page (v :: rest) i a b t
          = (read_child_pages_loop K env parent_walk flags page rest (i + 1) a' b'
              (read_child_page K env parent_walk flags page i a b
                (spec_child_page_number v) t).page_tree).after
            (read_child_page K env parent_walk flags page i a b
              (spec_child_page_number v) t).events)
      ∧ ∃ tail, (read_child_pages_loop K env parent_walk flags page (v :: rest) i a b
          t).events = Event.page_read (spec_child_page_number v) :: tail := by
    intro i a b t
    obtain ⟨tail, htail⟩ := read_child_page_events K env parent_walk flags page i a b
      (spec_child_page_number v) t
    by_cases hchild : (read_child_page K env parent_walk flags page i a b
        (endian_little_convert_32bit key.page_value_data) t).result = .ok
    · have heq := read_child_pages_loop_ok K env parent_walk flags page v rest i a b t key
        hkey hnot hchild
      rw [hchild_number] at heq
      refine ⟨Or.inr ⟨_, _, heq⟩, ?_⟩
      rw [heq, Step.after_events, htail]
      exact ⟨_, rfl⟩
    · have heq := read_child_pages_loop_stop K env parent_walk flags page v rest i a b t key
        hkey hnot hchild
      rw [hchild_number] at heq
      refine ⟨Or.inl heq, ?_⟩
      rw [heq, htail]
      exact ⟨_, rfl⟩
  refine ⟨hloop, ?_⟩
  intro header front page_tree hvalues hfront
  obtain ⟨a', b', happ⟩ := read_child_pages_loop_append K env parent_walk flags page front
    (v :: rest) 1 0 0 page_tree hfront
  obtain ⟨tail, htail⟩ := (hloop (1 + front.length) a' b'
    (read_child_pages_loop K env parent_walk flags page front 1 0 0 page_tree).page_tree).2
  refine ⟨tail, ?_⟩
  unfold libesedb_page_tree_read_child_pages
  rw [hvalues, List.drop_succ_cons, List.drop_zero, happ, Step.after_events, htail]

/-- C15 at the second entry of the root page of the small tree, which points to
page 3 behind the entry for page 2. -/
theorem C15_child_page_number_is_behind_the_key_witness :
    ∃ tail, (libesedb_page_tree_read_child_pages esedb_definitions
        (example_collaborators example_tree_pages)
        (libesedb_page_tree_read_parent_page_values esedb_definitions
          (example_collaborators example_tree_pages) 1 0)
        0 (example_page 1 0x0005
          [example_header 1 0x40, example_child_value 2, example_child_value 3])
        example_bound_page_tree).events
      = (read_child_pages_loop esedb_definitions
          (example_collaborators example_tree_pages)
          (libesedb_page_tree_read_parent_page_values esedb_definitions
            (example_collaborators example_tree_pages) 1 0)
          0 (example_page 1 0x0005
            [example_header 1 0x40, example_child_value 2, example_child_value 3])
          [example_child_value 2] 1 0 0 example_bound_page_tree).events
        ++ Event.page_read (spec_child_page_number (example_child_value 3)) :: tail :=
  (C15_child_page_number_is_behind_the_key esedb_definitions
    (example_collaborators example_tree_pages)
    (libesedb_page_tree_read_parent_page_values esedb_definitions
      (example_collaborators example_tree_pages) 1 0)
    0 (example_page 1 0x0005
      [example_header 1 0x40, example_child_value 2, example_child_value 3])
    (example_child_value 3) [] (by decide) (by decide) (by decide)).2
    (example_header 1 0x40) [example_child_value 2] example_bound_page_tree rfl (by decide)


/-! ## The father data page function and its space tree pages -/

/-- The reading of a space tree page of the same tree whose values pass. -/
theorem read_space_tree_page_valid (K : Definitions) (env : Collaborators) (page : Page)
    (n : Nat) (page_tree : PageTree) (space_tree_page : Page)
    (hread : env.page_read n = some space_tree_page)
    (hsame : space_tree_page.father_data_page_object_identifier
      = page.father_data_page_object_identifier)
    (hvalues : libesedb_page_tree_read_space_tree_page_values K space_tree_page = .ok) :
    read_space_tree_page K env page n page_tree
      = { result := .ok, page_tree := page_tree,
          events := [.page_read n, .page_free n] } := by
  unfold read_space_tree_page
  simp only [hread]
  rw [if_neg (fun h => h hsame.symm), hvalues]

/-- The reading of a space tree page of another tree: it is read and freed, and the
result is "mismatch in father data page object identifier". -/
theorem read_space_tree_page_foreign (K : Definitions) (env : Collaborators) (page : Page)
    (n : Nat) (page_tree : PageTree) (space_tree_page : Page)
    (hread : env.page_read n = some space_tree_page)
    (hforeign : space_tree_page.father_data_page_object_identifier
      ≠ page.father_data_page_object_identifier) :
    read_space_tree_page K env page n page_tree
      = { result := .error .runtime_unsupported_value, page_tree := page_tree,
          events := [.page_read n, .page_free n] } := by
  unfold read_space_tree_page
  simp only [hread]
  rw [if_pos (fun h => hforeign h.symm)]

/-- The reading of a space tree page reads the page first. -/
theorem read_space_tree_page_events (K : Definitions) (env : Collaborators) (page : Page)
    (n : Nat) (page_tree : PageTree) :
    (read_space_tree_page K env page n page_tree).events = [.page_read n, .page_free n] := by
  unfold read_space_tree_page
  cases env.page_read n with
  | none => rfl
  | some space_tree_page =>
    simp only []
    split_ifs <;> rfl

/-- The father data page function on a page that passes the flag and sibling checks
and whose header has an extent space above 0: the two space tree pages are read
whatever the space tree page number is, the test of line 624 never holds. -/
theorem read_father_data_page_values_with_extent_space (K : Definitions)
    (env : Collaborators) (fuel flags : Nat) (page : Page) (page_tree : PageTree)
    (header : PageValue)
    (hroot : has_flag page.flags K.LIBESEDB_PAGE_FLAG_IS_ROOT = true)
    (hsupported : has_unsupported_flags page.flags (father_data_page_supported_flags K)
      = false)
    (hprevious : page.previous_page_number = 0)
    (hnext : page.next_page_number = 0)
    (hheader : libesedb_page_get_value page 0 = some header)
    (hextent : header_extent_space header > 0) :
    libesedb_page_tree_read_father_data_page_values K env fuel flags page page_tree
      = match (read_space_tree_page K env page (header_space_tree_page_number header)
            page_tree).result with
        | .ok =>
          match (read_space_tree_page K env page
              ((header_space_tree_page_number header + 1) % 4294967296) page_tree).result with
          | .ok =>
            (libesedb_page_tree_read_child_pages K env
              (libesedb_page_tree_read_parent_page_values K env fuel flags) flags page
              page_tree).after
              ((read_space_tree_page K env page (header_space_tree_page_number header)
                  page_tree).events
                ++ (read_space_tree_page K env page
                  ((header_space_tree_page_number header + 1) % 4294967296)
                  page_tree).events)
          | _ =>
            (read_space_tree_page K env page
              ((header_space_tree_page_number header + 1) % 4294967296) page_tree).after
              (read_space_tree_page K env page (header_space_tree_page_number header)
                page_tree).events
        | _ => read_space_tree_page K env page (header_space_tree_page_number header)
            page_tree := by
  have hnever : ¬ (header_space_tree_page_number header = 0
      ∧ header_space_tree_page_number header ≥ 0xff000000) := by omega
  unfold libesedb_page_tree_read_father_data_page_values
  rw [if_neg (by simp [hroot]), if_neg (by simp [hsupported]), if_neg (by simp [hprevious]),
    if_neg (by simp [hnext])]
  simp only [hheader]
  rw [if_pos hextent, if_neg hnever]

/-- The father data page function on a page that passes the flag and sibling checks
and whose header has an extent space above 0 reads the page with the space tree
page number of the header first, whatever that number is. -/
theorem read_father_data_page_values_reads_space_tree_page (K : Definitions)
    (env : Collaborators) (fuel flags : Nat) (page : Page) (page_tree : PageTree)
    (header : PageValue)
    (hroot : has_flag page.flags K.LIBESEDB_PAGE_FLAG_IS_ROOT = true)
    (hsupported : has_unsupported_flags page.flags (father_data_page_supported_flags K)
      = false)
    (hprevious : page.previous_page_number = 0)
    (hnext : page.next_page_number = 0)
    (hheader : libesedb_page_get_value page 0 = some header)
    (hextent : header_extent_space header > 0) :
    ∃ tail, (libesedb_page_tree_read_father_data_page_values K env fuel flags page
        page_tree).events
      = Event.page_read (header_space_tree_page_number header) :: tail := by
  rw [read_father_data_page_values_with_extent_space K env fuel flags page page_tree header
    hroot hsupported hprevious hnext hheader hextent]
  have hevents := read_space_tree_page_events K env page
    (header_space_tree_page_number header) page_tree
  cases howned : (read_space_tree_page K env page (header_space_tree_page_number header)
      page_tree).result with
  | ok =>
    simp only []
    cases havailable : (read_space_tree_page K env page
        ((header_space_tree_page_number header + 1) % 4294967296) page_tree).result with
    | ok =>
      simp only [Step.after_events, hevents]
      exact ⟨_, rfl⟩
    | error kind =>
      simp only [Step.after_events, hevents]
      exact ⟨_, rfl⟩
    | out_of_fuel =>
      simp only [Step.after_events, hevents]
      exact ⟨_, rfl⟩
  | error kind =>
    simp only [hevents]
    exact ⟨_, rfl⟩
  | out_of_fuel =>
    simp only [hevents]
    exact ⟨_, rfl⟩

/-- C16, what the source does instead: the test of line 624 joins its two
comparisons with `&&`, so it never holds.  On a root page that passes the flag and
sibling checks, with extent space 1 and space tree page number 0, the father data
page function reads the pages 0 and 1 as space tree pages and succeeds; with space
tree page number 0xFF000000 it reads page 0xFF000000 and fails because the page
cannot be read, not with "unsupported space tree page number". -/
theorem C16_space_tree_page_number_is_not_rejected :
    libesedb_page_tree_read_father_data_page_values esedb_definitions
        (example_collaborators example_zero_space_tree_pages) 1 0
        (example_page 5 0x0005 [example_header 1 0]) empty_page_tree
      = { result := .ok, page_tree := empty_page_tree,
          events := [.page_read 0, .page_free 0, .page_read 1, .page_free 1] }
    ∧ libesedb_page_tree_read_father_data_page_values esedb_definitions
        (example_collaborators example_zero_space_tree_pages) 1 0
        (example_page 5 0x0005 [example_reserved_header]) empty_page_tree
      = { result := .error .io_read_failed, page_tree := empty_page_tree,
          events := [.page_read 0xff000000, .page_free 0xff000000] } := by
  decide

/-- C17: on a root page that passes the flag and sibling checks and whose header
has an extent space above 0 and the space tree page number n, when the pages n and
n + 1 (a 32-bit sum) can be read, have the father data page object identifier of
the root and pass as space tree pages, the father data page function reads and
frees page n, reads and frees page n + 1, and then does what the function for the
child pages does on the root: its result and page tree are those of that function
and its events are these four followed by the events of that function.  A page n
or n + 1 with another father data page object identifier ends the function with
"mismatch in father data page object identifier" after that page is freed. -/
theorem C17_space_tree_pages_are_read_first (K : Definitions) (env : Collaborators)
    (fuel flags : Nat) (page : Page) (page_tree : PageTree) (header : PageValue)
    (hroot : has_flag page.flags K.LIBESEDB_PAGE_FLAG_IS_ROOT = true)
    (hsupported : has_unsupported_flags page.flags (father_data_page_supported_flags K)
      = false)
    (hprevious : page.previous_page_number = 0)
    (hnext : page.next_page_number = 0)
    (hheader : libesedb_page_get_value page 0 = some header)
    (hextent : header_extent_space header > 0) :
    (∀ owned available,
      env.page_read (header_space_tree_page_number header) = some owned →
      owned.father_data_page_object_identifier = page.father_data_page_object_identifier →
      libesedb_page_tree_read_space_tree_page_values K owned = .ok →
      env.page_read ((header_space_tree_page_number header + 1) % 4294967296)
        = some available →
      available.father_data_page_object_identifier
        = page.father_data_page_object_identifier →
      libesedb_page_tree_read_space_tree_page_values K available = .ok →
      libesedb_page_tree_read_father_data_page_values K env fuel flags page page_tree
        = (libesedb_page_tree_read_child_pages K env
            (libesedb_page_tree_read_parent_page_values K env fuel flags) flags page
            page_tree).after
          [.page_read (header_space_tree_page_number header),
           .page_free (header_space_tree_page_number header),
           .page_read ((header_space_tree_page_number header + 1) % 4294967296),
           .page_free ((header_space_tree_page_number header + 1) % 4294967296)])
    ∧ (∀ owned,
      env.page_read (header_space_tree_page_number header) = some owned →
      owned.father_data_page_object_identifier ≠ page.father_data_page_object_identifier →
      libesedb_page_tree_read_father_data_page_values K env fuel flags page page_tree
        = { result := .error .runtime_unsupported_value, page_tree := page_tree,
            events := [.page_read (header_space_tree_page_number header),
                       .page_free (header_space_tree_page_number header)] })
    ∧ (∀ owned available,
      env.page_read (header_space_tree_page_number header) = some owned →
      owned.father_data_page_object_identifier = page.father_data_page_object_identifier →
      libesedb_page_tree_read_space_tree_page_values K owned = .ok →
      env.page_read ((header_space_tree_page_number header + 1) % 4294967296)
        = some available →
      available.father_data_page_object_identifier
        ≠ page.father_data_page_object_identifier →
      libesedb_page_tree_read_father_data_page_values K env fuel flags page page_tree
        = { result := .error .runtime_unsupported_value, page_tree := page_tree,
            events := [.page_read (header_space_tree_page_number header),
                       .page_free (header_space_tree_page_number header),
                       .page_read ((header_space_tree_page_number header + 1) % 4294967296),
                       .page_free
                         ((header_space_tree_page_number header + 1) % 4294967296)] })
    ∧ (header_space_tree_page_number header < 4294967295 →
      (header_space_tree_page_number header + 1) % 4294967296
        = header_space_tree_page_number header + 1) := by
  have hwalk := read_father_data_page_values_with_extent_space K env fuel flags page
    page_tree header hroot hsupported hprevious hnext hheader hextent
  refine ⟨?_, ?_, ?_, ?_⟩
  · intro owned available hread1 hsame1 hvalues1 hread2 hsame2 hvalues2
    rw [hwalk, read_space_tree_page_valid K env page _ page_tree owned hread1 hsame1 hvalues1,
      read_space_tree_page_valid K env page _ page_tree available hread2 hsame2 hvalues2]
    rfl
  · intro owned hread1 hforeign1
    rw [hwalk, read_space_tree_page_foreign K env page _ page_tree owned hread1 hforeign1]
  · intro owned available hread1 hsame1 hvalues1 hread2 hforeign2
    rw [hwalk, read_space_tree_page_valid K env page _ page_tree owned hread1 hsame1 hvalues1,
      read_space_tree_page_foreign K env page _ page_tree available hread2 hforeign2]
    rfl
  · intro hbelow
    exact Nat.mod_eq_of_lt (by omega)

/-- C17 at scenario S5: the root page 1 of the small tree, with extent space 1 and
space tree page number 0x40. -/
theorem C17_space_tree_pages_are_read_first_witness :
    libesedb_page_tree_read_father_data_page_values esedb_definitions
        (example_collaborators example_tree_pages) 1 0
        (example_page 1 0x0005
          [example_header 1 0x40, example_child_value 2, example_child_value 3])
        example_bound_page_tree
      = (libesedb_page_tree_read_child_pages esedb_definitions
          (example_collaborators example_tree_pages)
          (libesedb_page_tree_read_parent_page_values esedb_definitions
            (example_collaborators example_tree_pages) 1 0)
          0 (example_page 1 0x0005
            [example_header 1 0x40, example_child_value 2, example_child_value 3])
          example_bound_page_tree).after
        [.page_read 0x40, .page_free 0x40, .page_read 0x41, .page_free 0x41] :=
  (C17_space_tree_pages_are_read_first esedb_definitions
    (example_collaborators example_tree_pages) 1 0
    (example_page 1 0x0005
      [example_header 1 0x40, example_child_value 2, example_child_value 3])
    example_bound_page_tree (example_header 1 0x40)
    (by decide) (by decide) rfl rfl rfl (by decide)).1
    (example_space_tree_page 0x40) (example_space_tree_page 0x41)
    (by decide) (by decide) (by decide) (by decide) (by decide) (by decide)

/-- C18: on a root page that passes the flag and sibling checks and whose header
has the extent space 0, whatever the space tree page number of the header is, the
father data page function is the function for the child pages on that page: the
same result, the same page tree and the same events, so the same page reads and no
space tree page. -/
theorem C18_no_extent_space_no_space_tree_pages (K : Definitions) (env : Collaborators)
    (fuel flags : Nat) (page : Page) (page_tree : PageTree) (header : PageValue)
    (hroot : has_flag page.flags K.LIBESEDB_PAGE_FLAG_IS_ROOT = true)
    (hsupported : has_unsupported_flags page.flags (father_data_page_supported_flags K)
      = false)
    (hprevious : page.previous_page_number = 0)
    (hnext : page.next_page_number = 0)
    (hheader : libesedb_page_get_value page 0 = some header)
    (hextent : header_extent_space header = 0) :
    libesedb_page_tree_read_father_data_page_values K env fuel flags page page_tree
      = libesedb_page_tree_read_child_pages K env
          (libesedb_page_tree_read_parent_page_values K env fuel flags) flags page
          page_tree := by
  unfold libesedb_page_tree_read_father_data_page_values
  rw [if_neg (by simp [hroot]), if_neg (by simp [hsupported]), if_neg (by simp [hprevious]),
    if_neg (by simp [hnext])]
  simp only [hheader]
  rw [if_neg (by omega)]

/-- C18 on the root page of the small tree with extent space 0 in its header and
the space tree page number 0x40: the pages 0x40 and 0x41 are not read. -/
theorem C18_no_extent_space_no_space_tree_pages_witness :
    libesedb_page_tree_read_father_data_page_values esedb_definitions
        (example_collaborators example_tree_pages) 1 0
        (example_page 1 0x0005
          [example_header 0 0x40, example_child_value 2, example_child_value 3])
        example_bound_page_tree
      = libesedb_page_tree_read_child_pages esedb_definitions
          (example_collaborators example_tree_pages)
          (libesedb_page_tree_read_parent_page_values esedb_definitions
            (example_collaborators example_tree_pages) 1 0)
          0 (example_page 1 0x0005
            [example_header 0 0x40, example_child_value 2, example_child_value 3])
          example_bound_page_tree :=
  C18_no_extent_space_no_space_tree_pages esedb_definitions
    (example_collaborators example_tree_pages) 1 0
    (example_page 1 0x0005
      [example_header 0 0x40, example_child_value 2, example_child_value 3])
    example_bound_page_tree (example_header 0 0x40)
    (by decide) (by decide) rfl rfl rfl (by decide)

/-- The page of the witness of C18, evaluated: the pages read are 2, 3 and 4. -/
theorem no_extent_space_evaluated :
    page_fetches (libesedb_page_tree_read_father_data_page_values esedb_definitions
        (example_collaborators example_tree_pages) 1 0
        (example_page 1 0x0005
          [example_header 0 0x40, example_child_value 2, example_child_value 3])
        example_bound_page_tree).events = [2, 3, 4] := by
  decide


/-! ## The flag checks -/

/-- C19, as the source has it: each of the father data page function (required
flag: root), the parent page function (parent), the leaf page function (leaf) and
the space tree page function (root and space tree) tests the required flags first
and the supported flags second.  A page that lacks a required flag fails with
"missing" (also when it carries a bit outside the mask); a page that has the
required flags and carries a bit outside the supported flags fails with
"unsupported".  In both cases no page is read, no decoder is called and the page
tree is the one given. -/
theorem C19_flag_checks (K : Definitions) (env : Collaborators) (fuel flags : Nat)
    (page : Page) (page_tree : PageTree) :
    (has_flag page.flags K.LIBESEDB_PAGE_FLAG_IS_ROOT = false →
      libesedb_page_tree_read_father_data_page_values K env fuel flags page page_tree
        = { result := .error .runtime_value_missing, page_tree := page_tree, events := [] })
    ∧ (has_flag page.flags K.LIBESEDB_PAGE_FLAG_IS_ROOT = true →
      has_unsupported_flags page.flags (father_data_page_supported_flags K) = true →
      libesedb_page_tree_read_father_data_page_values K env fuel flags page page_tree
        = { result := .error .runtime_unsupported_value, page_tree := page_tree,
            events := [] })
    ∧ (has_flag page.flags K.LIBESEDB_PAGE_FLAG_IS_PARENT = false →
      libesedb_page_tree_read_parent_page_values K env (fuel + 1) flags page page_tree
        = { result := .error .runtime_value_missing, page_tree := page_tree, events := [] })
    ∧ (has_flag page.flags K.LIBESEDB_PAGE_FLAG_IS_PARENT = true →
      has_unsupported_flags page.flags (parent_supported_flags K) = true →
      libesedb_page_tree_read_parent_page_values K env (fuel + 1) flags page page_tree
        = { result := .error .runtime_unsupported_value, page_tree := page_tree,
            events := [] })
    ∧ (has_flag page.flags K.LIBESEDB_PAGE_FLAG_IS_LEAF = false →
      libesedb_page_tree_read_leaf_page_values K env flags page page_tree
        = { result := .error .runtime_value_missing, page_tree := page_tree, events := [] })
    ∧ (has_flag page.flags K.LIBESEDB_PAGE_FLAG_IS_LEAF = true →
      has_unsupported_flags page.flags (leaf_supported_flags K) = true →
      libesedb_page_tree_read_leaf_page_values K env flags page page_tree
        = { result := .error .runtime_unsupported_value, page_tree := page_tree,
            events := [] })
    ∧ (has_flag page.flags
          (K.LIBESEDB_PAGE_FLAG_IS_ROOT ||| K.LIBESEDB_PAGE_FLAG_IS_SPACE_TREE) = false →
      libesedb_page_tree_read_space_tree_page_values K page = .error .runtime_value_missing)
    ∧ (has_flag page.flags
          (K.LIBESEDB_PAGE_FLAG_IS_ROOT ||| K.LIBESEDB_PAGE_FLAG_IS_SPACE_TREE) = true →
      has_unsupported_flags page.flags (space_tree_supported_flags K) = true →
      libesedb_page_tree_read_space_tree_page_values K page
        = .error .runtime_unsupported_value) := by
  refine ⟨?_, ?_, ?_, ?_, ?_, ?_, ?_, ?_⟩
  · intro hmissing
    unfold libesedb_page_tree_read_father_data_page_values
    rw [if_pos hmissing]
  · intro hrequired hunsupported
    unfold libesedb_page_tree_read_father_data_page_values
    rw [if_neg (by simp [hrequired]), if_pos hunsupported]
  · intro hmissing
    rw [libesedb_page_tree_read_parent_page_values, if_pos hmissing]
  · intro hrequired hunsupported
    rw [libesedb_page_tree_read_parent_page_values, if_neg (by simp [hrequired]),
      if_pos hunsupported]
  · intro hmissing
    unfold libesedb_page_tree_read_leaf_page_values
    rw [if_pos hmissing]
  · intro hrequired hunsupported
    unfold libesedb_page_tree_read_leaf_page_values
    rw [if_neg (by simp [hrequired]), if_pos hunsupported]
  · intro hmissing
    unfold libesedb_page_tree_read_space_tree_page_values
    simp only []
    rw [if_pos hmissing]
  · intro hrequired hunsupported
    unfold libesedb_page_tree_read_space_tree_page_values
    simp only []
    rw [if_neg (by simp [hrequired]), if_pos hunsupported]

/-- C19 on pages with the stray flag 0x0008: with the required flag of the role the
four functions fail with "unsupported". -/
theorem C19_flag_checks_witness :
    libesedb_page_tree_read_father_data_page_values esedb_definitions
        (example_collaborators []) 1 0
        (example_page 1 0x0009 [example_page_value []]) empty_page_tree
      = { result := .error .runtime_unsupported_value, page_tree := empty_page_tree,
          events := [] }
    ∧ libesedb_page_tree_read_parent_page_values esedb_definitions
        (example_collaborators []) (1 + 1) 0
        (example_page 1 0x000c [example_page_value []]) empty_page_tree
      = { result := .error .runtime_unsupported_value, page_tree := empty_page_tree,
          events := [] }
    ∧ libesedb_page_tree_read_leaf_page_values esedb_definitions
        (example_collaborators []) 0
        (example_page 1 0x000a [example_page_value []]) empty_page_tree
      = { result := .error .runtime_unsupported_value, page_tree := empty_page_tree,
          events := [] }
    ∧ libesedb_page_tree_read_space_tree_page_values esedb_definitions
        (example_page 1 0x0029 [example_page_value []])
      = .error .runtime_unsupported_value :=
  ⟨(C19_flag_checks esedb_definitions (example_collaborators []) 1 0
      (example_page 1 0x0009 [example_page_value []]) empty_page_tree).2.1
      (by decide) (by decide),
    (C19_flag_checks esedb_definitions (example_collaborators []) 1 0
      (example_page 1 0x000c [example_page_value []]) empty_page_tree).2.2.2.1
      (by decide) (by decide),
    (C19_flag_checks esedb_definitions (example_collaborators []) 1 0
      (example_page 1 0x000a [example_page_value []]) empty_page_tree).2.2.2.2.2.1
      (by decide) (by decide),
    (C19_flag_checks esedb_definitions (example_collaborators []) 1 0
      (example_page 1 0x0029 [example_page_value []]) empty_page_tree).2.2.2.2.2.2.2
      (by decide) (by decide)⟩

/-- C19 read literally fails: a page with the flags 0x0008 only carries a bit
outside the supported flags of each role, and each of the four functions fails on
it with "missing", not with "unsupported". -/
theorem C19_counterexample :
    has_unsupported_flags 0x0008 (father_data_page_supported_flags esedb_definitions) = true
    ∧ has_unsupported_flags 0x0008 (parent_supported_flags esedb_definitions) = true
    ∧ has_unsupported_flags 0x0008 (leaf_supported_flags esedb_definitions) = true
    ∧ has_unsupported_flags 0x0008 (space_tree_supported_flags esedb_definitions) = true
    ∧ (libesedb_page_tree_read_father_data_page_values esedb_definitions
        (example_collaborators []) 1 0
        (example_page 1 0x0008 [example_page_value []]) empty_page_tree).result
      = .error .runtime_value_missing
    ∧ (libesedb_page_tree_read_parent_page_values esedb_definitions
        (example_collaborators []) 1 0
        (example_page 1 0x0008 [example_page_value []]) empty_page_tree).result
      = .error .runtime_value_missing
    ∧ (libesedb_page_tree_read_leaf_page_values esedb_definitions
        (example_collaborators []) 0
        (example_page 1 0x0008 [example_page_value []]) empty_page_tree).result
      = .error .runtime_value_missing
    ∧ libesedb_page_tree_read_space_tree_page_values esedb_definitions
        (example_page 1 0x0008 [example_page_value []])
      = .error .runtime_value_missing := by
  decide

/-- C20, as the source has it: `libesedb_page_tree_read` hands a root page without
the leaf flag and with the root flag to the father data page function, and fails
with "unsupported" when the page carries a bit outside root, parent, index, long
value, primary and new record format; a root page with the leaf flag goes to the
leaf page function, and fails with "unsupported" when it carries a bit outside the
supported flags of a leaf page.  The root page has been read and is not freed, the
page tree is the one given. -/
theorem C20_root_page_with_unsupported_flags (K : Definitions) (env : Collaborators)
    (fuel : Nat) (page_tree : PageTree) (father_data_page_number flags : Nat) (page : Page)
    (hread : env.page_read father_data_page_number = some page) :
    (has_flag page.flags K.LIBESEDB_PAGE_FLAG_IS_LEAF = false →
      has_flag page.flags K.LIBESEDB_PAGE_FLAG_IS_ROOT = true →
      has_unsupported_flags page.flags (father_data_page_supported_flags K) = true →
      libesedb_page_tree_read K env fuel page_tree father_data_page_number flags
        = { result := .error .runtime_unsupported_value, page_tree := page_tree,
            events := [.page_read father_data_page_number] })
    ∧ (has_flag page.flags K.LIBESEDB_PAGE_FLAG_IS_LEAF = true →
      has_unsupported_flags page.flags (leaf_supported_flags K) = true →
      libesedb_page_tree_read K env fuel page_tree father_data_page_number flags
        = { result := .error .runtime_unsupported_value, page_tree := page_tree,
            events := [.page_read father_data_page_number] }) := by
  refine ⟨?_, ?_⟩
  · intro hleaf hroot hunsupported
    have hwalk : libesedb_page_tree_read_father_data_page_values K env fuel flags page
        page_tree
        = { result := .error .runtime_unsupported_value, page_tree := page_tree,
            events := [] } := by
      unfold libesedb_page_tree_read_father_data_page_values
      rw [if_neg (by simp [hroot]), if_pos hunsupported]
    unfold libesedb_page_tree_read
    simp only [hread]
    rw [if_neg (by simp [hleaf]), if_pos hroot, hwalk]
    rfl
  · intro hleaf hunsupported
    have hwalk : libesedb_page_tree_read_leaf_page_values K env flags page page_tree
        = { result := .error .runtime_unsupported_value, page_tree := page_tree,
            events := [] } := by
      unfold libesedb_page_tree_read_leaf_page_values
      rw [if_neg (by simp [hleaf]), if_pos hunsupported]
    unfold libesedb_page_tree_read
    simp only [hread]
    rw [if_pos hleaf, hwalk]
    rfl

/-- C20 on the root page 1 with the flags root and 0x0008. -/
theorem C20_root_page_with_unsupported_flags_witness :
    libesedb_page_tree_read esedb_definitions
        (example_collaborators (example_single_page 0x0009)) 1 empty_page_tree 1 0
      = { result := .error .runtime_unsupported_value, page_tree := empty_page_tree,
          events := [.page_read 1] } :=
  (C20_root_page_with_unsupported_flags esedb_definitions
    (example_collaborators (example_single_page 0x0009)) 1 empty_page_tree 1 0
    (example_page 1 0x0009 [example_page_value []]) rfl).1
    (by decide) (by decide) (by decide)

/-- C20 read literally fails: the leaf flag 0x0002 and the flag 0x0008 are outside
root, parent, index, long value, primary and new record format, and
`libesedb_page_tree_read` succeeds on a root page whose flags are 0x0002 (it is read
as a leaf page) and on one whose flags are 0x0008 (neither function is called). -/
theorem C20_counterexample :
    has_unsupported_flags 0x0002 (father_data_page_supported_flags esedb_definitions) = true
    ∧ libesedb_page_tree_read esedb_definitions
        (example_collaborators (example_single_page 0x0002)) 1 empty_page_tree 1 0
      = { result := .ok, page_tree := empty_page_tree,
          events := [.page_read 1, .page_free 1] }
    ∧ has_unsupported_flags 0x0008 (father_data_page_supported_flags esedb_definitions)
      = true
    ∧ libesedb_page_tree_read esedb_definitions
        (example_collaborators (example_single_page 0x0008)) 1 empty_page_tree 1 0
      = { result := .ok, page_tree := empty_page_tree,
          events := [.page_read 1, .page_free 1] } := by
  decide


/-! ## The space tree page function -/

/-- The header check of a leaf space tree page passes exactly a header of size 0 and
a header of 16 zero bytes. -/
theorem space_tree_header_error_none (header : PageValue) :
    space_tree_header_error header = none
      ↔ header.size = 0 ∨ (header.size = 16 ∧ ∀ k, k < 16 → byte_at header.data k = 0) := by
  unfold space_tree_header_error
  by_cases h16 : header.size = 16
  · rw [if_pos h16]
    by_cases hany : ((List.range 16).any (fun k => byte_at header.data k != 0)) = true
    · rw [if_pos hany]
      simp only [List.any_eq_true, List.mem_range, bne_iff_ne] at hany
      obtain ⟨k, hk, hne⟩ := hany
      constructor
      · intro h
        cases h
      · rintro (h0 | ⟨_, hall⟩)
        · omega
        · exact absurd (hall k hk) hne
    · rw [if_neg hany]
      simp only [List.any_eq_true, List.mem_range, bne_iff_ne, not_exists, not_and,
        not_not] at hany
      exact ⟨fun _ => Or.inr ⟨h16, hany⟩, fun _ => rfl⟩
  · rw [if_neg h16]
    by_cases h0 : header.size = 0
    · rw [if_neg (by simp [h0])]
      exact ⟨fun _ => Or.inl h0, fun _ => rfl⟩
    · rw [if_pos h0]
      constructor
      · intro h
        cases h
      · rintro (h | ⟨h, _⟩)
        · exact absurd h h0
        · exact absurd h h16

/-- The header check of a leaf space tree page fails with "unsupported" only. -/
theorem space_tree_header_error_kind (header : PageValue) (kind : ErrorKind)
    (h : space_tree_header_error header = some kind) : kind = .runtime_unsupported_value := by
  unfold space_tree_header_error at h
  split_ifs at h <;> simp_all

/-- The loop of the space tree page function over the entries of a leaf page: it
succeeds exactly when every entry passes the three tests. -/
theorem read_space_tree_page_values_loop_leaf (K : Definitions) (page : Page)
    (hleaf : has_flag page.flags K.LIBESEDB_PAGE_FLAG_IS_LEAF = true)
    (values : List PageValue) :
    (read_space_tree_page_values_loop K page values = .ok
      ↔ ∀ v ∈ values, v.flags &&& 0x05 = 0
          ∧ v.size = K.sizeof_esedb_space_tree_page_entry_t
          ∧ endian_little_convert_16bit v.data = 4)
    ∧ (read_space_tree_page_values_loop K page values = .ok
      ∨ read_space_tree_page_values_loop K page values = .error .runtime_unsupported_value) := by
  induction values with
  | nil => exact ⟨⟨fun _ v hv => absurd hv (List.not_mem_nil v), fun _ => rfl⟩, Or.inl rfl⟩
  | cons v rest ih =>
    rw [read_space_tree_page_values_loop, if_pos hleaf]
    by_cases hflags : v.flags &&& 0x05 = 0
    · rw [if_neg (by simp [hflags])]
      by_cases hsize : v.size = K.sizeof_esedb_space_tree_page_entry_t
      · rw [if_neg (by simp [hsize])]
        by_cases hkey : endian_little_convert_16bit v.data = 4
        · rw [if_neg (by simp [hkey])]
          refine ⟨?_, ih.2⟩
          rw [ih.1]
          simp only [List.mem_cons, forall_eq_or_imp]
          exact ⟨fun h => ⟨⟨hflags, hsize, hkey⟩, h⟩, fun h => h.2⟩
        · rw [if_pos (by simp [hkey])]
          refine ⟨⟨fun h => (by cases h), fun h => ?_⟩, Or.inr rfl⟩
          exact absurd (h v (List.mem_cons_self v rest)).2.2 hkey
      · rw [if_pos (by simp [hsize])]
        refine ⟨⟨fun h => (by cases h), fun h => ?_⟩, Or.inr rfl⟩
        exact absurd (h v (List.mem_cons_self v rest)).2.1 hsize
    · rw [if_pos (by simp [hflags])]
      refine ⟨⟨fun h => (by cases h), fun h => ?_⟩, Or.inr rfl⟩
      exact absurd (h v (List.mem_cons_self v rest)).1 hflags

/-- The space tree page function on a page that passes the flag and sibling checks
and has a first value that passes the header check of a leaf page, or is no leaf
page: the loop over the values behind the first. -/
theorem read_space_tree_page_values_checked (K : Definitions) (page : Page)
    (header : PageValue)
    (hrequired : has_flag page.flags
      (K.LIBESEDB_PAGE_FLAG_IS_ROOT ||| K.LIBESEDB_PAGE_FLAG_IS_SPACE_TREE) = true)
    (hsupported : has_unsupported_flags page.flags (space_tree_supported_flags K) = false)
    (hprevious : page.previous_page_number = 0)
    (hnext : page.next_page_number = 0)
    (hheader : libesedb_page_get_value page 0 = some header)
    (hpass : (if has_flag page.flags K.LIBESEDB_PAGE_FLAG_IS_LEAF then
      space_tree_header_error header else none) = none) :
    libesedb_page_tree_read_space_tree_page_values K page
      = read_space_tree_page_values_loop K page (page.values.drop 1) := by
  unfold libesedb_page_tree_read_space_tree_page_values
  simp only []
  rw [if_neg (by simp [hrequired]), if_neg (by simp [hsupported]),
    if_neg (by simp [hprevious]), if_neg (by simp [hnext])]
  simp only [hheader, hpass]

/-- The space tree page function on a leaf page that passes the flag and sibling
checks and has a first value that does not pass the header check. -/
theorem read_space_tree_page_values_header (K : Definitions) (page : Page)
    (header : PageValue) (kind : ErrorKind)
    (hrequired : has_flag page.flags
      (K.LIBESEDB_PAGE_FLAG_IS_ROOT ||| K.LIBESEDB_PAGE_FLAG_IS_SPACE_TREE) = true)
    (hsupported : has_unsupported_flags page.flags (space_tree_supported_flags K) = false)
    (hprevious : page.previous_page_number = 0)
    (hnext : page.next_page_number = 0)
    (hheader : libesedb_page_get_value page 0 = some header)
    (hleaf : has_flag page.flags K.LIBESEDB_PAGE_FLAG_IS_LEAF = true)
    (hfail : space_tree_header_error header = some kind) :
    libesedb_page_tree_read_space_tree_page_values K page = .error kind := by
  unfold libesedb_page_tree_read_space_tree_page_values
  simp only []
  rw [if_neg (by simp [hrequired]), if_neg (by simp [hsupported]),
    if_neg (by simp [hprevious]), if_neg (by simp [hnext])]
  simp only [hheader, hleaf, if_true, hfail]

/-- C22: on a leaf space tree page that passes the flag and sibling checks and whose
header is absent (size 0) or 16 zero bytes, the space tree page function succeeds
exactly when every value behind the header has none of the tag flags 0x05, the
size of `esedb_space_tree_page_entry_t` and the key size 4; otherwise it fails,
and the failure is "unsupported". -/
theorem C22_space_tree_leaf_entries (K : Definitions) (page : Page) (header : PageValue)
    (hleaf : has_flag page.flags K.LIBESEDB_PAGE_FLAG_IS_LEAF = true)
    (hrequired : has_flag page.flags
      (K.LIBESEDB_PAGE_FLAG_IS_ROOT ||| K.LIBESEDB_PAGE_FLAG_IS_SPACE_TREE) = true)
    (hsupported : has_unsupported_flags page.flags (space_tree_supported_flags K) = false)
    (hprevious : page.previous_page_number = 0)
    (hnext : page.next_page_number = 0)
    (hheader : libesedb_page_get_value page 0 = some header)
    (hzero : header.size = 0 ∨ (header.size = 16 ∧ ∀ k, k < 16 → byte_at header.data k = 0)) :
    (libesedb_page_tree_read_space_tree_page_values K page = .ok
      ↔ ∀ v ∈ page.values.drop 1, v.flags &&& 0x05 = 0
          ∧ v.size = K.sizeof_esedb_space_tree_page_entry_t
          ∧ endian_little_convert_16bit v.data = 4)
    ∧ (libesedb_page_tree_read_space_tree_page_values K page = .ok
      ∨ libesedb_page_tree_read_space_tree_page_values K page
        = .error .runtime_unsupported_value) := by
  rw [read_space_tree_page_values_checked K page header hrequired hsupported hprevious hnext
    hheader (by rw [if_pos hleaf]; exact (space_tree_header_error_none header).mpr hzero)]
  exact read_space_tree_page_values_loop_leaf K page hleaf _

/-- C22 on the leaf space tree page of the examples, whose one entry passes. -/
theorem C22_space_tree_leaf_entries_witness :
    (libesedb_page_tree_read_space_tree_page_values esedb_definitions
        (example_space_tree_page 0x40) = .ok
      ↔ ∀ v ∈ (example_space_tree_page 0x40).values.drop 1, v.flags &&& 0x05 = 0
          ∧ v.size = esedb_definitions.sizeof_esedb_space_tree_page_entry_t
          ∧ endian_little_convert_16bit v.data = 4)
    ∧ (libesedb_page_tree_read_space_tree_page_values esedb_definitions
        (example_space_tree_page 0x40) = .ok
      ∨ libesedb_page_tree_read_space_tree_page_values esedb_definitions
        (example_space_tree_page 0x40) = .error .runtime_unsupported_value) :=
  C22_space_tree_leaf_entries esedb_definitions (example_space_tree_page 0x40)
    { data := [], size := 0, flags := 0 } (by decide) (by decide) (by decide) rfl rfl rfl
    (Or.inl rfl)

/-- An entry with the key size 5 on a leaf space tree page: the function fails with
"unsupported". -/
theorem space_tree_key_size_evaluated :
    libesedb_page_tree_read_space_tree_page_values esedb_definitions
        (example_page 0x40 0x0023
          [{ data := [], size := 0, flags := 0 },
           { data := [5, 0, 7, 0, 0, 0, 1, 0, 0, 0, 0, 0], size := 12, flags := 0 }])
      = .error .runtime_unsupported_value := by
  decide

/-- C23, as the source has it: on a space tree page with the leaf flag whose first
value has a size other than 0 and 16, or has the size 16 and a byte that is not 0,
the space tree page function fails; the failure is "unsupported" when the page
passes the flag and sibling checks. -/
theorem C23_space_tree_header_of_leaf_page (K : Definitions) (page : Page)
    (header : PageValue)
    (hleaf : has_flag page.flags K.LIBESEDB_PAGE_FLAG_IS_LEAF = true)
    (hheader : libesedb_page_get_value page 0 = some header)
    (hbad : (header.size ≠ 0 ∧ header.size ≠ 16)
      ∨ (header.size = 16 ∧ ∃ k, k < 16 ∧ byte_at header.data k ≠ 0)) :
    (∃ kind, libesedb_page_tree_read_space_tree_page_values K page = .error kind)
    ∧ (has_flag page.flags
          (K.LIBESEDB_PAGE_FLAG_IS_ROOT ||| K.LIBESEDB_PAGE_FLAG_IS_SPACE_TREE) = true →
      has_unsupported_flags page.flags (space_tree_supported_flags K) = false →
      page.previous_page_number = 0 → page.next_page_number = 0 →
      libesedb_page_tree_read_space_tree_page_values K page
        = .error .runtime_unsupported_value) := by
  have hnot : space_tree_header_error header ≠ none := by
    intro hnone
    rcases (space_tree_header_error_none header).mp hnone with h0 | ⟨h16, hall⟩
    · rcases hbad with ⟨hne, _⟩ | ⟨h16, _⟩
      · exact hne h0
      · omega
    · rcases hbad with ⟨_, hne⟩ | ⟨_, k, hk, hbyte⟩
      · exact hne h16
      · exact hbyte (hall k hk)
  have hchecked : has_flag page.flags
        (K.LIBESEDB_PAGE_FLAG_IS_ROOT ||| K.LIBESEDB_PAGE_FLAG_IS_SPACE_TREE) = true →
      has_unsupported_flags page.flags (space_tree_supported_flags K) = false →
      page.previous_page_number = 0 → page.next_page_number = 0 →
      libesedb_page_tree_read_space_tree_page_values K page
        = .error .runtime_unsupported_value := by
    intro hrequired hsupported hprevious hnext
    cases herror : space_tree_header_error header with
    | none => exact absurd herror hnot
    | some kind =>
      rw [read_space_tree_page_values_header K page header kind hrequired hsupported hprevious
        hnext hheader hleaf herror, space_tree_header_error_kind header kind herror]
  refine ⟨?_, hchecked⟩
  by_cases hrequired : has_flag page.flags
      (K.LIBESEDB_PAGE_FLAG_IS_ROOT ||| K.LIBESEDB_PAGE_FLAG_IS_SPACE_TREE) = true
  · by_cases hsupported : has_unsupported_flags page.flags (space_tree_supported_flags K)
        = false
    · by_cases hprevious : page.previous_page_number = 0
      · by_cases hnext : page.next_page_number = 0
        · exact ⟨_, hchecked hrequired hsupported hprevious hnext⟩
        · unfold libesedb_page_tree_read_space_tree_page_values
          simp only []
          rw [if_neg (by simp [hrequired]), if_neg (by simp [hsupported]),
            if_neg (by simp [hprevious]), if_pos hnext]
          exact ⟨_, rfl⟩
      · unfold libesedb_page_tree_read_space_tree_page_values
        simp only []
        rw [if_neg (by simp [hrequired]), if_neg (by simp [hsupported]), if_pos hprevious]
        exact ⟨_, rfl⟩
    · unfold libesedb_page_tree_read_space_tree_page_values
      simp only []
      rw [if_neg (by simp [hrequired]), if_pos (by simpa using hsupported)]
      exact ⟨_, rfl⟩
  · unfold libesedb_page_tree_read_space_tree_page_values
    simp only []
    rw [if_pos (by simpa using hrequired)]
    exact ⟨_, rfl⟩

/-- C23 on a leaf space tree page whose first value has 5 bytes. -/
theorem C23_space_tree_header_of_leaf_page_witness :
    libesedb_page_tree_read_space_tree_page_values esedb_definitions
        (example_page 0x40 0x0023 [{ data := [1, 2, 3, 4, 5], size := 5, flags := 0 }])
      = .error .runtime_unsupported_value :=
  (C23_space_tree_header_of_leaf_page esedb_definitions
    (example_page 0x40 0x0023 [{ data := [1, 2, 3, 4, 5], size := 5, flags := 0 }])
    { data := [1, 2, 3, 4, 5], size := 5, flags := 0 } (by decide) rfl
    (Or.inl ⟨by decide, by decide⟩)).2 (by decide) (by decide) rfl rfl

/-- C23 read literally fails: a space tree page with the flags root, space tree and
parent whose first value has 5 bytes passes the space tree page function; the
header is tested on a page with the leaf flag only. -/
theorem C23_counterexample :
    libesedb_page_get_value example_space_tree_parent_page 0
      = some { data := [1, 2, 3, 4, 5], size := 5, flags := 0 }
    ∧ libesedb_page_tree_read_space_tree_page_values esedb_definitions
        example_space_tree_parent_page = .ok := by
  decide

/-! ## `libesedb_page_tree_read` on a root page without children -/

/-- C24: on a root page that has neither the leaf flag nor the root flag,
`libesedb_page_tree_read` returns 1 for every `flags` argument; the root page is
the only page read, it is freed, and the page tree is the one given. -/
theorem C24_root_page_without_leaf_and_root_flag (K : Definitions) (env : Collaborators)
    (fuel : Nat) (page_tree : PageTree) (father_data_page_number flags : Nat) (page : Page)
    (hread : env.page_read father_data_page_number = some page)
    (hleaf : has_flag page.flags K.LIBESEDB_PAGE_FLAG_IS_LEAF = false)
    (hroot : has_flag page.flags K.LIBESEDB_PAGE_FLAG_IS_ROOT = false) :
    libesedb_page_tree_read K env fuel page_tree father_data_page_number flags
      = { result := .ok, page_tree := page_tree,
          events := [.page_read father_data_page_number,
                     .page_free father_data_page_number] } := by
  unfold libesedb_page_tree_read
  simp only [hread]
  rw [if_neg (by simp [hleaf]), if_neg (by simp [hroot])]

/-- C24 on the root page 1 with the flags 0x0008, in catalog mode. -/
theorem C24_root_page_without_leaf_and_root_flag_witness :
    libesedb_page_tree_read esedb_definitions
        (example_collaborators (example_single_page 0x0008)) 0 example_bound_page_tree 1 1
      = { result := .ok, page_tree := example_bound_page_tree,
          events := [.page_read 1, .page_free 1] } :=
  C24_root_page_without_leaf_and_root_flag esedb_definitions
    (example_collaborators (example_single_page 0x0008)) 0 example_bound_page_tree 1 1
    (example_page 1 0x0008 [example_page_value []]) rfl (by decide) (by decide)

/-- C25: on a root page with the leaf flag, flags within the supported flags of a
leaf page and one value (the header), `libesedb_page_tree_read` returns 1 for every
`flags` argument and every page tree, with or without a bound table definition;
the page tree is the one given, no decoder is called, and the root page is read
and freed. -/
theorem C25_leaf_root_page_without_values (K : Definitions) (env : Collaborators)
    (fuel : Nat) (page_tree : PageTree) (father_data_page_number flags : Nat) (page : Page)
    (header : PageValue)
    (hread : env.page_read father_data_page_number = some page)
    (hleaf : has_flag page.flags K.LIBESEDB_PAGE_FLAG_IS_LEAF = true)
    (hsupported : has_unsupported_flags page.flags (leaf_supported_flags K) = false)
    (hvalues : page.values = [header]) :
    libesedb_page_tree_read K env fuel page_tree father_data_page_number flags
      = { result := .ok, page_tree := page_tree,
          events := [.page_read father_data_page_number,
                     .page_free father_data_page_number] } := by
  have hwalk : libesedb_page_tree_read_leaf_page_values K env flags page page_tree
      = { result := .ok, page_tree := page_tree, events := [] } := by
    unfold libesedb_page_tree_read_leaf_page_values
    rw [if_neg (by simp [hleaf]), if_neg (by simp [hsupported])]
    simp [libesedb_page_get_value, hvalues, read_leaf_page_values_loop]
  unfold libesedb_page_tree_read
  simp only [hread]
  rw [if_pos hleaf, hwalk]
  rfl

/-- C25 on the leaf root page 1 with a header only, in row mode without a bound
table definition. -/
theorem C25_leaf_root_page_without_values_witness :
    libesedb_page_tree_read esedb_definitions
        (example_collaborators (example_single_page 0x0002)) 0 empty_page_tree 1 0
      = { result := .ok, page_tree := empty_page_tree,
          events := [.page_read 1, .page_free 1] } :=
  C25_leaf_root_page_without_values esedb_definitions
    (example_collaborators (example_single_page 0x0002)) 0 empty_page_tree 1 0
    (example_page 1 0x0002 [example_page_value []]) (example_page_value []) rfl (by decide)
    (by decide) rfl


/-! ## The sibling pointers of the pages walked -/

/-- A child page without the leaf flag and with the parent flag whose step succeeds
has passed the function called for a parent page. -/
theorem read_child_page_parent_ok (K : Definitions) (env : Collaborators)
    (parent_walk : Page → PageTree → Step) (flags : Nat) (page : Page)
    (i a b child_page_number : Nat) (page_tree : PageTree) (child : Page)
    (hread : env.page_read child_page_number = some child)
    (hleaf : has_flag child.flags K.LIBESEDB_PAGE_FLAG_IS_LEAF = false)
    (hparent : has_flag child.flags K.LIBESEDB_PAGE_FLAG_IS_PARENT = true)
    (hok : (read_child_page K env parent_walk flags page i a b child_page_number
      page_tree).result = .ok) :
    (parent_walk child page_tree).result = .ok := by
  unfold read_child_page at hok
  simp only [hread] at hok
  by_cases hne : page.father_data_page_object_identifier
      ≠ child.father_data_page_object_identifier
  · rw [if_pos hne] at hok
    cases hok
  · rw [if_neg hne, if_neg (by simp [hleaf]), if_pos hparent] at hok
    exact hok

/-- The loop over the child pages that succeeds: a property that holds for every
page that passes the function called for a parent page, and for the pages `below`
it, holds for every page that the child pages hand to that function. -/
theorem read_child_pages_loop_parent_pages (K : Definitions) (env : Collaborators)
    (parent_walk : Page → PageTree → Step) (flags : Nat) (page : Page)
    (P : Page → Prop) (below : Page → List Page)
    (hwalk : ∀ child t, (parent_walk child t).result = .ok →
      P child ∧ ∀ p ∈ below child, P p)
    (values : List PageValue) (i a b : Nat) (page_tree : PageTree)
    (hok : (read_child_pages_loop K env parent_walk flags page values i a b
      page_tree).result = .ok) :
    ∀ p ∈ (spec_child_pages_of_values env values).flatMap
      (spec_parent_pages_of_child K below), P p := by
  induction values generalizing i a b page_tree with
  | nil =>
    intro p hp
    simp [spec_child_pages_of_values] at hp
  | cons v rest ih =>
    cases hkey : read_page_key v with
    | none =>
      rw [read_child_pages_loop_out_of_range K env parent_walk flags page v rest i a b
        page_tree hkey] at hok
      cases hok
    | some key =>
      have hnumber := read_page_key_child_page_number v key hkey
      by_cases hskip : endian_little_convert_32bit key.page_value_data ≥ 0x117f02
      · rw [read_child_pages_loop_ignored K env parent_walk flags page v rest i a b page_tree
          key hkey hskip] at hok
        have hspec : spec_child_pages_of_values env (v :: rest)
            = spec_child_pages_of_values env rest := by
          rw [hnumber] at hskip
          simp [spec_child_pages_of_values, List.filter_cons, Nat.not_lt.mpr hskip]
        rw [hspec]
        exact ih _ _ _ _ hok
      · by_cases hchild : (read_child_page K env parent_walk flags page i a b
            (endian_little_convert_32bit key.page_value_data) page_tree).result = .ok
        · obtain ⟨child, hread⟩ := read_child_page_exists K env parent_walk flags page i a b _
            page_tree hchild
          have hspec : spec_child_pages_of_values env (v :: rest)
              = child :: spec_child_pages_of_values env rest := by
            rw [hnumber] at hskip hread
            simp [spec_child_pages_of_values, List.filter_cons, Nat.lt_of_not_ge hskip, hread]
          rw [read_child_pages_loop_ok K env parent_walk flags page v rest i a b page_tree
            key hkey hskip hchild] at hok
          simp only [Step.after_result] at hok
          rw [hspec, List.flatMap_cons]
          intro p hp
          rcases List.mem_append.mp hp with hp | hp
          · unfold spec_parent_pages_of_child at hp
            by_cases hleaf : has_flag child.flags K.LIBESEDB_PAGE_FLAG_IS_LEAF = true
            · rw [if_pos hleaf] at hp
              exact absurd hp (List.not_mem_nil p)
            · rw [if_neg hleaf] at hp
              by_cases hparent : has_flag child.flags K.LIBESEDB_PAGE_FLAG_IS_PARENT = true
              · rw [if_pos hparent] at hp
                have hpw := read_child_page_parent_ok K env parent_walk flags page i a b _
                  page_tree child hread (by simpa using hleaf) hparent hchild
                rcases List.mem_cons.mp hp with hp | hp
                · rw [hp]
                  exact (hwalk child page_tree hpw).1
                · exact (hwalk child page_tree hpw).2 p hp
              · rw [if_neg hparent] at hp
                exact absurd hp (List.not_mem_nil p)
          · exact ih _ _ _ _ hok p hp
        · rw [read_child_pages_loop_stop K env parent_walk flags page v rest i a b page_tree
            key hkey hskip hchild] at hok
          exact absurd hok hchild

/-- The parent page function that succeeds has tested the sibling pointers of the
page. -/
theorem read_parent_page_values_siblings (K : Definitions) (env : Collaborators)
    (fuel flags : Nat) (page : Page) (page_tree : PageTree)
    (hok : (libesedb_page_tree_read_parent_page_values K env fuel flags page
      page_tree).result = .ok) :
    page.previous_page_number = 0 ∧ page.next_page_number = 0 := by
  cases fuel with
  | zero => simp [libesedb_page_tree_read_parent_page_values] at hok
  | succ fuel =>
    rw [libesedb_page_tree_read_parent_page_values] at hok
    by_cases h1 : has_flag page.flags K.LIBESEDB_PAGE_FLAG_IS_PARENT = false
    · rw [if_pos h1] at hok
      cases hok
    · rw [if_neg h1] at hok
      by_cases h2 : has_unsupported_flags page.flags (parent_supported_flags K) = true
      · rw [if_pos h2] at hok
        cases hok
      · rw [if_neg h2] at hok
        by_cases h3 : page.previous_page_number ≠ 0
        · rw [if_pos h3] at hok
          cases hok
        · rw [if_neg h3] at hok
          by_cases h4 : page.next_page_number ≠ 0
          · rw [if_pos h4] at hok
            cases hok
          · exact ⟨not_not.mp h3, not_not.mp h4⟩

/-- The parent page function that succeeds: the page and every page below it that
the traversal treats as a parent page have no siblings. -/
theorem read_parent_page_values_parent_pages (K : Definitions) (env : Collaborators)
    (flags : Nat) (fuel : Nat) :
    ∀ (page : Page) (t : PageTree),
      (libesedb_page_tree_read_parent_page_values K env fuel flags page t).result = .ok →
      (page.previous_page_number = 0 ∧ page.next_page_number = 0)
      ∧ ∀ depth, ∀ p ∈ spec_parent_pages_below K env depth page,
        p.previous_page_number = 0 ∧ p.next_page_number = 0 := by
  induction fuel with
  | zero =>
    intro page t hok
    simp [libesedb_page_tree_read_parent_page_values] at hok
  | succ fuel ih =>
    intro page t hok
    refine ⟨read_parent_page_values_siblings K env _ flags page t hok, ?_⟩
    intro depth
    cases depth with
    | zero =>
      intro p hp
      simp [spec_parent_pages_below] at hp
    | succ depth =>
      have heq := read_parent_page_values_of_ok K env fuel flags page t hok
      rw [heq] at hok
      exact read_child_pages_loop_parent_pages K env _ flags page
        (fun p => p.previous_page_number = 0 ∧ p.next_page_number = 0)
        (spec_parent_pages_below K env depth)
        (fun child t hchild => ⟨(ih child t hchild).1, (ih child t hchild).2 depth⟩)
        _ _ _ _ t hok

/-- The space tree page function that succeeds has tested the sibling pointers of
the page. -/
theorem read_space_tree_page_values_siblings (K : Definitions) (page : Page)
    (hok : libesedb_page_tree_read_space_tree_page_values K page = .ok) :
    page.previous_page_number = 0 ∧ page.next_page_number = 0 := by
  unfold libesedb_page_tree_read_space_tree_page_values at hok
  simp only [] at hok
  by_cases h1 : has_flag page.flags
      (K.LIBESEDB_PAGE_FLAG_IS_ROOT ||| K.LIBESEDB_PAGE_FLAG_IS_SPACE_TREE) = false
  · rw [if_pos h1] at hok
    cases hok
  · rw [if_neg h1] at hok
    by_cases h2 : has_unsupported_flags page.flags (space_tree_supported_flags K) = true
    · rw [if_pos h2] at hok
      cases hok
    · rw [if_neg h2] at hok
      by_cases h3 : page.previous_page_number ≠ 0
      · rw [if_pos h3] at hok
        cases hok
      · rw [if_neg h3] at hok
        by_cases h4 : page.next_page_number ≠ 0
        · rw [if_pos h4] at hok
          cases hok
        · exact ⟨not_not.mp h3, not_not.mp h4⟩

/-- The reading of a space tree page that succeeds: the page exists and has passed
the space tree page function. -/
theorem read_space_tree_page_of_ok (K : Definitions) (env : Collaborators) (page : Page)
    (n : Nat) (page_tree : PageTree)
    (hok : (read_space_tree_page K env page n page_tree).result = .ok) :
    ∃ p, env.page_read n = some p
      ∧ libesedb_page_tree_read_space_tree_page_values K p = .ok := by
  unfold read_space_tree_page at hok
  cases hread : env.page_read n with
  | none =>
    simp only [hread] at hok
    cases hok
  | some p =>
    simp only [hread] at hok
    by_cases hne : page.father_data_page_object_identifier
        ≠ p.father_data_page_object_identifier
    · rw [if_pos hne] at hok
      cases hok
    · rw [if_neg hne] at hok
      exact ⟨p, rfl, hok⟩

/-- The father data page function that succeeds has passed the flag and sibling
checks of the page, and the page has a first value. -/
theorem read_father_data_page_values_checks (K : Definitions) (env : Collaborators)
    (fuel flags : Nat) (page : Page) (page_tree : PageTree)
    (hok : (libesedb_page_tree_read_father_data_page_values K env fuel flags page
      page_tree).result = .ok) :
    has_flag page.flags K.LIBESEDB_PAGE_FLAG_IS_ROOT = true
    ∧ has_unsupported_flags page.flags (father_data_page_supported_flags K) = false
    ∧ page.previous_page_number = 0 ∧ page.next_page_number = 0
    ∧ ∃ header, libesedb_page_get_value page 0 = some header := by
  unfold libesedb_page_tree_read_father_data_page_values at hok
  by_cases h1 : has_flag page.flags K.LIBESEDB_PAGE_FLAG_IS_ROOT = false
  · rw [if_pos h1] at hok
    cases hok
  · rw [if_neg h1] at hok
    by_cases h2 : has_unsupported_flags page.flags (father_data_page_supported_flags K) = true
    · rw [if_pos h2] at hok
      cases hok
    · rw [if_neg h2] at hok
      by_cases h3 : page.previous_page_number ≠ 0
      · rw [if_pos h3] at hok
        cases hok
      · rw [if_neg h3] at hok
        by_cases h4 : page.next_page_number ≠ 0
        · rw [if_pos h4] at hok
          cases hok
        · rw [if_neg h4] at hok
          cases hheader : libesedb_page_get_value page 0 with
          | none =>
            simp only [hheader] at hok
            cases hok
          | some header =>
            exact ⟨by simpa using h1, by simpa using h2, not_not.mp h3, not_not.mp h4,
              header, rfl⟩

/-- The father data page function that succeeds: its space tree pages have passed
the space tree page function. -/
theorem read_father_data_page_values_space_tree_pages (K : Definitions)
    (env : Collaborators) (fuel flags : Nat) (page : Page) (page_tree : PageTree)
    (hok : (libesedb_page_tree_read_father_data_page_values K env fuel flags page
      page_tree).result = .ok) :
    ∀ p ∈ spec_space_tree_pages env page,
      libesedb_page_tree_read_space_tree_page_values K p = .ok := by
  obtain ⟨hroot, hsupported, hprevious, hnext, header, hheader⟩ :=
    read_father_data_page_values_checks K env fuel flags page page_tree hok
  unfold spec_space_tree_pages
  simp only [hheader]
  by_cases hextent : header_extent_space header > 0
  · rw [if_pos hextent]
    rw [read_father_data_page_values_with_extent_space K env fuel flags page page_tree header
      hroot hsupported hprevious hnext hheader hextent] at hok
    cases howned : (read_space_tree_page K env page (header_space_tree_page_number header)
        page_tree).result with
    | ok =>
      cases havailable : (read_space_tree_page K env page
          ((header_space_tree_page_number header + 1) % 4294967296) page_tree).result with
      | ok =>
        obtain ⟨p1, hread1, hwalk1⟩ := read_space_tree_page_of_ok K env page _ page_tree howned
        obtain ⟨p2, hread2, hwalk2⟩ := read_space_tree_page_of_ok K env page _ page_tree
          havailable
        intro p hp
        simp only [List.filterMap_cons, List.filterMap_nil, hread1, hread2, List.mem_cons,
          List.mem_singleton, List.not_mem_nil, or_false] at hp
        rcases hp with hp | hp
        · rw [hp]
          exact hwalk1
        · rw [hp]
          exact hwalk2
      | error kind =>
        simp only [howned, havailable, Step.after_result] at hok
        cases hok
      | out_of_fuel =>
        simp only [howned, havailable, Step.after_result] at hok
        cases hok
    | error kind =>
      simp only [howned] at hok
      cases hok
    | out_of_fuel =>
      simp only [howned] at hok
      cases hok
  · rw [if_neg hextent]
    intro p hp
    exact absurd hp (List.not_mem_nil p)

/-- C21, as the source has it: whenever `libesedb_page_tree_read` succeeds on a root
page without the leaf flag and with the root flag, the root page, every page below
it that the traversal treats as a parent page (to every depth) and the space tree
pages of the root have the previous page number 0 and the next page number 0. -/
theorem C21_pages_walked_have_no_siblings (K : Definitions) (env : Collaborators)
    (fuel : Nat) (page_tree : PageTree) (father_data_page_number flags : Nat) (root : Page)
    (hread : env.page_read father_data_page_number = some root)
    (hleaf : has_flag root.flags K.LIBESEDB_PAGE_FLAG_IS_LEAF = false)
    (hroot : has_flag root.flags K.LIBESEDB_PAGE_FLAG_IS_ROOT = true)
    (hok : (libesedb_page_tree_read K env fuel page_tree father_data_page_number
      flags).result = .ok) :
    (root.previous_page_number = 0 ∧ root.next_page_number = 0)
    ∧ (∀ depth, ∀ p ∈ spec_parent_pages_below K env depth root,
        p.previous_page_number = 0 ∧ p.next_page_number = 0)
    ∧ (∀ p ∈ spec_space_tree_pages env root,
        p.previous_page_number = 0 ∧ p.next_page_number = 0) := by
  have hwalk : (libesedb_page_tree_read_father_data_page_values K env fuel flags root
      page_tree).result = .ok := by
    unfold libesedb_page_tree_read at hok
    simp only [hread] at hok
    rw [if_neg (by simp [hleaf]), if_pos hroot] at hok
    cases hresult : (libesedb_page_tree_read_father_data_page_values K env fuel flags root
        page_tree).result with
    | ok => rfl
    | error kind =>
      simp only [hresult, Step.after_result] at hok
      cases hok
    | out_of_fuel =>
      simp only [hresult, Step.after_result] at hok
      cases hok
  obtain ⟨_, _, hprevious, hnext, _⟩ :=
    read_father_data_page_values_checks K env fuel flags root page_tree hwalk
  have hchildren := (read_father_data_page_values_of_ok K env fuel flags root page_tree
    hwalk).1
  refine ⟨⟨hprevious, hnext⟩, ?_, ?_⟩
  · intro depth
    cases depth with
    | zero =>
      intro p hp
      simp [spec_parent_pages_below] at hp
    | succ depth =>
      exact read_child_pages_loop_parent_pages K env _ flags root
        (fun p => p.previous_page_number = 0 ∧ p.next_page_number = 0)
        (spec_parent_pages_below K env depth)
        (fun child t hchild =>
          ⟨(read_parent_page_values_parent_pages K env flags fuel child t hchild).1,
           (read_parent_page_values_parent_pages K env flags fuel child t hchild).2 depth⟩)
        _ _ _ _ page_tree hchildren
  · intro p hp
    exact read_space_tree_page_values_siblings K p
      (read_father_data_page_values_space_tree_pages K env fuel flags root page_tree hwalk
        p hp)

/-- C21 on the small tree (scenario S5): the root page 1, the parent page 3 and the
space tree pages 0x40 and 0x41. -/
theorem C21_pages_walked_have_no_siblings_witness :
    ((example_page 1 0x0005
        [example_header 1 0x40, example_child_value 2, example_child_value 3]).previous_page_number
        = 0
      ∧ (example_page 1 0x0005
        [example_header 1 0x40, example_child_value 2, example_child_value 3]).next_page_number
        = 0)
    ∧ (∀ depth, ∀ p ∈ spec_parent_pages_below esedb_definitions
          (example_collaborators example_tree_pages) depth
          (example_page 1 0x0005
            [example_header 1 0x40, example_child_value 2, example_child_value 3]),
        p.previous_page_number = 0 ∧ p.next_page_number = 0)
    ∧ (∀ p ∈ spec_space_tree_pages (example_collaborators example_tree_pages)
          (example_page 1 0x0005
            [example_header 1 0x40, example_child_value 2, example_child_value 3]),
        p.previous_page_number = 0 ∧ p.next_page_number = 0) :=
  C21_pages_walked_have_no_siblings esedb_definitions
    (example_collaborators example_tree_pages) 1 example_bound_page_tree 1 0
    (example_page 1 0x0005
      [example_header 1 0x40, example_child_value 2, example_child_value 3])
    rfl (by decide) (by decide) (by decide)

/-- The pages of the witness of C21, evaluated: page 3 is the one parent page below
the root, pages 0x40 and 0x41 are the space tree pages. -/
theorem pages_walked_evaluated :
    (spec_parent_pages_below esedb_definitions (example_collaborators example_tree_pages) 2
        (example_page 1 0x0005
          [example_header 1 0x40, example_child_value 2, example_child_value 3])).map
        (fun p => p.page_number) = [3]
    ∧ (spec_space_tree_pages (example_collaborators example_tree_pages)
        (example_page 1 0x0005
          [example_header 1 0x40, example_child_value 2, example_child_value 3])).map
        (fun p => p.page_number) = [0x40, 0x41] := by
  decide

/-- C21 read literally fails: `libesedb_page_tree_read` succeeds on a root page with
the leaf flag whose next page number is 7; the leaf page function does not test
the sibling pointers. -/
theorem C21_counterexample :
    (example_collaborators example_leaf_root_with_sibling).page_read 1
      = some { example_page 1 0x0002 [example_page_value []] with next_page_number := 7 }
    ∧ libesedb_page_tree_read esedb_definitions
        (example_collaborators example_leaf_root_with_sibling) 1 empty_page_tree 1 0
      = { result := .ok, page_tree := empty_page_tree,
          events := [.page_read 1, .page_free 1] } := by
  decide


/-! ## The lists of the page tree only grow -/

theorem table_definition_grows_refl (t : TableDefinition) : table_definition_grows t t :=
  ⟨rfl, List.prefix_refl _, List.prefix_refl _, Or.inr rfl⟩

theorem table_definition_grows_trans (a b c : TableDefinition)
    (hab : table_definition_grows a b) (hbc : table_definition_grows b c) :
    table_definition_grows a c := by
  obtain ⟨h1, h2, h3, h4⟩ := hab
  obtain ⟨k1, k2, k3, k4⟩ := hbc
  refine ⟨k1.trans h1, h2.trans k2, h3.trans k3, ?_⟩
  rcases h4 with h4 | h4
  · exact Or.inl h4
  · rcases k4 with k4 | k4
    · exact Or.inl (by rw [← h4, k4])
    · exact Or.inr (k4.trans h4)

theorem table_definition_list_grows_refl (l : List TableDefinition) :
    table_definition_list_grows l l := by
  induction l with
  | nil => trivial
  | cons t rest ih => exact ⟨table_definition_grows_refl t, ih⟩

theorem table_definition_list_grows_trans (a b c : List TableDefinition)
    (hab : table_definition_list_grows a b) (hbc : table_definition_list_grows b c) :
    table_definition_list_grows a c := by
  induction a generalizing b c with
  | nil => trivial
  | cons x a ih =>
    cases b with
    | nil => exact absurd hab (by simp [table_definition_list_grows])
    | cons y b =>
      cases c with
      | nil => exact absurd hbc (by simp [table_definition_list_grows])
      | cons z c =>
        exact ⟨table_definition_grows_trans x y z hab.1 hbc.1, ih b c hab.2 hbc.2⟩

theorem table_definition_list_grows_append (l extra : List TableDefinition) :
    table_definition_list_grows l (l ++ extra) := by
  induction l with
  | nil => trivial
  | cons t rest ih => exact ⟨table_definition_grows_refl t, ih⟩

/-- A write through a pointer to a list element that makes the element grow makes
the list grow. -/
theorem table_definition_list_grows_update (f : TableDefinition → TableDefinition)
    (l : List TableDefinition) (i : Nat)
    (hf : ∀ t, l[i]? = some t → table_definition_grows t (f t)) :
    table_definition_list_grows l (update_table_definition f l i) := by
  induction l generalizing i with
  | nil => trivial
  | cons t rest ih =>
    cases i with
    | zero =>
      exact ⟨hf t (by simp), table_definition_list_grows_refl rest⟩
    | succ n =>
      exact ⟨table_definition_grows_refl t, ih n (fun u hu => hf u (by simpa using hu))⟩

theorem page_tree_grows_refl (t : PageTree) : page_tree_grows t t :=
  ⟨rfl, table_definition_list_grows_refl _, List.prefix_refl _⟩

theorem page_tree_grows_trans (a b c : PageTree) (hab : page_tree_grows a b)
    (hbc : page_tree_grows b c) : page_tree_grows a c :=
  ⟨hbc.1.trans hab.1, table_definition_list_grows_trans _ _ _ hab.2.1 hbc.2.1,
    hab.2.2.trans hbc.2.2⟩

/-- The `switch` on the catalog definition type makes the page tree grow. -/
theorem add_catalog_definition_grows (K : Definitions) (r : CatalogDefinition)
    (td td' : Option Nat) (page_tree page_tree' : PageTree)
    (h : add_catalog_definition K r td page_tree = .ok (td', page_tree')) :
    page_tree_grows page_tree page_tree' := by
  obtain ⟨_, hvalues, hbound⟩ := add_catalog_definition_ok K r td td' page_tree page_tree' h
  refine ⟨hbound, ?_, by rw [hvalues]⟩
  unfold add_catalog_definition at h
  by_cases h1 : r.type = K.LIBESEDB_CATALOG_DEFINITION_TYPE_TABLE
  · rw [if_pos h1] at h
    injection h with h
    injection h with _ h
    subst h
    exact table_definition_list_grows_append _ _
  · rw [if_neg h1] at h
    by_cases h2 : r.type = K.LIBESEDB_CATALOG_DEFINITION_TYPE_COLUMN
    · rw [if_pos h2] at h
      cases td with
      | none => cases h
      | some i =>
        injection h with h
        injection h with _ h
        subst h
        exact table_definition_list_grows_update _ _ _
          (fun t _ => ⟨rfl, List.prefix_append _ _, List.prefix_refl _, Or.inr rfl⟩)
    · rw [if_neg h2] at h
      by_cases h3 : r.type = K.LIBESEDB_CATALOG_DEFINITION_TYPE_INDEX
      · rw [if_pos h3] at h
        cases td with
        | none => cases h
        | some i =>
          injection h with h
          injection h with _ h
          subst h
          exact table_definition_list_grows_update _ _ _
            (fun t _ => ⟨rfl, List.prefix_refl _, List.prefix_append _ _, Or.inr rfl⟩)
      · rw [if_neg h3] at h
        by_cases h4 : r.type = K.LIBESEDB_CATALOG_DEFINITION_TYPE_LONG_VALUE
        · rw [if_pos h4] at h
          cases td with
          | none => cases h
          | some i =>
            cases hcurrent : page_tree.table_definition_list[i]? with
            | none =>
              simp only [hcurrent] at h
              cases h
            | some current =>
              simp only [hcurrent] at h
              cases hset : libesedb_table_definition_set_long_value_catalog_definition
                  current r with
              | none =>
                simp only [hset] at h
                cases h
              | some updated =>
                simp only [hset] at h
                injection h with h
                injection h with _ h
                subst h
                refine table_definition_list_grows_update _ _ _ (fun t ht => ?_)
                rw [hcurrent] at ht
                injection ht with ht
                subst ht
                unfold libesedb_table_definition_set_long_value_catalog_definition at hset
                cases hlong : current.long_value_catalog_definition with
                | none =>
                  simp only [hlong] at hset
                  injection hset with hset
                  subst hset
                  exact ⟨rfl, List.prefix_refl _, List.prefix_refl _, Or.inl hlong⟩
                | some _ =>
                  simp only [hlong] at hset
                  cases hset
        · rw [if_neg h4] at h
          cases h

/-- The loop body of the leaf page function for one page value: when the loop goes
on, the page tree has grown; when the function ends, the page tree is the one in
front of the value. -/
theorem read_leaf_page_value_grows (K : Definitions) (env : Collaborators) (flags : Nat)
    (page : Page) (v : PageValue) (td : Option Nat) (page_tree : PageTree) :
    (∀ events td' page_tree',
      read_leaf_page_value K env flags page v td page_tree = .next events td' page_tree' →
      page_tree_grows page_tree page_tree')
    ∧ (∀ step, read_leaf_page_value K env flags page v td page_tree = .stop step →
      step.page_tree = page_tree) := by
  unfold read_leaf_page_value
  cases hkey : read_page_key v with
  | none =>
    refine ⟨fun _ _ _ h => (by cases h), fun step h => ?_⟩
    injection h with h
    subst h
    rfl
  | some key =>
    simp only []
    by_cases hindex : has_flag page.flags K.LIBESEDB_PAGE_FLAG_IS_INDEX = true
    · rw [if_pos hindex]
      refine ⟨fun _ _ _ h => ?_, fun step h => by cases h⟩
      injection h with _ _ h
      subst h
      exact page_tree_grows_refl _
    · rw [if_neg hindex]
      by_cases hlong : has_flag page.flags K.LIBESEDB_PAGE_FLAG_IS_LONG_VALUE = true
      · rw [if_pos hlong]
        refine ⟨fun _ _ _ h => ?_, fun step h => by cases h⟩
        injection h with _ _ h
        subst h
        exact page_tree_grows_refl _
      · rw [if_neg hlong]
        by_cases hmode : has_flag flags K.LIBESEDB_PAGE_TREE_FLAG_READ_CATALOG_DEFINITION = true
        · rw [if_pos hmode]
          cases hread : env.catalog_definition_read key.page_value_data key.page_value_size with
          | none =>
            refine ⟨fun _ _ _ h => (by cases h), fun step h => ?_⟩
            injection h with h
            subst h
            rfl
          | some r =>
            simp only []
            cases hadd : read_catalog_definition K r td page_tree with
            | error kind =>
              refine ⟨fun _ _ _ h => (by cases h), fun step h => ?_⟩
              injection h with h
              subst h
              rfl
            | ok out =>
              obtain ⟨td1, page_tree1⟩ := out
              refine ⟨fun _ _ _ h => ?_, fun step h => by cases h⟩
              injection h with _ _ h
              subst h
              obtain ⟨td0, hadd0⟩ := read_catalog_definition_ok K r td page_tree _ hadd
              exact add_catalog_definition_grows K r td0 td1 page_tree page_tree1 hadd0
        · rw [if_neg hmode]
          cases hbound : page_tree.table_definition with
          | none =>
            refine ⟨fun _ _ _ h => (by cases h), fun step h => ?_⟩
            injection h with h
            subst h
            rfl
          | some bound =>
            simp only []
            cases hrow : env.data_definition_read bound.column_catalog_definition_list
                key.page_value_data key.page_value_size with
            | none =>
              refine ⟨fun _ _ _ h => (by cases h), fun step h => ?_⟩
              injection h with h
              subst h
              rfl
            | some row =>
              refine ⟨fun _ _ _ h => ?_, fun step h => by cases h⟩
              injection h with _ _ h
              subst h
              exact ⟨hbound.symm, table_definition_list_grows_refl _, List.prefix_append _ _⟩

/-- The loop of the leaf page function makes the page tree grow. -/
theorem read_leaf_page_values_loop_grows (K : Definitions) (env : Collaborators)
    (flags : Nat) (page : Page) (values : List PageValue) (td : Option Nat)
    (page_tree : PageTree) :
    page_tree_grows page_tree
      (read_leaf_page_values_loop K env flags page values td page_tree).page_tree := by
  induction values generalizing td page_tree with
  | nil => exact page_tree_grows_refl _
  | cons v rest ih =>
    rw [read_leaf_page_values_loop_cons]
    have hstep := read_leaf_page_value_grows K env flags page v td page_tree
    cases hvalue : read_leaf_page_value K env flags page v td page_tree with
    | stop step =>
      simp only []
      rw [hstep.2 step hvalue]
      exact page_tree_grows_refl _
    | next events td1 page_tree1 =>
      simp only [Step.after_page_tree]
      exact page_tree_grows_trans _ _ _ (hstep.1 events td1 page_tree1 hvalue) (ih td1 page_tree1)

/-- The leaf page function makes the page tree grow. -/
theorem read_leaf_page_values_grows (K : Definitions) (env : Collaborators) (flags : Nat)
    (page : Page) (page_tree : PageTree) :
    page_tree_grows page_tree
      (libesedb_page_tree_read_leaf_page_values K env flags page page_tree).page_tree := by
  unfold libesedb_page_tree_read_leaf_page_values
  split_ifs
  · exact page_tree_grows_refl _
  · exact page_tree_grows_refl _
  · cases libesedb_page_get_value page 0 with
    | none => exact page_tree_grows_refl _
    | some header => exact read_leaf_page_values_loop_grows K env flags page _ none page_tree

/-- The step for one child page makes the page tree grow, when the function called
for a parent page does. -/
theorem read_child_page_grows (K : Definitions) (env : Collaborators)
    (parent_walk : Page → PageTree → Step) (flags : Nat) (page : Page)
    (hwalk : ∀ child t, page_tree_grows t (parent_walk child t).page_tree)
    (i a b child_page_number : Nat) (page_tree : PageTree) :
    page_tree_grows page_tree
      (read_child_page K env parent_walk flags page i a b child_page_number
        page_tree).page_tree := by
  unfold read_child_page
  cases env.page_read child_page_number with
  | none => exact page_tree_grows_refl _
  | some child =>
    simp only []
    split_ifs
    · exact page_tree_grows_refl _
    · exact read_leaf_page_values_grows K env flags child page_tree
    · exact hwalk child page_tree
    · exact page_tree_grows_refl _

/-- The loop over the child pages makes the page tree grow, when the function called
for a parent page does. -/
theorem read_child_pages_loop_grows (K : Definitions) (env : Collaborators)
    (parent_walk : Page → PageTree → Step) (flags : Nat) (page : Page)
    (hwalk : ∀ child t, page_tree_grows t (parent_walk child t).page_tree)
    (values : List PageValue) (i a b : Nat) (page_tree : PageTree) :
    page_tree_grows page_tree
      (read_child_pages_loop K env parent_walk flags page values i a b page_tree).page_tree := by
  induction values generalizing i a b page_tree with
  | nil => exact page_tree_grows_refl _
  | cons v rest ih =>
    cases hkey : read_page_key v with
    | none =>
      rw [read_child_pages_loop_out_of_range K env parent_walk flags page v rest i a b
        page_tree hkey]
      exact page_tree_grows_refl _
    | some key =>
      by_cases hskip : endian_little_convert_32bit key.page_value_data ≥ 0x117f02
      · rw [read_child_pages_loop_ignored K env parent_walk flags page v rest i a b page_tree
          key hkey hskip]
        exact ih _ _ _ _
      · have hchild_grows := read_child_page_grows K env parent_walk flags page hwalk i a b
          (endian_little_convert_32bit key.page_value_data) page_tree
        by_cases hchild : (read_child_page K env parent_walk flags page i a b
            (endian_little_convert_32bit key.page_value_data) page_tree).result = .ok
        · rw [read_child_pages_loop_ok K env parent_walk flags page v rest i a b page_tree
            key hkey hskip hchild]
          simp only [Step.after_page_tree]
          exact page_tree_grows_trans _ _ _ hchild_grows (ih _ _ _ _)
        · rw [read_child_pages_loop_stop K env parent_walk flags page v rest i a b page_tree
            key hkey hskip hchild]
          exact hchild_grows

/-- The parent page function makes the page tree grow. -/
theorem read_parent_page_values_grows (K : Definitions) (env : Collaborators)
    (flags : Nat) (fuel : Nat) :
    ∀ (page : Page) (t : PageTree),
      page_tree_grows t
        (libesedb_page_tree_read_parent_page_values K env fuel flags page t).page_tree := by
  induction fuel with
  | zero =>
    intro page t
    exact page_tree_grows_refl _
  | succ fuel ih =>
    intro page t
    rw [libesedb_page_tree_read_parent_page_values]
    split_ifs
    · exact page_tree_grows_refl _
    · exact page_tree_grows_refl _
    · exact page_tree_grows_refl _
    · exact page_tree_grows_refl _
    · cases libesedb_page_get_value page 0 with
      | none => exact page_tree_grows_refl _
      | some header =>
        exact read_child_pages_loop_grows K env _ flags page ih _ _ _ _ t

/-- The reading of a space tree page leaves the page tree. -/
theorem read_space_tree_page_page_tree (K : Definitions) (env : Collaborators) (page : Page)
    (n : Nat) (page_tree : PageTree) :
    (read_space_tree_page K env page n page_tree).page_tree = page_tree := by
  unfold read_space_tree_page
  cases env.page_read n with
  | none => rfl
  | some space_tree_page =>
    simp only []
    split_ifs <;> rfl

/-- The father data page function makes the page tree grow. -/
theorem read_father_data_page_values_grows (K : Definitions) (env : Collaborators)
    (fuel flags : Nat) (page : Page) (page_tree : PageTree) :
    page_tree_grows page_tree
      (libesedb_page_tree_read_father_data_page_values K env fuel flags page
        page_tree).page_tree := by
  have hchildren : page_tree_grows page_tree
      (libesedb_page_tree_read_child_pages K env
        (libesedb_page_tree_read_parent_page_values K env fuel flags) flags page
        page_tree).page_tree :=
    read_child_pages_loop_grows K env _ flags page
      (read_parent_page_values_grows K env flags fuel) _ _ _ _ page_tree
  unfold libesedb_page_tree_read_father_data_page_values
  split_ifs
  · exact page_tree_grows_refl _
  · exact page_tree_grows_refl _
  · exact page_tree_grows_refl _
  · exact page_tree_grows_refl _
  · cases libesedb_page_get_value page 0 with
    | none => exact page_tree_grows_refl _
    | some header =>
      simp only []
      split_ifs
      · exact page_tree_grows_refl _
      · cases howned : (read_space_tree_page K env page
            (header_space_tree_page_number header) page_tree).result with
        | ok =>
          simp only []
          cases havailable : (read_space_tree_page K env page
              ((header_space_tree_page_number header + 1) % 4294967296) page_tree).result with
          | ok =>
            simp only [Step.after_page_tree]
            exact hchildren
          | error kind =>
            simp only [Step.after_page_tree, read_space_tree_page_page_tree]
            exact page_tree_grows_refl _
          | out_of_fuel =>
            simp only [Step.after_page_tree, read_space_tree_page_page_tree]
            exact page_tree_grows_refl _
        | error kind =>
          simp only [read_space_tree_page_page_tree]
          exact page_tree_grows_refl _
        | out_of_fuel =>
          simp only [read_space_tree_page_page_tree]
          exact page_tree_grows_refl _
      · exact hchildren

/-- The loop of the leaf page function over a run of values that it passes with
success, followed by more values, with one local `table_definition` for every run
that follows. -/
theorem read_leaf_page_values_loop_append_all (K : Definitions) (env : Collaborators)
    (flags : Nat) (page : Page) (front : List PageValue) (td : Option Nat)
    (page_tree : PageTree)
    (hok : (read_leaf_page_values_loop K env flags page front td page_tree).result = .ok) :
    ∃ td', ∀ tail, read_leaf_page_values_loop K env flags page (front ++ tail) td page_tree
      = (read_leaf_page_values_loop K env flags page tail td'
          (read_leaf_page_values_loop K env flags page front td page_tree).page_tree).after
        (read_leaf_page_values_loop K env flags page front td page_tree).events := by
  induction front generalizing td page_tree with
  | nil => exact ⟨td, fun tail => by simp [read_leaf_page_values_loop]⟩
  | cons u front ih =>
    rw [read_leaf_page_values_loop_cons] at hok
    cases hstep : read_leaf_page_value K env flags page u td page_tree with
    | stop step =>
      rw [hstep] at hok
      exact absurd hok (read_leaf_page_value_stop K env flags page u td page_tree step hstep)
    | next events td1 page_tree1 =>
      rw [hstep] at hok
      simp only [Step.after_result] at hok
      obtain ⟨td', h⟩ := ih td1 page_tree1 hok
      refine ⟨td', fun tail => ?_⟩
      rw [List.cons_append, read_leaf_page_values_loop_cons,
        read_leaf_page_values_loop_cons K env flags page u front, hstep]
      simp only [h tail, Step.after_page_tree, Step.after_events, Step.after_after]

/-! ## The page tree is the one that the records processed produce -/

theorem spec_process_events_nil (K : Definitions) (env : Collaborators) (s : RecordState) :
    spec_process_events K env [] s = s := rfl

theorem spec_process_events_cons (K : Definitions) (env : Collaborators) (e : Event)
    (events : List Event) (s : RecordState) :
    spec_process_events K env (e :: events) s
      = spec_process_events K env events (spec_process_event K env s e) := rfl

theorem spec_process_events_append (K : Definitions) (env : Collaborators)
    (a b : List Event) (s : RecordState) :
    spec_process_events K env (a ++ b) s
      = spec_process_events K env b (spec_process_events K env a s) := by
  unfold spec_process_events
  rw [List.foldl_append]

/-- Behind a record that has failed nothing is processed. -/
theorem spec_process_events_failed (K : Definitions) (env : Collaborators)
    (events : List Event) (s : RecordState) (h : s.failed = true) :
    spec_process_events K env events s = s := by
  induction events with
  | nil => rfl
  | cons e rest ih =>
    rw [spec_process_events_cons]
    have hstep : spec_process_event K env s e = s := by
      unfold spec_process_event
      rw [if_pos h]
    rw [hstep, ih]

/-- A page that is freed processes no record. -/
theorem spec_process_event_page_free (K : Definitions) (env : Collaborators)
    (s : RecordState) (n : Nat) : spec_process_event K env s (.page_free n) = s := by
  unfold spec_process_event
  split_ifs <;> rfl

/-- A page that is read sets the local `table_definition` to NULL. -/
theorem spec_process_event_page_read (K : Definitions) (env : Collaborators)
    (td : Option Nat) (t : PageTree) (n : Nat) :
    spec_process_event K env { table_definition := td, page_tree := t, failed := false }
        (.page_read n)
      = { table_definition := none, page_tree := t, failed := false } := rfl

/-- The sibling-linkage messages process no record. -/
theorem spec_process_events_messages (K : Definitions) (env : Collaborators)
    (i a b : Nat) (child_page : Page) (s : RecordState) :
    spec_process_events K env (child_page_messages i a b child_page) s = s := by
  have hfirst : ∀ x y, spec_process_event K env s
      (.mismatch_in_child_page_number x y) = s := by
    intro x y
    unfold spec_process_event
    split_ifs <;> rfl
  have hsecond : ∀ x y, spec_process_event K env s
      (.mismatch_in_previous_child_page_number x y) = s := by
    intro x y
    unfold spec_process_event
    split_ifs <;> rfl
  unfold child_page_messages
  split_ifs <;>
    simp [spec_process_events, hfirst, hsecond]

/-- A step without events that leaves the page tree replays. -/
theorem registry_replayed_of_no_events (K : Definitions) (env : Collaborators)
    (td : Option Nat) (t : PageTree) (result : Result) :
    registry_replayed K env td t { result := result, page_tree := t, events := [] } :=
  ⟨td, false, rfl, fun _ => rfl⟩

/-- A step that reads and frees one page and leaves the page tree replays. -/
theorem registry_replayed_of_read_and_free (K : Definitions) (env : Collaborators)
    (td : Option Nat) (t : PageTree) (result : Result) (n : Nat) :
    registry_replayed K env td t
      { result := result, page_tree := t, events := [.page_read n, .page_free n] } :=
  ⟨none, false, rfl, fun _ => rfl⟩

/-- The loop body of the leaf page function for one page value: when the loop goes
on, the record of the value is processed into the local and the page tree it goes
on with; when the function ends, the page tree is the one in front of the value and
the value is the failing step. -/
theorem read_leaf_page_value_replayed (K : Definitions) (env : Collaborators) (flags : Nat)
    (page : Page) (v : PageValue) (td : Option Nat) (page_tree : PageTree) :
    (∀ events td' page_tree',
      read_leaf_page_value K env flags page v td page_tree = .next events td' page_tree' →
      spec_process_events K env events
          { table_definition := td, page_tree := page_tree, failed := false }
        = { table_definition := td', page_tree := page_tree', failed := false })
    ∧ (∀ step, read_leaf_page_value K env flags page v td page_tree = .stop step →
      registry_replayed K env td page_tree step) := by
  unfold read_leaf_page_value
  cases hkey : read_page_key v with
  | none =>
    refine ⟨fun _ _ _ h => (by cases h), fun step h => ?_⟩
    injection h with h
    subst h
    exact registry_replayed_of_no_events K env td page_tree _
  | some key =>
    simp only []
    by_cases hindex : has_flag page.flags K.LIBESEDB_PAGE_FLAG_IS_INDEX = true
    · rw [if_pos hindex]
      refine ⟨fun _ _ _ h => ?_, fun step h => by cases h⟩
      injection h with h1 h2 h3
      subst h1 h2 h3
      rfl
    · rw [if_neg hindex]
      by_cases hlong : has_flag page.flags K.LIBESEDB_PAGE_FLAG_IS_LONG_VALUE = true
      · rw [if_pos hlong]
        refine ⟨fun _ _ _ h => ?_, fun step h => by cases h⟩
        injection h with h1 h2 h3
        subst h1 h2 h3
        rfl
      · rw [if_neg hlong]
        by_cases hmode : has_flag flags K.LIBESEDB_PAGE_TREE_FLAG_READ_CATALOG_DEFINITION = true
        · rw [if_pos hmode]
          cases hread : env.catalog_definition_read key.page_value_data key.page_value_size with
          | none =>
            refine ⟨fun _ _ _ h => (by cases h), fun step h => ?_⟩
            injection h with h
            subst h
            refine ⟨td, true, ?_, fun hok => by cases hok⟩
            simp [spec_process_events, spec_process_event, hread]
          | some r =>
            simp only []
            cases hadd : read_catalog_definition K r td page_tree with
            | error kind =>
              refine ⟨fun _ _ _ h => (by cases h), fun step h => ?_⟩
              injection h with h
              subst h
              refine ⟨td, true, ?_, fun hok => by cases hok⟩
              simp [spec_process_events, spec_process_event, hread, hadd]
            | ok out =>
              obtain ⟨td1, page_tree1⟩ := out
              refine ⟨fun _ _ _ h => ?_, fun step h => by cases h⟩
              injection h with h1 h2 h3
              subst h1 h2 h3
              simp [spec_process_events, spec_process_event, hread, hadd]
        · rw [if_neg hmode]
          cases hbound : page_tree.table_definition with
          | none =>
            refine ⟨fun _ _ _ h => (by cases h), fun step h => ?_⟩
            injection h with h
            subst h
            exact registry_replayed_of_no_events K env td page_tree _
          | some bound =>
            simp only []
            cases hrow : env.data_definition_read bound.column_catalog_definition_list
                key.page_value_data key.page_value_size with
            | none =>
              refine ⟨fun _ _ _ h => (by cases h), fun step h => ?_⟩
              injection h with h
              subst h
              refine ⟨td, true, ?_, fun hok => by cases hok⟩
              simp [spec_process_events, spec_process_event, hrow]
            | some row =>
              refine ⟨fun _ _ _ h => ?_, fun step h => by cases h⟩
              injection h with h1 h2 h3
              subst h1 h2 h3
              simp [spec_process_events, spec_process_event, hrow, hbound]

/-- The loop of the leaf page function replays. -/
theorem read_leaf_page_values_loop_replayed (K : Definitions) (env : Collaborators)
    (flags : Nat) (page : Page) (values : List PageValue) (td : Option Nat)
    (page_tree : PageTree) :
    registry_replayed K env td page_tree
      (read_leaf_page_values_loop K env flags page values td page_tree) := by
  induction values generalizing td page_tree with
  | nil => exact ⟨td, false, rfl, fun _ => rfl⟩
  | cons v rest ih =>
    rw [read_leaf_page_values_loop_cons]
    have hstep := read_leaf_page_value_replayed K env flags page v td page_tree
    cases hvalue : read_leaf_page_value K env flags page v td page_tree with
    | stop step => exact hstep.2 step hvalue
    | next events td1 page_tree1 =>
      simp only []
      obtain ⟨td2, failed, hrest, hok⟩ := ih td1 page_tree1
      refine ⟨td2, failed, ?_, fun h => hok (by simpa using h)⟩
      rw [Step.after_events, spec_process_events_append, hstep.1 events td1 page_tree1 hvalue,
        hrest, Step.after_page_tree]

/-- The leaf page function replays from a local `table_definition` that is NULL. -/
theorem read_leaf_page_values_replayed (K : Definitions) (env : Collaborators) (flags : Nat)
    (page : Page) (page_tree : PageTree) :
    registry_replayed K env none page_tree
      (libesedb_page_tree_read_leaf_page_values K env flags page page_tree) := by
  unfold libesedb_page_tree_read_leaf_page_values
  split_ifs
  · exact registry_replayed_of_no_events K env none page_tree _
  · exact registry_replayed_of_no_events K env none page_tree _
  · cases libesedb_page_get_value page 0 with
    | none => exact registry_replayed_of_no_events K env none page_tree _
    | some header => exact read_leaf_page_values_loop_replayed K env flags page _ none page_tree

/-- A step between the read and the free of a page replays from every local, when
the step replays from the local NULL. -/
theorem registry_replayed_in_page (K : Definitions) (env : Collaborators)
    (td : Option Nat) (t : PageTree) (n : Nat) (messages : List Event) (walk : Step)
    (hmessages : ∀ s, spec_process_events K env messages s = s)
    (hwalk : registry_replayed K env none t walk) :
    registry_replayed K env td t
      { result := walk.result, page_tree := walk.page_tree,
        events := [.page_read n] ++ messages ++ walk.events ++ [.page_free n] } := by
  obtain ⟨td1, failed, hrun, hok⟩ := hwalk
  refine ⟨td1, failed, ?_, hok⟩
  simp only [List.singleton_append, List.cons_append, List.append_assoc,
    spec_process_events_cons, spec_process_events_append, spec_process_event_page_read,
    hmessages, hrun, spec_process_events_nil, spec_process_event_page_free]

/-- The step for one child page replays, when the function called for a parent page
does. -/
theorem read_child_page_replayed (K : Definitions) (env : Collaborators)
    (parent_walk : Page → PageTree → Step) (flags : Nat) (page : Page)
    (hwalk : ∀ child t td, registry_replayed K env td t (parent_walk child t))
    (i a b child_page_number : Nat) (td : Option Nat) (page_tree : PageTree) :
    registry_replayed K env td page_tree
      (read_child_page K env parent_walk flags page i a b child_page_number page_tree) := by
  unfold read_child_page
  cases env.page_read child_page_number with
  | none => exact registry_replayed_of_read_and_free K env td page_tree _ _
  | some child =>
    simp only []
    split_ifs
    · exact registry_replayed_of_read_and_free K env td page_tree _ _
    · exact registry_replayed_in_page K env td page_tree child_page_number
        (child_page_messages i a b child) _
        (spec_process_events_messages K env i a b child)
        (read_leaf_page_values_replayed K env flags child page_tree)
    · have h := registry_replayed_in_page K env td page_tree child_page_number []
        (parent_walk child page_tree) (fun s => rfl) (hwalk child page_tree none)
      simpa using h
    · exact registry_replayed_of_read_and_free K env td page_tree _ _

/-- A step that replays and has the result 1, followed by a step that replays from
the page tree it leaves: together they replay. -/
theorem registry_replayed_after (K : Definitions) (env : Collaborators)
    (td : Option Nat) (t : PageTree) (first second : Step)
    (hfirst : registry_replayed K env td t first) (hok : first.result = .ok)
    (hsecond : ∀ td', registry_replayed K env td' first.page_tree second) :
    registry_replayed K env td t (second.after first.events) := by
  obtain ⟨td1, failed1, hrun1, hfailed1⟩ := hfirst
  obtain ⟨td2, failed2, hrun2, hfailed2⟩ := hsecond td1
  refine ⟨td2, failed2, ?_, fun h => hfailed2 (by simpa using h)⟩
  rw [Step.after_events, spec_process_events_append, hrun1, hfailed1 hok, hrun2,
    Step.after_page_tree]

/-- The loop over the child pages replays, when the function called for a parent
page does. -/
theorem read_child_pages_loop_replayed (K : Definitions) (env : Collaborators)
    (parent_walk : Page → PageTree → Step) (flags : Nat) (page : Page)
    (hwalk : ∀ child t td, registry_replayed K env td t (parent_walk child t))
    (values : List PageValue) (i a b : Nat) (td : Option Nat) (page_tree : PageTree) :
    registry_replayed K env td page_tree
      (read_child_pages_loop K env parent_walk flags page values i a b page_tree) := by
  induction values generalizing i a b td page_tree with
  | nil => exact ⟨td, false, rfl, fun _ => rfl⟩
  | cons v rest ih =>
    cases hkey : read_page_key v with
    | none =>
      rw [read_child_pages_loop_out_of_range K env parent_walk flags page v rest i a b
        page_tree hkey]
      exact registry_replayed_of_no_events K env td page_tree _
    | some key =>
      by_cases hskip : endian_little_convert_32bit key.page_value_data ≥ 0x117f02
      · rw [read_child_pages_loop_ignored K env parent_walk flags page v rest i a b page_tree
          key hkey hskip]
        exact ih _ _ _ _ _
      · have hchild_replayed := read_child_page_replayed K env parent_walk flags page hwalk
          i a b (endian_little_convert_32bit key.page_value_data) td page_tree
        by_cases hchild : (read_child_page K env parent_walk flags page i a b
            (endian_little_convert_32bit key.page_value_data) page_tree).result = .ok
        · rw [read_child_pages_loop_ok K env parent_walk flags page v rest i a b page_tree
            key hkey hskip hchild]
          exact registry_replayed_after K env td page_tree _ _ hchild_replayed hchild
            (fun td' => ih _ _ _ td' _)
        · rw [read_child_pages_loop_stop K env parent_walk flags page v rest i a b page_tree
            key hkey hskip hchild]
          exact hchild_replayed

/-- The parent page function replays. -/
theorem read_parent_page_values_replayed (K : Definitions) (env : Collaborators)
    (flags : Nat) (fuel : Nat) :
    ∀ (page : Page) (t : PageTree) (td : Option Nat),
      registry_replayed K env td t
        (libesedb_page_tree_read_parent_page_values K env fuel flags page t) := by
  induction fuel with
  | zero =>
    intro page t td
    exact registry_replayed_of_no_events K env td t _
  | succ fuel ih =>
    intro page t td
    rw [libesedb_page_tree_read_parent_page_values]
    split_ifs
    · exact registry_replayed_of_no_events K env td t _
    · exact registry_replayed_of_no_events K env td t _
    · exact registry_replayed_of_no_events K env td t _
    · exact registry_replayed_of_no_events K env td t _
    · cases libesedb_page_get_value page 0 with
      | none => exact registry_replayed_of_no_events K env td t _
      | some header =>
        exact read_child_pages_loop_replayed K env _ flags page ih _ _ _ _ td t

/-- The reading of a space tree page replays: it processes no record. -/
theorem read_space_tree_page_replayed (K : Definitions) (env : Collaborators) (page : Page)
    (n : Nat) (td : Option Nat) (page_tree : PageTree) :
    registry_replayed K env td page_tree (read_space_tree_page K env page n page_tree) := by
  unfold read_space_tree_page
  cases env.page_read n with
  | none => exact registry_replayed_of_read_and_free K env td page_tree _ _
  | some space_tree_page =>
    simp only []
    split_ifs
    · exact registry_replayed_of_read_and_free K env td page_tree _ _
    · exact registry_replayed_of_read_and_free K env td page_tree _ _

/-- The father data page function replays. -/
theorem read_father_data_page_values_replayed (K : Definitions) (env : Collaborators)
    (fuel flags : Nat) (page : Page) (td : Option Nat) (page_tree : PageTree) :
    registry_replayed K env td page_tree
      (libesedb_page_tree_read_father_data_page_values K env fuel flags page page_tree) := by
  have hchildren : ∀ td', registry_replayed K env td' page_tree
      (libesedb_page_tree_read_child_pages K env
        (libesedb_page_tree_read_parent_page_values K env fuel flags) flags page page_tree) :=
    fun td' => read_child_pages_loop_replayed K env _ flags page
      (read_parent_page_values_replayed K env flags fuel) _ _ _ _ td' page_tree
  unfold libesedb_page_tree_read_father_data_page_values
  split_ifs
  · exact registry_replayed_of_no_events K env td page_tree _
  · exact registry_replayed_of_no_events K env td page_tree _
  · exact registry_replayed_of_no_events K env td page_tree _
  · exact registry_replayed_of_no_events K env td page_tree _
  · cases libesedb_page_get_value page 0 with
    | none => exact registry_replayed_of_no_events K env td page_tree _
    | some header =>
      simp only []
      split_ifs
      · exact registry_replayed_of_no_events K env td page_tree _
      · have howned_replayed := read_space_tree_page_replayed K env page
          (header_space_tree_page_number header) td page_tree
        have havailable_replayed := fun td' => read_space_tree_page_replayed K env page
          ((header_space_tree_page_number header + 1) % 4294967296) td' page_tree
        have howned_tree := read_space_tree_page_page_tree K env page
          (header_space_tree_page_number header) page_tree
        have havailable_tree := read_space_tree_page_page_tree K env page
          ((header_space_tree_page_number header + 1) % 4294967296) page_tree
        cases howned : (read_space_tree_page K env page
            (header_space_tree_page_number header) page_tree).result with
        | ok =>
          simp only []
          have hsecond := registry_replayed_after K env td page_tree _ _ howned_replayed howned
            (fun td' => by rw [howned_tree]; exact havailable_replayed td')
          cases havailable : (read_space_tree_page K env page
              ((header_space_tree_page_number header + 1) % 4294967296) page_tree).result with
          | ok =>
            simp only []
            have hthird := registry_replayed_after K env td page_tree _ _ hsecond
              (by rw [Step.after_result]; exact havailable)
              (fun td' => by
                rw [Step.after_page_tree, havailable_tree]
                exact hchildren td')
            simpa using hthird
          | error kind => exact hsecond
          | out_of_fuel => exact hsecond
        | error kind => exact howned_replayed
        | out_of_fuel => exact howned_replayed
      · exact hchildren td

/-- The loop of the leaf page function that passes a run of values and fails at the
value behind them ends there, with the page tree that the run has left. -/
theorem read_leaf_page_values_loop_fails_behind (K : Definitions) (env : Collaborators)
    (flags : Nat) (page : Page) (front : List PageValue) (v : PageValue)
    (rest : List PageValue) (td : Option Nat) (t : PageTree)
    (hfront : (read_leaf_page_values_loop K env flags page front td t).result = .ok)
    (hfail : (read_leaf_page_values_loop K env flags page (front ++ [v]) td t).result ≠ .ok) :
    read_leaf_page_values_loop K env flags page (front ++ v :: rest) td t
        = read_leaf_page_values_loop K env flags page (front ++ [v]) td t
    ∧ (read_leaf_page_values_loop K env flags page (front ++ v :: rest) td t).page_tree
      = (read_leaf_page_values_loop K env flags page front td t).page_tree := by
  obtain ⟨td', happ⟩ := read_leaf_page_values_loop_append_all K env flags page front td t
    hfront
  rw [happ [v]] at hfail
  rw [happ [v], happ (v :: rest)]
  rw [read_leaf_page_values_loop_cons] at hfail
  rw [read_leaf_page_values_loop_cons, read_leaf_page_values_loop_cons K env flags page v []]
  have hstep := read_leaf_page_value_grows K env flags page v td'
    (read_leaf_page_values_loop K env flags page front td t).page_tree
  cases hvalue : read_leaf_page_value K env flags page v td'
      (read_leaf_page_values_loop K env flags page front td t).page_tree with
  | stop step => exact ⟨rfl, hstep.2 step hvalue⟩
  | next events td1 page_tree1 =>
    rw [hvalue] at hfail
    simp [read_leaf_page_values_loop] at hfail

/-- C26: for every call of `libesedb_page_tree_read`, with whatever result, the page
tree afterwards has grown from the one before: the bound table definition is the
same, the value definition list has the list before as a prefix, and the table
definition list has the elements before in place, their table records the same,
their column and index lists with the lists before as a prefix, followed by the
elements appended.  And the page tree afterwards is exactly the registry that the
records of the call produce from the page tree before, processed in the order of
the decoder calls up to the first one that fails: what the records in front of a
failing step have added stays, on every page at every depth, and nothing else is
added. -/
theorem C26_lists_only_grow (K : Definitions) (env : Collaborators) (fuel : Nat)
    (page_tree : PageTree) (father_data_page_number flags : Nat) :
    page_tree_grows page_tree
      (libesedb_page_tree_read K env fuel page_tree father_data_page_number flags).page_tree
    ∧ (libesedb_page_tree_read K env fuel page_tree father_data_page_number flags).page_tree
      = spec_registry K env
          (libesedb_page_tree_read K env fuel page_tree father_data_page_number flags).events
          page_tree := by
  constructor
  · unfold libesedb_page_tree_read
    cases env.page_read father_data_page_number with
    | none => exact page_tree_grows_refl _
    | some page =>
      simp only []
      by_cases hleaf : has_flag page.flags K.LIBESEDB_PAGE_FLAG_IS_LEAF = true
      · rw [if_pos hleaf]
        have hgrows := read_leaf_page_values_grows K env flags page page_tree
        cases hresult : (libesedb_page_tree_read_leaf_page_values K env flags page
            page_tree).result <;> simpa using hgrows
      · rw [if_neg hleaf]
        by_cases hroot : has_flag page.flags K.LIBESEDB_PAGE_FLAG_IS_ROOT = true
        · rw [if_pos hroot]
          have hgrows := read_father_data_page_values_grows K env fuel flags page page_tree
          cases hresult : (libesedb_page_tree_read_father_data_page_values K env fuel flags
              page page_tree).result <;> simpa using hgrows
        · rw [if_neg hroot]
          exact page_tree_grows_refl _
  · have hwalk : ∀ walk : Step, registry_replayed K env none page_tree walk →
        walk.page_tree = spec_registry K env
            ([.page_read father_data_page_number] ++ walk.events
              ++ [.page_free father_data_page_number]) page_tree
          ∧ walk.page_tree = spec_registry K env
            ([.page_read father_data_page_number] ++ walk.events) page_tree := by
      intro walk hreplayed
      obtain ⟨td1, failed, hrun, _⟩ := hreplayed
      unfold spec_registry
      simp only [List.singleton_append, List.cons_append, List.append_assoc,
        spec_process_events_cons, spec_process_events_append, spec_process_event_page_read,
        hrun, spec_process_events_nil, spec_process_event_page_free, and_self]
    unfold libesedb_page_tree_read
    cases env.page_read father_data_page_number with
    | none => rfl
    | some page =>
      simp only []
      by_cases hleaf : has_flag page.flags K.LIBESEDB_PAGE_FLAG_IS_LEAF = true
      · rw [if_pos hleaf]
        have h := hwalk _ (read_leaf_page_values_replayed K env flags page page_tree)
        cases hresult : (libesedb_page_tree_read_leaf_page_values K env flags page
            page_tree).result
        · exact h.1
        · exact h.2
        · exact h.2
      · rw [if_neg hleaf]
        by_cases hroot : has_flag page.flags K.LIBESEDB_PAGE_FLAG_IS_ROOT = true
        · rw [if_pos hroot]
          have h := hwalk _
            (read_father_data_page_values_replayed K env fuel flags page none page_tree)
          cases hresult : (libesedb_page_tree_read_father_data_page_values K env fuel flags
              page page_tree).result
          · exact h.1
          · exact h.2
          · exact h.2
        · rw [if_neg hroot]
          rfl

/-- C26 on two calls.  The catalog of scenario S2 read into an empty page tree: two
table definitions are appended behind none.  The root page 1 whose leaf child page 2
holds a table record and behind it a value whose key does not fit:
`libesedb_page_tree_read` fails, the table definition of the record stays in the
list, and the page tree is the registry that the records of the call produce. -/
theorem C26_lists_only_grow_witness :
    (libesedb_page_tree_read esedb_definitions
        (example_collaborators [(1, example_page 1 0x0002
          (example_page_value [] :: example_catalog_values))]) 0 empty_page_tree 1
        1).page_tree.table_definition_list.length = 2
    ∧ page_tree_grows empty_page_tree
      (libesedb_page_tree_read esedb_definitions
        (example_collaborators [(1, example_page 1 0x0002
          (example_page_value [] :: example_catalog_values))]) 0 empty_page_tree 1
        1).page_tree
    ∧ (libesedb_page_tree_read esedb_definitions
        (example_collaborators example_failing_leaf_child_pages) 0 empty_page_tree 1 1).result
      = .error .runtime_value_out_of_range
    ∧ (libesedb_page_tree_read esedb_definitions
        (example_collaborators example_failing_leaf_child_pages) 0 empty_page_tree 1
        1).page_tree.table_definition_list = [example_table_definition 2 2 []]
    ∧ (libesedb_page_tree_read esedb_definitions
        (example_collaborators example_failing_leaf_child_pages) 0 empty_page_tree 1
        1).page_tree
      = spec_registry esedb_definitions (example_collaborators example_failing_leaf_child_pages)
          (libesedb_page_tree_read esedb_definitions
            (example_collaborators example_failing_leaf_child_pages) 0 empty_page_tree 1
            1).events empty_page_tree :=
  ⟨by decide, (C26_lists_only_grow esedb_definitions _ 0 empty_page_tree 1 1).1,
    by decide, by decide,
    (C26_lists_only_grow esedb_definitions
      (example_collaborators example_failing_leaf_child_pages) 0 empty_page_tree 1 1).2⟩

/-- The registry that the records of the failing call produce, evaluated: the table
definition of the one record in front of the failing value. -/
theorem failing_leaf_child_evaluated :
    spec_registry esedb_definitions (example_collaborators example_failing_leaf_child_pages)
        (libesedb_page_tree_read esedb_definitions
          (example_collaborators example_failing_leaf_child_pages) 0 empty_page_tree 1
          1).events empty_page_tree
      = { empty_page_tree with table_definition_list := [example_table_definition 2 2 []] } := by
  decide


/-! ## Creating and freeing a page tree -/

/-- C27: `libesedb_page_tree_free` on a handle that points to a page tree hands the
elements of both lists to their free functions, each once, and sets the handle to
NULL, with the return value 1 when both list frees return 1; called again on the
handle it has left, it returns 1, frees nothing and leaves the handle NULL.  So two
calls in a row leave the handle that one call leaves, and free what one call frees,
once. -/
theorem C27_free_twice_is_free_once (table_definition_list_freed
    value_definition_list_freed : Bool) (current : PageTree) :
    (libesedb_page_tree_free table_definition_list_freed value_definition_list_freed
        (some (some current))).page_tree = some none
    ∧ (libesedb_page_tree_free table_definition_list_freed value_definition_list_freed
        (some (some current))).freed_table_definitions = current.table_definition_list
    ∧ (libesedb_page_tree_free table_definition_list_freed value_definition_list_freed
        (some (some current))).freed_data_definitions = current.value_definition_list
    ∧ (table_definition_list_freed = true → value_definition_list_freed = true →
      (libesedb_page_tree_free table_definition_list_freed value_definition_list_freed
        (some (some current))).result = 1)
    ∧ libesedb_page_tree_free table_definition_list_freed value_definition_list_freed
        (libesedb_page_tree_free table_definition_list_freed value_definition_list_freed
          (some (some current))).page_tree
      = { result := 1, page_tree := some none, freed_table_definitions := [],
          freed_data_definitions := [] }
    ∧ (libesedb_page_tree_free table_definition_list_freed value_definition_list_freed
        (some (some current))).freed_table_definitions
        ++ (libesedb_page_tree_free table_definition_list_freed value_definition_list_freed
          (libesedb_page_tree_free table_definition_list_freed value_definition_list_freed
            (some (some current))).page_tree).freed_table_definitions
      = current.table_definition_list
    ∧ (libesedb_page_tree_free table_definition_list_freed value_definition_list_freed
        (some (some current))).freed_data_definitions
        ++ (libesedb_page_tree_free table_definition_list_freed value_definition_list_freed
          (libesedb_page_tree_free table_definition_list_freed value_definition_list_freed
            (some (some current))).page_tree).freed_data_definitions
      = current.value_definition_list := by
  refine ⟨rfl, rfl, rfl, ?_, rfl, ?_, ?_⟩
  · intro h1 h2
    simp [libesedb_page_tree_free, h1, h2]
  · simp [libesedb_page_tree_free]
  · simp [libesedb_page_tree_free]

/-- C27 on a page tree with two table definitions and one data definition: the first
call frees the three, the second call frees nothing. -/
theorem C27_free_twice_is_free_once_witness :
    libesedb_page_tree_free true true (some (some example_filled_page_tree))
      = { result := 1, page_tree := some none
          freed_table_definitions :=
            [example_table_definition 2 2 [], example_table_definition 3 3 []]
          freed_data_definitions := [{ payload := [7] }] }
    ∧ libesedb_page_tree_free true true
        (libesedb_page_tree_free true true (some (some example_filled_page_tree))).page_tree
      = { result := 1, page_tree := some none, freed_table_definitions := [],
          freed_data_definitions := [] } :=
  ⟨by decide, (C27_free_twice_is_free_once true true example_filled_page_tree).2.2.2.2.1⟩

/-- C28: when its allocations succeed, `libesedb_page_tree_initialize` on a handle
that points to NULL returns 1 and leaves a page tree whose two lists are empty and
whose bound table definition is the one given, if any; the lookup on that page tree
returns 0 (not found) and NULL for every identifier. -/
theorem C28_new_page_tree_is_empty (memory : Allocation)
    (table_definition : Option TableDefinition)
    (hallocate : memory.memory_allocate = true)
    (hset : memory.memory_set = true)
    (htables : memory.table_definition_list = true)
    (hvalues : memory.value_definition_list = true) :
    libesedb_page_tree_initialize memory (some none) table_definition
      = (1, some (some { table_definition := table_definition
                         table_definition_list := []
                         value_definition_list := [] }))
    ∧ ∀ identifier,
      libesedb_page_tree_get_table_definition_by_identifier
        { table_definition := table_definition
          table_definition_list := []
          value_definition_list := [] } identifier = (0, none) := by
  constructor
  · simp [ libesedb_page_tree_initialize, hallocate, hset, htables, hvalues]
  · intro identifier
    rfl

/-- C28 with a bound table definition. -/
theorem C28_new_page_tree_is_empty_witness :
    libesedb_page_tree_initialize
        { memory_allocate := true, memory_set := true, table_definition_list := true,
          value_definition_list := true }
        (some none) (some (example_table_definition 2 2 []))
      = (1, some (some example_bound_page_tree))
    ∧ ∀ identifier,
      libesedb_page_tree_get_table_definition_by_identifier example_bound_page_tree
        identifier = (0, none) :=
  C28_new_page_tree_is_empty
    { memory_allocate := true, memory_set := true, table_definition_list := true,
      value_definition_list := true }
    (some (example_table_definition 2 2 [])) rfl rfl rfl rfl

/-- A handle that points to a page tree is left as it is, and a failed allocation
leaves the handle NULL with the return value -1. -/
theorem page_tree_initialize_evaluated :
    libesedb_page_tree_initialize
        { memory_allocate := true, memory_set := true, table_definition_list := true,
          value_definition_list := true }
        (some (some example_filled_page_tree)) none
      = (1, some (some example_filled_page_tree))
    ∧ libesedb_page_tree_initialize
        { memory_allocate := false, memory_set := true, table_definition_list := true,
          value_definition_list := true }
        (some none) none
      = (-1, some none) := by
  decide

/-! ## A page that points to itself -/

/-- A run of one event with the event behind it is the event in front of the run. -/
theorem events_replicate_append (n : Nat) (e : Event) :
    List.replicate n e ++ [e] = e :: List.replicate n e := by
  rw [← List.replicate_succ', List.replicate_succ]

/-- The step for the child page 1 of the page that points to itself is the function
called for a parent page on that page, between the reading and the freeing of
page 1. -/
theorem read_child_page_cyclic (parent_walk : Page → PageTree → Step) (flags : Nat)
    (i a b : Nat) (page_tree : PageTree) :
    read_child_page esedb_definitions (example_collaborators example_cyclic_pages)
        parent_walk flags example_cyclic_page i a b 1 page_tree
      = { result := (parent_walk example_cyclic_page page_tree).result
          page_tree := (parent_walk example_cyclic_page page_tree).page_tree
          events := [.page_read 1] ++ (parent_walk example_cyclic_page page_tree).events
            ++ [.page_free 1] } := by
  unfold read_child_page
  simp only [show (example_collaborators example_cyclic_pages).page_read 1
    = some example_cyclic_page from rfl]
  rw [if_neg (by decide), if_neg (by decide), if_pos (by decide)]

/-- The function for the child pages on the page that points to itself, when the
function called for a parent page does not succeed on that page. -/
theorem read_child_pages_cyclic (parent_walk : Page → PageTree → Step) (flags : Nat)
    (page_tree : PageTree)
    (hfail : (parent_walk example_cyclic_page page_tree).result ≠ .ok) :
    libesedb_page_tree_read_child_pages esedb_definitions
        (example_collaborators example_cyclic_pages) parent_walk flags example_cyclic_page
        page_tree
      = { result := (parent_walk example_cyclic_page page_tree).result
          page_tree := (parent_walk example_cyclic_page page_tree).page_tree
          events := [.page_read 1] ++ (parent_walk example_cyclic_page page_tree).events
            ++ [.page_free 1] } := by
  have hkey : read_page_key (example_child_value 1)
      = some { page_key_type := 0, page_key_size := 0, page_value_data := [1, 0, 0, 0],
               page_value_size := 4 } := by decide
  have hvalues : example_cyclic_page.values.drop 1 = [example_child_value 1] := rfl
  unfold libesedb_page_tree_read_child_pages
  rw [hvalues, read_child_pages_loop_stop esedb_definitions _ parent_walk flags
    example_cyclic_page (example_child_value 1) [] 1 0 0 page_tree _ hkey (by decide)
    (by
      rw [show endian_little_convert_32bit [1, 0, 0, 0] = 1 from rfl, read_child_page_cyclic]
      exact hfail)]
  exact read_child_page_cyclic parent_walk flags 1 0 0 page_tree

/-- The parent page function on the page that points to itself, for every bound on
the nesting: it reads page 1 as often as the bound allows and runs out. -/
theorem read_parent_page_values_cyclic (flags : Nat) (page_tree : PageTree) (fuel : Nat) :
    libesedb_page_tree_read_parent_page_values esedb_definitions
        (example_collaborators example_cyclic_pages) fuel flags example_cyclic_page page_tree
      = { result := .out_of_fuel, page_tree := page_tree
          events := List.replicate fuel (.page_read 1)
            ++ List.replicate fuel (.page_free 1) } := by
  induction fuel with
  | zero => rfl
  | succ fuel ih =>
    rw [libesedb_page_tree_read_parent_page_values, if_neg (by decide), if_neg (by decide),
      if_neg (by decide), if_neg (by decide)]
    simp only [show libesedb_page_get_value example_cyclic_page 0
      = some (example_header 0 0) from rfl]
    rw [read_child_pages_cyclic _ flags page_tree (by rw [ih]; simp), ih]
    simp only [List.replicate_succ, List.append_assoc, List.singleton_append,
      List.cons_append, List.nil_append, events_replicate_append]

/-- C29: on the page source whose page 1 is a root and parent page with one entry
that points to page 1, `libesedb_page_tree_read` never returns: for every bound on
the nesting of parent pages it exhausts the bound, with page 1 read once more than
the bound plus one, each read nested in the one before (no page is freed before the
last read), and the page tree untouched. -/
theorem C29_page_that_points_to_itself (fuel flags : Nat) (page_tree : PageTree) :
    libesedb_page_tree_read esedb_definitions (example_collaborators example_cyclic_pages)
        fuel page_tree 1 flags
      = { result := .out_of_fuel, page_tree := page_tree
          events := List.replicate (fuel + 2) (.page_read 1)
            ++ List.replicate (fuel + 1) (.page_free 1) }
    ∧ fuel < (page_fetches (libesedb_page_tree_read esedb_definitions
        (example_collaborators example_cyclic_pages) fuel page_tree 1 flags).events).length := by
  have hwalk : libesedb_page_tree_read_father_data_page_values esedb_definitions
        (example_collaborators example_cyclic_pages) fuel flags example_cyclic_page page_tree
      = { result := .out_of_fuel, page_tree := page_tree
          events := List.replicate (fuel + 1) (.page_read 1)
            ++ List.replicate (fuel + 1) (.page_free 1) } := by
    unfold libesedb_page_tree_read_father_data_page_values
    rw [if_neg (by decide), if_neg (by decide), if_neg (by decide), if_neg (by decide)]
    simp only [show libesedb_page_get_value example_cyclic_page 0
      = some (example_header 0 0) from rfl]
    rw [if_neg (by decide), read_child_pages_cyclic _ flags page_tree
      (by rw [read_parent_page_values_cyclic]; simp), read_parent_page_values_cyclic]
    simp only [List.replicate_succ, List.append_assoc, List.singleton_append,
      List.cons_append, List.nil_append, events_replicate_append]
  have hread : libesedb_page_tree_read esedb_definitions
        (example_collaborators example_cyclic_pages) fuel page_tree 1 flags
      = { result := .out_of_fuel, page_tree := page_tree
          events := List.replicate (fuel + 2) (.page_read 1)
            ++ List.replicate (fuel + 1) (.page_free 1) } := by
    unfold libesedb_page_tree_read
    simp only [show (example_collaborators example_cyclic_pages).page_read 1
      = some example_cyclic_page from rfl]
    rw [if_neg (by decide), if_pos (by decide), hwalk]
    simp only [Step.after, List.replicate_succ, List.cons_append, List.nil_append,
      List.singleton_append]
  refine ⟨hread, ?_⟩
  rw [hread]
  simp [page_fetches, List.filterMap_append, List.filterMap_replicate]


/-! ## The traversal of a tree of bounded height -/

/-- The loop body of the leaf page function ends the function with an error. -/
theorem read_leaf_page_value_stop_error (K : Definitions) (env : Collaborators)
    (flags : Nat) (page : Page) (v : PageValue) (td : Option Nat) (page_tree : PageTree)
    (step : Step) (h : read_leaf_page_value K env flags page v td page_tree = .stop step) :
    ∃ kind, step.result = .error kind := by
  unfold read_leaf_page_value at h
  cases hkey : read_page_key v with
  | none =>
    simp only [hkey] at h
    injection h with h
    subst h
    exact ⟨_, rfl⟩
  | some key =>
    simp only [hkey] at h
    by_cases hindex : has_flag page.flags K.LIBESEDB_PAGE_FLAG_IS_INDEX = true
    · rw [if_pos hindex] at h
      cases h
    · rw [if_neg hindex] at h
      by_cases hlong : has_flag page.flags K.LIBESEDB_PAGE_FLAG_IS_LONG_VALUE = true
      · rw [if_pos hlong] at h
        cases h
      · rw [if_neg hlong] at h
        by_cases hmode : has_flag flags K.LIBESEDB_PAGE_TREE_FLAG_READ_CATALOG_DEFINITION = true
        · rw [if_pos hmode] at h
          cases hread : env.catalog_definition_read key.page_value_data key.page_value_size with
          | none =>
            simp only [hread] at h
            injection h with h
            subst h
            exact ⟨_, rfl⟩
          | some r =>
            simp only [hread] at h
            cases hadd : read_catalog_definition K r td page_tree with
            | error kind =>
              simp only [hadd] at h
              injection h with h
              subst h
              exact ⟨_, rfl⟩
            | ok out =>
              simp only [hadd] at h
              cases h
        · rw [if_neg hmode] at h
          cases hbound : page_tree.table_definition with
          | none =>
            simp only [hbound] at h
            injection h with h
            subst h
            exact ⟨_, rfl⟩
          | some bound =>
            simp only [hbound] at h
            cases hrow : env.data_definition_read bound.column_catalog_definition_list
                key.page_value_data key.page_value_size with
            | none =>
              simp only [hrow] at h
              injection h with h
              subst h
              exact ⟨_, rfl⟩
            | some row =>
              simp only [hrow] at h
              cases h

/-- The loop of the leaf page function returns: it nests no parent page. -/
theorem read_leaf_page_values_loop_returns (K : Definitions) (env : Collaborators)
    (flags : Nat) (page : Page) (values : List PageValue) (td : Option Nat)
    (page_tree : PageTree) :
    (read_leaf_page_values_loop K env flags page values td page_tree).result
      ≠ .out_of_fuel := by
  induction values generalizing td page_tree with
  | nil =>
    intro h
    cases h
  | cons v rest ih =>
    rw [read_leaf_page_values_loop_cons]
    cases hvalue : read_leaf_page_value K env flags page v td page_tree with
    | stop step =>
      obtain ⟨kind, hkind⟩ := read_leaf_page_value_stop_error K env flags page v td page_tree
        step hvalue
      simp only [hkind]
      intro h
      cases h
    | next events td1 page_tree1 =>
      simp only [Step.after_result]
      exact ih td1 page_tree1

/-- The leaf page function returns. -/
theorem read_leaf_page_values_returns (K : Definitions) (env : Collaborators) (flags : Nat)
    (page : Page) (page_tree : PageTree) :
    (libesedb_page_tree_read_leaf_page_values K env flags page page_tree).result
      ≠ .out_of_fuel := by
  unfold libesedb_page_tree_read_leaf_page_values
  split_ifs
  · intro h
    cases h
  · intro h
    cases h
  · cases libesedb_page_get_value page 0 with
    | none =>
      intro h
      cases h
    | some header => exact read_leaf_page_values_loop_returns K env flags page _ none page_tree

/-- The loop of the space tree page function returns. -/
theorem read_space_tree_page_values_loop_returns (K : Definitions) (page : Page)
    (values : List PageValue) :
    read_space_tree_page_values_loop K page values ≠ .out_of_fuel := by
  induction values with
  | nil =>
    intro h
    cases h
  | cons v rest ih =>
    rw [read_space_tree_page_values_loop]
    split_ifs
    · intro h
      cases h
    · intro h
      cases h
    · intro h
      cases h
    · exact ih
    · exact ih

/-- The space tree page function returns. -/
theorem read_space_tree_page_values_returns (K : Definitions) (page : Page) :
    libesedb_page_tree_read_space_tree_page_values K page ≠ .out_of_fuel := by
  by_cases hrequired : has_flag page.flags
      (K.LIBESEDB_PAGE_FLAG_IS_ROOT ||| K.LIBESEDB_PAGE_FLAG_IS_SPACE_TREE) = true
  · by_cases hsupported : has_unsupported_flags page.flags (space_tree_supported_flags K)
        = false
    · by_cases hprevious : page.previous_page_number = 0
      · by_cases hnext : page.next_page_number = 0
        · cases hheader : libesedb_page_get_value page 0 with
          | none =>
            unfold libesedb_page_tree_read_space_tree_page_values
            simp only []
            rw [if_neg (by simp [hrequired]), if_neg (by simp [hsupported]),
              if_neg (by simp [hprevious]), if_neg (by simp [hnext])]
            simp only [hheader]
            intro h
            cases h
          | some header =>
            cases hcheck : (if has_flag page.flags K.LIBESEDB_PAGE_FLAG_IS_LEAF then
                space_tree_header_error header else none) with
            | none =>
              rw [read_space_tree_page_values_checked K page header hrequired hsupported
                hprevious hnext hheader hcheck]
              exact read_space_tree_page_values_loop_returns K page _
            | some kind =>
              have hleaf : has_flag page.flags K.LIBESEDB_PAGE_FLAG_IS_LEAF = true := by
                by_contra hl
                rw [if_neg hl] at hcheck
                cases hcheck
              rw [if_pos hleaf] at hcheck
              rw [read_space_tree_page_values_header K page header kind hrequired hsupported
                hprevious hnext hheader hleaf hcheck]
              intro h
              cases h
        · unfold libesedb_page_tree_read_space_tree_page_values
          simp only []
          rw [if_neg (by simp [hrequired]), if_neg (by simp [hsupported]),
            if_neg (by simp [hprevious]), if_pos hnext]
          intro h
          cases h
      · unfold libesedb_page_tree_read_space_tree_page_values
        simp only []
        rw [if_neg (by simp [hrequired]), if_neg (by simp [hsupported]), if_pos hprevious]
        intro h
        cases h
    · unfold libesedb_page_tree_read_space_tree_page_values
      simp only []
      rw [if_neg (by simp [hrequired]), if_pos (by simpa using hsupported)]
      intro h
      cases h
  · unfold libesedb_page_tree_read_space_tree_page_values
    simp only []
    rw [if_pos (by simpa using hrequired)]
    intro h
    cases h

/-- The reading of a space tree page returns. -/
theorem read_space_tree_page_returns (K : Definitions) (env : Collaborators) (page : Page)
    (n : Nat) (page_tree : PageTree) :
    (read_space_tree_page K env page n page_tree).result ≠ .out_of_fuel := by
  unfold read_space_tree_page
  cases env.page_read n with
  | none =>
    intro h
    cases h
  | some space_tree_page =>
    simp only []
    split_ifs
    · intro h
      cases h
    · exact read_space_tree_page_values_returns K space_tree_page

/-- The pages that a run of parent page values points to are among those of a longer
run. -/
theorem mem_spec_child_pages_of_values_cons (env : Collaborators) (v : PageValue)
    (rest : List PageValue) (c : Page) (h : c ∈ spec_child_pages_of_values env rest) :
    c ∈ spec_child_pages_of_values env (v :: rest) := by
  unfold spec_child_pages_of_values at h ⊢
  rw [List.map_cons, List.filter_cons]
  split_ifs
  · rw [List.filterMap_cons]
    cases env.page_read (spec_child_page_number v) with
    | none => exact h
    | some _ => exact List.mem_cons_of_mem _ h
  · exact h

/-- The page that the first of a run of parent page values points to. -/
theorem mem_spec_child_pages_of_values_head (env : Collaborators) (v : PageValue)
    (rest : List PageValue) (c : Page) (hnumber : spec_child_page_number v < 0x117f02)
    (hread : env.page_read (spec_child_page_number v) = some c) :
    c ∈ spec_child_pages_of_values env (v :: rest) := by
  unfold spec_child_pages_of_values
  rw [List.map_cons, List.filter_cons, if_pos (by simpa using hnumber), List.filterMap_cons]
  simp only [hread]
  exact List.mem_cons_self _ _

/-- The step for one child page with two functions for a parent page that agree on
the child page. -/
theorem read_child_page_congr_walk (K : Definitions) (env : Collaborators)
    (walk1 walk2 : Page → PageTree → Step) (flags : Nat) (page : Page)
    (i a b child_page_number : Nat) (page_tree : PageTree)
    (hagree : ∀ c, env.page_read child_page_number = some c →
      has_flag c.flags K.LIBESEDB_PAGE_FLAG_IS_LEAF = false →
      has_flag c.flags K.LIBESEDB_PAGE_FLAG_IS_PARENT = true →
      walk1 c page_tree = walk2 c page_tree) :
    read_child_page K env walk1 flags page i a b child_page_number page_tree
      = read_child_page K env walk2 flags page i a b child_page_number page_tree := by
  unfold read_child_page
  cases hread : env.page_read child_page_number with
  | none => rfl
  | some child =>
    simp only []
    by_cases hne : page.father_data_page_object_identifier
        ≠ child.father_data_page_object_identifier
    · rw [if_pos hne, if_pos hne]
    · rw [if_neg hne, if_neg hne]
      by_cases hleaf : has_flag child.flags K.LIBESEDB_PAGE_FLAG_IS_LEAF = true
      · rw [if_pos hleaf, if_pos hleaf]
      · rw [if_neg hleaf, if_neg hleaf]
        by_cases hparent : has_flag child.flags K.LIBESEDB_PAGE_FLAG_IS_PARENT = true
        · rw [if_pos hparent, if_pos hparent,
            hagree child hread (by simpa using hleaf) hparent]
        · rw [if_neg hparent, if_neg hparent]

/-- The step for one child page returns, when the function called for a parent page
returns on the child page. -/
theorem read_child_page_returns (K : Definitions) (env : Collaborators)
    (parent_walk : Page → PageTree → Step) (flags : Nat) (page : Page)
    (i a b child_page_number : Nat) (page_tree : PageTree)
    (hwalk : ∀ c, env.page_read child_page_number = some c →
      has_flag c.flags K.LIBESEDB_PAGE_FLAG_IS_LEAF = false →
      has_flag c.flags K.LIBESEDB_PAGE_FLAG_IS_PARENT = true →
      (parent_walk c page_tree).result ≠ .out_of_fuel) :
    (read_child_page K env parent_walk flags page i a b child_page_number page_tree).result
      ≠ .out_of_fuel := by
  unfold read_child_page
  cases hread : env.page_read child_page_number with
  | none =>
    intro h
    cases h
  | some child =>
    simp only []
    by_cases hne : page.father_data_page_object_identifier
        ≠ child.father_data_page_object_identifier
    · rw [if_pos hne]
      intro h
      cases h
    · rw [if_neg hne]
      by_cases hleaf : has_flag child.flags K.LIBESEDB_PAGE_FLAG_IS_LEAF = true
      · rw [if_pos hleaf]
        exact read_leaf_page_values_returns K env flags child page_tree
      · rw [if_neg hleaf]
        by_cases hparent : has_flag child.flags K.LIBESEDB_PAGE_FLAG_IS_PARENT = true
        · rw [if_pos hparent]
          exact hwalk child hread (by simpa using hleaf) hparent
        · rw [if_neg hparent]
          intro h
          cases h

/-- The loop over the child pages with two functions for a parent page that agree
on the child pages that are parent pages, and that return on them: the loops agree
and return. -/
theorem read_child_pages_loop_congr_walk (K : Definitions) (env : Collaborators)
    (walk1 walk2 : Page → PageTree → Step) (flags : Nat) (page : Page)
    (values : List PageValue)
    (hagree : ∀ c ∈ spec_child_pages_of_values env values,
      has_flag c.flags K.LIBESEDB_PAGE_FLAG_IS_LEAF = false →
      has_flag c.flags K.LIBESEDB_PAGE_FLAG_IS_PARENT = true →
      ∀ t, walk1 c t = walk2 c t ∧ (walk2 c t).result ≠ .out_of_fuel)
    (i a b : Nat) (page_tree : PageTree) :
    read_child_pages_loop K env walk1 flags page values i a b page_tree
      = read_child_pages_loop K env walk2 flags page values i a b page_tree
    ∧ (read_child_pages_loop K env walk2 flags page values i a b page_tree).result
      ≠ .out_of_fuel := by
  induction values generalizing i a b page_tree with
  | nil =>
    refine ⟨rfl, ?_⟩
    intro h
    cases h
  | cons v rest ih =>
    have hrest : ∀ c ∈ spec_child_pages_of_values env rest,
        has_flag c.flags K.LIBESEDB_PAGE_FLAG_IS_LEAF = false →
        has_flag c.flags K.LIBESEDB_PAGE_FLAG_IS_PARENT = true →
        ∀ t, walk1 c t = walk2 c t ∧ (walk2 c t).result ≠ .out_of_fuel :=
      fun c hc => hagree c (mem_spec_child_pages_of_values_cons env v rest c hc)
    cases hkey : read_page_key v with
    | none =>
      rw [read_child_pages_loop_out_of_range K env walk1 flags page v rest i a b
          page_tree hkey,
        read_child_pages_loop_out_of_range K env walk2 flags page v rest i a b
          page_tree hkey]
      refine ⟨rfl, ?_⟩
      intro h
      cases h
    | some key =>
      have hnumber := read_page_key_child_page_number v key hkey
      by_cases hskip : endian_little_convert_32bit key.page_value_data ≥ 0x117f02
      · rw [read_child_pages_loop_ignored K env walk1 flags page v rest i a b page_tree
            key hkey hskip,
          read_child_pages_loop_ignored K env walk2 flags page v rest i a b page_tree
            key hkey hskip]
        exact ih hrest _ _ _ _
      · have hhead : ∀ c, env.page_read (endian_little_convert_32bit key.page_value_data)
              = some c →
            has_flag c.flags K.LIBESEDB_PAGE_FLAG_IS_LEAF = false →
            has_flag c.flags K.LIBESEDB_PAGE_FLAG_IS_PARENT = true →
            walk1 c page_tree = walk2 c page_tree
              ∧ (walk2 c page_tree).result ≠ .out_of_fuel := by
          intro c hread hleaf hparent
          rw [hnumber] at hread hskip
          exact hagree c (mem_spec_child_pages_of_values_head env v rest c
            (Nat.lt_of_not_ge hskip) hread) hleaf hparent page_tree
        have hsame := read_child_page_congr_walk K env walk1 walk2 flags page i a b
          (endian_little_convert_32bit key.page_value_data) page_tree
          (fun c hread hleaf hparent => (hhead c hread hleaf hparent).1)
        have hreturns := read_child_page_returns K env walk2 flags page i a b
          (endian_little_convert_32bit key.page_value_data) page_tree
          (fun c hread hleaf hparent => (hhead c hread hleaf hparent).2)
        by_cases hchild : (read_child_page K env walk2 flags page i a b
            (endian_little_convert_32bit key.page_value_data) page_tree).result = .ok
        · rw [read_child_pages_loop_ok K env walk1 flags page v rest i a b page_tree
              key hkey hskip (by rw [hsame]; exact hchild),
            read_child_pages_loop_ok K env walk2 flags page v rest i a b page_tree
              key hkey hskip hchild, hsame]
          simp only [Step.after_result]
          exact ⟨by rw [(ih hrest _ _ _ _).1], (ih hrest _ _ _ _).2⟩
        · rw [read_child_pages_loop_stop K env walk1 flags page v rest i a b page_tree
              key hkey hskip (by rw [hsame]; exact hchild),
            read_child_pages_loop_stop K env walk2 flags page v rest i a b page_tree
              key hkey hskip hchild]
          exact ⟨hsame, hreturns⟩

/-- The parent page function with two bounds whose functions for the child pages
agree. -/
theorem read_parent_page_values_congr_fuel (K : Definitions) (env : Collaborators)
    (fuel1 fuel2 flags : Nat) (page : Page) (page_tree : PageTree)
    (hchildren : libesedb_page_tree_read_child_pages K env
        (libesedb_page_tree_read_parent_page_values K env fuel1 flags) flags page page_tree
      = libesedb_page_tree_read_child_pages K env
        (libesedb_page_tree_read_parent_page_values K env fuel2 flags) flags page page_tree) :
    libesedb_page_tree_read_parent_page_values K env (fuel1 + 1) flags page page_tree
      = libesedb_page_tree_read_parent_page_values K env (fuel2 + 1) flags page page_tree := by
  rw [libesedb_page_tree_read_parent_page_values.eq_2,
    libesedb_page_tree_read_parent_page_values.eq_2, hchildren]

/-- The parent page function returns when its function for the child pages does. -/
theorem read_parent_page_values_returns (K : Definitions) (env : Collaborators)
    (fuel flags : Nat) (page : Page) (page_tree : PageTree)
    (hchildren : (libesedb_page_tree_read_child_pages K env
        (libesedb_page_tree_read_parent_page_values K env fuel flags) flags page
        page_tree).result ≠ .out_of_fuel) :
    (libesedb_page_tree_read_parent_page_values K env (fuel + 1) flags page
      page_tree).result ≠ .out_of_fuel := by
  rw [libesedb_page_tree_read_parent_page_values.eq_2]
  split_ifs
  · intro h
    cases h
  · intro h
    cases h
  · intro h
    cases h
  · intro h
    cases h
  · cases libesedb_page_get_value page 0 with
    | none =>
      intro h
      cases h
    | some header => exact hchildren

/-- The parent page function on a page with at most `height` levels of parent pages
below it: one more than `height` nested calls are enough, a larger bound gives the
same step, and the function returns. -/
theorem read_parent_page_values_in_height (K : Definitions) (env : Collaborators)
    (flags : Nat) (height : Nat) :
    ∀ page, spec_height_le K env height page →
      ∀ t, (∀ more, libesedb_page_tree_read_parent_page_values K env (height + more + 1)
            flags page t
          = libesedb_page_tree_read_parent_page_values K env (height + 1) flags page t)
        ∧ (libesedb_page_tree_read_parent_page_values K env (height + 1) flags page t).result
          ≠ .out_of_fuel := by
  induction height with
  | zero =>
    intro page hheight t
    have hloop := fun more => read_child_pages_loop_congr_walk K env
      (libesedb_page_tree_read_parent_page_values K env (0 + more) flags)
      (libesedb_page_tree_read_parent_page_values K env 0 flags) flags page
      (page.values.drop 1)
      (fun c hc hleaf hparent => absurd (hheight c hc hleaf hparent) id) 1 0 0 t
    refine ⟨fun more => ?_, ?_⟩
    · exact read_parent_page_values_congr_fuel K env _ _ flags page t (hloop more).1
    · exact read_parent_page_values_returns K env 0 flags page t (hloop 0).2
  | succ height ih =>
    intro page hheight t
    have hloop := fun more => read_child_pages_loop_congr_walk K env
      (libesedb_page_tree_read_parent_page_values K env (height + 1 + more) flags)
      (libesedb_page_tree_read_parent_page_values K env (height + 1) flags) flags page
      (page.values.drop 1)
      (fun c hc hleaf hparent u => by
        have hchild := ih c (hheight c hc hleaf hparent) u
        refine ⟨?_, hchild.2⟩
        rw [show height + 1 + more = height + more + 1 from by omega]
        exact hchild.1 more) 1 0 0 t
    refine ⟨fun more => ?_, ?_⟩
    · exact read_parent_page_values_congr_fuel K env _ _ flags page t (hloop more).1
    · exact read_parent_page_values_returns K env _ flags page t (hloop 0).2

/-- The function for the child pages of a page with at most `height` levels of
parent pages below it, with the parent page function bounded by `height` nested
calls: a larger bound gives the same step, and the function returns. -/
theorem read_child_pages_in_height (K : Definitions) (env : Collaborators)
    (flags : Nat) (height : Nat) (page : Page) (hheight : spec_height_le K env height page)
    (more : Nat) (t : PageTree) :
    libesedb_page_tree_read_child_pages K env
        (libesedb_page_tree_read_parent_page_values K env (height + more) flags) flags page t
      = libesedb_page_tree_read_child_pages K env
        (libesedb_page_tree_read_parent_page_values K env height flags) flags page t
    ∧ (libesedb_page_tree_read_child_pages K env
        (libesedb_page_tree_read_parent_page_values K env height flags) flags page t).result
      ≠ .out_of_fuel := by
  cases height with
  | zero =>
    exact read_child_pages_loop_congr_walk K env _ _ flags page (page.values.drop 1)
      (fun c hc hleaf hparent => absurd (hheight c hc hleaf hparent) id) 1 0 0 t
  | succ height =>
    exact read_child_pages_loop_congr_walk K env _ _ flags page (page.values.drop 1)
      (fun c hc hleaf hparent u => by
        have hchild := read_parent_page_values_in_height K env flags height c
          (hheight c hc hleaf hparent) u
        refine ⟨?_, hchild.2⟩
        rw [show height + 1 + more = height + more + 1 from by omega]
        exact hchild.1 more) 1 0 0 t

/-- The father data page function returns when its function for the child pages
does. -/
theorem read_father_data_page_values_returns (K : Definitions) (env : Collaborators)
    (fuel flags : Nat) (page : Page) (page_tree : PageTree)
    (hchildren : (libesedb_page_tree_read_child_pages K env
        (libesedb_page_tree_read_parent_page_values K env fuel flags) flags page
        page_tree).result ≠ .out_of_fuel) :
    (libesedb_page_tree_read_father_data_page_values K env fuel flags page
      page_tree).result ≠ .out_of_fuel := by
  unfold libesedb_page_tree_read_father_data_page_values
  split_ifs
  · intro h
    cases h
  · intro h
    cases h
  · intro h
    cases h
  · intro h
    cases h
  · cases libesedb_page_get_value page 0 with
    | none =>
      intro h
      cases h
    | some header =>
      simp only []
      split_ifs
      · intro h
        cases h
      · have howned_returns := read_space_tree_page_returns K env page
          (header_space_tree_page_number header) page_tree
        have havailable_returns := read_space_tree_page_returns K env page
          ((header_space_tree_page_number header + 1) % 4294967296) page_tree
        cases howned : (read_space_tree_page K env page
            (header_space_tree_page_number header) page_tree).result with
        | ok =>
          simp only []
          cases havailable : (read_space_tree_page K env page
              ((header_space_tree_page_number header + 1) % 4294967296) page_tree).result with
          | ok =>
            simp only [Step.after_result]
            exact hchildren
          | error kind =>
            simp only [Step.after_result, havailable]
            intro h
            cases h
          | out_of_fuel => exact absurd havailable havailable_returns
        | error kind =>
          simp only [howned]
          intro h
          cases h
        | out_of_fuel => exact absurd howned howned_returns
      · exact hchildren

/-- The father data page function with two bounds whose functions for the child
pages agree. -/
theorem read_father_data_page_values_congr_fuel (K : Definitions) (env : Collaborators)
    (fuel1 fuel2 flags : Nat) (page : Page) (page_tree : PageTree)
    (hchildren : libesedb_page_tree_read_child_pages K env
        (libesedb_page_tree_read_parent_page_values K env fuel1 flags) flags page page_tree
      = libesedb_page_tree_read_child_pages K env
        (libesedb_page_tree_read_parent_page_values K env fuel2 flags) flags page page_tree) :
    libesedb_page_tree_read_father_data_page_values K env fuel1 flags page page_tree
      = libesedb_page_tree_read_father_data_page_values K env fuel2 flags page page_tree := by
  unfold libesedb_page_tree_read_father_data_page_values
  simp only [hchildren]


/-! ## The pages read are among the pages reachable -/

theorem page_fetches_append (a b : List Event) :
    page_fetches (a ++ b) = page_fetches a ++ page_fetches b := by
  simp [page_fetches]

theorem page_fetches_nil : page_fetches [] = [] := rfl

theorem page_fetches_page_read (n : Nat) (rest : List Event) :
    page_fetches (Event.page_read n :: rest) = n :: page_fetches rest := rfl

theorem page_fetches_page_free (n : Nat) (rest : List Event) :
    page_fetches (Event.page_free n :: rest) = page_fetches rest := rfl

/-- Events among which no page is read have no page fetches. -/
theorem page_fetches_of_no_read (events : List Event)
    (h : ∀ m, Event.page_read m ∉ events) : page_fetches events = [] := by
  induction events with
  | nil => rfl
  | cons e rest ih =>
    have hrest : page_fetches rest = [] :=
      ih (fun m hm => h m (List.mem_cons_of_mem _ hm))
    cases e with
    | page_read m => exact absurd (List.mem_cons_self _ _) (h m)
    | page_free m => exact hrest
    | catalog_definition_read data size => exact hrest
    | data_definition_read columns data size => exact hrest
    | mismatch_in_child_page_number expected actual => exact hrest
    | mismatch_in_previous_child_page_number expected actual => exact hrest

/-- The pages that the step for one child page reads are among the page numbers
reachable through the entry, in order. -/
theorem read_child_page_reachable (K : Definitions) (env : Collaborators)
    (parent_walk : Page → PageTree → Step) (flags : Nat) (page : Page)
    (below : Page → List Nat) (i a b child_page_number : Nat) (page_tree : PageTree)
    (hwalk : ∀ c, (page_fetches (parent_walk c page_tree).events).Sublist (below c)) :
    (page_fetches (read_child_page K env parent_walk flags page i a b child_page_number
      page_tree).events).Sublist
      (spec_reachable_of_child K env below child_page_number) := by
  unfold read_child_page spec_reachable_of_child
  cases hread : env.page_read child_page_number with
  | none => exact List.Sublist.refl _
  | some child =>
    simp only []
    by_cases hne : page.father_data_page_object_identifier
        ≠ child.father_data_page_object_identifier
    · rw [if_pos hne]
      exact List.Sublist.cons₂ _ (List.nil_sublist _)
    · rw [if_neg hne]
      by_cases hleaf : has_flag child.flags K.LIBESEDB_PAGE_FLAG_IS_LEAF = true
      · rw [if_pos hleaf, if_pos hleaf]
        simp only [List.singleton_append, List.cons_append, List.append_assoc,
          page_fetches_page_read, page_fetches_append, page_fetches_page_free,
          page_fetches_of_no_read _ (child_page_messages_no_read i a b child),
          page_fetches_of_no_read _
            (read_leaf_page_values_no_read K env flags child page_tree),
          List.nil_append]
        exact List.Sublist.refl _
      · rw [if_neg hleaf, if_neg hleaf]
        by_cases hparent : has_flag child.flags K.LIBESEDB_PAGE_FLAG_IS_PARENT = true
        · rw [if_pos hparent, if_pos hparent]
          simp only [List.singleton_append, List.cons_append, List.append_assoc,
            page_fetches_page_read, page_fetches_append, page_fetches_page_free]
          refine List.Sublist.cons₂ _ ?_
          have hnil : page_fetches ([] : List Event) = [] := rfl
          rw [hnil, List.append_nil]
          exact hwalk child
        · rw [if_neg hparent, if_neg hparent]
          exact List.Sublist.refl _

/-- The pages that the loop over the child pages reads are among the page numbers
reachable through the entries, in order. -/
theorem read_child_pages_loop_reachable (K : Definitions) (env : Collaborators)
    (parent_walk : Page → PageTree → Step) (flags : Nat) (page : Page)
    (below : Page → List Nat)
    (hwalk : ∀ c t, (page_fetches (parent_walk c t).events).Sublist (below c))
    (values : List PageValue) (i a b : Nat) (page_tree : PageTree) :
    (page_fetches (read_child_pages_loop K env parent_walk flags page values i a b
      page_tree).events).Sublist
      ((spec_child_page_numbers values).flatMap (spec_reachable_of_child K env below)) := by
  induction values generalizing i a b page_tree with
  | nil => exact List.Sublist.refl _
  | cons v rest ih =>
    cases hkey : read_page_key v with
    | none =>
      rw [read_child_pages_loop_out_of_range K env parent_walk flags page v rest i a b
        page_tree hkey]
      exact List.nil_sublist _
    | some key =>
      have hnumber := read_page_key_child_page_number v key hkey
      by_cases hskip : endian_little_convert_32bit key.page_value_data ≥ 0x117f02
      · rw [read_child_pages_loop_ignored K env parent_walk flags page v rest i a b page_tree
          key hkey hskip]
        have hspec : spec_child_page_numbers (v :: rest) = spec_child_page_numbers rest := by
          rw [hnumber] at hskip
          simp [spec_child_page_numbers, List.filter_cons, Nat.not_lt.mpr hskip]
        rw [hspec]
        exact ih _ _ _ _
      · have hspec : spec_child_page_numbers (v :: rest)
            = endian_little_convert_32bit key.page_value_data
              :: spec_child_page_numbers rest := by
          rw [hnumber] at hskip ⊢
          simp [spec_child_page_numbers, List.filter_cons, Nat.lt_of_not_ge hskip]
        have hchild_sub := read_child_page_reachable K env parent_walk flags page below i a b
          (endian_little_convert_32bit key.page_value_data) page_tree
          (fun c => hwalk c page_tree)
        rw [hspec, List.flatMap_cons]
        by_cases hchild : (read_child_page K env parent_walk flags page i a b
            (endian_little_convert_32bit key.page_value_data) page_tree).result = .ok
        · rw [read_child_pages_loop_ok K env parent_walk flags page v rest i a b page_tree
            key hkey hskip hchild, Step.after_events, page_fetches_append]
          exact List.Sublist.append hchild_sub (ih _ _ _ _)
        · rw [read_child_pages_loop_stop K env parent_walk flags page v rest i a b page_tree
            key hkey hskip hchild]
          exact List.Sublist.trans hchild_sub (List.sublist_append_left _ _)

/-- The pages that the parent page function reads are among the page numbers
reachable below the page, in order. -/
theorem read_parent_page_values_reachable (K : Definitions) (env : Collaborators)
    (flags : Nat) (fuel : Nat) :
    ∀ (page : Page) (t : PageTree),
      (page_fetches (libesedb_page_tree_read_parent_page_values K env fuel flags page
        t).events).Sublist (spec_reachable_below K env fuel page) := by
  induction fuel with
  | zero =>
    intro page t
    exact List.Sublist.refl _
  | succ fuel ih =>
    intro page t
    rw [libesedb_page_tree_read_parent_page_values.eq_2, spec_reachable_below]
    split_ifs
    · exact List.nil_sublist _
    · exact List.nil_sublist _
    · exact List.nil_sublist _
    · exact List.nil_sublist _
    · cases libesedb_page_get_value page 0 with
      | none => exact List.nil_sublist _
      | some header =>
        exact read_child_pages_loop_reachable K env _ flags page
          (spec_reachable_below K env fuel) ih _ _ _ _ t

/-- The pages that the father data page function reads are among its space tree
page numbers followed by the page numbers reachable below the page, in order. -/
theorem read_father_data_page_values_reachable (K : Definitions) (env : Collaborators)
    (fuel flags : Nat) (page : Page) (page_tree : PageTree) :
    (page_fetches (libesedb_page_tree_read_father_data_page_values K env fuel flags page
      page_tree).events).Sublist
      (spec_space_tree_page_numbers page ++ spec_reachable_below K env (fuel + 1) page) := by
  have hchildren : (page_fetches (libesedb_page_tree_read_child_pages K env
        (libesedb_page_tree_read_parent_page_values K env fuel flags) flags page
        page_tree).events).Sublist (spec_reachable_below K env (fuel + 1) page) := by
    rw [spec_reachable_below]
    exact read_child_pages_loop_reachable K env _ flags page
      (spec_reachable_below K env fuel) (read_parent_page_values_reachable K env flags fuel)
      _ _ _ _ page_tree
  by_cases hroot : has_flag page.flags K.LIBESEDB_PAGE_FLAG_IS_ROOT = true
  · by_cases hsupported : has_unsupported_flags page.flags
        (father_data_page_supported_flags K) = false
    · by_cases hprevious : page.previous_page_number = 0
      · by_cases hnext : page.next_page_number = 0
        · cases hheader : libesedb_page_get_value page 0 with
          | none =>
            unfold libesedb_page_tree_read_father_data_page_values
            rw [if_neg (by simp [hroot]), if_neg (by simp [hsupported]),
              if_neg (by simp [hprevious]), if_neg (by simp [hnext])]
            simp only [hheader]
            exact List.nil_sublist _
          | some header =>
            by_cases hextent : header_extent_space header > 0
            · have hnumbers : spec_space_tree_page_numbers page
                  = [header_space_tree_page_number header,
                     (header_space_tree_page_number header + 1) % 4294967296] := by
                simp only [spec_space_tree_page_numbers, hheader, if_pos hextent]
              rw [hnumbers, read_father_data_page_values_with_extent_space K env fuel flags
                page page_tree header hroot hsupported hprevious hnext hheader hextent]
              have hevents1 := read_space_tree_page_events K env page
                (header_space_tree_page_number header) page_tree
              have hevents2 := read_space_tree_page_events K env page
                ((header_space_tree_page_number header + 1) % 4294967296) page_tree
              cases howned : (read_space_tree_page K env page
                  (header_space_tree_page_number header) page_tree).result with
              | ok =>
                cases havailable : (read_space_tree_page K env page
                    ((header_space_tree_page_number header + 1) % 4294967296)
                    page_tree).result with
                | ok =>
                  simp only [Step.after_events, hevents1, hevents2, page_fetches_append,
                    List.cons_append, List.nil_append, page_fetches_page_read,
                    page_fetches_page_free]
                  exact List.Sublist.cons₂ _ (List.Sublist.cons₂ _ hchildren)
                | error kind =>
                  simp only [Step.after_events, hevents1, hevents2, page_fetches_append,
                    List.cons_append, List.nil_append, page_fetches_page_read,
                    page_fetches_page_free]
                  exact List.Sublist.cons₂ _ (List.Sublist.cons₂ _ (List.nil_sublist _))
                | out_of_fuel =>
                  simp only [Step.after_events, hevents1, hevents2, page_fetches_append,
                    List.cons_append, List.nil_append, page_fetches_page_read,
                    page_fetches_page_free]
                  exact List.Sublist.cons₂ _ (List.Sublist.cons₂ _ (List.nil_sublist _))
              | error kind =>
                simp only [hevents1, page_fetches_page_read, page_fetches_page_free,
                  List.cons_append, List.nil_append]
                exact List.Sublist.cons₂ _ (List.nil_sublist _)
              | out_of_fuel =>
                simp only [hevents1, page_fetches_page_read, page_fetches_page_free,
                  List.cons_append, List.nil_append]
                exact List.Sublist.cons₂ _ (List.nil_sublist _)
            · have hnumbers : spec_space_tree_page_numbers page = [] := by
                simp only [spec_space_tree_page_numbers, hheader, if_neg hextent]
              unfold libesedb_page_tree_read_father_data_page_values
              rw [if_neg (by simp [hroot]), if_neg (by simp [hsupported]),
                if_neg (by simp [hprevious]), if_neg (by simp [hnext])]
              simp only [hheader]
              rw [if_neg hextent, hnumbers, List.nil_append]
              exact hchildren
        · unfold libesedb_page_tree_read_father_data_page_values
          rw [if_neg (by simp [hroot]), if_neg (by simp [hsupported]),
            if_neg (by simp [hprevious]), if_pos hnext]
          exact List.nil_sublist _
      · unfold libesedb_page_tree_read_father_data_page_values
        rw [if_neg (by simp [hroot]), if_neg (by simp [hsupported]), if_pos hprevious]
        exact List.nil_sublist _
    · unfold libesedb_page_tree_read_father_data_page_values
      rw [if_neg (by simp [hroot]), if_pos (by simpa using hsupported)]
      exact List.nil_sublist _
  · unfold libesedb_page_tree_read_father_data_page_values
    rw [if_pos (by simpa using hroot)]
    exact List.nil_sublist _

/-- The result and the page fetches of `libesedb_page_tree_read` on a root page that
can be read: those of the function the page is handed to, after the fetch of the
root page. -/
theorem read_result_and_fetches (K : Definitions) (env : Collaborators) (fuel : Nat)
    (page_tree : PageTree) (father_data_page_number flags : Nat) (root : Page)
    (hread : env.page_read father_data_page_number = some root) :
    ((libesedb_page_tree_read K env fuel page_tree father_data_page_number flags).result
      = if has_flag root.flags K.LIBESEDB_PAGE_FLAG_IS_LEAF then
          (libesedb_page_tree_read_leaf_page_values K env flags root page_tree).result
        else if has_flag root.flags K.LIBESEDB_PAGE_FLAG_IS_ROOT then
          (libesedb_page_tree_read_father_data_page_values K env fuel flags root
            page_tree).result
        else .ok)
    ∧ (page_fetches
        (libesedb_page_tree_read K env fuel page_tree father_data_page_number flags).events
      = father_data_page_number ::
        (if has_flag root.flags K.LIBESEDB_PAGE_FLAG_IS_LEAF then []
        else if has_flag root.flags K.LIBESEDB_PAGE_FLAG_IS_ROOT then
          page_fetches (libesedb_page_tree_read_father_data_page_values K env fuel flags root
            page_tree).events
        else [])) := by
  unfold libesedb_page_tree_read
  simp only [hread]
  by_cases hleaf : has_flag root.flags K.LIBESEDB_PAGE_FLAG_IS_LEAF = true
  · rw [if_pos hleaf, if_pos hleaf, if_pos hleaf]
    have hnone := page_fetches_of_no_read _
      (read_leaf_page_values_no_read K env flags root page_tree)
    cases hresult : (libesedb_page_tree_read_leaf_page_values K env flags root
        page_tree).result <;>
      simp [Step.after, page_fetches_append, page_fetches_page_read, page_fetches_page_free,
        page_fetches_nil, hnone, hresult]
  · rw [if_neg hleaf, if_neg hleaf, if_neg hleaf]
    by_cases hroot : has_flag root.flags K.LIBESEDB_PAGE_FLAG_IS_ROOT = true
    · rw [if_pos hroot, if_pos hroot, if_pos hroot]
      cases hresult : (libesedb_page_tree_read_father_data_page_values K env fuel flags root
          page_tree).result <;>
        simp [Step.after, page_fetches_append, page_fetches_page_read,
          page_fetches_page_free, page_fetches_nil, hresult]
    · rw [if_neg hroot, if_neg hroot, if_neg hroot]
      exact ⟨rfl, rfl⟩

/-! ## The nesting of the calls is bounded by the levels of parent pages -/

/-- The nesting of the step for one child page is at most `m`, when `m` is at least
1 and bounds the nesting of the parent page function on the child page. -/
theorem read_child_page_nesting_le (K : Definitions) (env : Collaborators)
    (parent_nesting : Page → PageTree → Nat) (page : Page) (child_page_number : Nat)
    (page_tree : PageTree) (m : Nat) (hm : 1 ≤ m)
    (hparent : ∀ c, env.page_read child_page_number = some c →
      has_flag c.flags K.LIBESEDB_PAGE_FLAG_IS_LEAF = false →
      has_flag c.flags K.LIBESEDB_PAGE_FLAG_IS_PARENT = true →
      parent_nesting c page_tree ≤ m) :
    read_child_page_nesting K env parent_nesting page child_page_number page_tree ≤ m := by
  unfold read_child_page_nesting
  cases hread : env.page_read child_page_number with
  | none => exact Nat.zero_le _
  | some child =>
    simp only []
    by_cases hne : page.father_data_page_object_identifier
        ≠ child.father_data_page_object_identifier
    · rw [if_pos hne]
      exact Nat.zero_le _
    · rw [if_neg hne]
      by_cases hleaf : has_flag child.flags K.LIBESEDB_PAGE_FLAG_IS_LEAF = true
      · rw [if_pos hleaf]
        exact hm
      · rw [if_neg hleaf]
        by_cases hflag : has_flag child.flags K.LIBESEDB_PAGE_FLAG_IS_PARENT = true
        · rw [if_pos hflag]
          exact hparent child hread (by simpa using hleaf) hflag
        · rw [if_neg hflag]
          exact Nat.zero_le _

/-- The nesting of the loop over the child pages is at most `m`, when `m` is at
least 1 and bounds the nesting of the parent page function on the child pages that
are parent pages. -/
theorem read_child_pages_loop_nesting_le (K : Definitions) (env : Collaborators)
    (parent_walk : Page → PageTree → Step) (parent_nesting : Page → PageTree → Nat)
    (flags : Nat) (page : Page) (m : Nat) (hm : 1 ≤ m) (values : List PageValue)
    (hparent : ∀ c ∈ spec_child_pages_of_values env values,
      has_flag c.flags K.LIBESEDB_PAGE_FLAG_IS_LEAF = false →
      has_flag c.flags K.LIBESEDB_PAGE_FLAG_IS_PARENT = true →
      ∀ t, parent_nesting c t ≤ m)
    (i a b : Nat) (page_tree : PageTree) :
    read_child_pages_loop_nesting K env parent_walk parent_nesting flags page values i a b
      page_tree ≤ m := by
  induction values generalizing i a b page_tree with
  | nil => exact Nat.zero_le _
  | cons v rest ih =>
    have hrest : ∀ c ∈ spec_child_pages_of_values env rest,
        has_flag c.flags K.LIBESEDB_PAGE_FLAG_IS_LEAF = false →
        has_flag c.flags K.LIBESEDB_PAGE_FLAG_IS_PARENT = true →
        ∀ t, parent_nesting c t ≤ m :=
      fun c hc => hparent c (mem_spec_child_pages_of_values_cons env v rest c hc)
    rw [read_child_pages_loop_nesting]
    cases hkey : read_page_key v with
    | none => exact Nat.zero_le _
    | some key =>
      have hnumber := read_page_key_child_page_number v key hkey
      simp only []
      by_cases hskip : endian_little_convert_32bit key.page_value_data ≥ 0x117f02
      · rw [if_pos hskip]
        exact ih hrest _ _ _ _
      · rw [if_neg hskip]
        have hchild := read_child_page_nesting_le K env parent_nesting page
          (endian_little_convert_32bit key.page_value_data) page_tree m hm
          (fun c hread hleaf hflag => by
            rw [hnumber] at hread hskip
            exact hparent c (mem_spec_child_pages_of_values_head env v rest c
              (Nat.lt_of_not_ge hskip) hread) hleaf hflag page_tree)
        cases (read_child_page K env parent_walk flags page i a b
            (endian_little_convert_32bit key.page_value_data) page_tree).result with
        | ok => exact Nat.max_le.mpr ⟨hchild, ih hrest _ _ _ _⟩
        | error kind => exact hchild
        | out_of_fuel => exact hchild

/-- The nesting of the parent page function is at most 1 more than that of its call
of the function for the child pages. -/
theorem read_parent_page_values_nesting_le (K : Definitions) (env : Collaborators)
    (fuel flags : Nat) (page : Page) (page_tree : PageTree) (m : Nat)
    (hchildren : libesedb_page_tree_read_child_pages_nesting K env
        (libesedb_page_tree_read_parent_page_values K env fuel flags)
        (libesedb_page_tree_read_parent_page_values_nesting K env fuel flags) flags page
        page_tree ≤ m) :
    libesedb_page_tree_read_parent_page_values_nesting K env (fuel + 1) flags page page_tree
      ≤ 1 + m := by
  rw [libesedb_page_tree_read_parent_page_values_nesting]
  split_ifs
  · omega
  · omega
  · omega
  · omega
  · cases libesedb_page_get_value page 0 with
    | none =>
      simp only []
      omega
    | some header =>
      simp only []
      omega

/-- The nesting of the parent page function on a page with at most `height` levels
of parent pages below it is at most `2 * height + 3`, whatever the bound. -/
theorem read_parent_page_values_nesting_in_height (K : Definitions) (env : Collaborators)
    (flags : Nat) (height : Nat) :
    ∀ page, spec_height_le K env height page →
      ∀ fuel t, libesedb_page_tree_read_parent_page_values_nesting K env fuel flags page t
        ≤ 2 * height + 3 := by
  induction height with
  | zero =>
    intro page hheight fuel t
    cases fuel with
    | zero =>
      rw [libesedb_page_tree_read_parent_page_values_nesting]
      omega
    | succ fuel =>
      have hloop := read_child_pages_loop_nesting_le K env
        (libesedb_page_tree_read_parent_page_values K env fuel flags)
        (libesedb_page_tree_read_parent_page_values_nesting K env fuel flags) flags page 1
        (Nat.le_refl 1) (page.values.drop 1)
        (fun c hc hleaf hparent => absurd (hheight c hc hleaf hparent) id) 1 0 0 t
      have h := read_parent_page_values_nesting_le K env fuel flags page t 2
        (by unfold libesedb_page_tree_read_child_pages_nesting; omega)
      omega
  | succ height ih =>
    intro page hheight fuel t
    cases fuel with
    | zero =>
      rw [libesedb_page_tree_read_parent_page_values_nesting]
      omega
    | succ fuel =>
      have hloop := read_child_pages_loop_nesting_le K env
        (libesedb_page_tree_read_parent_page_values K env fuel flags)
        (libesedb_page_tree_read_parent_page_values_nesting K env fuel flags) flags page
        (2 * height + 3) (by omega) (page.values.drop 1)
        (fun c hc hleaf hparent u => ih c (hheight c hc hleaf hparent) fuel u) 1 0 0 t
      have h := read_parent_page_values_nesting_le K env fuel flags page t (2 * height + 4)
        (by unfold libesedb_page_tree_read_child_pages_nesting; omega)
      omega

/-- The nesting of the function for the child pages of a page with at most `height`
levels of parent pages below it is at most `2 * height + 2`, whatever the bound. -/
theorem read_child_pages_nesting_in_height (K : Definitions) (env : Collaborators)
    (flags : Nat) (height : Nat) (page : Page) (hheight : spec_height_le K env height page)
    (fuel : Nat) (t : PageTree) :
    libesedb_page_tree_read_child_pages_nesting K env
        (libesedb_page_tree_read_parent_page_values K env fuel flags)
        (libesedb_page_tree_read_parent_page_values_nesting K env fuel flags) flags page t
      ≤ 2 * height + 2 := by
  unfold libesedb_page_tree_read_child_pages_nesting
  cases height with
  | zero =>
    have hloop := read_child_pages_loop_nesting_le K env
      (libesedb_page_tree_read_parent_page_values K env fuel flags)
      (libesedb_page_tree_read_parent_page_values_nesting K env fuel flags) flags page 1
      (Nat.le_refl 1) (page.values.drop 1)
      (fun c hc hleaf hparent => absurd (hheight c hc hleaf hparent) id) 1 0 0 t
    omega
  | succ height =>
    have hloop := read_child_pages_loop_nesting_le K env
      (libesedb_page_tree_read_parent_page_values K env fuel flags)
      (libesedb_page_tree_read_parent_page_values_nesting K env fuel flags) flags page
      (2 * height + 3) (by omega) (page.values.drop 1)
      (fun c hc hleaf hparent u =>
        read_parent_page_values_nesting_in_height K env flags height c
          (hheight c hc hleaf hparent) fuel u) 1 0 0 t
    omega

/-- The nesting of the father data page function is at most that of its call of the
function for the child pages. -/
theorem read_father_data_page_values_nesting_le (K : Definitions) (env : Collaborators)
    (fuel flags : Nat) (page : Page) (page_tree : PageTree) :
    libesedb_page_tree_read_father_data_page_values_nesting K env fuel flags page page_tree
      ≤ libesedb_page_tree_read_child_pages_nesting K env
        (libesedb_page_tree_read_parent_page_values K env fuel flags)
        (libesedb_page_tree_read_parent_page_values_nesting K env fuel flags) flags page
        page_tree := by
  unfold libesedb_page_tree_read_father_data_page_values_nesting
  split_ifs
  · exact Nat.zero_le _
  · exact Nat.zero_le _
  · exact Nat.zero_le _
  · exact Nat.zero_le _
  · cases libesedb_page_get_value page 0 with
    | none => exact Nat.zero_le _
    | some header =>
      simp only []
      split_ifs
      · exact Nat.zero_le _
      · cases (read_space_tree_page K env page (header_space_tree_page_number header)
            page_tree).result with
        | ok =>
          simp only []
          cases (read_space_tree_page K env page
              ((header_space_tree_page_number header + 1) % 4294967296) page_tree).result with
          | ok => exact Nat.le_refl _
          | error kind => exact Nat.zero_le _
          | out_of_fuel => exact Nat.zero_le _
        | error kind => exact Nat.zero_le _
        | out_of_fuel => exact Nat.zero_le _
      · exact Nat.le_refl _

/-- The nesting of `libesedb_page_tree_read` on a root page with at most `height`
levels of parent pages below it is at most `2 * height + 2`, whatever the bound. -/
theorem read_nesting_in_height (K : Definitions) (env : Collaborators) (height : Nat)
    (page_tree : PageTree) (father_data_page_number flags : Nat) (root : Page)
    (hread : env.page_read father_data_page_number = some root)
    (hheight : spec_height_le K env height root) (fuel : Nat) :
    libesedb_page_tree_read_nesting K env fuel page_tree father_data_page_number flags
      ≤ 2 * height + 2 := by
  unfold libesedb_page_tree_read_nesting
  simp only [hread]
  split_ifs
  · omega
  · exact Nat.le_trans
      (read_father_data_page_values_nesting_le K env fuel flags root page_tree)
      (read_child_pages_nesting_in_height K env flags height root hheight fuel page_tree)
  · exact Nat.zero_le _

/-- C30, as the source has it: when the pages below the root page form a tree with
at most `height` levels of parent pages, `libesedb_page_tree_read` returns, `height`
nested calls of the parent page function are enough (every larger bound gives the
same step), the calls of the function for the child pages, the parent page function
and the leaf page function are nested at most `2 * height + 2` deep (the function
for the child pages on the root page, the parent page function and the function for
the child pages for each level of parent pages, and the leaf page function), and
the pages that the function for the child pages reads are among the page numbers
reachable through child entries, in depth-first order: when no page number is
reachable twice, no page is read twice by that function, and when in addition the
root page number and the space tree page numbers of the root are not among them, no
page is read twice by `libesedb_page_tree_read`. -/
theorem C30_traversal_of_a_tree_is_bounded (K : Definitions) (env : Collaborators)
    (height : Nat) (page_tree : PageTree) (father_data_page_number flags : Nat) (root : Page)
    (hread : env.page_read father_data_page_number = some root)
    (hheight : spec_height_le K env height root) :
    (∀ fuel, height ≤ fuel →
      libesedb_page_tree_read K env fuel page_tree father_data_page_number flags
        = libesedb_page_tree_read K env height page_tree father_data_page_number flags)
    ∧ (libesedb_page_tree_read K env height page_tree father_data_page_number flags).result
      ≠ .out_of_fuel
    ∧ (∀ fuel, height ≤ fuel →
      libesedb_page_tree_read_nesting K env fuel page_tree father_data_page_number flags
        ≤ 2 * height + 2)
    ∧ ((spec_reachable_below K env (height + 1) root).Nodup →
      (page_fetches (libesedb_page_tree_read_child_pages K env
        (libesedb_page_tree_read_parent_page_values K env height flags) flags root
        page_tree).events).Nodup)
    ∧ ((father_data_page_number ::
          (spec_space_tree_page_numbers root
            ++ spec_reachable_below K env (height + 1) root)).Nodup →
      (page_fetches (libesedb_page_tree_read K env height page_tree father_data_page_number
        flags).events).Nodup) := by
  refine ⟨?_, ?_, ?_, ?_, ?_⟩
  · intro fuel hfuel
    obtain ⟨more, rfl⟩ := Nat.exists_eq_add_of_le hfuel
    have hwalk := read_father_data_page_values_congr_fuel K env (height + more) height flags
      root page_tree (read_child_pages_in_height K env flags height root hheight more
        page_tree).1
    unfold libesedb_page_tree_read
    simp only [hread, hwalk]
  · rw [(read_result_and_fetches K env height page_tree father_data_page_number flags root
      hread).1]
    split_ifs
    · exact read_leaf_page_values_returns K env flags root page_tree
    · exact read_father_data_page_values_returns K env height flags root page_tree
        (read_child_pages_in_height K env flags height root hheight 0 page_tree).2
    · intro h
      cases h
  · intro fuel _
    exact read_nesting_in_height K env height page_tree father_data_page_number flags root
      hread hheight fuel
  · intro hnodup
    refine List.Nodup.sublist ?_ hnodup
    rw [spec_reachable_below]
    exact read_child_pages_loop_reachable K env _ flags root
      (spec_reachable_below K env height)
      (read_parent_page_values_reachable K env flags height) _ _ _ _ page_tree
  · intro hnodup
    refine List.Nodup.sublist ?_ hnodup
    rw [(read_result_and_fetches K env height page_tree father_data_page_number flags root
      hread).2]
    refine List.Sublist.cons₂ _ ?_
    split_ifs
    · exact List.nil_sublist _
    · exact read_father_data_page_values_reachable K env height flags root page_tree
    · exact List.nil_sublist _

/-- C30 on the small tree (scenario S5), which has one level of parent pages below
the root: the bound 1 is enough, the calls are nested at most 4 deep, and no page is
read twice. -/
theorem C30_traversal_of_a_tree_is_bounded_witness :
    (libesedb_page_tree_read esedb_definitions (example_collaborators example_tree_pages) 1
        example_bound_page_tree 1 0).result ≠ .out_of_fuel
    ∧ libesedb_page_tree_read_nesting esedb_definitions
        (example_collaborators example_tree_pages) 1 example_bound_page_tree 1 0 ≤ 2 * 1 + 2
    ∧ (page_fetches (libesedb_page_tree_read esedb_definitions
        (example_collaborators example_tree_pages) 1 example_bound_page_tree 1 0).events).Nodup :=
  ⟨(C30_traversal_of_a_tree_is_bounded esedb_definitions
      (example_collaborators example_tree_pages) 1 example_bound_page_tree 1 0
      (example_page 1 0x0005
        [example_header 1 0x40, example_child_value 2, example_child_value 3])
      rfl (by decide)).2.1,
    (C30_traversal_of_a_tree_is_bounded esedb_definitions
      (example_collaborators example_tree_pages) 1 example_bound_page_tree 1 0
      (example_page 1 0x0005
        [example_header 1 0x40, example_child_value 2, example_child_value 3])
      rfl (by decide)).2.2.1 1 (Nat.le_refl 1),
    (C30_traversal_of_a_tree_is_bounded esedb_definitions
      (example_collaborators example_tree_pages) 1 example_bound_page_tree 1 0
      (example_page 1 0x0005
        [example_header 1 0x40, example_child_value 2, example_child_value 3])
      rfl (by decide)).2.2.2.2 (by decide)⟩

/-- The small tree, evaluated: the page numbers reachable below the root, and the
pages read, in order. -/
theorem reachable_pages_evaluated :
    spec_reachable_below esedb_definitions (example_collaborators example_tree_pages) 2
        (example_page 1 0x0005
          [example_header 1 0x40, example_child_value 2, example_child_value 3])
      = [2, 3, 4]
    ∧ page_fetches (libesedb_page_tree_read esedb_definitions
        (example_collaborators example_tree_pages) 1 example_bound_page_tree 1 0).events
      = [1, 0x40, 0x41, 2, 3, 4] := by
  decide

/-- C30 read literally fails in two of its parts.  The small tree (scenario S5) has
the three levels root page 1, parent page 3 and leaf page 4, so its height is 2
counted in steps down and 3 counted in pages; `libesedb_page_tree_read` succeeds on
it and nests 4 calls: the function for the child pages on page 1, the parent page
function on page 3, the function for the child pages on page 3 and the leaf page
function on page 4.  And the pages reachable from the second root page through child
entries are the root page and page 0x40, a tree without parent pages below the
root, and `libesedb_page_tree_read` reads page 0x40 twice, as the first space tree
page of the root and as its child page. -/
theorem C30_counterexample :
    (spec_height_le esedb_definitions (example_collaborators example_tree_pages) 1
        (example_page 1 0x0005
          [example_header 1 0x40, example_child_value 2, example_child_value 3])
      ∧ spec_tree_levels esedb_definitions (example_collaborators example_tree_pages) 2
          (example_page 1 0x0005
            [example_header 1 0x40, example_child_value 2, example_child_value 3]) = 3
      ∧ spec_tree_levels esedb_definitions (example_collaborators example_tree_pages) 9
          (example_page 1 0x0005
            [example_header 1 0x40, example_child_value 2, example_child_value 3]) = 3
      ∧ (libesedb_page_tree_read esedb_definitions (example_collaborators example_tree_pages)
          1 example_bound_page_tree 1 0).result = .ok
      ∧ libesedb_page_tree_read_nesting esedb_definitions
          (example_collaborators example_tree_pages) 1 example_bound_page_tree 1 0 = 4)
    ∧ spec_height_le esedb_definitions (example_collaborators example_shared_space_tree_pages) 0
      (example_page 1 0x0005 [example_header 1 0x40, example_child_value 0x40])
    ∧ (1 :: spec_reachable_below esedb_definitions
        (example_collaborators example_shared_space_tree_pages) 1
        (example_page 1 0x0005 [example_header 1 0x40, example_child_value 0x40])).Nodup
    ∧ (libesedb_page_tree_read esedb_definitions
        (example_collaborators example_shared_space_tree_pages) 0 empty_page_tree 1
        0).result = .ok
    ∧ page_fetches (libesedb_page_tree_read esedb_definitions
        (example_collaborators example_shared_space_tree_pages) 0 empty_page_tree 1 0).events
      = [1, 0x40, 0x41, 0x40] := by
  decide


/-! ## Index and long value leaf pages -/

/-- The loop of the leaf page function on an index or long value page: it tests the
key size of each value and does nothing else. -/
theorem read_leaf_page_values_loop_skipped (K : Definitions) (env : Collaborators)
    (flags : Nat) (page : Page)
    (hskip : has_flag page.flags K.LIBESEDB_PAGE_FLAG_IS_INDEX = true
      ∨ has_flag page.flags K.LIBESEDB_PAGE_FLAG_IS_LONG_VALUE = true)
    (values : List PageValue) (td : Option Nat) (page_tree : PageTree) :
    read_leaf_page_values_loop K env flags page values td page_tree
      = { result := if values.all (fun v => (read_page_key v).isSome) then .ok
            else .error .runtime_value_out_of_range
          page_tree := page_tree, events := [] } := by
  induction values with
  | nil => rfl
  | cons v rest ih =>
    rw [read_leaf_page_values_loop_cons]
    unfold read_leaf_page_value
    cases hkey : read_page_key v with
    | none => simp [hkey]
    | some key =>
      simp only []
      by_cases hindex : has_flag page.flags K.LIBESEDB_PAGE_FLAG_IS_INDEX = true
      · rw [if_pos hindex]
        simp [ih, hkey]
      · rw [if_neg hindex]
        have hlong : has_flag page.flags K.LIBESEDB_PAGE_FLAG_IS_LONG_VALUE = true :=
          hskip.resolve_left hindex
        rw [if_pos hlong]
        simp [ih, hkey]

/-- The key size test of the functions on a page value that holds its key fields:
the key is accepted exactly when the key bytes lie inside the value. -/
theorem read_page_key_isSome (v : PageValue) (hholds : value_holds_key_fields v) :
    (read_page_key v).isSome = true ↔ spec_payload_offset v ≤ v.size := by
  constructor
  · intro hsome
    by_contra hlong
    have hnone := read_page_key_overlong v hholds (by
      have := hholds.2
      unfold spec_payload_offset at hlong
      omega)
    rw [hnone] at hsome
    cases hsome
  · intro hfits
    obtain ⟨key, hkey⟩ := read_page_key_accepts v hholds.1 hfits
    rw [hkey]
    rfl

/-- C32: on a leaf page with the index flag or the long value flag that has its
first value, for every `flags` argument and every page tree (with or without a
bound table definition), the leaf page function calls no decoder and leaves the
page tree, whether it succeeds or fails; it succeeds exactly when the page has the
leaf flag, carries no unsupported flag, and the key of every value behind the first
is accepted, which for a value that holds its key fields means that the key bytes
lie inside the value. -/
theorem C32_index_and_long_value_pages (K : Definitions) (env : Collaborators)
    (flags : Nat) (page : Page) (page_tree : PageTree) (header : PageValue)
    (hskip : has_flag page.flags K.LIBESEDB_PAGE_FLAG_IS_INDEX = true
      ∨ has_flag page.flags K.LIBESEDB_PAGE_FLAG_IS_LONG_VALUE = true)
    (hheader : libesedb_page_get_value page 0 = some header) :
    (libesedb_page_tree_read_leaf_page_values K env flags page page_tree).events = []
    ∧ (libesedb_page_tree_read_leaf_page_values K env flags page page_tree).page_tree
      = page_tree
    ∧ ((libesedb_page_tree_read_leaf_page_values K env flags page page_tree).result = .ok
      ↔ has_flag page.flags K.LIBESEDB_PAGE_FLAG_IS_LEAF = true
        ∧ has_unsupported_flags page.flags (leaf_supported_flags K) = false
        ∧ ∀ v ∈ page.values.drop 1, (read_page_key v).isSome = true)
    ∧ (∀ v, value_holds_key_fields v →
      ((read_page_key v).isSome = true ↔ spec_payload_offset v ≤ v.size)) := by
  refine ⟨?_, ?_, ?_, read_page_key_isSome⟩
  · unfold libesedb_page_tree_read_leaf_page_values
    split_ifs
    · rfl
    · rfl
    · simp only [hheader, read_leaf_page_values_loop_skipped K env flags page hskip]
  · unfold libesedb_page_tree_read_leaf_page_values
    split_ifs
    · rfl
    · rfl
    · simp only [hheader, read_leaf_page_values_loop_skipped K env flags page hskip]
  · unfold libesedb_page_tree_read_leaf_page_values
    by_cases hleaf : has_flag page.flags K.LIBESEDB_PAGE_FLAG_IS_LEAF = true
    · rw [if_neg (by simp [hleaf])]
      by_cases hsupported : has_unsupported_flags page.flags (leaf_supported_flags K) = false
      · rw [if_neg (by simp [hsupported])]
        simp only [hheader, read_leaf_page_values_loop_skipped K env flags page hskip]
        by_cases hall : (page.values.drop 1).all (fun v => (read_page_key v).isSome) = true
        · rw [if_pos hall]
          refine ⟨fun _ => ⟨hleaf, hsupported, ?_⟩, fun _ => rfl⟩
          exact fun v hv => List.all_eq_true.mp hall v hv
        · rw [if_neg hall]
          refine ⟨fun h => (by cases h), fun h => ?_⟩
          exact absurd (List.all_eq_true.mpr h.2.2) hall
      · rw [if_pos (by simpa using hsupported)]
        exact ⟨fun h => (by cases h), fun h => absurd h.2.1 hsupported⟩
    · rw [if_pos (by simpa using hleaf)]
      exact ⟨fun h => (by cases h), fun h => absurd h.1 hleaf⟩

/-- C32 on an index leaf page with two values behind the header, in catalog mode. -/
theorem C32_index_and_long_value_pages_witness :
    (libesedb_page_tree_read_leaf_page_values esedb_definitions (example_collaborators []) 1
        (example_page 1 0x0042
          [example_page_value [], example_page_value [1, 2, 2], example_page_value [9]])
        empty_page_tree).events = []
    ∧ (libesedb_page_tree_read_leaf_page_values esedb_definitions (example_collaborators []) 1
        (example_page 1 0x0042
          [example_page_value [], example_page_value [1, 2, 2], example_page_value [9]])
        empty_page_tree).page_tree = empty_page_tree :=
  ⟨(C32_index_and_long_value_pages esedb_definitions (example_collaborators []) 1
      (example_page 1 0x0042
        [example_page_value [], example_page_value [1, 2, 2], example_page_value [9]])
      empty_page_tree (example_page_value []) (Or.inl (by decide)) rfl).1,
    (C32_index_and_long_value_pages esedb_definitions (example_collaborators []) 1
      (example_page 1 0x0042
        [example_page_value [], example_page_value [1, 2, 2], example_page_value [9]])
      empty_page_tree (example_page_value []) (Or.inl (by decide)) rfl).2.1⟩

/-! ## What the decoders are given -/

/-- The loop of the leaf page function on a primary data page, at a value that holds
its key fields and whose key is accepted: the first event is the call of the
decoder of the mode (in row mode, when a table definition is bound) with the data
behind the key and the size of the value less the key fields and the key. -/
theorem read_leaf_page_values_loop_decoder_arguments (K : Definitions) (env : Collaborators)
    (flags : Nat) (page : Page) (v : PageValue) (rest : List PageValue) (td : Option Nat)
    (page_tree : PageTree) (key : PageKey) (hkey : read_page_key v = some key)
    (hholds : value_holds_key_fields v)
    (hindex : has_flag page.flags K.LIBESEDB_PAGE_FLAG_IS_INDEX = false)
    (hlong : has_flag page.flags K.LIBESEDB_PAGE_FLAG_IS_LONG_VALUE = false) :
    (has_flag flags K.LIBESEDB_PAGE_TREE_FLAG_READ_CATALOG_DEFINITION = true →
      ∃ tail, (read_leaf_page_values_loop K env flags page (v :: rest) td page_tree).events
        = Event.catalog_definition_read (v.data.drop (spec_payload_offset v))
            (v.size - spec_payload_offset v) :: tail)
    ∧ (has_flag flags K.LIBESEDB_PAGE_TREE_FLAG_READ_CATALOG_DEFINITION = false →
      ∀ bound, page_tree.table_definition = some bound →
      ∃ tail, (read_leaf_page_values_loop K env flags page (v :: rest) td page_tree).events
        = Event.data_definition_read bound.column_catalog_definition_list
            (v.data.drop (spec_payload_offset v)) (v.size - spec_payload_offset v) :: tail) := by
  have hdata := (read_page_key_data v key hkey).2
  have hsize := read_page_key_size v key hkey hholds
  constructor
  · intro hmode
    rw [read_leaf_page_values_loop_cons]
    unfold read_leaf_page_value
    simp only [hkey]
    rw [if_neg (by simp [hindex]), if_neg (by simp [hlong]), if_pos hmode, hdata, hsize]
    cases env.catalog_definition_read (v.data.drop (spec_payload_offset v))
        (v.size - spec_payload_offset v) with
    | none => exact ⟨_, rfl⟩
    | some r =>
      simp only []
      cases read_catalog_definition K r td page_tree with
      | error kind => exact ⟨_, rfl⟩
      | ok out => exact ⟨_, rfl⟩
  · intro hmode bound hbound
    rw [read_leaf_page_values_loop_cons]
    unfold read_leaf_page_value
    simp only [hkey, hbound]
    rw [if_neg (by simp [hindex]), if_neg (by simp [hlong]), if_neg (by simp [hmode]), hdata,
      hsize]
    cases env.data_definition_read bound.column_catalog_definition_list
        (v.data.drop (spec_payload_offset v)) (v.size - spec_payload_offset v) with
    | none => exact ⟨_, rfl⟩
    | some row => exact ⟨_, rfl⟩

/-- C34, what the source does on a value that is too short for its key fields: a
leaf page value of 1 byte without key type is accepted, because the 16-bit size
wraps to 65535 when 2 is subtracted, and on a primary data leaf page the decoder of
the mode (the catalog decoder in catalog mode, the data decoder in row mode) is
given the bytes behind the value with the size 65535, not the size of the value
less the 2 bytes of the key size field. -/
theorem C34_decoder_size_wraps :
    read_page_key example_one_byte_value
      = some { page_key_type := 0, page_key_size := 0, page_value_data := [1, 2, 2],
               page_value_size := 65535 }
    ∧ (libesedb_page_tree_read_leaf_page_values esedb_definitions (example_collaborators []) 1
        (example_page 1 0x0002 [example_page_value [], example_one_byte_value])
        empty_page_tree).events = [.catalog_definition_read [1, 2, 2] 65535]
    ∧ (libesedb_page_tree_read_leaf_page_values esedb_definitions (example_collaborators []) 1
        (example_page 1 0x0002 [example_page_value [], example_one_byte_value])
        empty_page_tree).result = .ok
    ∧ (libesedb_page_tree_read_leaf_page_values esedb_definitions (example_collaborators []) 0
        (example_page 1 0x0002 [example_page_value [], example_one_byte_value])
        example_bound_page_tree).events = [.data_definition_read [] [1, 2, 2] 65535]
    ∧ (libesedb_page_tree_read_leaf_page_values esedb_definitions (example_collaborators []) 0
        (example_page 1 0x0002 [example_page_value [], example_one_byte_value])
        example_bound_page_tree).result = .ok := by
  decide

/-! ## A root page that is a leaf page -/

/-- C35: on a root page with the leaf flag, with or without the root flag,
`libesedb_page_tree_read` has the result and the page tree of the leaf page function
on that page; the root page is the only page read (no space tree page, no child
page, whatever the first value of the page holds), and the events are the reading
of the root page, the events of the leaf page function and, after a success, the
freeing of the root page. -/
theorem C35_leaf_root_page_is_read_as_leaf_page (K : Definitions) (env : Collaborators)
    (fuel : Nat) (page_tree : PageTree) (father_data_page_number flags : Nat) (root : Page)
    (hread : env.page_read father_data_page_number = some root)
    (hleaf : has_flag root.flags K.LIBESEDB_PAGE_FLAG_IS_LEAF = true) :
    (libesedb_page_tree_read K env fuel page_tree father_data_page_number flags).result
      = (libesedb_page_tree_read_leaf_page_values K env flags root page_tree).result
    ∧ (libesedb_page_tree_read K env fuel page_tree father_data_page_number flags).page_tree
      = (libesedb_page_tree_read_leaf_page_values K env flags root page_tree).page_tree
    ∧ page_fetches
        (libesedb_page_tree_read K env fuel page_tree father_data_page_number flags).events
      = [father_data_page_number]
    ∧ (libesedb_page_tree_read K env fuel page_tree father_data_page_number flags).events
      = Event.page_read father_data_page_number
        :: ((libesedb_page_tree_read_leaf_page_values K env flags root page_tree).events
          ++ (if (libesedb_page_tree_read_leaf_page_values K env flags root
                page_tree).result = .ok
              then [Event.page_free father_data_page_number] else [])) := by
  have hfetches := (read_result_and_fetches K env fuel page_tree father_data_page_number flags
    root hread).2
  rw [if_pos hleaf] at hfetches
  refine ⟨?_, ?_, hfetches, ?_⟩
  · rw [(read_result_and_fetches K env fuel page_tree father_data_page_number flags root
      hread).1, if_pos hleaf]
  · unfold libesedb_page_tree_read
    simp only [hread]
    rw [if_pos hleaf]
    cases hresult : (libesedb_page_tree_read_leaf_page_values K env flags root
      page_tree).result <;> rfl
  · unfold libesedb_page_tree_read
    simp only [hread]
    rw [if_pos hleaf]
    cases hresult : (libesedb_page_tree_read_leaf_page_values K env flags root
      page_tree).result <;> simp [Step.after]

/-- C35 on a root page with the flags root and leaf whose first value is a header
with extent space 1 and space tree page number 0x40, in catalog mode. -/
theorem C35_leaf_root_page_is_read_as_leaf_page_witness :
    (libesedb_page_tree_read esedb_definitions
        (example_collaborators
          [(1, example_page 1 0x0003 (example_header 1 0x40 :: example_catalog_values))])
        1 empty_page_tree 1 1).result
      = (libesedb_page_tree_read_leaf_page_values esedb_definitions
        (example_collaborators
          [(1, example_page 1 0x0003 (example_header 1 0x40 :: example_catalog_values))])
        1 (example_page 1 0x0003 (example_header 1 0x40 :: example_catalog_values))
        empty_page_tree).result
    ∧ page_fetches (libesedb_page_tree_read esedb_definitions
        (example_collaborators
          [(1, example_page 1 0x0003 (example_header 1 0x40 :: example_catalog_values))])
        1 empty_page_tree 1 1).events = [1] :=
  ⟨(C35_leaf_root_page_is_read_as_leaf_page esedb_definitions
      (example_collaborators
        [(1, example_page 1 0x0003 (example_header 1 0x40 :: example_catalog_values))])
      1 empty_page_tree 1 1
      (example_page 1 0x0003 (example_header 1 0x40 :: example_catalog_values))
      rfl (by decide)).1,
    (C35_leaf_root_page_is_read_as_leaf_page esedb_definitions
      (example_collaborators
        [(1, example_page 1 0x0003 (example_header 1 0x40 :: example_catalog_values))])
      1 empty_page_tree 1 1
      (example_page 1 0x0003 (example_header 1 0x40 :: example_catalog_values))
      rfl (by decide)).2.2.1⟩

/-! ## A space tree page that is no leaf page -/

/-- The loop of the space tree page function on a page without the leaf flag
succeeds. -/
theorem read_space_tree_page_values_loop_not_leaf (K : Definitions) (page : Page)
    (hleaf : has_flag page.flags K.LIBESEDB_PAGE_FLAG_IS_LEAF = false)
    (values : List PageValue) :
    read_space_tree_page_values_loop K page values = .ok := by
  induction values with
  | nil => rfl
  | cons v rest ih =>
    rw [read_space_tree_page_values_loop, if_neg (by simp [hleaf])]
    exact ih

/-- C37: the space tree page function reads no page and has no access to the page
tree: the reading of a space tree page by the father data page function leaves the
page tree and has no events but the reading and the freeing of that page.  On a page
without the leaf flag (a parent page, say) that passes the flag and sibling checks
and has a first value, the space tree page function succeeds whatever its values
hold. -/
theorem C37_space_tree_parent_page (K : Definitions) (page : Page) (header : PageValue)
    (hrequired : has_flag page.flags
      (K.LIBESEDB_PAGE_FLAG_IS_ROOT ||| K.LIBESEDB_PAGE_FLAG_IS_SPACE_TREE) = true)
    (hsupported : has_unsupported_flags page.flags (space_tree_supported_flags K) = false)
    (hprevious : page.previous_page_number = 0)
    (hnext : page.next_page_number = 0)
    (hleaf : has_flag page.flags K.LIBESEDB_PAGE_FLAG_IS_LEAF = false)
    (hheader : libesedb_page_get_value page 0 = some header) :
    libesedb_page_tree_read_space_tree_page_values K page = .ok
    ∧ (∀ (env : Collaborators) (above : Page) (n : Nat) (page_tree : PageTree),
      (read_space_tree_page K env above n page_tree).page_tree = page_tree
      ∧ (read_space_tree_page K env above n page_tree).events
        = [.page_read n, .page_free n]) := by
  constructor
  · rw [read_space_tree_page_values_checked K page header hrequired hsupported hprevious hnext
      hheader (by rw [if_neg (by simp [hleaf])])]
    exact read_space_tree_page_values_loop_not_leaf K page hleaf _
  · intro env above n page_tree
    exact ⟨read_space_tree_page_page_tree K env above n page_tree,
      read_space_tree_page_events K env above n page_tree⟩

/-- C37 on a space tree page with the flags root, space tree and parent whose first
value has 5 bytes and whose second value is not laid out as an entry. -/
theorem C37_space_tree_parent_page_witness :
    libesedb_page_tree_read_space_tree_page_values esedb_definitions
        (example_page 0x40 0x0025
          [{ data := [1, 2, 3, 4, 5], size := 5, flags := 0 },
           { data := [9, 9], size := 2, flags := 0x05 }]) = .ok :=
  (C37_space_tree_parent_page esedb_definitions
    (example_page 0x40 0x0025
      [{ data := [1, 2, 3, 4, 5], size := 5, flags := 0 },
       { data := [9, 9], size := 2, flags := 0x05 }])
    { data := [1, 2, 3, 4, 5], size := 5, flags := 0 }
    (by decide) (by decide) rfl rfl (by decide) rfl).1

/-! ## A parent page value without room for the child page number -/

/-- C39, what the source does on a value that is too short: a parent page value of
2 bytes (an empty key, no room for a child page number) is not rejected.  The key
size test passes, the four bytes of the child page number are read behind the end
of the value, and the page they name (7) is read. -/
theorem C39_child_page_number_read_behind_the_value :
    spec_payload_offset example_value_without_child_page_number + 4
      > example_value_without_child_page_number.size
    ∧ read_page_key example_value_without_child_page_number
      = some { page_key_type := 0, page_key_size := 0, page_value_data := [7, 0, 0, 0],
               page_value_size := 0 }
    ∧ libesedb_page_tree_read_child_pages esedb_definitions
        (example_collaborators [(7, example_page 7 0x0002 [example_page_value []])])
        (libesedb_page_tree_read_parent_page_values esedb_definitions
          (example_collaborators [(7, example_page 7 0x0002 [example_page_value []])]) 0 0)
        0 (example_page 1 0x0004
          [example_page_value [], example_value_without_child_page_number])
        empty_page_tree
      = { result := .ok, page_tree := empty_page_tree,
          events := [.page_read 7, .page_free 7] } := by
  decide


/-! ## Every page read is freed -/

theorem open_pages_append (a b : List Event) (stack : List Nat) :
    open_pages (a ++ b) stack = (open_pages a stack).bind (open_pages b) := by
  induction a generalizing stack with
  | nil => rfl
  | cons e rest ih =>
    cases e with
    | page_read n => exact ih _
    | page_free n =>
      cases stack with
      | nil => rfl
      | cons last below =>
        simp only [List.cons_append, open_pages]
        split_ifs
        · exact ih _
        · rfl
    | catalog_definition_read data size => exact ih _
    | data_definition_read columns data size => exact ih _
    | mismatch_in_child_page_number expected actual => exact ih _
    | mismatch_in_previous_child_page_number expected actual => exact ih _

/-- Events among which no page is read or freed leave the open page handles. -/
theorem open_pages_of_no_page_event (events : List Event) (stack : List Nat)
    (h : ∀ e ∈ events, is_page_event e = false) : open_pages events stack = some stack := by
  induction events with
  | nil => rfl
  | cons e rest ih =>
    have hrest := ih (fun e' he' => h e' (List.mem_cons_of_mem _ he'))
    have he := h e (List.mem_cons_self _ _)
    cases e with
    | page_read n => cases he
    | page_free n => cases he
    | catalog_definition_read data size => exact hrest
    | data_definition_read columns data size => exact hrest
    | mismatch_in_child_page_number expected actual => exact hrest
    | mismatch_in_previous_child_page_number expected actual => exact hrest

/-- The open page handles count the pages read less the pages freed. -/
theorem outstanding_pages_of_open_pages (events : List Event) (stack after : List Nat)
    (h : open_pages events stack = some after) :
    outstanding_pages events = (after.length : Int) - stack.length := by
  induction events generalizing stack with
  | nil =>
    simp only [open_pages, Option.some.injEq] at h
    subst h
    simp [outstanding_pages]
  | cons e rest ih =>
    cases e with
    | page_read n =>
      have hrest := ih (n :: stack) h
      simp only [outstanding_pages, List.filter_cons, List.length_cons] at hrest ⊢
      simp only [if_true, List.length_cons, Bool.false_eq_true, if_false]
      push_cast at hrest ⊢
      omega
    | page_free n =>
      cases stack with
      | nil => cases h
      | cons last below =>
        simp only [open_pages] at h
        split_ifs at h
        have hrest := ih below h
        simp only [outstanding_pages, List.filter_cons, List.length_cons] at hrest ⊢
        simp only [if_true, List.length_cons, Bool.false_eq_true, if_false]
        push_cast at hrest ⊢
        omega
    | catalog_definition_read data size =>
      have hrest := ih stack h
      simpa [outstanding_pages, List.filter_cons] using hrest
    | data_definition_read columns data size =>
      have hrest := ih stack h
      simpa [outstanding_pages, List.filter_cons] using hrest
    | mismatch_in_child_page_number expected actual =>
      have hrest := ih stack h
      simpa [outstanding_pages, List.filter_cons] using hrest
    | mismatch_in_previous_child_page_number expected actual =>
      have hrest := ih stack h
      simpa [outstanding_pages, List.filter_cons] using hrest

/-- The loop of the leaf page function reads and frees no page. -/
theorem read_leaf_page_values_loop_no_page_event (K : Definitions) (env : Collaborators)
    (flags : Nat) (page : Page) (values : List PageValue) (td : Option Nat)
    (page_tree : PageTree) :
    ∀ e ∈ (read_leaf_page_values_loop K env flags page values td page_tree).events,
      is_page_event e = false := by
  induction values generalizing td page_tree with
  | nil =>
    intro e he
    simp [read_leaf_page_values_loop] at he
  | cons v rest ih =>
    unfold read_leaf_page_values_loop
    split
    · simp
    · split_ifs
      · exact ih td page_tree
      · exact ih td page_tree
      · split
        · simp [is_page_event]
        · split
          · simp [is_page_event]
          · intro e he
            simp only [Step.after_events, List.mem_append, List.mem_singleton] at he
            rcases he with he | he
            · rw [he]
              rfl
            · exact ih _ _ e he
      · split
        · simp
        · split
          · simp [is_page_event]
          · intro e he
            simp only [Step.after_events, List.mem_append, List.mem_singleton] at he
            rcases he with he | he
            · rw [he]
              rfl
            · exact ih _ _ e he

/-- The leaf page function reads and frees no page. -/
theorem read_leaf_page_values_no_page_event (K : Definitions) (env : Collaborators)
    (flags : Nat) (page : Page) (page_tree : PageTree) :
    ∀ e ∈ (libesedb_page_tree_read_leaf_page_values K env flags page page_tree).events,
      is_page_event e = false := by
  unfold libesedb_page_tree_read_leaf_page_values
  split_ifs
  · simp
  · simp
  · split
    · simp
    · exact read_leaf_page_values_loop_no_page_event K env flags page _ none page_tree

/-- The sibling-linkage messages read and free no page. -/
theorem child_page_messages_no_page_event (i a b : Nat) (child_page : Page) :
    ∀ e ∈ child_page_messages i a b child_page, is_page_event e = false := by
  unfold child_page_messages
  split_ifs <;> simp [is_page_event]

/-- The step for one child page frees the page it has read and leaves the open page
handles, when the function called for a parent page does. -/
theorem read_child_page_open_pages (K : Definitions) (env : Collaborators)
    (parent_walk : Page → PageTree → Step) (flags : Nat) (page : Page)
    (hwalk : ∀ c t stack, open_pages (parent_walk c t).events stack = some stack)
    (i a b child_page_number : Nat) (page_tree : PageTree) (stack : List Nat) :
    open_pages (read_child_page K env parent_walk flags page i a b child_page_number
      page_tree).events stack = some stack := by
  have hopen : open_pages [Event.page_read child_page_number] stack
      = some (child_page_number :: stack) := rfl
  have hclose : open_pages [Event.page_free child_page_number] (child_page_number :: stack)
      = some stack := by simp [open_pages]
  unfold read_child_page
  cases env.page_read child_page_number with
  | none => simp [open_pages]
  | some child =>
    simp only []
    by_cases hne : page.father_data_page_object_identifier
        ≠ child.father_data_page_object_identifier
    · rw [if_pos hne]
      simp [open_pages]
    · rw [if_neg hne]
      by_cases hleaf : has_flag child.flags K.LIBESEDB_PAGE_FLAG_IS_LEAF = true
      · rw [if_pos hleaf]
        simp only []
        rw [open_pages_append, open_pages_append, open_pages_append, hopen, Option.some_bind,
          open_pages_of_no_page_event _ _ (child_page_messages_no_page_event i a b child),
          Option.some_bind,
          open_pages_of_no_page_event _ _
            (read_leaf_page_values_no_page_event K env flags child page_tree),
          Option.some_bind, hclose]
      · rw [if_neg hleaf]
        by_cases hparent : has_flag child.flags K.LIBESEDB_PAGE_FLAG_IS_PARENT = true
        · rw [if_pos hparent]
          simp only []
          rw [open_pages_append, open_pages_append, hopen, Option.some_bind, hwalk,
            Option.some_bind, hclose]
        · rw [if_neg hparent]
          simp [open_pages]

/-- The loop over the child pages leaves the open page handles, when the function
called for a parent page does. -/
theorem read_child_pages_loop_open_pages (K : Definitions) (env : Collaborators)
    (parent_walk : Page → PageTree → Step) (flags : Nat) (page : Page)
    (hwalk : ∀ c t stack, open_pages (parent_walk c t).events stack = some stack)
    (values : List PageValue) (i a b : Nat) (page_tree : PageTree) (stack : List Nat) :
    open_pages (read_child_pages_loop K env parent_walk flags page values i a b
      page_tree).events stack = some stack := by
  induction values generalizing i a b page_tree with
  | nil => rfl
  | cons v rest ih =>
    cases hkey : read_page_key v with
    | none =>
      rw [read_child_pages_loop_out_of_range K env parent_walk flags page v rest i a b
        page_tree hkey]
      rfl
    | some key =>
      by_cases hskip : endian_little_convert_32bit key.page_value_data ≥ 0x117f02
      · rw [read_child_pages_loop_ignored K env parent_walk flags page v rest i a b page_tree
          key hkey hskip]
        exact ih _ _ _ _
      · have hstep := read_child_page_open_pages K env parent_walk flags page hwalk i a b
          (endian_little_convert_32bit key.page_value_data) page_tree stack
        by_cases hchild : (read_child_page K env parent_walk flags page i a b
            (endian_little_convert_32bit key.page_value_data) page_tree).result = .ok
        · rw [read_child_pages_loop_ok K env parent_walk flags page v rest i a b page_tree
            key hkey hskip hchild, Step.after_events, open_pages_append, hstep,
            Option.some_bind]
          exact ih _ _ _ _
        · rw [read_child_pages_loop_stop K env parent_walk flags page v rest i a b page_tree
            key hkey hskip hchild]
          exact hstep

/-- The parent page function leaves the open page handles. -/
theorem read_parent_page_values_open_pages (K : Definitions) (env : Collaborators)
    (flags : Nat) (fuel : Nat) :
    ∀ (page : Page) (t : PageTree) (stack : List Nat),
      open_pages (libesedb_page_tree_read_parent_page_values K env fuel flags page t).events
        stack = some stack := by
  induction fuel with
  | zero =>
    intro page t stack
    rfl
  | succ fuel ih =>
    intro page t stack
    rw [libesedb_page_tree_read_parent_page_values.eq_2]
    split_ifs
    · rfl
    · rfl
    · rfl
    · rfl
    · cases libesedb_page_get_value page 0 with
      | none => rfl
      | some header =>
        exact read_child_pages_loop_open_pages K env _ flags page ih _ _ _ _ t stack

/-- The father data page function leaves the open page handles. -/
theorem read_father_data_page_values_open_pages (K : Definitions) (env : Collaborators)
    (fuel flags : Nat) (page : Page) (page_tree : PageTree) (stack : List Nat) :
    open_pages (libesedb_page_tree_read_father_data_page_values K env fuel flags page
      page_tree).events stack = some stack := by
  have hchildren : open_pages (libesedb_page_tree_read_child_pages K env
        (libesedb_page_tree_read_parent_page_values K env fuel flags) flags page
        page_tree).events stack = some stack :=
    read_child_pages_loop_open_pages K env _ flags page
      (read_parent_page_values_open_pages K env flags fuel) _ _ _ _ page_tree stack
  unfold libesedb_page_tree_read_father_data_page_values
  split_ifs
  · rfl
  · rfl
  · rfl
  · rfl
  · cases libesedb_page_get_value page 0 with
    | none => rfl
    | some header =>
      simp only []
      have hevents1 := read_space_tree_page_events K env page
        (header_space_tree_page_number header) page_tree
      have hevents2 := read_space_tree_page_events K env page
        ((header_space_tree_page_number header + 1) % 4294967296) page_tree
      split_ifs
      · rfl
      · cases howned : (read_space_tree_page K env page
            (header_space_tree_page_number header) page_tree).result with
        | ok =>
          simp only []
          cases havailable : (read_space_tree_page K env page
              ((header_space_tree_page_number header + 1) % 4294967296) page_tree).result with
          | ok =>
            simp only [Step.after_events, hevents1, hevents2, List.cons_append,
              List.nil_append, open_pages, if_true]
            exact hchildren
          | error kind =>
            simp only [Step.after_events, hevents1, hevents2, List.cons_append,
              List.nil_append, open_pages, if_true]
          | out_of_fuel =>
            simp only [Step.after_events, hevents1, hevents2, List.cons_append,
              List.nil_append, open_pages, if_true]
        | error kind => simp only [hevents1, open_pages, if_true]
        | out_of_fuel => simp only [hevents1, open_pages, if_true]
      · exact hchildren

/-- C33: the function for the child pages and the father data page function free
every page they read, on every path: each page freed is the last page read that is
still open, and at the end the open page handles are those at the start, so the
pages read less the pages freed are 0, whatever the result is.  The step for one
child page ends with that page freed, so that the loop reads the next child page
after it, and a space tree page is read and freed before anything else is read. -/
theorem C33_pages_read_are_freed (K : Definitions) (env : Collaborators) (fuel flags : Nat)
    (page : Page) (page_tree : PageTree) (stack : List Nat) :
    open_pages (libesedb_page_tree_read_child_pages K env
        (libesedb_page_tree_read_parent_page_values K env fuel flags) flags page
        page_tree).events stack = some stack
    ∧ open_pages (libesedb_page_tree_read_father_data_page_values K env fuel flags page
        page_tree).events stack = some stack
    ∧ outstanding_pages (libesedb_page_tree_read_child_pages K env
        (libesedb_page_tree_read_parent_page_values K env fuel flags) flags page
        page_tree).events = 0
    ∧ outstanding_pages (libesedb_page_tree_read_father_data_page_values K env fuel flags
        page page_tree).events = 0
    ∧ (∀ i a b n t, open_pages (read_child_page K env
        (libesedb_page_tree_read_parent_page_values K env fuel flags) flags page i a b n
        t).events stack = some stack)
    ∧ (∀ n t, (read_space_tree_page K env page n t).events
        = [.page_read n, .page_free n]) := by
  have hchildren := read_child_pages_loop_open_pages K env _ flags page
    (read_parent_page_values_open_pages K env flags fuel) (page.values.drop 1) 1 0 0
    page_tree
  have hwalk := read_father_data_page_values_open_pages K env fuel flags page page_tree
  refine ⟨hchildren stack, hwalk stack, ?_, ?_, ?_, ?_⟩
  · have h := outstanding_pages_of_open_pages _ _ _ (hchildren [])
    simpa [libesedb_page_tree_read_child_pages] using h
  · have h := outstanding_pages_of_open_pages _ _ _ (hwalk [])
    simpa using h
  · intro i a b n t
    exact read_child_page_open_pages K env _ flags page
      (read_parent_page_values_open_pages K env flags fuel) i a b n t stack
  · intro n t
    exact read_space_tree_page_events K env page n t

/-- C33 on the small tree (scenario S5) and on a tree whose second child page is of
another tree: the events of the father data page function, with each page freed
before the next one of its level is read. -/
theorem C33_pages_read_are_freed_witness :
    open_pages (libesedb_page_tree_read_father_data_page_values esedb_definitions
        (example_collaborators example_tree_pages) 1 0
        (example_page 1 0x0005
          [example_header 1 0x40, example_child_value 2, example_child_value 3])
        example_bound_page_tree).events [] = some []
    ∧ page_fetches (libesedb_page_tree_read_father_data_page_values esedb_definitions
        (example_collaborators example_tree_pages) 1 0
        (example_page 1 0x0005
          [example_header 1 0x40, example_child_value 2, example_child_value 3])
        example_bound_page_tree).events = [0x40, 0x41, 2, 3, 4] :=
  ⟨(C33_pages_read_are_freed esedb_definitions (example_collaborators example_tree_pages) 1 0
      (example_page 1 0x0005
        [example_header 1 0x40, example_child_value 2, example_child_value 3])
      example_bound_page_tree []).2.1, by decide⟩

/-! ## A child page that is no leaf page and no parent page -/

/-- The step for a child page of the same tree that has neither the leaf flag nor
the parent flag: the page is read and freed, nothing else. -/
theorem read_child_page_plain (K : Definitions) (env : Collaborators)
    (parent_walk : Page → PageTree → Step) (flags : Nat) (page : Page)
    (i a b child_page_number : Nat) (page_tree : PageTree) (child : Page)
    (hread : env.page_read child_page_number = some child)
    (hsame : child.father_data_page_object_identifier
      = page.father_data_page_object_identifier)
    (hleaf : has_flag child.flags K.LIBESEDB_PAGE_FLAG_IS_LEAF = false)
    (hparent : has_flag child.flags K.LIBESEDB_PAGE_FLAG_IS_PARENT = false) :
    read_child_page K env parent_walk flags page i a b child_page_number page_tree
      = { result := .ok, page_tree := page_tree,
          events := [.page_read child_page_number, .page_free child_page_number] } := by
  unfold read_child_page
  simp only [hread]
  rw [if_neg (fun h => h hsame.symm), if_neg (by simp [hleaf]), if_neg (by simp [hparent])]

/-- The loop over the child pages at an entry whose child page is of the same tree
and has neither the leaf flag nor the parent flag: the page is read and freed, and
the loop goes on with the next entry. -/
theorem read_child_pages_loop_plain (K : Definitions) (env : Collaborators)
    (parent_walk : Page → PageTree → Step) (flags : Nat) (page : Page) (v : PageValue)
    (rest : List PageValue) (key : PageKey) (child : Page)
    (hkey : read_page_key v = some key)
    (hnumber : endian_little_convert_32bit key.page_value_data < 0x117f02)
    (hread : env.page_read (endian_little_convert_32bit key.page_value_data) = some child)
    (hsame : child.father_data_page_object_identifier
      = page.father_data_page_object_identifier)
    (hleaf : has_flag child.flags K.LIBESEDB_PAGE_FLAG_IS_LEAF = false)
    (hparent : has_flag child.flags K.LIBESEDB_PAGE_FLAG_IS_PARENT = false)
    (i a b : Nat) (page_tree : PageTree) :
    read_child_pages_loop K env parent_walk flags page (v :: rest) i a b page_tree
      = (read_child_pages_loop K env parent_walk flags page rest (i + 1) a b page_tree).after
        [.page_read (endian_little_convert_32bit key.page_value_data),
         .page_free (endian_little_convert_32bit key.page_value_data)] := by
  have hstep := read_child_page_plain K env parent_walk flags page i a b _ page_tree child
    hread hsame hleaf hparent
  have hlocals : next_child_locals K env a b
      (endian_little_convert_32bit key.page_value_data) = (a, b) := by
    unfold next_child_locals
    simp only [hread]
    rw [if_neg (by simp [hleaf])]
  rw [read_child_pages_loop_ok K env parent_walk flags page v rest i a b page_tree key hkey
    (Nat.not_le.mpr hnumber) (by rw [hstep]), hstep, hlocals]

/-- The loop over the child pages with and without an entry behind which the loop
goes on as if the entry were not there: the same result and the same page tree. -/
theorem read_child_pages_loop_remove_plain (K : Definitions) (env : Collaborators)
    (parent_walk : Page → PageTree → Step) (flags : Nat) (page : Page)
    (front : List PageValue) (v : PageValue) (rest : List PageValue) (events : List Event)
    (hplain : ∀ i a b t,
      read_child_pages_loop K env parent_walk flags page (v :: rest) i a b t
        = (read_child_pages_loop K env parent_walk flags page rest (i + 1) a b t).after events)
    (i a b : Nat) (page_tree : PageTree) :
    (read_child_pages_loop K env parent_walk flags page (front ++ v :: rest) i a b
        page_tree).result
      = (read_child_pages_loop K env parent_walk flags page (front ++ rest) i a b
        page_tree).result
    ∧ (read_child_pages_loop K env parent_walk flags page (front ++ v :: rest) i a b
        page_tree).page_tree
      = (read_child_pages_loop K env parent_walk flags page (front ++ rest) i a b
        page_tree).page_tree := by
  induction front generalizing i a b page_tree with
  | nil =>
    rw [List.nil_append, List.nil_append, hplain]
    have hsame := read_child_pages_loop_same_effect K env parent_walk flags page rest
      (i + 1) a b i a b page_tree
    exact ⟨hsame.1, hsame.2.1⟩
  | cons u front ih =>
    rw [List.cons_append, List.cons_append]
    cases hukey : read_page_key u with
    | none =>
      rw [read_child_pages_loop_out_of_range K env parent_walk flags page u _ i a b
          page_tree hukey,
        read_child_pages_loop_out_of_range K env parent_walk flags page u _ i a b
          page_tree hukey]
      exact ⟨rfl, rfl⟩
    | some ukey =>
      by_cases huskip : endian_little_convert_32bit ukey.page_value_data ≥ 0x117f02
      · rw [read_child_pages_loop_ignored K env parent_walk flags page u _ i a b page_tree
            ukey hukey huskip,
          read_child_pages_loop_ignored K env parent_walk flags page u _ i a b page_tree
            ukey hukey huskip]
        exact ih _ _ _ _
      · by_cases hchild : (read_child_page K env parent_walk flags page i a b
            (endian_little_convert_32bit ukey.page_value_data) page_tree).result = .ok
        · rw [read_child_pages_loop_ok K env parent_walk flags page u _ i a b page_tree
              ukey hukey huskip hchild,
            read_child_pages_loop_ok K env parent_walk flags page u _ i a b page_tree
              ukey hukey huskip hchild]
          simp only [Step.after_result, Step.after_page_tree]
          exact ih _ _ _ _
        · rw [read_child_pages_loop_stop K env parent_walk flags page u _ i a b page_tree
              ukey hukey huskip hchild,
            read_child_pages_loop_stop K env parent_walk flags page u _ i a b page_tree
              ukey hukey huskip hchild]
          exact ⟨rfl, rfl⟩

/-- C36: at an entry of a parent page whose key fits, whose child page number is
below 0x117F02 and whose child page can be read, has the father data page object
identifier of the parent page and has neither the leaf flag nor the parent flag,
the function for the child pages raises no error: the step for the child page
succeeds with the page read and freed and the page tree left, the loop goes on with
the next entry, and the function has the result and the page tree that it has on
the page without that entry. -/
theorem C36_child_page_without_leaf_and_parent_flag (K : Definitions) (env : Collaborators)
    (parent_walk : Page → PageTree → Step) (flags : Nat) (page : Page)
    (page_tree : PageTree) (header : PageValue) (front : List PageValue) (v : PageValue)
    (rest : List PageValue) (key : PageKey) (child : Page)
    (hvalues : page.values = header :: (front ++ v :: rest))
    (hkey : read_page_key v = some key)
    (hnumber : endian_little_convert_32bit key.page_value_data < 0x117f02)
    (hread : env.page_read (endian_little_convert_32bit key.page_value_data) = some child)
    (hsame : child.father_data_page_object_identifier
      = page.father_data_page_object_identifier)
    (hleaf : has_flag child.flags K.LIBESEDB_PAGE_FLAG_IS_LEAF = false)
    (hparent : has_flag child.flags K.LIBESEDB_PAGE_FLAG_IS_PARENT = false) :
    (∀ i a b t, read_child_page K env parent_walk flags page i a b
        (endian_little_convert_32bit key.page_value_data) t
      = { result := .ok, page_tree := t
          events := [.page_read (endian_little_convert_32bit key.page_value_data),
                     .page_free (endian_little_convert_32bit key.page_value_data)] })
    ∧ (∀ i a b t, read_child_pages_loop K env parent_walk flags page (v :: rest) i a b t
      = (read_child_pages_loop K env parent_walk flags page rest (i + 1) a b t).after
        [.page_read (endian_little_convert_32bit key.page_value_data),
         .page_free (endian_little_convert_32bit key.page_value_data)])
    ∧ (libesedb_page_tree_read_child_pages K env parent_walk flags page page_tree).result
      = (libesedb_page_tree_read_child_pages K env parent_walk flags
          { page with values := header :: (front ++ rest) } page_tree).result
    ∧ (libesedb_page_tree_read_child_pages K env parent_walk flags page page_tree).page_tree
      = (libesedb_page_tree_read_child_pages K env parent_walk flags
          { page with values := header :: (front ++ rest) } page_tree).page_tree := by
  have hplain := read_child_pages_loop_plain K env parent_walk flags page v rest key child
    hkey hnumber hread hsame hleaf hparent
  have hremoved : libesedb_page_tree_read_child_pages K env parent_walk flags
        { page with values := header :: (front ++ rest) } page_tree
      = read_child_pages_loop K env parent_walk flags page (front ++ rest) 1 0 0
        page_tree := by
    unfold libesedb_page_tree_read_child_pages
    rw [List.drop_succ_cons, List.drop_zero]
    exact read_child_pages_loop_congr K env parent_walk flags page
      { page with values := header :: (front ++ rest) } rfl _ _ _ _ _
  have hpage : libesedb_page_tree_read_child_pages K env parent_walk flags page page_tree
      = read_child_pages_loop K env parent_walk flags page (front ++ v :: rest) 1 0 0
        page_tree := by
    unfold libesedb_page_tree_read_child_pages
    rw [hvalues, List.drop_succ_cons, List.drop_zero]
  have hsame_outcome := read_child_pages_loop_remove_plain K env parent_walk flags page front
    v rest _ hplain 1 0 0 page_tree
  refine ⟨fun i a b t => read_child_page_plain K env parent_walk flags page i a b _ t child
    hread hsame hleaf hparent, hplain, ?_, ?_⟩
  · rw [hpage, hremoved]
    exact hsame_outcome.1
  · rw [hpage, hremoved]
    exact hsame_outcome.2

/-- C36 on a parent page whose entries point to the leaf page 2, to page 5 with the
flags 0x0008, and to the parent page 3: the result is the one on the page with the
entries for page 2 and page 3. -/
theorem C36_child_page_without_leaf_and_parent_flag_witness :
    (libesedb_page_tree_read_child_pages esedb_definitions
        (example_collaborators example_pages_with_plain_child)
        (libesedb_page_tree_read_parent_page_values esedb_definitions
          (example_collaborators example_pages_with_plain_child) 1 0)
        0 (example_page 1 0x0004
          [example_page_value [], example_child_value 2, example_child_value 5,
           example_child_value 3])
        example_bound_page_tree).result
      = (libesedb_page_tree_read_child_pages esedb_definitions
        (example_collaborators example_pages_with_plain_child)
        (libesedb_page_tree_read_parent_page_values esedb_definitions
          (example_collaborators example_pages_with_plain_child) 1 0)
        0 { example_page 1 0x0004
            [example_page_value [], example_child_value 2, example_child_value 5,
             example_child_value 3] with
            values := example_page_value [] :: ([example_child_value 2]
              ++ [example_child_value 3]) }
        example_bound_page_tree).result :=
  (C36_child_page_without_leaf_and_parent_flag esedb_definitions
    (example_collaborators example_pages_with_plain_child)
    (libesedb_page_tree_read_parent_page_values esedb_definitions
      (example_collaborators example_pages_with_plain_child) 1 0)
    0 (example_page 1 0x0004
      [example_page_value [], example_child_value 2, example_child_value 5,
       example_child_value 3])
    example_bound_page_tree (example_page_value []) [example_child_value 2]
    (example_child_value 5) [example_child_value 3]
    { page_key_type := 0, page_key_size := 0, page_value_data := [5, 0, 0, 0],
      page_value_size := 4 }
    (example_page 5 0x0008 [example_page_value []])
    rfl (by decide) (by decide) (by decide) (by decide) (by decide) (by decide)).2.2.1

/-- The page of the witness of C36, evaluated: page 5 is read and freed between the
pages 2 and 3, and the function succeeds. -/
theorem plain_child_evaluated :
    page_fetches (libesedb_page_tree_read_child_pages esedb_definitions
        (example_collaborators example_pages_with_plain_child)
        (libesedb_page_tree_read_parent_page_values esedb_definitions
          (example_collaborators example_pages_with_plain_child) 1 0)
        0 (example_page 1 0x0004
          [example_page_value [], example_child_value 2, example_child_value 5,
           example_child_value 3])
        example_bound_page_tree).events = [2, 5, 3, 4]
    ∧ (libesedb_page_tree_read_child_pages esedb_definitions
        (example_collaborators example_pages_with_plain_child)
        (libesedb_page_tree_read_parent_page_values esedb_definitions
          (example_collaborators example_pages_with_plain_child) 1 0)
        0 (example_page 1 0x0004
          [example_page_value [], example_child_value 2, example_child_value 5,
           example_child_value 3])
        example_bound_page_tree).result = .ok := by
  decide


/-! ## The sibling pointers of leaf pages do not matter -/

/-- The loop body of the leaf page function uses the page only for its flags and the
collaborators only for the decoders. -/
theorem read_leaf_page_value_congr_source (K : Definitions) (env1 env2 : Collaborators)
    (flags : Nat) (p1 p2 : Page)
    (hcatalog : env1.catalog_definition_read = env2.catalog_definition_read)
    (hdata : env1.data_definition_read = env2.data_definition_read)
    (hflags : p1.flags = p2.flags)
    (v : PageValue) (td : Option Nat) (page_tree : PageTree) :
    read_leaf_page_value K env1 flags p1 v td page_tree
      = read_leaf_page_value K env2 flags p2 v td page_tree := by
  unfold read_leaf_page_value
  rw [hcatalog, hdata, hflags]

/-- The loop of the leaf page function uses the page only for its flags and the
collaborators only for the decoders. -/
theorem read_leaf_page_values_loop_congr_source (K : Definitions) (env1 env2 : Collaborators)
    (flags : Nat) (p1 p2 : Page)
    (hcatalog : env1.catalog_definition_read = env2.catalog_definition_read)
    (hdata : env1.data_definition_read = env2.data_definition_read)
    (hflags : p1.flags = p2.flags)
    (values : List PageValue) (td : Option Nat) (page_tree : PageTree) :
    read_leaf_page_values_loop K env1 flags p1 values td page_tree
      = read_leaf_page_values_loop K env2 flags p2 values td page_tree := by
  induction values generalizing td page_tree with
  | nil => rfl
  | cons v rest ih =>
    rw [read_leaf_page_values_loop_cons, read_leaf_page_values_loop_cons,
      read_leaf_page_value_congr_source K env1 env2 flags p1 p2 hcatalog hdata hflags]
    cases read_leaf_page_value K env2 flags p2 v td page_tree with
    | stop step => rfl
    | next events td1 page_tree1 =>
      simp only []
      rw [ih]

/-- The leaf page function uses the page only for its flags and values and the
collaborators only for the decoders. -/
theorem read_leaf_page_values_congr_source (K : Definitions) (env1 env2 : Collaborators)
    (flags : Nat) (p1 p2 : Page)
    (hcatalog : env1.catalog_definition_read = env2.catalog_definition_read)
    (hdata : env1.data_definition_read = env2.data_definition_read)
    (hflags : p1.flags = p2.flags) (hvalues : p1.values = p2.values)
    (page_tree : PageTree) :
    libesedb_page_tree_read_leaf_page_values K env1 flags p1 page_tree
      = libesedb_page_tree_read_leaf_page_values K env2 flags p2 page_tree := by
  unfold libesedb_page_tree_read_leaf_page_values libesedb_page_get_value
  rw [hflags, hvalues,
    read_leaf_page_values_loop_congr_source K env1 env2 flags p1 p2 hcatalog hdata hflags]

/-- Two pages without the leaf flag that are the same up to the sibling pointers of
leaf pages are the same. -/
theorem same_up_to_leaf_siblings_eq (K : Definitions) (p1 p2 : Page)
    (h : same_up_to_leaf_siblings K p1 p2)
    (hleaf : has_flag p1.flags K.LIBESEDB_PAGE_FLAG_IS_LEAF = false) : p1 = p2 := by
  obtain ⟨h1, h2, h3, h4, h5⟩ := h
  obtain ⟨h6, h7⟩ := h5 hleaf
  cases p1
  cases p2
  simp only at h1 h2 h3 h4 h6 h7
  subst h1 h2 h3 h4 h6 h7
  rfl

/-- The step for one child page over two page sources that differ in the sibling
pointers of leaf pages: the same result, page tree and events, the sibling-linkage
messages apart, when this holds for the functions called for a parent page. -/
theorem read_child_page_same_effect_sources (K : Definitions) (env1 env2 : Collaborators)
    (hsources : sources_differ_in_leaf_siblings K env1 env2)
    (walk1 walk2 : Page → PageTree → Step) (flags : Nat) (page : Page)
    (hwalk : ∀ c t, same_effect (walk1 c t) (walk2 c t))
    (i a b i' a' b' child_page_number : Nat) (page_tree : PageTree) :
    same_effect
      (read_child_page K env1 walk1 flags page i a b child_page_number page_tree)
      (read_child_page K env2 walk2 flags page i' a' b' child_page_number page_tree) := by
  obtain ⟨hcatalog, hdata, hpages⟩ := hsources
  unfold read_child_page
  rcases hpages child_page_number with ⟨h1, h2⟩ | ⟨p1, p2, h1, h2, hsame⟩
  · simp only [h1, h2]
    exact same_effect_refl _
  · simp only [h1, h2]
    rw [← hsame.2.1, ← hsame.2.2.1]
    by_cases hne : page.father_data_page_object_identifier
        ≠ p1.father_data_page_object_identifier
    · rw [if_pos hne, if_pos hne]
      exact same_effect_refl _
    · rw [if_neg hne, if_neg hne]
      by_cases hleaf : has_flag p1.flags K.LIBESEDB_PAGE_FLAG_IS_LEAF = true
      · rw [if_pos hleaf, if_pos hleaf,
          read_leaf_page_values_congr_source K env1 env2 flags p1 p2 hcatalog hdata
            hsame.2.2.1 hsame.2.2.2.1]
        refine ⟨rfl, rfl, ?_⟩
        simp only [without_messages_append, without_messages_child_page_messages]
      · rw [if_neg hleaf, if_neg hleaf]
        have heq := same_up_to_leaf_siblings_eq K p1 p2 hsame (by simpa using hleaf)
        subst heq
        by_cases hparent : has_flag p1.flags K.LIBESEDB_PAGE_FLAG_IS_PARENT = true
        · rw [if_pos hparent, if_pos hparent]
          refine ⟨(hwalk p1 page_tree).1, (hwalk p1 page_tree).2.1, ?_⟩
          simp only [without_messages_append, (hwalk p1 page_tree).2.2]
        · rw [if_neg hparent, if_neg hparent]
          exact same_effect_refl _

/-- The loop over the child pages over two page sources that differ in the sibling
pointers of leaf pages: the same result, page tree and events, the sibling-linkage
messages apart, when this holds for the functions called for a parent page. -/
theorem read_child_pages_loop_same_effect_sources (K : Definitions)
    (env1 env2 : Collaborators) (hsources : sources_differ_in_leaf_siblings K env1 env2)
    (walk1 walk2 : Page → PageTree → Step) (flags : Nat) (page : Page)
    (hwalk : ∀ c t, same_effect (walk1 c t) (walk2 c t))
    (values : List PageValue) (i a b i' a' b' : Nat) (page_tree : PageTree) :
    same_effect
      (read_child_pages_loop K env1 walk1 flags page values i a b page_tree)
      (read_child_pages_loop K env2 walk2 flags page values i' a' b' page_tree) := by
  induction values generalizing i a b i' a' b' page_tree with
  | nil => exact same_effect_refl _
  | cons u rest ih =>
    cases hkey : read_page_key u with
    | none =>
      rw [read_child_pages_loop_out_of_range K env1 walk1 flags page u rest i a b
          page_tree hkey,
        read_child_pages_loop_out_of_range K env2 walk2 flags page u rest i' a' b'
          page_tree hkey]
      exact same_effect_refl _
    | some key =>
      by_cases hskip : endian_little_convert_32bit key.page_value_data ≥ 0x117f02
      · rw [read_child_pages_loop_ignored K env1 walk1 flags page u rest i a b page_tree
            key hkey hskip,
          read_child_pages_loop_ignored K env2 walk2 flags page u rest i' a' b' page_tree
            key hkey hskip]
        exact ih _ _ _ _ _ _ _
      · have hsame := read_child_page_same_effect_sources K env1 env2 hsources walk1 walk2
          flags page hwalk i a b i' a' b'
          (endian_little_convert_32bit key.page_value_data) page_tree
        by_cases hchild : (read_child_page K env1 walk1 flags page i a b
            (endian_little_convert_32bit key.page_value_data) page_tree).result = .ok
        · have hchild' : (read_child_page K env2 walk2 flags page i' a' b'
              (endian_little_convert_32bit key.page_value_data) page_tree).result = .ok := by
            rw [← hsame.1]
            exact hchild
          rw [read_child_pages_loop_ok K env1 walk1 flags page u rest i a b page_tree
              key hkey hskip hchild,
            read_child_pages_loop_ok K env2 walk2 flags page u rest i' a' b' page_tree
              key hkey hskip hchild', ← hsame.2.1]
          exact same_effect_after _ _ _ _ hsame.2.2 (ih _ _ _ _ _ _ _)
        · have hchild' : (read_child_page K env2 walk2 flags page i' a' b'
              (endian_little_convert_32bit key.page_value_data) page_tree).result ≠ .ok := by
            rw [← hsame.1]
            exact hchild
          rw [read_child_pages_loop_stop K env1 walk1 flags page u rest i a b page_tree
              key hkey hskip hchild,
            read_child_pages_loop_stop K env2 walk2 flags page u rest i' a' b' page_tree
              key hkey hskip hchild']
          exact hsame

/-- The parent page function over two page sources that differ in the sibling
pointers of leaf pages: the same result, page tree and events, the sibling-linkage
messages apart. -/
theorem read_parent_page_values_same_effect_sources (K : Definitions)
    (env1 env2 : Collaborators) (hsources : sources_differ_in_leaf_siblings K env1 env2)
    (flags : Nat) (fuel : Nat) :
    ∀ (page : Page) (t : PageTree),
      same_effect (libesedb_page_tree_read_parent_page_values K env1 fuel flags page t)
        (libesedb_page_tree_read_parent_page_values K env2 fuel flags page t) := by
  induction fuel with
  | zero =>
    intro page t
    exact same_effect_refl _
  | succ fuel ih =>
    intro page t
    rw [libesedb_page_tree_read_parent_page_values.eq_2,
      libesedb_page_tree_read_parent_page_values.eq_2]
    split_ifs
    · exact same_effect_refl _
    · exact same_effect_refl _
    · exact same_effect_refl _
    · exact same_effect_refl _
    · cases libesedb_page_get_value page 0 with
      | none => exact same_effect_refl _
      | some header =>
        exact read_child_pages_loop_same_effect_sources K env1 env2 hsources _ _ flags page
          ih _ _ _ _ _ _ _ t

/-- C31: for two page sources with the same decoders that differ only in the
previous and the next page number of pages with the leaf flag, the function for the
child pages has the same result and leaves the same page tree (both lists) on
every page, for every bound on the nesting, every `flags` argument and every page
tree; its events are the same but for the sibling-linkage messages, so a mismatch
in the sibling pointers is never fatal. -/
theorem C31_leaf_siblings_do_not_matter (K : Definitions) (env1 env2 : Collaborators)
    (hsources : sources_differ_in_leaf_siblings K env1 env2)
    (fuel flags : Nat) (page : Page) (page_tree : PageTree) :
    (libesedb_page_tree_read_child_pages K env1
        (libesedb_page_tree_read_parent_page_values K env1 fuel flags) flags page
        page_tree).result
      = (libesedb_page_tree_read_child_pages K env2
        (libesedb_page_tree_read_parent_page_values K env2 fuel flags) flags page
        page_tree).result
    ∧ (libesedb_page_tree_read_child_pages K env1
        (libesedb_page_tree_read_parent_page_values K env1 fuel flags) flags page
        page_tree).page_tree
      = (libesedb_page_tree_read_child_pages K env2
        (libesedb_page_tree_read_parent_page_values K env2 fuel flags) flags page
        page_tree).page_tree
    ∧ without_messages (libesedb_page_tree_read_child_pages K env1
        (libesedb_page_tree_read_parent_page_values K env1 fuel flags) flags page
        page_tree).events
      = without_messages (libesedb_page_tree_read_child_pages K env2
        (libesedb_page_tree_read_parent_page_values K env2 fuel flags) flags page
        page_tree).events :=
  read_child_pages_loop_same_effect_sources K env1 env2 hsources _ _ flags page
    (read_parent_page_values_same_effect_sources K env1 env2 hsources flags fuel)
    _ _ _ _ _ _ _ page_tree

/-- The example page source of a list of pages with a function applied to the
pages. -/
theorem example_page_read_map (pages : List (Nat × Page)) (f : Page → Page) (n : Nat) :
    example_page_read (pages.map (fun entry => (entry.1, f entry.2))) n
      = (example_page_read pages n).map f := by
  induction pages with
  | nil => rfl
  | cons entry rest ih =>
    unfold example_page_read at ih ⊢
    rw [List.map_cons, List.find?_cons, List.find?_cons]
    by_cases hn : (entry.1 == n) = true
    · simp only [hn]
      rfl
    · simp only [hn]
      exact ih

/-- The pages listed and the same pages with other sibling pointers in the leaf
pages are page sources that differ in the sibling pointers of leaf pages. -/
theorem example_pages_with_leaf_siblings_differ (pages : List (Nat × Page)) :
    sources_differ_in_leaf_siblings esedb_definitions (example_collaborators pages)
      (example_collaborators (example_pages_with_leaf_siblings pages)) := by
  refine ⟨rfl, rfl, fun n => ?_⟩
  have hmap : (example_collaborators (example_pages_with_leaf_siblings pages)).page_read n
      = ((example_collaborators pages).page_read n).map
        (with_leaf_siblings esedb_definitions 8 9) :=
    example_page_read_map pages _ n
  cases hread : (example_collaborators pages).page_read n with
  | none =>
    rw [hread] at hmap
    exact Or.inl ⟨rfl, hmap⟩
  | some p =>
    rw [hread] at hmap
    refine Or.inr ⟨p, _, rfl, hmap, ?_⟩
    unfold with_leaf_siblings
    by_cases hleaf : has_flag p.flags esedb_definitions.LIBESEDB_PAGE_FLAG_IS_LEAF = true
    · rw [if_pos hleaf]
      exact ⟨rfl, rfl, rfl, rfl, fun h => absurd hleaf (by simp [h])⟩
    · rw [if_neg hleaf]
      exact ⟨rfl, rfl, rfl, rfl, fun _ => ⟨rfl, rfl⟩⟩

/-- C31 on a parent page with two leaf pages, whose sibling pointers are 0 in one
page source and 8 and 9 in the other. -/
theorem C31_leaf_siblings_do_not_matter_witness :
    (libesedb_page_tree_read_child_pages esedb_definitions
        (example_collaborators example_two_leaf_pages)
        (libesedb_page_tree_read_parent_page_values esedb_definitions
          (example_collaborators example_two_leaf_pages) 1 0)
        0 (example_page 1 0x0004
          [example_page_value [], example_child_value 2, example_child_value 4])
        example_bound_page_tree).result
      = (libesedb_page_tree_read_child_pages esedb_definitions
        (example_collaborators (example_pages_with_leaf_siblings example_two_leaf_pages))
        (libesedb_page_tree_read_parent_page_values esedb_definitions
          (example_collaborators (example_pages_with_leaf_siblings example_two_leaf_pages))
          1 0)
        0 (example_page 1 0x0004
          [example_page_value [], example_child_value 2, example_child_value 4])
        example_bound_page_tree).result :=
  (C31_leaf_siblings_do_not_matter esedb_definitions
    (example_collaborators example_two_leaf_pages)
    (example_collaborators (example_pages_with_leaf_siblings example_two_leaf_pages))
    (example_pages_with_leaf_siblings_differ example_two_leaf_pages) 1 0
    (example_page 1 0x0004
      [example_page_value [], example_child_value 2, example_child_value 4])
    example_bound_page_tree).1

/-- The two page sources of the witness of C31, evaluated: the events differ in the
sibling-linkage messages, the result and the rows are the same. -/
theorem leaf_siblings_evaluated :
    (libesedb_page_tree_read_child_pages esedb_definitions
        (example_collaborators example_two_leaf_pages)
        (libesedb_page_tree_read_parent_page_values esedb_definitions
          (example_collaborators example_two_leaf_pages) 1 0)
        0 (example_page 1 0x0004
          [example_page_value [], example_child_value 2, example_child_value 4])
        example_bound_page_tree).events
      = [.page_read 2, .data_definition_read [] [7] 1, .page_free 2,
         .page_read 4, .mismatch_in_child_page_number 0 4,
         .mismatch_in_previous_child_page_number 2 0,
         .data_definition_read [] [9] 1, .page_free 4]
    ∧ (libesedb_page_tree_read_child_pages esedb_definitions
        (example_collaborators (example_pages_with_leaf_siblings example_two_leaf_pages))
        (libesedb_page_tree_read_parent_page_values esedb_definitions
          (example_collaborators (example_pages_with_leaf_siblings example_two_leaf_pages))
          1 0)
        0 (example_page 1 0x0004
          [example_page_value [], example_child_value 2, example_child_value 4])
        example_bound_page_tree).events
      = [.page_read 2, .data_definition_read [] [7] 1, .page_free 2,
         .page_read 4, .mismatch_in_child_page_number 9 4,
         .mismatch_in_previous_child_page_number 2 8,
         .data_definition_read [] [9] 1, .page_free 4] := by
  decide


/-! ## The column and index records of a table definition -/

end Esedb
